import Mathlib

/-!
FullFAT I/O manager (ff_ioman.c): buffer cache, device registration and mount

A shallow embedding of the buffer descriptors, the block-device callbacks, the
cache operations, the creation of the manager, the registration of the device,
the mount procedure and the size of the volume of `src/src/ff_ioman.c`,
followed by theorems about them.

Conventions of the embedding.

* The array `pIoman->pBuffers` is a function from slot index to descriptor;
  the loops of the source visit the indices `0 .. CacheSize-1` in order.
* The bytes a descriptor points to (`pBuffer->pBuffer`) are kept in the
  descriptor itself, one block per slot.
* A block-device callback is a function of the buffer, the sector, the block
  count, the context pointer and the state of the outside world; it gives back
  its return value and the new state of the world (and, for a read, the new
  bytes of the buffer).
* A call runs alone: the semaphore operations, `FF_Yield` and `FF_Sleep` have
  no effect on the data and are left out.
* For callers that run at the same time the part of a round of `FF_GetBuffer`
  up to the point where the semaphore is given back is also given on its own
  (`FF_GetBuffer_select`, `FF_GetBuffer_begin`), as is the test of the sweep of
  `FF_FlushCache` (`FF_FlushCache_select`); `FF_GetBuffer_pass_select` and
  `FF_FlushCache_loop_select` tie them to the functions that run alone.
* The retry loops (`do .. while(retVal == FF_ERR_DRIVER_BUSY)` and the
  `while(1)` of `FF_GetBuffer`) take a bound on the number of rounds; `none`
  means that the bound was reached before the loop ended.
* Every operation also reports the device transfers it performed, in order.
* The header ff_ioman.h is not among the sources: the mode constants, the busy
  code and the widths of the counters `NumHandles` and `Persistance` are
  modelled as said at their definitions.
* A call that cannot return a value (a loop that does not end, a division by
  zero, a write to freed memory) gives `Except.error` with the reason.
* Fields of the partition descriptor are natural numbers; where the source
  computes in 8, 16 or 32 bits the value is reduced modulo `2 ^ 8`, `2 ^ 16`
  or `2 ^ 32` at that place.
* The byte accessors `FF_getChar`, `FF_getShort`, `FF_getLong`, the offsets of
  the boot-sector fields and the tags of the FAT types are in headers that are
  not among the sources; they are modelled from the specification.
-/

namespace FullFAT

/-- Bytes of one cache block. -/
abbrev Block := List UInt8

/-- Modelled from the spec: the header that defines the buffer modes
(ff_ioman.h) is not among the sources. The spec gives the two modes Read and
Write and the value 0 for the mode of a fresh descriptor, so the two constants
are distinct and non-zero; 1 is the value of the FullFAT header. -/
def FF_MODE_READ : Nat := 1

/-- Modelled from the spec: see `FF_MODE_READ`; 2 is the value of the FullFAT
header. -/
def FF_MODE_WRITE : Nat := 2

/-- Modelled from the spec: the error header is not among the sources. The spec
gives DRIVER_BUSY as a return value of a callback that is neither a block count
(`>= 0`) nor a fatal error, so it is a negative constant. -/
def FF_ERR_DRIVER_BUSY : Int := -10

/-- Buffer descriptor `FF_BUFFER`, with the fields `FF_IOMAN_InitBufferDescriptors`
initialises. Modelled from the spec: the widths of `NumHandles` and
`Persistance` are declared in the absent header ff_ioman.h; the spec describes
them as a count of outstanding acquisitions and an increasing hit counter, so
they are natural numbers here. -/
structure FF_BUFFER where
  ID : Nat
  ContextID : Nat
  Mode : Nat
  NumHandles : Nat
  Persistance : Nat
  Sector : Nat
  pBuffer : Block
  Modified : Bool
  isIOMANediting : Bool
deriving DecidableEq, Repr

/-- Callback `fnReadBlocks(pBuffer, Sector, Count, pParam)`: return value, bytes
left in the buffer, new state of the world. -/
abbrev FF_READ_BLOCKS (D : Type) := Block → Nat → Nat → Nat → D → Int × Block × D

/-- Callback `fnWriteBlocks(pBuffer, Sector, Count, pParam)`: return value and new
state of the world. -/
abbrev FF_WRITE_BLOCKS (D : Type) := Block → Nat → Nat → Nat → D → Int × D

/-- Block device `FF_BLK_DEVICE`; a callback that is `none` is a NULL pointer,
`pParam = 0` is the NULL context. -/
structure FF_BLK_DEVICE (D : Type) where
  devBlkSize : Nat
  fnReadBlocks : Option (FF_READ_BLOCKS D)
  fnWriteBlocks : Option (FF_WRITE_BLOCKS D)
  pParam : Nat

/-- Partition descriptor `FF_PARTITION`, with the fields `FF_MountPartition`
assigns; `FatType` is the field `Type` of the source. -/
structure FF_PARTITION where
  BlkSize : Nat
  BeginLBA : Nat
  ReservedSectors : Nat
  FatBeginLBA : Nat
  NumFATS : Nat
  SectorsPerFAT : Nat
  SectorsPerCluster : Nat
  BlkFactor : Nat
  RootDirCluster : Nat
  ClusterBeginLBA : Nat
  TotalSectors : Nat
  RootDirSectors : Nat
  FirstDataSector : Nat
  DataSectors : Nat
  NumClusters : Nat
  FatType : Nat
deriving DecidableEq, Repr

/-- The I/O manager `FF_IOMAN`. -/
structure FF_IOMAN (D : Type) where
  BlkSize : Nat
  CacheSize : Nat
  pBuffers : Nat → FF_BUFFER
  pBlkDevice : FF_BLK_DEVICE D
  pPartition : FF_PARTITION

/-- One device transfer of an operation: the slot whose bytes were transferred,
the sector, and the value `FF_IOMAN_FillBuffer` / `FF_IOMAN_FlushBuffer`
returned (0 or -1). -/
inductive IOEvent where
  | fill (slot sector : Nat) (retVal : Int) : IOEvent
  | flush (slot sector : Nat) (retVal : Int) : IOEvent
deriving DecidableEq, Repr

variable {D : Type}

/-- Assignment to the descriptor `*(pIoman->pBuffers + i)`. -/
def setBuf (pIoman : FF_IOMAN D) (i : Nat) (b : FF_BUFFER) : FF_IOMAN D :=
  { pIoman with pBuffers := fun x => if x = i then b else pIoman.pBuffers x }

/-- Function `FF_IOMAN_InitBufferDescriptors`: every descriptor below `CacheSize` is
reset; its block is the part of the cache memory at `BlkSize * i`, whose bytes
are whatever the memory holds. -/
def FF_IOMAN_InitBufferDescriptors (pIoman : FF_IOMAN D) : FF_IOMAN D :=
  (List.range pIoman.CacheSize).foldl (fun p i =>
    setBuf p i
      { ID := i
        ContextID := 0
        Mode := 0
        NumHandles := 0
        Persistance := 0
        Sector := 0
        pBuffer := (p.pBuffers i).pBuffer
        Modified := false
        isIOMANediting := false }) pIoman

/-- Function `FF_IOMAN_ModeValid`. -/
def FF_IOMAN_ModeValid (Mode : Nat) : Bool :=
  if Mode = FF_MODE_READ ∨ Mode = FF_MODE_WRITE then true else false

/-- The `do .. while(retVal == FF_ERR_DRIVER_BUSY)` loop of
`FF_IOMAN_FillBuffer`, at most `fuel` rounds. -/
def FF_IOMAN_FillBuffer_busy (fn : FF_READ_BLOCKS D) (Sector pParam : Nat) :
    Nat → Block → D → Option (Int × Block × D)
  | 0, _, _ => none
  | fuel + 1, pBuffer, w =>
    match fn pBuffer Sector 1 pParam w with
    | (retVal, buf, w1) =>
      if retVal = FF_ERR_DRIVER_BUSY then
        FF_IOMAN_FillBuffer_busy fn Sector pParam fuel buf w1
      else some (retVal, buf, w1)

/-- Function `FF_IOMAN_FillBuffer`: 0 when exactly one block was read, else -1. -/
def FF_IOMAN_FillBuffer (fuel : Nat) (pIoman : FF_IOMAN D) (Sector : Nat)
    (pBuffer : Block) (w : D) : Option (Int × Block × D) :=
  match pIoman.pBlkDevice.fnReadBlocks with
  | some fn =>
    match FF_IOMAN_FillBuffer_busy fn Sector pIoman.pBlkDevice.pParam fuel pBuffer w with
    | none => none
    | some (retVal, buf, w1) =>
      if retVal < 0 then some (-1, buf, w1)
      else if retVal = 1 then some (0, buf, w1)
      else some (-1, buf, w1)
  | none => some (-1, pBuffer, w)

/-- The `do .. while(retVal == FF_ERR_DRIVER_BUSY)` loop of
`FF_IOMAN_FlushBuffer`, at most `fuel` rounds. -/
def FF_IOMAN_FlushBuffer_busy (fn : FF_WRITE_BLOCKS D) (Sector pParam : Nat)
    (pBuffer : Block) : Nat → D → Option (Int × D)
  | 0, _ => none
  | fuel + 1, w =>
    match fn pBuffer Sector 1 pParam w with
    | (retVal, w1) =>
      if retVal = FF_ERR_DRIVER_BUSY then
        FF_IOMAN_FlushBuffer_busy fn Sector pParam pBuffer fuel w1
      else some (retVal, w1)

/-- Function `FF_IOMAN_FlushBuffer`: 0 when exactly one block was written, else -1. -/
def FF_IOMAN_FlushBuffer (fuel : Nat) (pIoman : FF_IOMAN D) (Sector : Nat)
    (pBuffer : Block) (w : D) : Option (Int × D) :=
  match pIoman.pBlkDevice.fnWriteBlocks with
  | some fn =>
    match FF_IOMAN_FlushBuffer_busy fn Sector pIoman.pBlkDevice.pParam pBuffer fuel w with
    | none => none
    | some (retVal, w1) =>
      if retVal < 0 then some (-1, w1)
      else if retVal = 1 then some (0, w1)
      else some (-1, w1)
  | none => some (-1, w)

/-- The inner loop of `FF_FlushCache` (lines 322-328): every descriptor other
than `i` with the sector of `i` and mode Read is marked modified. -/
def FF_FlushCache_mark (i : Nat) : List Nat → FF_IOMAN D → FF_IOMAN D
  | [], p => p
  | x :: rest, p =>
    if x ≠ i then
      if (p.pBuffers x).Sector = (p.pBuffers i).Sector
          ∧ (p.pBuffers x).Mode = FF_MODE_READ then
        FF_FlushCache_mark i rest (setBuf p x { p.pBuffers x with Modified := true })
      else FF_FlushCache_mark i rest p
    else FF_FlushCache_mark i rest p

/-- What `FF_FlushCache` gives back: its return value, the manager, the world
and the transfers performed. -/
structure FlushCacheResult (D : Type) where
  ret : Int
  pIoman : FF_IOMAN D
  world : D
  trace : List IOEvent

/-- The outer loop of `FF_FlushCache` (lines 305-330) over the remaining slot
indices. -/
def FF_FlushCache_loop (fuel : Nat) :
    List Nat → FF_IOMAN D → D → List IOEvent → Option (FF_IOMAN D × D × List IOEvent)
  | [], p, w, tr => some (p, w, tr)
  | i :: rest, p, w, tr =>
    if (p.pBuffers i).NumHandles = 0 ∧ (p.pBuffers i).Mode = FF_MODE_WRITE then
      let p1 := setBuf p i { p.pBuffers i with isIOMANediting := true }
      match FF_IOMAN_FlushBuffer fuel p1 (p1.pBuffers i).Sector (p1.pBuffers i).pBuffer w with
      | none => none
      | some (retVal, w1) =>
        let p2 := setBuf p1 i { p1.pBuffers i with isIOMANediting := false }
        let p3 := setBuf p2 i { p2.pBuffers i with Mode := FF_MODE_READ }
        let p4 := FF_FlushCache_mark i (List.range p3.CacheSize) p3
        FF_FlushCache_loop fuel rest p4 w1
          (tr ++ [IOEvent.flush i (p1.pBuffers i).Sector retVal])
    else FF_FlushCache_loop fuel rest p w tr

/-- Function `FF_FlushCache`. The value of `FF_IOMAN_FlushBuffer` is not looked at and
the function ends in `return 0`. -/
def FF_FlushCache (fuel : Nat) (pIoman : FF_IOMAN D) (w : D) : Option (FlushCacheResult D) :=
  match FF_FlushCache_loop fuel (List.range pIoman.CacheSize) pIoman w [] with
  | none => none
  | some (p, w1, tr) => some { ret := 0, pIoman := p, world := w1, trace := tr }

/-- What `FF_GetBuffer` gives back: the index of the descriptor returned (`none`
for NULL), the manager, the world and the transfers performed. -/
structure GetBufferResult (D : Type) where
  ret : Option Nat
  pIoman : FF_IOMAN D
  world : D
  trace : List IOEvent

/-- Lines 375-378 of `FF_GetBuffer`: a clean Read descriptor of the sector is
shared. -/
def FF_GetBuffer_hit (pIoman : FF_IOMAN D) (w : D) (i : Nat) : GetBufferResult D :=
  let p1 := setBuf pIoman i
    { pIoman.pBuffers i with NumHandles := (pIoman.pBuffers i).NumHandles + 1 }
  let p2 := setBuf p1 i { p1.pBuffers i with Persistance := (p1.pBuffers i).Persistance + 1 }
  { ret := some i, pIoman := p2, world := w, trace := [] }

/-- Lines 384-401 of `FF_GetBuffer`: a Read descriptor of the sector without
handles is read again from the device. -/
def FF_GetBuffer_refresh (fuel : Nat) (pIoman : FF_IOMAN D) (w : D) (Sector i : Nat) :
    Option (GetBufferResult D) :=
  let p1 := setBuf pIoman i { pIoman.pBuffers i with isIOMANediting := true }
  match FF_IOMAN_FillBuffer fuel p1 Sector (p1.pBuffers i).pBuffer w with
  | none => none
  | some (retVal, buf, w1) =>
    let p2 := setBuf p1 i { p1.pBuffers i with pBuffer := buf }
    let p3 := setBuf p2 i { p2.pBuffers i with isIOMANediting := false }
    if retVal ≠ 0 then
      some { ret := none, pIoman := p3, world := w1, trace := [IOEvent.fill i Sector retVal] }
    else
      let p4 := setBuf p3 i { p3.pBuffers i with Modified := false }
      let p5 := setBuf p4 i { p4.pBuffers i with NumHandles := (p4.pBuffers i).NumHandles + 1 }
      let p6 := setBuf p5 i { p5.pBuffers i with Persistance := (p5.pBuffers i).Persistance + 1 }
      some { ret := some i, pIoman := p6, world := w1, trace := [IOEvent.fill i Sector retVal] }

/-- The inner loop of the second search of `FF_GetBuffer` (lines 437-441): every
descriptor with the sector of `i` and mode Read is marked modified. -/
def FF_GetBuffer_mark (i : Nat) : List Nat → FF_IOMAN D → FF_IOMAN D
  | [], p => p
  | x :: rest, p =>
    if (p.pBuffers x).Sector = (p.pBuffers i).Sector
        ∧ (p.pBuffers x).Mode = FF_MODE_READ then
      FF_GetBuffer_mark i rest (setBuf p x { p.pBuffers x with Modified := true })
    else FF_GetBuffer_mark i rest p

/-- Lines 429-445 of `FF_GetBuffer`: a Write descriptor of the sector without
handles is written to the device and handed to the caller. -/
def FF_GetBuffer_takeOver (fuel : Nat) (pIoman : FF_IOMAN D) (w : D) (Sector Mode i : Nat) :
    Option (GetBufferResult D) :=
  let p1 := setBuf pIoman i { pIoman.pBuffers i with isIOMANediting := true }
  match FF_IOMAN_FlushBuffer fuel p1 Sector (p1.pBuffers i).pBuffer w with
  | none => none
  | some (retVal, w1) =>
    let p2 := setBuf p1 i { p1.pBuffers i with isIOMANediting := false }
    let p3 := FF_GetBuffer_mark i (List.range p2.CacheSize) p2
    let p4 := setBuf p3 i { p3.pBuffers i with NumHandles := 1 }
    let p5 := setBuf p4 i { p4.pBuffers i with Mode := Mode }
    some { ret := some i, pIoman := p5, world := w1, trace := [IOEvent.flush i Sector retVal] }

/-- Lines 455-477 of `FF_GetBuffer`: a descriptor without handles is written
back when its mode is Write, then filled with the requested sector. -/
def FF_GetBuffer_evict (fuel : Nat) (pIoman : FF_IOMAN D) (w : D) (Sector Mode i : Nat) :
    Option (GetBufferResult D) :=
  let p1 := setBuf pIoman i { pIoman.pBuffers i with isIOMANediting := true }
  let flushed : Option (D × List IOEvent) :=
    if (p1.pBuffers i).Mode = FF_MODE_WRITE then
      match FF_IOMAN_FlushBuffer fuel p1 (p1.pBuffers i).Sector (p1.pBuffers i).pBuffer w with
      | none => none
      | some (rv, w1) => some (w1, [IOEvent.flush i (p1.pBuffers i).Sector rv])
    else some (w, [])
  match flushed with
  | none => none
  | some (w1, tr) =>
    match FF_IOMAN_FillBuffer fuel p1 Sector (p1.pBuffers i).pBuffer w1 with
    | none => none
    | some (retVal, buf, w2) =>
      let p2 := setBuf p1 i { p1.pBuffers i with pBuffer := buf }
      let p3 := setBuf p2 i { p2.pBuffers i with isIOMANediting := false }
      if retVal ≠ 0 then
        some { ret := none, pIoman := p3, world := w2,
               trace := tr ++ [IOEvent.fill i Sector retVal] }
      else
        let p4 := setBuf p3 i { p3.pBuffers i with Mode := Mode }
        let p5 := setBuf p4 i { p4.pBuffers i with Persistance := 1 }
        let p6 := setBuf p5 i { p5.pBuffers i with NumHandles := 1 }
        let p7 := setBuf p6 i { p6.pBuffers i with Sector := Sector }
        let p8 := setBuf p7 i { p7.pBuffers i with Modified := false }
        some { ret := some i, pIoman := p8, world := w2,
               trace := tr ++ [IOEvent.fill i Sector retVal] }

/-- First search of `FF_GetBuffer` (lines 371-405, Read requests only) over the
remaining slot indices. The outer `none` is a retry loop that did not end, the
inner `none` a search that ended without a `return`. -/
def FF_GetBuffer_readSearch (fuel : Nat) (pIoman : FF_IOMAN D) (w : D) (Sector : Nat) :
    List Nat → Option (Option (GetBufferResult D))
  | [] => some none
  | i :: rest =>
    if (pIoman.pBuffers i).Sector = Sector ∧ (pIoman.pBuffers i).Mode = FF_MODE_READ then
      if (pIoman.pBuffers i).Modified = false ∧ (pIoman.pBuffers i).isIOMANediting = false then
        some (some (FF_GetBuffer_hit pIoman w i))
      else
        if (pIoman.pBuffers i).NumHandles = 0 then
          (FF_GetBuffer_refresh fuel pIoman w Sector i).map some
        else FF_GetBuffer_readSearch fuel pIoman w Sector rest
    else FF_GetBuffer_readSearch fuel pIoman w Sector rest

/-- Second search of `FF_GetBuffer` (lines 424-448). -/
def FF_GetBuffer_writeSearch (fuel : Nat) (pIoman : FF_IOMAN D) (w : D) (Sector Mode : Nat) :
    List Nat → Option (Option (GetBufferResult D))
  | [] => some none
  | i :: rest =>
    if (pIoman.pBuffers i).Sector = Sector ∧ (pIoman.pBuffers i).isIOMANediting = false then
      if (pIoman.pBuffers i).Mode = FF_MODE_WRITE ∧ (pIoman.pBuffers i).NumHandles = 0 then
        (FF_GetBuffer_takeOver fuel pIoman w Sector Mode i).map some
      else FF_GetBuffer_writeSearch fuel pIoman w Sector Mode rest
    else FF_GetBuffer_writeSearch fuel pIoman w Sector Mode rest

/-- Third search of `FF_GetBuffer` (lines 452-479). -/
def FF_GetBuffer_freeSearch (fuel : Nat) (pIoman : FF_IOMAN D) (w : D) (Sector Mode : Nat) :
    List Nat → Option (Option (GetBufferResult D))
  | [] => some none
  | i :: rest =>
    if (pIoman.pBuffers i).NumHandles = 0 ∧ (pIoman.pBuffers i).isIOMANediting = false then
      (FF_GetBuffer_evict fuel pIoman w Sector Mode i).map some
    else FF_GetBuffer_freeSearch fuel pIoman w Sector Mode rest

/-- One round of the `while(1)` of `FF_GetBuffer` (lines 366-482): the three
searches in order. No search changes a descriptor unless it returns. -/
def FF_GetBuffer_pass (fuel : Nat) (pIoman : FF_IOMAN D) (w : D) (Sector Mode : Nat) :
    Option (Option (GetBufferResult D)) :=
  let first : Option (Option (GetBufferResult D)) :=
    if Mode = FF_MODE_READ then
      FF_GetBuffer_readSearch fuel pIoman w Sector (List.range pIoman.CacheSize)
    else some none
  match first with
  | none => none
  | some (some r) => some (some r)
  | some none =>
    match FF_GetBuffer_writeSearch fuel pIoman w Sector Mode (List.range pIoman.CacheSize) with
    | none => none
    | some (some r) => some (some r)
    | some none =>
      FF_GetBuffer_freeSearch fuel pIoman w Sector Mode (List.range pIoman.CacheSize)

/-- The `while(1)` of `FF_GetBuffer`, at most `rounds` rounds. -/
def FF_GetBuffer_loop (fuel : Nat) (pIoman : FF_IOMAN D) (w : D) (Sector Mode : Nat) :
    Nat → Option (GetBufferResult D)
  | 0 => none
  | rounds + 1 =>
    match FF_GetBuffer_pass fuel pIoman w Sector Mode with
    | none => none
    | some (some r) => some r
    | some none => FF_GetBuffer_loop fuel pIoman w Sector Mode rounds

/-- Function `FF_GetBuffer` for a manager that is not NULL. -/
def FF_GetBuffer (fuel : Nat) (pIoman : FF_IOMAN D) (w : D) (Sector Mode : Nat) :
    Option (GetBufferResult D) :=
  if FF_IOMAN_ModeValid Mode = false then
    some { ret := none, pIoman := pIoman, world := w, trace := [] }
  else FF_GetBuffer_loop fuel pIoman w Sector Mode fuel

/-- Function `FF_ReleaseBuffer` for a manager and a descriptor that are not NULL;
`i` is the index of the descriptor. The count is a natural number: on a
descriptor that has handles this is `NumHandles--`; on one without handles the
count stays 0 here. -/
def FF_ReleaseBuffer (pIoman : FF_IOMAN D) (i : Nat) : FF_IOMAN D :=
  setBuf pIoman i { pIoman.pBuffers i with NumHandles := (pIoman.pBuffers i).NumHandles - 1 }

/-- A caller that holds descriptor `i` stores the bytes `b` through
`pBuffer->pBuffer`. -/
def storeBuffer (pIoman : FF_IOMAN D) (i : Nat) (b : Block) : FF_IOMAN D :=
  setBuf pIoman i { pIoman.pBuffers i with pBuffer := b }

/-- The ways a call of `FF_GetBuffer` that comes back can have ended: the mode
check, or one of the four `return` sites reached at slot `i` under the guards
of its search. -/
inductive GetBufferCase (fuel : Nat) (p : FF_IOMAN D) (w : D) (Sector Mode : Nat)
    (r : GetBufferResult D) : Prop where
  | invalid :
      FF_IOMAN_ModeValid Mode = false →
      r = { ret := none, pIoman := p, world := w, trace := [] } →
      GetBufferCase fuel p w Sector Mode r
  | hit (i : Nat) :
      i < p.CacheSize → Mode = FF_MODE_READ →
      (p.pBuffers i).Sector = Sector → (p.pBuffers i).Mode = FF_MODE_READ →
      (p.pBuffers i).Modified = false → (p.pBuffers i).isIOMANediting = false →
      r = FF_GetBuffer_hit p w i →
      GetBufferCase fuel p w Sector Mode r
  | refresh (i : Nat) :
      i < p.CacheSize → Mode = FF_MODE_READ →
      (p.pBuffers i).Sector = Sector → (p.pBuffers i).Mode = FF_MODE_READ →
      ¬ ((p.pBuffers i).Modified = false ∧ (p.pBuffers i).isIOMANediting = false) →
      (p.pBuffers i).NumHandles = 0 →
      FF_GetBuffer_refresh fuel p w Sector i = some r →
      GetBufferCase fuel p w Sector Mode r
  | takeOver (i : Nat) :
      i < p.CacheSize → FF_IOMAN_ModeValid Mode = true →
      (p.pBuffers i).Sector = Sector → (p.pBuffers i).isIOMANediting = false →
      (p.pBuffers i).Mode = FF_MODE_WRITE → (p.pBuffers i).NumHandles = 0 →
      FF_GetBuffer_takeOver fuel p w Sector Mode i = some r →
      GetBufferCase fuel p w Sector Mode r
  | evict (i : Nat) :
      i < p.CacheSize → FF_IOMAN_ModeValid Mode = true →
      (p.pBuffers i).NumHandles = 0 → (p.pBuffers i).isIOMANediting = false →
      FF_GetBuffer_evict fuel p w Sector Mode i = some r →
      GetBufferCase fuel p w Sector Mode r

/-! ## Sequences of calls and concrete devices -/

/-- One call of the cache interface by a client. -/
inductive Call where
  | acquire (Sector Mode : Nat) : Call
  | release (i : Nat) : Call
  | store (i : Nat) (b : Block) : Call
  | flushCache : Call
deriving DecidableEq, Repr

/-- The manager and the world between two calls, with the value and the device
transfers of the last call. -/
structure RunState (D : Type) where
  pIoman : FF_IOMAN D
  world : D
  lastRet : Option Nat
  lastTrace : List IOEvent

/-- One call, run to its end. -/
def runCall (fuel : Nat) (s : RunState D) : Call → Option (RunState D)
  | Call.acquire Sector Mode =>
    match FF_GetBuffer fuel s.pIoman s.world Sector Mode with
    | none => none
    | some r => some { pIoman := r.pIoman, world := r.world, lastRet := r.ret, lastTrace := r.trace }
  | Call.release i =>
    some { pIoman := FF_ReleaseBuffer s.pIoman i, world := s.world, lastRet := none, lastTrace := [] }
  | Call.store i b =>
    some { pIoman := storeBuffer s.pIoman i b, world := s.world, lastRet := none, lastTrace := [] }
  | Call.flushCache =>
    match FF_FlushCache fuel s.pIoman s.world with
    | none => none
    | some r => some { pIoman := r.pIoman, world := r.world, lastRet := none, lastTrace := r.trace }

/-- A sequence of calls, one after the other. -/
def runCalls (fuel : Nat) : List Call → RunState D → Option (RunState D)
  | [], s => some s
  | c :: rest, s =>
    match runCall fuel s c with
    | none => none
    | some s1 => runCalls fuel rest s1

/-- A disk in memory: sector number to bytes. -/
abbrev Disk := Nat → Block

/-- Read callback of the disk in memory: always one block. -/
def ramRead : FF_READ_BLOCKS Disk := fun _ Sector _ _ w => (1, w Sector, w)

/-- Write callback of the disk in memory: always one block. -/
def ramWrite : FF_WRITE_BLOCKS Disk :=
  fun buf Sector _ _ w => (1, fun s => if s = Sector then buf else w s)

/-- Write callback that reports a fatal error and writes nothing. -/
def failWrite : FF_WRITE_BLOCKS Disk := fun _ _ _ _ w => (-1, w)

/-- Read callback that fails on sector 9, leaving other bytes in the buffer. -/
def failRead9 : FF_READ_BLOCKS Disk :=
  fun _ Sector _ _ w => if Sector = 9 then (-1, [0xEE], w) else (1, w Sector, w)

/-- The disk on which sector `s` holds the single byte `s`. -/
def exDisk : Disk := fun s => [UInt8.ofNat s]

/-- A descriptor with every field zero. -/
def zeroBuffer : FF_BUFFER :=
  { ID := 0, ContextID := 0, Mode := 0, NumHandles := 0, Persistance := 0, Sector := 0,
    pBuffer := [], Modified := false, isIOMANediting := false }

/-- A partition descriptor with every field zero. -/
def zeroPartition : FF_PARTITION :=
  { BlkSize := 0, BeginLBA := 0, ReservedSectors := 0, FatBeginLBA := 0, NumFATS := 0,
    SectorsPerFAT := 0, SectorsPerCluster := 0, BlkFactor := 0, RootDirCluster := 0,
    ClusterBeginLBA := 0, TotalSectors := 0, RootDirSectors := 0, FirstDataSector := 0,
    DataSectors := 0, NumClusters := 0, FatType := 0 }

/-- A freshly created pool of `n` descriptors on a device with the given
callbacks. -/
def freshPool (n : Nat) (rd : FF_READ_BLOCKS Disk) (wr : FF_WRITE_BLOCKS Disk) : FF_IOMAN Disk :=
  FF_IOMAN_InitBufferDescriptors
    { BlkSize := 512, CacheSize := n, pBuffers := fun _ => zeroBuffer,
      pBlkDevice := { devBlkSize := 512, fnReadBlocks := some rd, fnWriteBlocks := some wr,
                      pParam := 1 },
      pPartition := zeroPartition }

/-- The state before the first call on a fresh pool. -/
def freshState (n : Nat) (rd : FF_READ_BLOCKS Disk) (wr : FF_WRITE_BLOCKS Disk) : RunState Disk :=
  { pIoman := freshPool n rd wr, world := exDisk, lastRet := none, lastTrace := [] }

/-- What is looked at in a descriptor: sector, mode, handles, modified flag,
in-service flag and bytes. -/
structure SlotView where
  Sector : Nat
  Mode : Nat
  NumHandles : Nat
  Modified : Bool
  isIOMANediting : Bool
  pBuffer : Block
deriving DecidableEq, Repr

/-- The view of descriptor `i`. -/
def view (s : RunState D) (i : Nat) : SlotView :=
  { Sector := (s.pIoman.pBuffers i).Sector
    Mode := (s.pIoman.pBuffers i).Mode
    NumHandles := (s.pIoman.pBuffers i).NumHandles
    Modified := (s.pIoman.pBuffers i).Modified
    isIOMANediting := (s.pIoman.pBuffers i).isIOMANediting
    pBuffer := (s.pIoman.pBuffers i).pBuffer }

/-- A pool of one descriptor that holds sector 5 in mode Write, without handles,
on a device whose write callback fails: the pool reached from a fresh one when
sector 5 is acquired for Write, changed and released. -/
def dirtyPool : FF_IOMAN Disk :=
  ((runCalls 3 [Call.acquire 5 FF_MODE_WRITE, Call.store 0 [42], Call.release 0]
    (freshState 1 ramRead failWrite)).get (by decide)).pIoman

/-- The sweep of `FF_FlushCache` over `dirtyPool`. -/
def dirtyFlushed : FlushCacheResult Disk :=
  (FF_FlushCache 3 dirtyPool exDisk).get (by decide)

/-- A Read request for sector 5 on `dirtyPool`. -/
def dirtyTaken : GetBufferResult Disk :=
  (FF_GetBuffer 3 dirtyPool exDisk 5 FF_MODE_READ).get (by decide)

/-- A pool of two descriptors whose slot 0 holds sector 5 with one handle: the
pool reached from a fresh one by a Read request for sector 5. -/
def pinnedPool : FF_IOMAN Disk :=
  ((runCalls 3 [Call.acquire 5 FF_MODE_READ] (freshState 2 ramRead ramWrite)).get
    (by decide)).pIoman

/-- A Read request for sector 7 on `pinnedPool`. -/
def pinnedAcquired : GetBufferResult Disk :=
  (FF_GetBuffer 3 pinnedPool exDisk 7 FF_MODE_READ).get (by decide)

/-- The sweep of `FF_FlushCache` over `pinnedPool`. -/
def pinnedFlushed : FlushCacheResult Disk :=
  (FF_FlushCache 3 pinnedPool exDisk).get (by decide)

/-- A Write request for sector 5 on a fresh pool of two descriptors. -/
def freshAcquired : GetBufferResult Disk :=
  (FF_GetBuffer 3 (freshPool 2 ramRead ramWrite) exDisk 5 FF_MODE_WRITE).get (by decide)

/-- A Read request for sector 9 on a fresh pool whose device cannot read
sector 9. -/
def failedAcquire : GetBufferResult Disk :=
  (FF_GetBuffer 3 (freshPool 1 failRead9 ramWrite) exDisk 9 FF_MODE_READ).get (by decide)

/-! ## Creation of the manager and registration of the device -/

/-- What stops a call before it returns: a retry loop that does not end, a
division or remainder by zero, or a write through a pointer that was freed. -/
inductive Fault where
  | noReturn : Fault
  | divisionByZero : Fault
  | useAfterFree : Fault
deriving DecidableEq, Repr

/-- Modelled from the spec: the error header is not among the sources. The
return values of the interface: 0 (`FF_ERR_NONE`) and the error constants the
source returns, which the spec lists as distinct errors. -/
inductive FF_ERROR where
  | FF_ERR_NONE : FF_ERROR
  | FF_ERR_IOMAN_NULL_POINTER : FF_ERROR
  | FF_ERR_IOMAN_INVALID_PARTITION_NUM : FF_ERROR
  | FF_ERR_DEVICE_DRIVER_FAILED : FF_ERROR
  | FF_ERR_IOMAN_NO_MOUNTABLE_PARTITION : FF_ERROR
  | FF_ERR_IOMAN_INVALID_FORMAT : FF_ERROR
  | FF_ERR_IOMAN_NOT_FAT_FORMATTED : FF_ERROR
  | FF_ERR_IOMAN_DEV_ALREADY_REGD : FF_ERROR
  | FF_ERR_IOMAN_DEV_INVALID_BLKSIZE : FF_ERROR
deriving DecidableEq, Repr

/-- Which calls of `malloc` in `FF_CreateIOMAN` give memory. -/
structure Mallocs where
  ioman : Bool
  partition : Bool
  blkDevice : Bool
  cacheMem : Bool
  buffers : Bool
deriving DecidableEq, Repr

/-- Function `FF_CreateIOMAN`. `raw` is what the allocated memory holds before
it is assigned (its descriptors carry the bytes of the cache memory),
`hasCacheMem` says that `pCacheMem` is not NULL; `Size` is a 32-bit and
`BlkSize` a 16-bit value. The result `none` is NULL. The count of descriptors
is `(FF_T_UINT8) (Size / BlkSize)`. When the descriptors cannot be allocated the
source frees the manager and then assigns `pSemaphore` in it. -/
def FF_CreateIOMAN (raw : FF_IOMAN D) (m : Mallocs) (hasCacheMem : Bool) (Size BlkSize : Nat) :
    Except Fault (Option (FF_IOMAN D)) :=
  if BlkSize % 512 ≠ 0 ∨ Size = 0 then Except.ok none
  else if BlkSize = 0 then Except.error Fault.divisionByZero
  else if Size % BlkSize ≠ 0 ∨ Size = 0 then Except.ok none
  else if m.ioman = false then Except.ok none
  else if m.partition = false then Except.ok none
  else if m.blkDevice = false then Except.ok none
  else if hasCacheMem = false ∧ m.cacheMem = false then Except.ok none
  else
    let p1 : FF_IOMAN D :=
      { raw with
        pBlkDevice :=
          { raw.pBlkDevice with fnReadBlocks := none, fnWriteBlocks := none, pParam := 0 } }
    let p2 : FF_IOMAN D := { p1 with BlkSize := BlkSize }
    let p3 : FF_IOMAN D := { p2 with CacheSize := (Size / BlkSize) % 256 }
    if m.buffers = true then Except.ok (some (FF_IOMAN_InitBufferDescriptors p3))
    else Except.error Fault.useAfterFree

/-- Function `FF_RegisterBlkDevice` for a manager that is not NULL: the value
returned and the manager afterwards. -/
def FF_RegisterBlkDevice (pIoman : FF_IOMAN D) (BlkSize : Nat)
    (fnWriteBlocks : Option (FF_WRITE_BLOCKS D)) (fnReadBlocks : Option (FF_READ_BLOCKS D))
    (pParam : Nat) : Except Fault (FF_ERROR × FF_IOMAN D) :=
  if BlkSize % 512 ≠ 0 ∨ BlkSize = 0 then
    Except.ok (FF_ERROR.FF_ERR_IOMAN_DEV_INVALID_BLKSIZE, pIoman)
  else if pIoman.BlkSize = 0 then Except.error Fault.divisionByZero
  else if BlkSize % pIoman.BlkSize ≠ 0 ∨ BlkSize = 0 then
    Except.ok (FF_ERROR.FF_ERR_IOMAN_DEV_INVALID_BLKSIZE, pIoman)
  else if pIoman.pBlkDevice.fnReadBlocks.isSome = true then
    Except.ok (FF_ERROR.FF_ERR_IOMAN_DEV_ALREADY_REGD, pIoman)
  else if pIoman.pBlkDevice.fnWriteBlocks.isSome = true then
    Except.ok (FF_ERROR.FF_ERR_IOMAN_DEV_ALREADY_REGD, pIoman)
  else if pIoman.pBlkDevice.pParam ≠ 0 then
    Except.ok (FF_ERROR.FF_ERR_IOMAN_DEV_ALREADY_REGD, pIoman)
  else
    Except.ok (FF_ERROR.FF_ERR_NONE,
      { pIoman with
        pBlkDevice :=
          { devBlkSize := BlkSize, fnReadBlocks := fnReadBlocks,
            fnWriteBlocks := fnWriteBlocks, pParam := pParam } })

/-- The value a call returned, when it returned. -/
def returned {α β : Type} : Except Fault (α × β) → Option α
  | Except.ok (a, _) => some a
  | Except.error _ => none

/-- The count of descriptors of the manager `FF_CreateIOMAN` gave, when it gave
one. -/
def createdCacheSize : Except Fault (Option (FF_IOMAN D)) → Option Nat
  | Except.ok (some p) => some p.CacheSize
  | _ => none

/-- Every `malloc` gives memory. -/
def allMallocs : Mallocs :=
  { ioman := true, partition := true, blkDevice := true, cacheMem := true, buffers := true }

/-- Some content of memory that was not assigned yet. -/
def rawManager : FF_IOMAN Disk :=
  { BlkSize := 7, CacheSize := 9, pBuffers := fun _ => zeroBuffer,
    pBlkDevice := { devBlkSize := 3, fnReadBlocks := none, fnWriteBlocks := none, pParam := 5 },
    pPartition := zeroPartition }

/-- A manager with block size 512 and no device, before the first
registration. -/
def unregistered : FF_IOMAN Disk :=
  { BlkSize := 512, CacheSize := 1, pBuffers := fun _ => zeroBuffer,
    pBlkDevice := { devBlkSize := 0, fnReadBlocks := none, fnWriteBlocks := none, pParam := 0 },
    pPartition := zeroPartition }

/-- The manager `unregistered` after the registration of the disk in memory. -/
def registered : FF_IOMAN Disk :=
  { unregistered with
    pBlkDevice :=
      { devBlkSize := 512, fnReadBlocks := some ramRead, fnWriteBlocks := some ramWrite,
        pParam := 1 } }

/-! ## Mounting a partition -/

/-- Modelled from the spec: the byte accessors are not among the sources. The
byte at `offset` of a block; a position past the end of the block reads as 0. -/
def FF_getChar (pBuffer : Block) (offset : Nat) : Nat :=
  (pBuffer.getD offset 0).toNat

/-- Modelled from the spec: the 16-bit little-endian value at `offset`. -/
def FF_getShort (pBuffer : Block) (offset : Nat) : Nat :=
  FF_getChar pBuffer offset + 256 * FF_getChar pBuffer (offset + 1)

/-- Modelled from the spec: the 32-bit little-endian value at `offset`. -/
def FF_getLong (pBuffer : Block) (offset : Nat) : Nat :=
  FF_getChar pBuffer offset + 256 * FF_getChar pBuffer (offset + 1)
    + 65536 * FF_getChar pBuffer (offset + 2) + 16777216 * FF_getChar pBuffer (offset + 3)

/-- Modelled from the spec: offset of the bytes-per-sector field (the header
`fat.h` with the offsets is not among the sources). -/
def FF_FAT_BYTES_PER_SECTOR : Nat := 0x0B

/-- Modelled from the spec: offset of the sectors-per-cluster field. -/
def FF_FAT_SECTORS_PER_CLUS : Nat := 0x0D

/-- Modelled from the spec: offset of the reserved-sectors field. -/
def FF_FAT_RESERVED_SECTORS : Nat := 0x0E

/-- Modelled from the spec: offset of the number-of-FATs field. -/
def FF_FAT_NUMBER_OF_FATS : Nat := 0x10

/-- Modelled from the spec: offset of the root-entry-count field. -/
def FF_FAT_ROOT_ENTRY_COUNT : Nat := 0x11

/-- Modelled from the spec: offset of the 16-bit total-sectors field. -/
def FF_FAT_16_TOTAL_SECTORS : Nat := 0x13

/-- Modelled from the spec: offset of the 16-bit sectors-per-FAT field. -/
def FF_FAT_16_SECTORS_PER_FAT : Nat := 0x16

/-- Modelled from the spec: offset of the 32-bit total-sectors field. -/
def FF_FAT_32_TOTAL_SECTORS : Nat := 0x20

/-- Modelled from the spec: offset of the 32-bit sectors-per-FAT field. -/
def FF_FAT_32_SECTORS_PER_FAT : Nat := 0x24

/-- Modelled from the spec: offset of the root-directory-cluster field. -/
def FF_FAT_ROOT_DIR_CLUSTER : Nat := 0x2C

/-- Modelled from the spec: offset of the partition table in sector 0. -/
def FF_FAT_PTBL : Nat := 0x1BE

/-- Modelled from the spec: offset of the starting LBA in an entry of the
partition table. -/
def FF_FAT_PTBL_LBA : Nat := 0x08

/-- Modelled from the spec: the tag of a FAT12 volume; the header with the
values of the three tags is not among the sources, they are three different
values. -/
def FF_T_FAT12 : Nat := 0x0A

/-- Modelled from the spec: the tag of a FAT16 volume. -/
def FF_T_FAT16 : Nat := 0x0B

/-- Modelled from the spec: the tag of a FAT32 volume. -/
def FF_T_FAT32 : Nat := 0x0C

/-- What `FF_DetermineFatType` gives: the value returned (0 or -2 for a manager
that is not NULL), the manager and the device afterwards, the transfers. -/
structure FatTypeResult (D : Type) where
  ret : Int
  pIoman : FF_IOMAN D
  world : D
  trace : List IOEvent

/-- The block under `#ifdef FF_FAT_CHECK` in each branch of
`FF_DetermineFatType`: the first sector of the FAT is acquired for reading, its
first entry is read as a long (`long = true`) or a short, the descriptor is
released, and the entry is tested with `bad`. -/
def FF_DetermineFatType_check (fuel : Nat) (pIoman : FF_IOMAN D) (w : D) (long : Bool)
    (bad : Nat → Bool) : Option (FatTypeResult D) :=
  match FF_GetBuffer fuel pIoman w pIoman.pPartition.FatBeginLBA FF_MODE_READ with
  | none => none
  | some r =>
    match r.ret with
    | none => some { ret := -2, pIoman := r.pIoman, world := r.world, trace := r.trace }
    | some i =>
      let testLong : Nat :=
        if long = true then FF_getLong (r.pIoman.pBuffers i).pBuffer 0
        else FF_getShort (r.pIoman.pBuffers i).pBuffer 0
      let p1 := FF_ReleaseBuffer r.pIoman i
      if bad testLong = true then
        some { ret := -2, pIoman := p1, world := r.world, trace := r.trace }
      else some { ret := 0, pIoman := p1, world := r.world, trace := r.trace }

/-- Function `FF_DetermineFatType` for a manager that is not NULL; `fatCheck`
says that `FF_FAT_CHECK` is defined. The result `none` is an acquisition that
does not end. -/
def FF_DetermineFatType (fatCheck : Bool) (fuel : Nat) (pIoman : FF_IOMAN D) (w : D) :
    Option (FatTypeResult D) :=
  if pIoman.pPartition.NumClusters < 4085 then
    let p1 : FF_IOMAN D :=
      { pIoman with pPartition := { pIoman.pPartition with FatType := FF_T_FAT12 } }
    if fatCheck = true then
      FF_DetermineFatType_check fuel p1 w false (fun t => decide (t &&& 0x3FF ≠ 0x3F8))
    else some { ret := 0, pIoman := p1, world := w, trace := [] }
  else if pIoman.pPartition.NumClusters < 65525 then
    let p1 : FF_IOMAN D :=
      { pIoman with pPartition := { pIoman.pPartition with FatType := FF_T_FAT16 } }
    if fatCheck = true then
      FF_DetermineFatType_check fuel p1 w false (fun t => decide (t ≠ 0xFFF8))
    else some { ret := 0, pIoman := p1, world := w, trace := [] }
  else
    let p1 : FF_IOMAN D :=
      { pIoman with pPartition := { pIoman.pPartition with FatType := FF_T_FAT32 } }
    if fatCheck = true then
      FF_DetermineFatType_check fuel p1 w true
        (fun t => decide (t &&& 0x0FFFFFF8 ≠ 0x0FFFFFF8))
    else some { ret := 0, pIoman := p1, world := w, trace := [] }

/-- What `FF_MountPartition` gives: the value returned, the manager (with the
partition descriptor) and the device afterwards, the transfers. -/
structure MountResult (D : Type) where
  ret : FF_ERROR
  pIoman : FF_IOMAN D
  world : D
  trace : List IOEvent

/-- How lines 655-686 of `FF_MountPartition` end: with a `return`, or with the
boot sector of the volume held in descriptor `i`. -/
inductive Located (D : Type) where
  | failed (r : MountResult D) : Located D
  | found (pIoman : FF_IOMAN D) (w : D) (i : Nat) (trace : List IOEvent) : Located D

/-- Lines 667-670 of `FF_MountPartition`: the start of the partition from the
table in sector 0; the `+=` for a partition number above 0 is an unsigned
32-bit sum. -/
def FF_MountPartition_tableLBA (buf0 : Block) (PartitionNumber : Nat) : Nat :=
  let lba0 := FF_getLong buf0 (FF_FAT_PTBL + FF_FAT_PTBL_LBA + 16 * PartitionNumber)
  if PartitionNumber > 0 then
    (lba0 + FF_getLong buf0 (FF_FAT_PTBL + FF_FAT_PTBL_LBA + 16 * 0)) % 2 ^ 32
  else lba0

/-- Lines 655-686 of `FF_MountPartition`: sector 0 is acquired; when its
bytes-per-sector field is a positive multiple of 512 the volume starts there,
otherwise the start is taken from the partition table (a 32-bit sum) and the
sector at the start is acquired. -/
def FF_MountPartition_locate (fuel : Nat) (pIoman : FF_IOMAN D) (w : D)
    (PartitionNumber : Nat) : Except Fault (Located D) :=
  match FF_GetBuffer fuel pIoman w 0 FF_MODE_READ with
  | none => Except.error Fault.noReturn
  | some r0 =>
    match r0.ret with
    | none =>
      Except.ok (Located.failed
        { ret := FF_ERROR.FF_ERR_DEVICE_DRIVER_FAILED, pIoman := r0.pIoman, world := r0.world,
          trace := r0.trace })
    | some i0 =>
      let buf0 := (r0.pIoman.pBuffers i0).pBuffer
      let p1 : FF_IOMAN D :=
        { r0.pIoman with
          pPartition :=
            { r0.pIoman.pPartition with BlkSize := FF_getShort buf0 FF_FAT_BYTES_PER_SECTOR } }
      if p1.pPartition.BlkSize % 512 = 0 ∧ p1.pPartition.BlkSize > 0 then
        Except.ok (Located.found
          { p1 with pPartition := { p1.pPartition with BeginLBA := 0 } } r0.world i0 r0.trace)
      else
        let p2 : FF_IOMAN D :=
          { p1 with
            pPartition :=
              { p1.pPartition with BeginLBA := FF_MountPartition_tableLBA buf0 PartitionNumber } }
        let p3 := FF_ReleaseBuffer p2 i0
        if p3.pPartition.BeginLBA = 0 then
          Except.ok (Located.failed
            { ret := FF_ERROR.FF_ERR_IOMAN_NO_MOUNTABLE_PARTITION, pIoman := p3,
              world := r0.world, trace := r0.trace })
        else
          match FF_GetBuffer fuel p3 r0.world p3.pPartition.BeginLBA FF_MODE_READ with
          | none => Except.error Fault.noReturn
          | some r1 =>
            match r1.ret with
            | none =>
              Except.ok (Located.failed
                { ret := FF_ERROR.FF_ERR_DEVICE_DRIVER_FAILED, pIoman := r1.pIoman,
                  world := r1.world, trace := r0.trace ++ r1.trace })
            | some i1 =>
              let buf1 := (r1.pIoman.pBuffers i1).pBuffer
              let p4 : FF_IOMAN D :=
                { r1.pIoman with
                  pPartition :=
                    { r1.pIoman.pPartition with
                      BlkSize := FF_getShort buf1 FF_FAT_BYTES_PER_SECTOR } }
              if p4.pPartition.BlkSize % 512 ≠ 0 ∨ p4.pPartition.BlkSize = 0 then
                Except.ok (Located.failed
                  { ret := FF_ERROR.FF_ERR_IOMAN_INVALID_FORMAT,
                    pIoman := FF_ReleaseBuffer p4 i1, world := r1.world,
                    trace := r0.trace ++ r1.trace })
              else Except.ok (Located.found p4 r1.world i1 (r0.trace ++ r1.trace))

/-- Lines 688-713 of `FF_MountPartition`: the fields read from the boot sector
`buf` into the descriptor `q`, in the order of the source, with unsigned 32-bit
sums; `ioBlkSize` is `pIoman->BlkSize`, by which the block size is divided. -/
def FF_MountPartition_fields (ioBlkSize : Nat) (buf : Block) (q : FF_PARTITION) :
    Except Fault FF_PARTITION :=
  let q1 : FF_PARTITION := { q with ReservedSectors := FF_getShort buf FF_FAT_RESERVED_SECTORS }
  let q2 : FF_PARTITION :=
    { q1 with FatBeginLBA := (q1.BeginLBA + q1.ReservedSectors) % 2 ^ 32 }
  let q3 : FF_PARTITION := { q2 with NumFATS := FF_getShort buf FF_FAT_NUMBER_OF_FATS % 256 }
  let q4 : FF_PARTITION :=
    { q3 with SectorsPerFAT := FF_getShort buf FF_FAT_16_SECTORS_PER_FAT }
  let q5 : FF_PARTITION :=
    { q4 with SectorsPerCluster := FF_getChar buf FF_FAT_SECTORS_PER_CLUS }
  if ioBlkSize = 0 then Except.error Fault.divisionByZero
  else
    let q6 : FF_PARTITION := { q5 with BlkFactor := (q5.BlkSize / ioBlkSize) % 256 }
    if q6.SectorsPerFAT = 0 then
      let q7 : FF_PARTITION :=
        { q6 with SectorsPerFAT := FF_getLong buf FF_FAT_32_SECTORS_PER_FAT }
      let q8 : FF_PARTITION :=
        { q7 with RootDirCluster := FF_getLong buf FF_FAT_ROOT_DIR_CLUSTER }
      let q9 : FF_PARTITION :=
        { q8 with
          ClusterBeginLBA :=
            (q8.BeginLBA + q8.ReservedSectors + q8.NumFATS * q8.SectorsPerFAT) % 2 ^ 32 }
      let q10 : FF_PARTITION :=
        { q9 with TotalSectors := FF_getShort buf FF_FAT_16_TOTAL_SECTORS }
      if q10.TotalSectors = 0 then
        Except.ok { q10 with TotalSectors := FF_getLong buf FF_FAT_32_TOTAL_SECTORS }
      else Except.ok q10
    else
      let q7 : FF_PARTITION :=
        { q6 with
          ClusterBeginLBA :=
            (q6.BeginLBA + q6.ReservedSectors + q6.NumFATS * q6.SectorsPerFAT) % 2 ^ 32 }
      let q8 : FF_PARTITION :=
        { q7 with TotalSectors := FF_getShort buf FF_FAT_16_TOTAL_SECTORS }
      let q9 : FF_PARTITION := { q8 with RootDirCluster := 1 }
      if q9.TotalSectors = 0 then
        Except.ok { q9 with TotalSectors := FF_getLong buf FF_FAT_32_TOTAL_SECTORS }
      else Except.ok q9

/-- Lines 716-719 of `FF_MountPartition`: the sizes computed after the
descriptor was released; `buf` is what `pBuffer->pBuffer` holds then. The
subtraction is unsigned 32-bit. -/
def FF_MountPartition_geometry (buf : Block) (q : FF_PARTITION) : Except Fault FF_PARTITION :=
  if q.BlkSize = 0 then Except.error Fault.divisionByZero
  else
    let q1 : FF_PARTITION :=
      { q with
        RootDirSectors :=
          (FF_getShort buf FF_FAT_ROOT_ENTRY_COUNT * 32 + q.BlkSize - 1) / q.BlkSize }
    let q2 : FF_PARTITION :=
      { q1 with FirstDataSector := (q1.ClusterBeginLBA + q1.RootDirSectors) % 2 ^ 32 }
    let q3 : FF_PARTITION :=
      { q2 with
        DataSectors :=
          (q2.TotalSectors + 2 ^ 32
            - (q2.ReservedSectors + q2.NumFATS * q2.SectorsPerFAT + q2.RootDirSectors) % 2 ^ 32)
            % 2 ^ 32 }
    if q3.SectorsPerCluster = 0 then Except.error Fault.divisionByZero
    else Except.ok { q3 with NumClusters := q3.DataSectors / q3.SectorsPerCluster }

/-- Lines 688-725 of `FF_MountPartition`, with the boot sector of the volume
held in descriptor `i`. -/
def FF_MountPartition_finish (fatCheck : Bool) (fuel : Nat) (pIoman : FF_IOMAN D) (w : D)
    (i : Nat) (tr : List IOEvent) : Except Fault (MountResult D) :=
  match FF_MountPartition_fields pIoman.BlkSize (pIoman.pBuffers i).pBuffer
      pIoman.pPartition with
  | Except.error f => Except.error f
  | Except.ok q =>
    let p1 := FF_ReleaseBuffer { pIoman with pPartition := q } i
    match FF_MountPartition_geometry (p1.pBuffers i).pBuffer p1.pPartition with
    | Except.error f => Except.error f
    | Except.ok q1 =>
      match FF_DetermineFatType fatCheck fuel { p1 with pPartition := q1 } w with
      | none => Except.error Fault.noReturn
      | some d =>
        if d.ret ≠ 0 then
          Except.ok
            { ret := FF_ERROR.FF_ERR_IOMAN_NOT_FAT_FORMATTED, pIoman := d.pIoman,
              world := d.world, trace := tr ++ d.trace }
        else
          Except.ok
            { ret := FF_ERROR.FF_ERR_NONE, pIoman := d.pIoman, world := d.world,
              trace := tr ++ d.trace }

/-- Function `FF_MountPartition` for a manager that is not NULL; `fatCheck`
says that `FF_FAT_CHECK` is defined. -/
def FF_MountPartition (fatCheck : Bool) (fuel : Nat) (pIoman : FF_IOMAN D) (w : D)
    (PartitionNumber : Nat) : Except Fault (MountResult D) :=
  if PartitionNumber > 3 then
    Except.ok
      { ret := FF_ERROR.FF_ERR_IOMAN_INVALID_PARTITION_NUM, pIoman := pIoman, world := w,
        trace := [] }
  else
    match FF_MountPartition_locate fuel pIoman w PartitionNumber with
    | Except.error f => Except.error f
    | Except.ok (Located.failed r) => Except.ok r
    | Except.ok (Located.found p1 w1 i tr) => FF_MountPartition_finish fatCheck fuel p1 w1 i tr

/-- The device serves the image `img`: in the state `w` the read callback of the
manager gives one block, the bytes of the sector asked for, and leaves the
device as it is. -/
def Serves (pIoman : FF_IOMAN D) (w : D) (img : Nat → Block) : Prop :=
  ∃ rd, pIoman.pBlkDevice.fnReadBlocks = some rd ∧
    ∀ (buf : Block) (s pp : Nat), rd buf s 1 pp w = (1, img s, w)

/-- The cache agrees with the image `img`: the device serves `img`, no
descriptor is in mode Write, and every Read descriptor that is neither marked
modified nor in service holds the bytes of its sector. -/
def Coherent (img : Nat → Block) (pIoman : FF_IOMAN D) (w : D) : Prop :=
  Serves pIoman w img ∧
  ∀ i, i < pIoman.CacheSize →
    (pIoman.pBuffers i).Mode ≠ FF_MODE_WRITE ∧
    ((pIoman.pBuffers i).Mode = FF_MODE_READ → (pIoman.pBuffers i).Modified = false →
      (pIoman.pBuffers i).isIOMANediting = false →
      (pIoman.pBuffers i).pBuffer = img (pIoman.pBuffers i).Sector)

/-! ## The mount procedure in the words of the specification -/

/-- The little-endian value of the `n` bytes of a block that start at `offset`. -/
def littleEndian (b : Block) (offset : Nat) : Nat → Nat
  | 0 => 0
  | n + 1 => (b.getD offset 0).toNat + 256 * littleEndian b (offset + 1) n

/-- The quotient rounded up: the least count of blocks of `b` bytes that hold
`a` bytes. -/
def divCeil (a b : Nat) : Nat :=
  if a % b = 0 then a / b else a / b + 1

/-- A bytes-per-sector value the mount procedure accepts: a positive multiple
of 512. -/
def validSectorSize (n : Nat) : Prop :=
  n % 512 = 0 ∧ 0 < n

/-- Whether a value is a positive multiple of 512 is decided by computing. -/
instance validSectorSize_dec (n : Nat) : Decidable (validSectorSize n) :=
  inferInstanceAs (Decidable (n % 512 = 0 ∧ 0 < n))

/-- The start of the volume as section 4.4 of the specification gives it from
the bytes of sector 0 and the partition index `p`: 0 when sector 0 is a boot
sector, otherwise the LBA of entry `p` of the partition table, plus the LBA of
entry 0 when `p > 0`, as a 32-bit sum. -/
def reference_begin_lba (sector0 : Block) (p : Nat) : Nat :=
  if validSectorSize (littleEndian sector0 0x0B 2) then 0
  else
    (littleEndian sector0 (446 + 16 * p + 8) 4
      + (if p > 0 then littleEndian sector0 (446 + 8) 4 else 0)) % 2 ^ 32

/-- The fields of the partition descriptor that are parsed from the boot sector. -/
structure BPBParse where
  reserved_sectors : Nat
  num_fats : Nat
  sectors_per_cluster : Nat
  sectors_per_fat : Nat
  total_sectors : Nat
  fat_begin_lba : Nat
  cluster_begin_lba : Nat
  root_dir_sectors : Nat
  first_data_sector : Nat
deriving DecidableEq, Repr

/-- The reference parse of the boot sector `bpb` of a volume that starts at
`begin_lba`, in the words of section 4.4 of the specification, with 32-bit
sums. -/
def referenceParse (bpb : Block) (begin_lba : Nat) : BPBParse :=
  let blk_size := littleEndian bpb 0x0B 2
  let reserved_sectors := littleEndian bpb 0x0E 2
  let num_fats := littleEndian bpb 0x10 1
  let sectors_per_fat :=
    if littleEndian bpb 0x16 2 = 0 then littleEndian bpb 0x24 4 else littleEndian bpb 0x16 2
  let total_sectors :=
    if littleEndian bpb 0x13 2 = 0 then littleEndian bpb 0x20 4 else littleEndian bpb 0x13 2
  let cluster_begin_lba := (begin_lba + reserved_sectors + num_fats * sectors_per_fat) % 2 ^ 32
  let root_dir_sectors := divCeil (littleEndian bpb 0x11 2 * 32) blk_size
  { reserved_sectors := reserved_sectors
    num_fats := num_fats
    sectors_per_cluster := littleEndian bpb 0x0D 1
    sectors_per_fat := sectors_per_fat
    total_sectors := total_sectors
    fat_begin_lba := (begin_lba + reserved_sectors) % 2 ^ 32
    cluster_begin_lba := cluster_begin_lba
    root_dir_sectors := root_dir_sectors
    first_data_sector := (cluster_begin_lba + root_dir_sectors) % 2 ^ 32 }

/-- The same fields as `FF_MountPartition` left them in the descriptor. -/
def descriptorParse (q : FF_PARTITION) : BPBParse :=
  { reserved_sectors := q.ReservedSectors
    num_fats := q.NumFATS
    sectors_per_cluster := q.SectorsPerCluster
    sectors_per_fat := q.SectorsPerFAT
    total_sectors := q.TotalSectors
    fat_begin_lba := q.FatBeginLBA
    cluster_begin_lba := q.ClusterBeginLBA
    root_dir_sectors := q.RootDirSectors
    first_data_sector := q.FirstDataSector }

/-- The boot sector of scenario 1 of the specification with `spf` sectors per
FAT: 512 bytes per sector, 16 sectors per cluster, 32 reserved sectors, 1 FAT,
512 root entries, 131072 sectors in the 32-bit field. -/
def scenario1 (bpb : Block) (spf : Nat) : Prop :=
  littleEndian bpb 0x0B 2 = 512 ∧ littleEndian bpb 0x0D 1 = 16 ∧
  littleEndian bpb 0x0E 2 = 32 ∧ littleEndian bpb 0x10 1 = 1 ∧
  littleEndian bpb 0x11 2 = 512 ∧ littleEndian bpb 0x13 2 = 0 ∧
  littleEndian bpb 0x16 2 = spf ∧ littleEndian bpb 0x20 4 = 131072

/-- The value of a call that returned. -/
def okValue {α : Type} : Except Fault α → Option α
  | Except.ok a => some a
  | Except.error _ => none

/-! ## Images for the mount procedure -/

set_option maxRecDepth 100000

/-- A sector of 512 bytes whose byte at offset `k` is `f k`. -/
def sectorOf (f : Nat → Nat) : Block :=
  (List.range 512).map (fun k => UInt8.ofNat (f k))

/-- The byte at offset `k` of a sector that holds `value` in little-endian
order in the `width` bytes from `offset`, and zero elsewhere. -/
def fieldByte (offset width value k : Nat) : Nat :=
  if offset ≤ k ∧ k < offset + width then value / 256 ^ (k - offset) % 256 else 0

/-- A boot sector with the given bytes per sector, sectors per cluster, reserved
sectors, number of FATs, root entries, 16-bit total sectors, 16-bit sectors per
FAT, 32-bit total sectors, 32-bit sectors per FAT and root cluster. -/
def bpbSector (bps spc rsv nf re t16 spf16 t32 spf32 rc : Nat) : Block :=
  sectorOf (fun k =>
    fieldByte 0x0B 2 bps k + fieldByte 0x0D 1 spc k + fieldByte 0x0E 2 rsv k
      + fieldByte 0x10 1 nf k + fieldByte 0x11 2 re k + fieldByte 0x13 2 t16 k
      + fieldByte 0x16 2 spf16 k + fieldByte 0x20 4 t32 k + fieldByte 0x24 4 spf32 k
      + fieldByte 0x2C 4 rc k)

/-- A master boot record whose four partitions start at the given sectors. -/
def mbrSector (lba0 lba1 lba2 lba3 : Nat) : Block :=
  sectorOf (fun k =>
    fieldByte (446 + 8) 4 lba0 k + fieldByte (446 + 16 + 8) 4 lba1 k
      + fieldByte (446 + 32 + 8) 4 lba2 k + fieldByte (446 + 48 + 8) 4 lba3 k)

/-- The first sector of a FAT whose first entry, read as a long, is `entry0`. -/
def fatSector (entry0 : Nat) : Block :=
  sectorOf (fieldByte 0 4 entry0)

/-- The image of scenario 1 of the specification with `spf` sectors per FAT:
the boot sector in sector 0, the first FAT entry `0xFFF8` in sector 32, zero
bytes elsewhere. -/
def scenario1Image (spf : Nat) : Disk := fun s =>
  if s = 0 then bpbSector 512 16 32 1 512 0 spf 131072 0 0
  else if s = 32 then fatSector 0xFFF8
  else sectorOf (fun _ => 0)

/-- The image of scenario 2 of the specification: a master boot record whose
partition 0 starts at sector 2048, the FAT32 boot sector there, and the first
FAT entry in sector 2080. -/
def scenario2Image : Disk := fun s =>
  if s = 0 then mbrSector 2048 0 0 0
  else if s = 2048 then bpbSector 512 8 32 2 0 0 0 8380416 1009 2
  else if s = 2080 then fatSector 0x0FFFFFF8
  else sectorOf (fun _ => 0)

/-- The image of scenario 3 of the specification: the boot sector of scenario 1
in sector 0 with 513 bytes per sector. -/
def scenario3Image : Disk := fun s =>
  if s = 0 then bpbSector 513 16 32 1 512 0 32 131072 0 0
  else sectorOf (fun _ => 0)

/-- An image with 199368 clusters whose boot sector has 600 in the 16-bit
sectors-per-FAT field and 2 in the root-cluster field. -/
def manyClustersImage : Disk := fun s =>
  if s = 0 then bpbSector 512 1 32 1 0 0 600 200000 0 2
  else if s = 32 then fatSector 0x0FFFFFF8
  else sectorOf (fun _ => 0)

/-- An image with 8186 clusters whose boot sector has 0 in the 16-bit
sectors-per-FAT field, 32 in the 32-bit one and 2 in the root-cluster field. -/
def fewClustersImage : Disk := fun s =>
  if s = 0 then bpbSector 512 16 32 1 512 0 0 131072 32 2
  else if s = 32 then fatSector 0xFFF8
  else sectorOf (fun _ => 0)

/-- The mount of scenario 1 with 32 sectors per FAT on a fresh pool of two
descriptors, with the check of the first FAT entry. -/
def scenario1Mounted : MountResult Disk :=
  (okValue (FF_MountPartition true 1 (freshPool 2 ramRead ramWrite) (scenario1Image 32) 0)).get
    (by decide)

/-- The mount of partition 0 of scenario 2 on a fresh pool of two descriptors,
with the check of the first FAT entry. -/
def scenario2Mounted : MountResult Disk :=
  (okValue (FF_MountPartition true 1 (freshPool 2 ramRead ramWrite) scenario2Image 0)).get
    (by decide)

/-- The mount of scenario 3 on a fresh pool of two descriptors. -/
def scenario3Mounted : MountResult Disk :=
  (okValue (FF_MountPartition true 1 (freshPool 2 ramRead ramWrite) scenario3Image 0)).get
    (by decide)

/-- What is looked at after a mount: the value returned and, of the partition
descriptor, the start, the block size, the block factor, the count of clusters,
the type and the root cluster. -/
structure MountView where
  ret : FF_ERROR
  BeginLBA : Nat
  BlkSize : Nat
  BlkFactor : Nat
  NumClusters : Nat
  FatType : Nat
  RootDirCluster : Nat
deriving DecidableEq, Repr

/-- The view of a call of `FF_MountPartition` that returned. -/
def mountView (x : Except Fault (MountResult D)) : Option MountView :=
  (okValue x).map (fun r =>
    { ret := r.ret, BeginLBA := r.pIoman.pPartition.BeginLBA,
      BlkSize := r.pIoman.pPartition.BlkSize, BlkFactor := r.pIoman.pPartition.BlkFactor,
      NumClusters := r.pIoman.pPartition.NumClusters, FatType := r.pIoman.pPartition.FatType,
      RootDirCluster := r.pIoman.pPartition.RootDirCluster })

/-- A manager created with `FF_CreateIOMAN` for a cache of `Size` bytes in
blocks of `BlkSize` bytes, the disk in memory registered on it with the same
block size, and partition 0 of `img` mounted: the view of the mount. -/
def createRegisterMount (Size BlkSize : Nat) (img : Disk) : Option MountView :=
  match FF_CreateIOMAN rawManager allMallocs false Size BlkSize with
  | Except.ok (some m) =>
    match FF_RegisterBlkDevice m BlkSize (some ramWrite) (some ramRead) 1 with
    | Except.ok (FF_ERROR.FF_ERR_NONE, m2) => mountView (FF_MountPartition false 1 m2 img 0)
    | _ => none
  | _ => none

/-- An image whose master boot record points to sector 2048, where the boot
sector has 513 bytes per sector. -/
def badPartitionImage : Disk := fun s =>
  if s = 0 then mbrSector 2048 0 0 0
  else if s = 2048 then bpbSector 513 8 32 2 0 0 0 8380416 1009 2
  else sectorOf (fun _ => 0)

/-- The mount of partition 0 of `badPartitionImage` on a fresh pool of two
descriptors. -/
def badPartitionMounted : MountResult Disk :=
  (okValue (FF_MountPartition true 1 (freshPool 2 ramRead ramWrite) badPartitionImage 0)).get
    (by decide)

/-- The test of the first FAT entry in the words of section 4.4 of the
specification, for a volume with `numClusters` clusters whose first FAT sector
is `fat`. -/
def fatEntryValid (numClusters : Nat) (fat : Block) : Prop :=
  if numClusters < 4085 then littleEndian fat 0 2 &&& 0x3FF = 0x3F8
  else if numClusters < 65525 then littleEndian fat 0 2 = 0xFFF8
  else littleEndian fat 0 4 &&& 0x0FFFFFF8 = 0x0FFFFFF8

/-! ## Size of the volume -/

/-- Function `FF_GetVolumeSize` as compiled with `FF_64_NUM_SUPPORT`; `none` is a
NULL manager. `TotalClusters` is a 32-bit value, the products are 64-bit. -/
def FF_GetVolumeSize (pIoman : Option (FF_IOMAN D)) : Except Fault Nat :=
  match pIoman with
  | some p =>
    if p.pPartition.SectorsPerCluster = 0 then Except.error Fault.divisionByZero
    else
      let TotalClusters := (p.pPartition.DataSectors / p.pPartition.SectorsPerCluster) % 2 ^ 32
      Except.ok
        ((TotalClusters % 2 ^ 64
          * ((p.pPartition.SectorsPerCluster % 2 ^ 64 * (p.pPartition.BlkSize % 2 ^ 64))
              % 2 ^ 64)) % 2 ^ 64)
  | none => Except.ok 0

/-- Function `FF_GetVolumeSize` as compiled without `FF_64_NUM_SUPPORT`, for a manager
that is not NULL: the product is reduced to 32 bits. -/
def FF_GetVolumeSize_32 (pIoman : FF_IOMAN D) : Except Fault Nat :=
  if pIoman.pPartition.SectorsPerCluster = 0 then Except.error Fault.divisionByZero
  else
    let TotalClusters :=
      (pIoman.pPartition.DataSectors / pIoman.pPartition.SectorsPerCluster) % 2 ^ 32
    Except.ok
      ((TotalClusters * (pIoman.pPartition.SectorsPerCluster * pIoman.pPartition.BlkSize))
        % 2 ^ 32)

/-- A manager without descriptors whose partition descriptor has the given
count of data sectors, sectors per cluster and block size, with the count of
clusters `FF_MountPartition` derives from them. -/
def volumeOf (DataSectors SectorsPerCluster BlkSize : Nat) : FF_IOMAN Disk :=
  { unregistered with
    pPartition :=
      { zeroPartition with
        DataSectors := DataSectors
        SectorsPerCluster := SectorsPerCluster
        BlkSize := BlkSize
        NumClusters := DataSectors / SectorsPerCluster } }

/-- The reason a call did not return, when it did not. -/
def faultOf {α : Type} : Except Fault α → Option Fault
  | Except.ok _ => none
  | Except.error f => some f

/-- The mount procedure finds a boot sector: sector 0 has a valid
bytes-per-sector value, or the start from the partition table is not 0 and the
sector there has a valid bytes-per-sector value. -/
def bootSectorFound (img : Nat → Block) (p : Nat) : Prop :=
  validSectorSize (littleEndian (img 0) 0x0B 2) ∨
  (reference_begin_lba (img 0) p ≠ 0 ∧
    validSectorSize (littleEndian (img (reference_begin_lba (img 0) p)) 0x0B 2))

/-- Whether a boot sector is found is decided by computing. -/
instance bootSectorFound_dec (img : Nat → Block) (p : Nat) :
    Decidable (bootSectorFound img p) :=
  inferInstanceAs (Decidable (validSectorSize (littleEndian (img 0) 0x0B 2) ∨
    (reference_begin_lba (img 0) p ≠ 0 ∧
      validSectorSize (littleEndian (img (reference_begin_lba (img 0) p)) 0x0B 2))))

/-- The test of the first FAT entry in the words of section 4.4 of the
specification, for a volume classified with the type tag `type` whose first
FAT sector is `fat`. -/
def fatEntryPasses (type : Nat) (fat : Block) : Prop :=
  (type = FF_T_FAT12 ∧ littleEndian fat 0 2 &&& 0x3FF = 0x3F8) ∨
  (type = FF_T_FAT16 ∧ littleEndian fat 0 2 = 0xFFF8) ∨
  (type = FF_T_FAT32 ∧ littleEndian fat 0 4 &&& 0x0FFFFFF8 = 0x0FFFFFF8)

/-- The test of the first FAT entry is decided by computing. -/
instance fatEntryPasses_dec (type : Nat) (fat : Block) : Decidable (fatEntryPasses type fat) :=
  inferInstanceAs (Decidable ((type = FF_T_FAT12 ∧ littleEndian fat 0 2 &&& 0x3FF = 0x3F8) ∨
    (type = FF_T_FAT16 ∧ littleEndian fat 0 2 = 0xFFF8) ∨
    (type = FF_T_FAT32 ∧ littleEndian fat 0 4 &&& 0x0FFFFFF8 = 0x0FFFFFF8)))

/-- The image of scenario 1 with 0 in the sectors-per-cluster field. -/
def zeroClusterSizeImage : Disk := fun s =>
  if s = 0 then bpbSector 512 0 32 1 512 0 32 131072 0 0
  else if s = 32 then fatSector 0xFFF8
  else sectorOf (fun _ => 0)

/-- The image of scenario 4 of the specification: a FAT12 volume of 2880
sectors (1 reserved sector, 2 FATs of 9 sectors, 224 root entries, clusters of
1 sector) whose first FAT entry is `0x0000`. -/
def scenario4Image : Disk := fun s =>
  if s = 0 then bpbSector 512 1 1 2 224 2880 9 0 0 0
  else sectorOf (fun _ => 0)

/-- An image whose boot sector declares 100 sectors in total, less than its 32
reserved sectors, 1 FAT of 200 sectors and 32 root-directory sectors, with
clusters of 1 sector. -/
def shortTotalImage : Disk := fun s =>
  if s = 0 then bpbSector 512 1 32 1 512 100 200 0 0 0
  else sectorOf (fun _ => 0)

/-- An image whose boot sector declares 100 sectors in total, 32 reserved
sectors and 2 FATs of `0x7FFFFFFF` sectors (in the 32-bit field), with clusters
of 1 sector. -/
def hugeFatImage : Disk := fun s =>
  if s = 0 then bpbSector 512 1 32 2 0 100 0 0 0x7FFFFFFF 2
  else sectorOf (fun _ => 0)

/-- The sectors outside the data area as the boot sector declares them:
reserved sectors, FATs and root directory, as a natural number. -/
def overheadSectors (bpb : Block) : Nat :=
  (referenceParse bpb 0).reserved_sectors
    + (referenceParse bpb 0).num_fats * (referenceParse bpb 0).sectors_per_fat
    + (referenceParse bpb 0).root_dir_sectors

/-! ## Devices that answer -/

/-- The read callback of the device, when there is one, answers every call
with a value other than `FF_ERR_DRIVER_BUSY` after finitely many answers
`FF_ERR_DRIVER_BUSY`: from every buffer and state of the device some number of
rounds of the loop of `FF_IOMAN_FillBuffer` ends it. -/
def ReadAnswers (dev : FF_BLK_DEVICE D) : Prop :=
  ∀ fn, dev.fnReadBlocks = some fn →
    ∀ (Sector : Nat) (buf : Block) (w : D),
      ∃ n, FF_IOMAN_FillBuffer_busy fn Sector dev.pParam n buf w ≠ none

/-- The write callback of the device, when there is one, answers every call
with a value other than `FF_ERR_DRIVER_BUSY` after finitely many answers
`FF_ERR_DRIVER_BUSY`. -/
def WriteAnswers (dev : FF_BLK_DEVICE D) : Prop :=
  ∀ fn, dev.fnWriteBlocks = some fn →
    ∀ (Sector : Nat) (buf : Block) (w : D),
      ∃ n, FF_IOMAN_FlushBuffer_busy fn Sector dev.pParam buf n w ≠ none

/-- A read callback on a device whose state is a count of calls it still
answers with `FF_ERR_DRIVER_BUSY`; after them it reads one block. -/
def countdownRead : FF_READ_BLOCKS Nat :=
  fun buf Sector _ _ w =>
    if w = 0 then (1, [UInt8.ofNat Sector], 0) else (FF_ERR_DRIVER_BUSY, buf, w - 1)

/-- A freshly initialised pool of two descriptors on the device of
`countdownRead`, without a write callback. -/
def busyPool : FF_IOMAN Nat :=
  FF_IOMAN_InitBufferDescriptors
    { BlkSize := 512, CacheSize := 2, pBuffers := fun _ => zeroBuffer,
      pBlkDevice := { devBlkSize := 512, fnReadBlocks := some countdownRead,
                      fnWriteBlocks := none, pParam := 1 },
      pPartition := zeroPartition }

/-! ## The segments of a call under the semaphore -/

/-- What a search of `FF_GetBuffer` under the semaphore ends with: the clean
Read descriptor `i` is shared (line 374), the Read descriptor `i` is read again
(line 381), the Write descriptor `i` is taken over (line 426), descriptor `i` is
evicted (line 453), or nothing was found and the search is started again. -/
inductive Selected where
  | hit (i : Nat) : Selected
  | refresh (i : Nat) : Selected
  | takeOver (i : Nat) : Selected
  | evict (i : Nat) : Selected
  | retry : Selected
deriving DecidableEq, Repr

/-- The descriptor a search ended with. -/
def selectedSlot : Selected → Option Nat
  | Selected.hit i => some i
  | Selected.refresh i => some i
  | Selected.takeOver i => some i
  | Selected.evict i => some i
  | Selected.retry => none

/-- The tests of the first search of `FF_GetBuffer` (lines 372-381) over the
remaining slot indices. -/
def FF_GetBuffer_selectRead (pIoman : FF_IOMAN D) (Sector : Nat) : List Nat → Option Selected
  | [] => none
  | i :: rest =>
    if (pIoman.pBuffers i).Sector = Sector ∧ (pIoman.pBuffers i).Mode = FF_MODE_READ then
      if (pIoman.pBuffers i).Modified = false ∧ (pIoman.pBuffers i).isIOMANediting = false then
        some (Selected.hit i)
      else
        if (pIoman.pBuffers i).NumHandles = 0 then some (Selected.refresh i)
        else FF_GetBuffer_selectRead pIoman Sector rest
    else FF_GetBuffer_selectRead pIoman Sector rest

/-- The tests of the second search of `FF_GetBuffer` (lines 424-426). -/
def FF_GetBuffer_selectWrite (pIoman : FF_IOMAN D) (Sector : Nat) : List Nat → Option Selected
  | [] => none
  | i :: rest =>
    if (pIoman.pBuffers i).Sector = Sector ∧ (pIoman.pBuffers i).isIOMANediting = false then
      if (pIoman.pBuffers i).Mode = FF_MODE_WRITE ∧ (pIoman.pBuffers i).NumHandles = 0 then
        some (Selected.takeOver i)
      else FF_GetBuffer_selectWrite pIoman Sector rest
    else FF_GetBuffer_selectWrite pIoman Sector rest

/-- The test of the third search of `FF_GetBuffer` (lines 452-453). -/
def FF_GetBuffer_selectFree (pIoman : FF_IOMAN D) : List Nat → Option Selected
  | [] => none
  | i :: rest =>
    if (pIoman.pBuffers i).NumHandles = 0 ∧ (pIoman.pBuffers i).isIOMANediting = false then
      some (Selected.evict i)
    else FF_GetBuffer_selectFree pIoman rest

/-- The searches of one round of the `while(1)` of `FF_GetBuffer` (lines
366-482), in order, up to the descriptor they end with. -/
def FF_GetBuffer_select (pIoman : FF_IOMAN D) (Sector Mode : Nat) : Selected :=
  let first : Option Selected :=
    if Mode = FF_MODE_READ then
      FF_GetBuffer_selectRead pIoman Sector (List.range pIoman.CacheSize)
    else none
  match first with
  | some s => s
  | none =>
    match FF_GetBuffer_selectWrite pIoman Sector (List.range pIoman.CacheSize) with
    | some s => s
    | none =>
      match FF_GetBuffer_selectFree pIoman (List.range pIoman.CacheSize) with
      | some s => s
      | none => Selected.retry

/-- The pool when a round of the `while(1)` of `FF_GetBuffer` gives the
semaphore back for the first time: a shared descriptor has one more handle
(lines 375-377), a descriptor that is read again, taken over or evicted has
`isIOMANediting` set for the transfer by this caller (lines 384-385, 429-430,
455-459; the write at line 457 changes the device only), and nothing is
changed before the search is started again (line 481). -/
def FF_GetBuffer_begin (pIoman : FF_IOMAN D) (Sector Mode : Nat) : Selected × FF_IOMAN D :=
  match FF_GetBuffer_select pIoman Sector Mode with
  | Selected.hit i =>
    let p1 := setBuf pIoman i
      { pIoman.pBuffers i with NumHandles := (pIoman.pBuffers i).NumHandles + 1 }
    (Selected.hit i,
      setBuf p1 i { p1.pBuffers i with Persistance := (p1.pBuffers i).Persistance + 1 })
  | Selected.refresh i =>
    (Selected.refresh i, setBuf pIoman i { pIoman.pBuffers i with isIOMANediting := true })
  | Selected.takeOver i =>
    (Selected.takeOver i, setBuf pIoman i { pIoman.pBuffers i with isIOMANediting := true })
  | Selected.evict i =>
    (Selected.evict i, setBuf pIoman i { pIoman.pBuffers i with isIOMANediting := true })
  | Selected.retry => (Selected.retry, pIoman)

/-- The test of the sweep of `FF_FlushCache` (lines 305-306) over the remaining
slot indices: the first descriptor it writes. -/
def FF_FlushCache_select (pIoman : FF_IOMAN D) : List Nat → Option Nat
  | [] => none
  | i :: rest =>
    if (pIoman.pBuffers i).NumHandles = 0 ∧ (pIoman.pBuffers i).Mode = FF_MODE_WRITE then
      some i
    else FF_FlushCache_select pIoman rest

/-- A pool of two descriptors whose slot 0 holds sector 5 in mode Read, clean
and without handles: the pool reached from a fresh one when sector 5 is
acquired for Read and released. -/
def cleanReadPool : FF_IOMAN Disk :=
  ((runCalls 3 [Call.acquire 5 FF_MODE_READ, Call.release 0]
    (freshState 2 ramRead ramWrite)).get (by decide)).pIoman

/-- A pool of two descriptors whose slot 0 holds sector 5 in mode Write,
without handles: the pool reached from a fresh one when sector 5 is acquired
for Write, changed and released. -/
def writePool : FF_IOMAN Disk :=
  ((runCalls 3 [Call.acquire 5 FF_MODE_WRITE, Call.store 0 [42], Call.release 0]
    (freshState 2 ramRead ramWrite)).get (by decide)).pIoman

/-- Lines 659-671 of `FF_MountPartition` on the path through the partition
table: the pool once the block size read from descriptor `i0`, which holds
sector 0, and the start from the table are stored in the partition descriptor
and descriptor `i0` is released. -/
def FF_MountPartition_tablePool (pIoman : FF_IOMAN D) (i0 PartitionNumber : Nat) :
    FF_IOMAN D :=
  FF_ReleaseBuffer
    { pIoman with
      pPartition :=
        { pIoman.pPartition with
          BlkSize := FF_getShort (pIoman.pBuffers i0).pBuffer FF_FAT_BYTES_PER_SECTOR
          BeginLBA :=
            FF_MountPartition_tableLBA (pIoman.pBuffers i0).pBuffer PartitionNumber } } i0

/-- An image whose boot sector declares 10 sectors in total, 1 reserved sector
and 1 FAT of `0xFFFFFFFE` sectors (in the 32-bit field), with clusters of 1
sector: `2 ^ 32 - 1` sectors outside the data area. -/
def nearFullFatImage : Disk := fun s =>
  if s = 0 then bpbSector 512 1 1 1 0 10 0 0 0xFFFFFFFE 2
  else sectorOf (fun _ => 0)

/-! ## Lemmas on the descriptor array -/

/-- Reading a descriptor after an assignment. -/
@[simp]
theorem setBuf_pBuffers (p : FF_IOMAN D) (i : Nat) (b : FF_BUFFER) (k : Nat) :
    (setBuf p i b).pBuffers k = if k = i then b else p.pBuffers k := rfl

/-- An assignment to a descriptor keeps the pool size. -/
@[simp]
theorem setBuf_CacheSize (p : FF_IOMAN D) (i : Nat) (b : FF_BUFFER) :
    (setBuf p i b).CacheSize = p.CacheSize := rfl

/-- An assignment to a descriptor keeps the device. -/
@[simp]
theorem setBuf_pBlkDevice (p : FF_IOMAN D) (i : Nat) (b : FF_BUFFER) :
    (setBuf p i b).pBlkDevice = p.pBlkDevice := rfl

/-- The second search's marking loop leaves every descriptor as it was, except
that `Modified` is set on the Read descriptors of the sector of `i`. -/
theorem FF_GetBuffer_mark_pBuffers (i : Nat) (l : List Nat) (p : FF_IOMAN D) (k : Nat) :
    (FF_GetBuffer_mark i l p).pBuffers k =
      { p.pBuffers k with
        Modified := (p.pBuffers k).Modified ||
          decide (k ∈ l ∧ (p.pBuffers k).Sector = (p.pBuffers i).Sector
            ∧ (p.pBuffers k).Mode = FF_MODE_READ) } := by
  induction l generalizing p with
  | nil => simp [FF_GetBuffer_mark]
  | cons x rest ih =>
    unfold FF_GetBuffer_mark
    split_ifs with h
    · rw [ih]
      by_cases hk : k = x
      · subst hk
        by_cases hi : i = k
        · subst hi; simp [h]
        · simp [h, hi]
      · by_cases hi : i = x
        · subst hi; simp [hk]
        · simp [hk, hi]
    · rw [ih]
      by_cases hk : k = x
      · subst hk
        have : ¬ ((p.pBuffers k).Sector = (p.pBuffers i).Sector
            ∧ (p.pBuffers k).Mode = FF_MODE_READ) := h
        simp [this]
      · simp [hk]

/-- The marking loop of `FF_FlushCache` leaves every descriptor as it was, except
that `Modified` is set on the other Read descriptors of the sector of `i`. -/
theorem FF_FlushCache_mark_pBuffers (i : Nat) (l : List Nat) (p : FF_IOMAN D) (k : Nat) :
    (FF_FlushCache_mark i l p).pBuffers k =
      { p.pBuffers k with
        Modified := (p.pBuffers k).Modified ||
          decide (k ∈ l ∧ k ≠ i ∧ (p.pBuffers k).Sector = (p.pBuffers i).Sector
            ∧ (p.pBuffers k).Mode = FF_MODE_READ) } := by
  induction l generalizing p with
  | nil => simp [FF_FlushCache_mark]
  | cons x rest ih =>
    unfold FF_FlushCache_mark
    split_ifs with hx h
    · rw [ih]
      by_cases hk : k = x
      · subst hk; simp [h, hx]
      · have hix : ¬ i = x := fun e => hx e.symm
        simp [hk, hix]
    · rw [ih]
      by_cases hk : k = x
      · subst hk
        have : ¬ ((p.pBuffers k).Sector = (p.pBuffers i).Sector
            ∧ (p.pBuffers k).Mode = FF_MODE_READ) := h
        simp [this]
      · simp [hk]
    · rw [ih]
      have hx2 : x = i := not_not.mp hx
      by_cases hk : k = x
      · subst hk; simp [hx2]
      · simp [hk]

/-- The marking loop of `FF_FlushCache` keeps the pool size. -/
theorem FF_FlushCache_mark_CacheSize (i : Nat) (l : List Nat) (p : FF_IOMAN D) :
    (FF_FlushCache_mark i l p).CacheSize = p.CacheSize := by
  induction l generalizing p with
  | nil => rfl
  | cons x rest ih =>
    unfold FF_FlushCache_mark
    split_ifs <;> simp [ih]

/-- The marking loop of the second search keeps the pool size. -/
theorem FF_GetBuffer_mark_CacheSize (i : Nat) (l : List Nat) (p : FF_IOMAN D) :
    (FF_GetBuffer_mark i l p).CacheSize = p.CacheSize := by
  induction l generalizing p with
  | nil => rfl
  | cons x rest ih =>
    unfold FF_GetBuffer_mark
    split_ifs <;> simp [ih]

/-- What the sweep of `FF_FlushCache` over the indices `l` does to the
descriptors and which transfers it adds. -/
theorem FF_FlushCache_loop_spec (fuel : Nat) (l : List Nat) :
    ∀ (p : FF_IOMAN D) (w : D) (tr : List IOEvent) (q : FF_IOMAN D) (w1 : D)
      (tr1 : List IOEvent),
      FF_FlushCache_loop fuel l p w tr = some (q, w1, tr1) →
      q.CacheSize = p.CacheSize ∧
      (∀ k, (q.pBuffers k).NumHandles = (p.pBuffers k).NumHandles ∧
            (q.pBuffers k).Sector = (p.pBuffers k).Sector ∧
            (q.pBuffers k).pBuffer = (p.pBuffers k).pBuffer ∧
            (q.pBuffers k).Mode =
              if k ∈ l ∧ (p.pBuffers k).NumHandles = 0 ∧ (p.pBuffers k).Mode = FF_MODE_WRITE
              then FF_MODE_READ else (p.pBuffers k).Mode) ∧
      (∀ e ∈ tr1, e ∈ tr ∨ ∃ i ∈ l, ∃ rv, e = IOEvent.flush i (p.pBuffers i).Sector rv ∧
            (p.pBuffers i).NumHandles = 0 ∧ (p.pBuffers i).Mode = FF_MODE_WRITE) := by
  induction l with
  | nil =>
    intro p w tr q w1 tr1 h
    simp only [FF_FlushCache_loop, Option.some.injEq, Prod.mk.injEq] at h
    obtain ⟨rfl, rfl, rfl⟩ := h
    simp
  | cons i rest ih =>
    intro p w tr q w1 tr1 h
    rw [FF_FlushCache_loop] at h
    split_ifs at h with hc
    · dsimp only at h
      split at h
      · exact absurd h (by simp)
      · rename_i rv w2 hf
        obtain ⟨hcs, hk, htr⟩ := ih _ _ _ _ _ _ h
        refine ⟨?_, ?_, ?_⟩
        · simpa [FF_FlushCache_mark_CacheSize] using hcs
        · intro k
          obtain ⟨h1, h2, h3, h4⟩ := hk k
          simp only [FF_FlushCache_mark_pBuffers, setBuf_pBuffers] at h1 h2 h3 h4
          by_cases hki : k = i
          · subst hki
            simp at h1 h2 h3 h4
            simp [h1, h2, h3, h4, hc.1, hc.2]
          · simp [hki] at h1 h2 h3 h4
            simp [h1, h2, h3, h4, hki]
        · intro e he
          rcases htr e he with h5 | ⟨j, hj, rv2, hrv, hn, hm⟩
          · rcases List.mem_append.mp h5 with h6 | h6
            · exact Or.inl h6
            · right
              refine ⟨i, by simp, rv, ?_, hc.1, hc.2⟩
              simpa using h6
          · right
            simp only [FF_FlushCache_mark_pBuffers, setBuf_pBuffers] at hrv hn hm
            by_cases hji : j = i
            · subst hji
              simp [FF_MODE_READ, FF_MODE_WRITE] at hm
            · simp [hji] at hrv hn hm
              exact ⟨j, by simp [hj], rv2, hrv, hn, hm⟩
    · obtain ⟨hcs, hk, htr⟩ := ih _ _ _ _ _ _ h
      refine ⟨hcs, ?_, ?_⟩
      · intro k
        obtain ⟨h1, h2, h3, h4⟩ := hk k
        refine ⟨h1, h2, h3, ?_⟩
        rw [h4]
        by_cases hki : k = i
        · subst hki
          have : ¬ ((p.pBuffers k).NumHandles = 0 ∧ (p.pBuffers k).Mode = FF_MODE_WRITE) := hc
          simp [this]
        · simp [hki]
      · intro e he
        rcases htr e he with h5 | ⟨j, hj, rv2, hrv, hn, hm⟩
        · exact Or.inl h5
        · exact Or.inr ⟨j, by simp [hj], rv2, hrv, hn, hm⟩

/-! ## The device read -/

/-- The retry loop of `FF_IOMAN_FillBuffer` never ends on the busy answer. -/
theorem FF_IOMAN_FillBuffer_busy_ne (fn : FF_READ_BLOCKS D) (Sector pParam : Nat) (fuel : Nat) :
    ∀ (buf : Block) (w : D) (a : Int) (buf1 : Block) (w1 : D),
      FF_IOMAN_FillBuffer_busy fn Sector pParam fuel buf w = some (a, buf1, w1) →
      a ≠ FF_ERR_DRIVER_BUSY := by
  induction fuel with
  | zero => intro buf w a buf1 w1 h; simp [FF_IOMAN_FillBuffer_busy] at h
  | succ n ih =>
    intro buf w a buf1 w1 h
    rw [FF_IOMAN_FillBuffer_busy] at h
    split at h
    rename_i rv b2 w2 hfn
    split_ifs at h with hb
    · exact ih _ _ _ _ _ h
    · simp only [Option.some.injEq, Prod.mk.injEq] at h
      obtain ⟨rfl, -, -⟩ := h
      exact hb

/-- The function `FF_IOMAN_FillBuffer` gives 0 or -1, and it gives -1 exactly when the read
callback is missing or its last answer is negative or a block count other
than 1. -/
theorem FF_IOMAN_FillBuffer_spec (fuel : Nat) (p : FF_IOMAN D) (Sector : Nat) (buf : Block)
    (w : D) (rv : Int) (buf1 : Block) (w1 : D)
    (h : FF_IOMAN_FillBuffer fuel p Sector buf w = some (rv, buf1, w1)) :
    (rv = 0 ∨ rv = -1) ∧
    (rv ≠ 0 ↔
      (p.pBlkDevice.fnReadBlocks = none ∨
        ∃ fn a, p.pBlkDevice.fnReadBlocks = some fn ∧
          FF_IOMAN_FillBuffer_busy fn Sector p.pBlkDevice.pParam fuel buf w = some (a, buf1, w1) ∧
          a ≠ FF_ERR_DRIVER_BUSY ∧ (a < 0 ∨ a ≠ 1))) := by
  unfold FF_IOMAN_FillBuffer at h
  split at h
  · rename_i fn hfn
    split at h
    · exact absurd h (by simp)
    · rename_i a b2 w2 hb
      have hnb := FF_IOMAN_FillBuffer_busy_ne fn Sector _ fuel _ _ _ _ _ hb
      split_ifs at h with h1 h2
      · simp only [Option.some.injEq, Prod.mk.injEq] at h
        obtain ⟨rfl, rfl, rfl⟩ := h
        refine ⟨Or.inr rfl, ?_⟩
        constructor
        · intro _
          exact Or.inr ⟨fn, a, hfn, hb, hnb, Or.inl h1⟩
        · intro _
          decide
      · simp only [Option.some.injEq, Prod.mk.injEq] at h
        obtain ⟨rfl, rfl, rfl⟩ := h
        refine ⟨Or.inl rfl, ?_⟩
        constructor
        · intro hcon
          exact absurd rfl hcon
        · intro hcon
          rcases hcon with hnone | ⟨fn2, a2, hfn2, hb2, -, ha2⟩
          · rw [hfn] at hnone
            exact absurd hnone (by simp)
          · rw [hfn] at hfn2
            simp only [Option.some.injEq] at hfn2
            subst hfn2
            rw [hb] at hb2
            simp only [Option.some.injEq, Prod.mk.injEq] at hb2
            obtain ⟨rfl, -, -⟩ := hb2
            omega
      · simp only [Option.some.injEq, Prod.mk.injEq] at h
        obtain ⟨rfl, rfl, rfl⟩ := h
        refine ⟨Or.inr rfl, ?_⟩
        constructor
        · intro _
          exact Or.inr ⟨fn, a, hfn, hb, hnb, Or.inr h2⟩
        · intro _
          decide
  · rename_i hfn
    simp only [Option.some.injEq, Prod.mk.injEq] at h
    obtain ⟨rfl, rfl, rfl⟩ := h
    refine ⟨Or.inr rfl, ?_⟩
    constructor
    · intro _
      exact Or.inl hfn
    · intro _
      decide

/-! ## The four ways `FF_GetBuffer` hands out or refuses a descriptor -/

/-- A refresh (lines 384-401) reads the sector once into slot `i` and touches no
other descriptor. -/
theorem FF_GetBuffer_refresh_spec (fuel : Nat) (p : FF_IOMAN D) (w : D) (Sector i : Nat)
    (r : GetBufferResult D) (h : FF_GetBuffer_refresh fuel p w Sector i = some r) :
    ∃ rv buf, r.trace = [IOEvent.fill i Sector rv] ∧ r.pIoman.CacheSize = p.CacheSize ∧
      (∀ k, k ≠ i → r.pIoman.pBuffers k = p.pBuffers k) ∧
      ((rv ≠ 0 ∧ r.ret = none ∧
          r.pIoman.pBuffers i =
            { p.pBuffers i with pBuffer := buf, isIOMANediting := false }) ∨
       (rv = 0 ∧ r.ret = some i ∧
          r.pIoman.pBuffers i =
            { p.pBuffers i with
              pBuffer := buf, isIOMANediting := false, Modified := false,
              NumHandles := (p.pBuffers i).NumHandles + 1,
              Persistance := (p.pBuffers i).Persistance + 1 })) := by
  unfold FF_GetBuffer_refresh at h
  dsimp only at h
  split at h
  · exact absurd h (by simp)
  · rename_i rv buf w1 hf
    refine ⟨rv, buf, ?_⟩
    split_ifs at h with hrv
    · simp only [Option.some.injEq] at h
      subst h
      refine ⟨rfl, rfl, ?_, Or.inl ⟨hrv, rfl, ?_⟩⟩
      · intro k hk; simp [hk]
      · simp
    · simp only [Option.some.injEq] at h
      subst h
      refine ⟨rfl, rfl, ?_, Or.inr ⟨not_not.mp hrv, rfl, ?_⟩⟩
      · intro k hk; simp [hk]
      · simp

/-- A take-over (lines 429-445) writes slot `i` once, always returns it, and
marks the Read descriptors of its sector. -/
theorem FF_GetBuffer_takeOver_spec (fuel : Nat) (p : FF_IOMAN D) (w : D) (Sector Mode i : Nat)
    (r : GetBufferResult D) (h : FF_GetBuffer_takeOver fuel p w Sector Mode i = some r) :
    ∃ rv, r.trace = [IOEvent.flush i Sector rv] ∧ r.ret = some i ∧
      r.pIoman.CacheSize = p.CacheSize ∧
      (∀ k, k ≠ i → r.pIoman.pBuffers k =
        { p.pBuffers k with
          Modified := (p.pBuffers k).Modified ||
            decide (k < p.CacheSize ∧ (p.pBuffers k).Sector = (p.pBuffers i).Sector
              ∧ (p.pBuffers k).Mode = FF_MODE_READ) }) ∧
      r.pIoman.pBuffers i =
        { p.pBuffers i with
          isIOMANediting := false, NumHandles := 1, Mode := Mode,
          Modified := (p.pBuffers i).Modified ||
            decide (i < p.CacheSize ∧ (p.pBuffers i).Mode = FF_MODE_READ) } := by
  unfold FF_GetBuffer_takeOver at h
  dsimp only at h
  split at h
  · exact absurd h (by simp)
  · rename_i rv w1 hf
    simp only [Option.some.injEq] at h
    subst h
    refine ⟨rv, rfl, rfl, ?_, ?_, ?_⟩
    · simp [FF_GetBuffer_mark_CacheSize]
    · intro k hk
      simp [FF_GetBuffer_mark_pBuffers, hk]
    · simp [FF_GetBuffer_mark_pBuffers]

/-- An eviction (lines 455-477) writes slot `i` back when its mode is Write,
reads the requested sector once into it and touches no other descriptor. -/
theorem FF_GetBuffer_evict_spec (fuel : Nat) (p : FF_IOMAN D) (w : D) (Sector Mode i : Nat)
    (r : GetBufferResult D) (h : FF_GetBuffer_evict fuel p w Sector Mode i = some r) :
    ∃ rv buf tr0, r.trace = tr0 ++ [IOEvent.fill i Sector rv] ∧
      (∀ e ∈ tr0, ∃ rv0, e = IOEvent.flush i (p.pBuffers i).Sector rv0 ∧
        (p.pBuffers i).Mode = FF_MODE_WRITE) ∧
      r.pIoman.CacheSize = p.CacheSize ∧
      (∀ k, k ≠ i → r.pIoman.pBuffers k = p.pBuffers k) ∧
      ((rv ≠ 0 ∧ r.ret = none ∧
          r.pIoman.pBuffers i =
            { p.pBuffers i with pBuffer := buf, isIOMANediting := false }) ∨
       (rv = 0 ∧ r.ret = some i ∧
          r.pIoman.pBuffers i =
            { p.pBuffers i with
              pBuffer := buf, isIOMANediting := false, Mode := Mode, Persistance := 1,
              NumHandles := 1, Sector := Sector, Modified := false })) := by
  unfold FF_GetBuffer_evict at h
  dsimp only at h
  split at h
  · exact absurd h (by simp)
  · rename_i w1 tr0 hfl
    split at h
    · exact absurd h (by simp)
    · rename_i rv buf w2 hf
      have htr0 : ∀ e ∈ tr0, ∃ rv0, e = IOEvent.flush i (p.pBuffers i).Sector rv0 ∧
          (p.pBuffers i).Mode = FF_MODE_WRITE := by
        intro e he
        split_ifs at hfl with hm
        · split at hfl
          · exact absurd hfl (by simp)
          · rename_i rv0 w3 hf0
            simp only [Option.some.injEq, Prod.mk.injEq] at hfl
            obtain ⟨-, rfl⟩ := hfl
            simp at he hm
            exact ⟨rv0, by simp [he], hm⟩
        · simp only [Option.some.injEq, Prod.mk.injEq] at hfl
          obtain ⟨-, rfl⟩ := hfl
          simp at he
      refine ⟨rv, buf, tr0, ?_⟩
      split_ifs at h with hrv
      · simp only [Option.some.injEq] at h
        subst h
        refine ⟨rfl, htr0, rfl, ?_, Or.inl ⟨hrv, rfl, ?_⟩⟩
        · intro k hk; simp [hk]
        · simp
      · simp only [Option.some.injEq] at h
        subst h
        refine ⟨rfl, htr0, rfl, ?_, Or.inr ⟨not_not.mp hrv, rfl, ?_⟩⟩
        · intro k hk; simp [hk]
        · simp

/-- A refresh whose device read ends with a failure does return, with NULL. -/
theorem FF_GetBuffer_refresh_fail (fuel : Nat) (p : FF_IOMAN D) (w : D) (Sector i : Nat)
    (rv : Int) (buf : Block) (w1 : D)
    (hfill : FF_IOMAN_FillBuffer fuel
      (setBuf p i { p.pBuffers i with isIOMANediting := true }) Sector
      (p.pBuffers i).pBuffer w = some (rv, buf, w1))
    (hrv : rv ≠ 0) :
    ∃ r, FF_GetBuffer_refresh fuel p w Sector i = some r ∧ r.ret = none ∧
      r.trace = [IOEvent.fill i Sector rv] := by
  unfold FF_GetBuffer_refresh
  simp only [setBuf_pBuffers, if_true]
  rw [hfill]
  simp [hrv]

/-- An eviction of a descriptor that is not in mode Write whose device read ends
with a failure does return, with NULL. -/
theorem FF_GetBuffer_evict_fail (fuel : Nat) (p : FF_IOMAN D) (w : D) (Sector Mode i : Nat)
    (rv : Int) (buf : Block) (w1 : D)
    (hmode : (p.pBuffers i).Mode ≠ FF_MODE_WRITE)
    (hfill : FF_IOMAN_FillBuffer fuel
      (setBuf p i { p.pBuffers i with isIOMANediting := true }) Sector
      (p.pBuffers i).pBuffer w = some (rv, buf, w1))
    (hrv : rv ≠ 0) :
    ∃ r, FF_GetBuffer_evict fuel p w Sector Mode i = some r ∧ r.ret = none ∧
      r.trace = [IOEvent.fill i Sector rv] := by
  unfold FF_GetBuffer_evict
  simp only [setBuf_pBuffers, if_true, hmode, if_false]
  rw [hfill]
  simp [hrv]

/-! ## The searches of `FF_GetBuffer` -/

/-- A first search that returns did so at a Read descriptor of the sector: as a
clean hit or after a refresh. -/
theorem FF_GetBuffer_readSearch_some (fuel : Nat) (p : FF_IOMAN D) (w : D) (Sector : Nat)
    (r : GetBufferResult D) (l : List Nat)
    (h : FF_GetBuffer_readSearch fuel p w Sector l = some (some r)) :
    ∃ i ∈ l, (p.pBuffers i).Sector = Sector ∧ (p.pBuffers i).Mode = FF_MODE_READ ∧
      (((p.pBuffers i).Modified = false ∧ (p.pBuffers i).isIOMANediting = false ∧
          r = FF_GetBuffer_hit p w i) ∨
       (¬ ((p.pBuffers i).Modified = false ∧ (p.pBuffers i).isIOMANediting = false) ∧
          (p.pBuffers i).NumHandles = 0 ∧
          FF_GetBuffer_refresh fuel p w Sector i = some r)) := by
  induction l with
  | nil => simp [FF_GetBuffer_readSearch] at h
  | cons i rest ih =>
    rw [FF_GetBuffer_readSearch] at h
    split_ifs at h with h1 h2 h3
    · simp only [Option.some.injEq] at h
      exact ⟨i, by simp, h1.1, h1.2, Or.inl ⟨h2.1, h2.2, h.symm⟩⟩
    · obtain ⟨a, ha, hr⟩ := Option.map_eq_some'.mp h
      simp only [Option.some.injEq] at hr
      subst hr
      exact ⟨i, by simp, h1.1, h1.2, Or.inr ⟨h2, h3, ha⟩⟩
    · obtain ⟨j, hj, hrest⟩ := ih h
      exact ⟨j, by simp [hj], hrest⟩
    · obtain ⟨j, hj, hrest⟩ := ih h
      exact ⟨j, by simp [hj], hrest⟩

/-- A second search that returns took over a Write descriptor of the sector that
had no handles and was not in service. -/
theorem FF_GetBuffer_writeSearch_some (fuel : Nat) (p : FF_IOMAN D) (w : D) (Sector Mode : Nat)
    (r : GetBufferResult D) (l : List Nat)
    (h : FF_GetBuffer_writeSearch fuel p w Sector Mode l = some (some r)) :
    ∃ i ∈ l, (p.pBuffers i).Sector = Sector ∧ (p.pBuffers i).isIOMANediting = false ∧
      (p.pBuffers i).Mode = FF_MODE_WRITE ∧ (p.pBuffers i).NumHandles = 0 ∧
      FF_GetBuffer_takeOver fuel p w Sector Mode i = some r := by
  induction l with
  | nil => simp [FF_GetBuffer_writeSearch] at h
  | cons i rest ih =>
    rw [FF_GetBuffer_writeSearch] at h
    split_ifs at h with h1 h2
    · obtain ⟨a, ha, hr⟩ := Option.map_eq_some'.mp h
      simp only [Option.some.injEq] at hr
      subst hr
      exact ⟨i, by simp, h1.1, h1.2, h2.1, h2.2, ha⟩
    · obtain ⟨j, hj, hrest⟩ := ih h
      exact ⟨j, by simp [hj], hrest⟩
    · obtain ⟨j, hj, hrest⟩ := ih h
      exact ⟨j, by simp [hj], hrest⟩

/-- A third search that returns evicted a descriptor that had no handles and was
not in service. -/
theorem FF_GetBuffer_freeSearch_some (fuel : Nat) (p : FF_IOMAN D) (w : D) (Sector Mode : Nat)
    (r : GetBufferResult D) (l : List Nat)
    (h : FF_GetBuffer_freeSearch fuel p w Sector Mode l = some (some r)) :
    ∃ i ∈ l, (p.pBuffers i).NumHandles = 0 ∧ (p.pBuffers i).isIOMANediting = false ∧
      FF_GetBuffer_evict fuel p w Sector Mode i = some r := by
  induction l with
  | nil => simp [FF_GetBuffer_freeSearch] at h
  | cons i rest ih =>
    rw [FF_GetBuffer_freeSearch] at h
    split_ifs at h with h1
    · obtain ⟨a, ha, hr⟩ := Option.map_eq_some'.mp h
      simp only [Option.some.injEq] at hr
      subst hr
      exact ⟨i, by simp, h1.1, h1.2, ha⟩
    · obtain ⟨j, hj, hrest⟩ := ih h
      exact ⟨j, by simp [hj], hrest⟩

/-- A round of the `while(1)` that returns ended at one of the four `return`
sites. -/
theorem FF_GetBuffer_pass_some (fuel : Nat) (p : FF_IOMAN D) (w : D) (Sector Mode : Nat)
    (r : GetBufferResult D) (hv : FF_IOMAN_ModeValid Mode = true)
    (h : FF_GetBuffer_pass fuel p w Sector Mode = some (some r)) :
    GetBufferCase fuel p w Sector Mode r := by
  unfold FF_GetBuffer_pass at h
  dsimp only at h
  split at h
  · exact absurd h (by simp)
  · rename_i r1 h1
    simp only [Option.some.injEq] at h
    subst h
    split_ifs at h1 with hm
    · obtain ⟨i, hi, hs, hmd, hcase⟩ := FF_GetBuffer_readSearch_some fuel p w Sector r1 _ h1
      have hi2 : i < p.CacheSize := List.mem_range.mp hi
      rcases hcase with ⟨hc1, hc2, hr⟩ | ⟨hc, hn, hr⟩
      · exact GetBufferCase.hit i hi2 hm hs hmd hc1 hc2 hr
      · exact GetBufferCase.refresh i hi2 hm hs hmd hc hn hr
    · simp at h1
  · split at h
    · exact absurd h (by simp)
    · rename_i r1 h1
      simp only [Option.some.injEq] at h
      subst h
      obtain ⟨i, hi, hs, he, hmd, hn, hr⟩ :=
        FF_GetBuffer_writeSearch_some fuel p w Sector Mode r1 _ h1
      exact GetBufferCase.takeOver i (List.mem_range.mp hi) hv hs he hmd hn hr
    · obtain ⟨i, hi, hn, he, hr⟩ := FF_GetBuffer_freeSearch_some fuel p w Sector Mode r _ h
      exact GetBufferCase.evict i (List.mem_range.mp hi) hv hn he hr

/-- The `while(1)` returns what one of its rounds returns; a round that does not
return leaves the pool as it was. -/
theorem FF_GetBuffer_loop_some (fuel : Nat) (p : FF_IOMAN D) (w : D) (Sector Mode : Nat)
    (r : GetBufferResult D) (rounds : Nat)
    (h : FF_GetBuffer_loop fuel p w Sector Mode rounds = some r) :
    FF_GetBuffer_pass fuel p w Sector Mode = some (some r) := by
  induction rounds with
  | zero => simp [FF_GetBuffer_loop] at h
  | succ n ih =>
    rw [FF_GetBuffer_loop] at h
    split at h
    · exact absurd h (by simp)
    · rename_i r1 h1
      simp only [Option.some.injEq] at h
      subst h
      exact h1
    · exact ih h

/-- Every call of `FF_GetBuffer` that comes back ended at the mode check or at
one of the four `return` sites. -/
theorem FF_GetBuffer_cases (fuel : Nat) (p : FF_IOMAN D) (w : D) (Sector Mode : Nat)
    (r : GetBufferResult D) (h : FF_GetBuffer fuel p w Sector Mode = some r) :
    GetBufferCase fuel p w Sector Mode r := by
  unfold FF_GetBuffer at h
  split_ifs at h with hv
  · simp only [Option.some.injEq] at h
    exact GetBufferCase.invalid hv h.symm
  · have hv2 : FF_IOMAN_ModeValid Mode = true := by
      cases hb : FF_IOMAN_ModeValid Mode
      · exact absurd hb hv
      · rfl
    exact FF_GetBuffer_pass_some fuel p w Sector Mode r hv2
      (FF_GetBuffer_loop_some fuel p w Sector Mode r fuel h)

/-! ## No descriptor is in service between two calls -/

/-- The initialisation loop over the indices `l` resets exactly the descriptors
in `l`. -/
theorem FF_IOMAN_InitBufferDescriptors_fold (l : List Nat) (p : FF_IOMAN D) :
    ((l.foldl (fun p i =>
      setBuf p i
        { ID := i
          ContextID := 0
          Mode := 0
          NumHandles := 0
          Persistance := 0
          Sector := 0
          pBuffer := (p.pBuffers i).pBuffer
          Modified := false
          isIOMANediting := false }) p).CacheSize = p.CacheSize) ∧
    ∀ k, k ∈ l →
      ((l.foldl (fun p i =>
        setBuf p i
          { ID := i
            ContextID := 0
            Mode := 0
            NumHandles := 0
            Persistance := 0
            Sector := 0
            pBuffer := (p.pBuffers i).pBuffer
            Modified := false
            isIOMANediting := false }) p).pBuffers k) =
        { ID := k, ContextID := 0, Mode := 0, NumHandles := 0, Persistance := 0, Sector := 0,
          pBuffer := (p.pBuffers k).pBuffer, Modified := false, isIOMANediting := false } := by
  induction l using List.reverseRecOn generalizing p with
  | nil => simp
  | append_singleton rest x ih =>
    simp only [List.foldl_append, List.foldl_cons, List.foldl_nil, setBuf_CacheSize,
      setBuf_pBuffers, List.mem_append, List.mem_singleton]
    refine ⟨(ih p).1, ?_⟩
    intro k hk
    by_cases hkx : k = x
    · subst hkx
      simp only [if_true]
      by_cases hkr : k ∈ rest
      · rw [(ih p).2 k hkr]
      · have : ∀ (l : List Nat) (q : FF_IOMAN D), k ∉ l →
            ((l.foldl (fun p i =>
              setBuf p i
                { ID := i
                  ContextID := 0
                  Mode := 0
                  NumHandles := 0
                  Persistance := 0
                  Sector := 0
                  pBuffer := (p.pBuffers i).pBuffer
                  Modified := false
                  isIOMANediting := false }) q).pBuffers k) = q.pBuffers k := by
          intro l
          induction l with
          | nil => intro q _; rfl
          | cons y ys ih2 =>
            intro q hq
            simp only [List.mem_cons, not_or] at hq
            simp only [List.foldl_cons]
            rw [ih2 _ hq.2]
            simp [hq.1]
        rw [this rest p hkr]
    · simp only [hkx, if_false]
      rcases hk with hk | hk
      · exact (ih p).2 k hk
      · exact absurd hk hkx

/-- The descriptors of a freshly initialised pool. -/
theorem FF_IOMAN_InitBufferDescriptors_spec (p : FF_IOMAN D) :
    (FF_IOMAN_InitBufferDescriptors p).CacheSize = p.CacheSize ∧
    ∀ k, k < p.CacheSize →
      (FF_IOMAN_InitBufferDescriptors p).pBuffers k =
        { ID := k, ContextID := 0, Mode := 0, NumHandles := 0, Persistance := 0, Sector := 0,
          pBuffer := (p.pBuffers k).pBuffer, Modified := false, isIOMANediting := false } := by
  unfold FF_IOMAN_InitBufferDescriptors
  refine ⟨(FF_IOMAN_InitBufferDescriptors_fold _ p).1, ?_⟩
  intro k hk
  exact (FF_IOMAN_InitBufferDescriptors_fold _ p).2 k (List.mem_range.mpr hk)

/-- The sweep of `FF_FlushCache` puts no descriptor in service. -/
theorem FF_FlushCache_loop_idle (fuel : Nat) (l : List Nat) :
    ∀ (p : FF_IOMAN D) (w : D) (tr : List IOEvent) (q : FF_IOMAN D) (w1 : D)
      (tr1 : List IOEvent),
      FF_FlushCache_loop fuel l p w tr = some (q, w1, tr1) →
      ∀ k, (q.pBuffers k).isIOMANediting = true → (p.pBuffers k).isIOMANediting = true := by
  induction l with
  | nil =>
    intro p w tr q w1 tr1 h
    simp only [FF_FlushCache_loop, Option.some.injEq, Prod.mk.injEq] at h
    obtain ⟨rfl, rfl, rfl⟩ := h
    simp
  | cons i rest ih =>
    intro p w tr q w1 tr1 h
    rw [FF_FlushCache_loop] at h
    split_ifs at h with hc
    · dsimp only at h
      split at h
      · exact absurd h (by simp)
      · intro k hk
        have h1 := ih _ _ _ _ _ _ h k hk
        simp only [FF_FlushCache_mark_pBuffers, setBuf_pBuffers] at h1
        by_cases hki : k = i
        · subst hki; simp at h1
        · simpa [hki] using h1
    · exact ih _ _ _ _ _ _ h

/-- The sweep `FF_FlushCache` puts no descriptor in service and keeps the pool size. -/
theorem FF_FlushCache_idle (fuel : Nat) (p : FF_IOMAN D) (w : D) (r : FlushCacheResult D)
    (h : FF_FlushCache fuel p w = some r) :
    r.pIoman.CacheSize = p.CacheSize ∧
    ∀ k, (r.pIoman.pBuffers k).isIOMANediting = true → (p.pBuffers k).isIOMANediting = true := by
  unfold FF_FlushCache at h
  split at h
  · exact absurd h (by simp)
  · rename_i q w1 tr hl
    simp only [Option.some.injEq] at h
    subst h
    exact ⟨(FF_FlushCache_loop_spec fuel _ _ _ _ _ _ _ hl).1,
      FF_FlushCache_loop_idle fuel _ _ _ _ _ _ _ hl⟩

/-- A call of `FF_GetBuffer` puts no descriptor in service and keeps the pool size. -/
theorem FF_GetBuffer_idle (fuel : Nat) (p : FF_IOMAN D) (w : D) (Sector Mode : Nat)
    (r : GetBufferResult D) (h : FF_GetBuffer fuel p w Sector Mode = some r) :
    r.pIoman.CacheSize = p.CacheSize ∧
    ∀ k, (r.pIoman.pBuffers k).isIOMANediting = true → (p.pBuffers k).isIOMANediting = true := by
  cases FF_GetBuffer_cases fuel p w Sector Mode r h with
  | invalid hv hr => subst hr; simp
  | hit i hi hm hs hmd hc1 hc2 hr =>
    subst hr
    refine ⟨rfl, ?_⟩
    intro k
    by_cases hki : k = i
    · subst hki; simp [FF_GetBuffer_hit]
    · simp [FF_GetBuffer_hit, hki]
  | refresh i hi hm hs hmd hc hn hr =>
    obtain ⟨rv, buf, -, hcs, hframe, hcase⟩ := FF_GetBuffer_refresh_spec fuel p w Sector i r hr
    refine ⟨hcs, ?_⟩
    intro k
    by_cases hki : k = i
    · subst hki
      rcases hcase with ⟨-, -, hslot⟩ | ⟨-, -, hslot⟩ <;> rw [hslot] <;> simp
    · rw [hframe k hki]; exact id
  | takeOver i hi hv hs he hmd hn hr =>
    obtain ⟨rv, -, -, hcs, hframe, hslot⟩ := FF_GetBuffer_takeOver_spec fuel p w Sector Mode i r hr
    refine ⟨hcs, ?_⟩
    intro k
    by_cases hki : k = i
    · subst hki; rw [hslot]; simp
    · rw [hframe k hki]; exact id
  | evict i hi hv hn he hr =>
    obtain ⟨rv, buf, tr0, -, -, hcs, hframe, hcase⟩ :=
      FF_GetBuffer_evict_spec fuel p w Sector Mode i r hr
    refine ⟨hcs, ?_⟩
    intro k
    by_cases hki : k = i
    · subst hki
      rcases hcase with ⟨-, -, hslot⟩ | ⟨-, -, hslot⟩ <;> rw [hslot] <;> simp
    · rw [hframe k hki]; exact id

/-- In every state reached from a freshly initialised pool by calls that run one
after the other, no descriptor is in service. -/
theorem runCalls_idle (fuel : Nat) (cs : List Call) :
    ∀ (s s1 : RunState D), runCalls fuel cs s = some s1 →
      (∀ k, k < s.pIoman.CacheSize → (s.pIoman.pBuffers k).isIOMANediting = false) →
      s1.pIoman.CacheSize = s.pIoman.CacheSize ∧
      (∀ k, k < s1.pIoman.CacheSize → (s1.pIoman.pBuffers k).isIOMANediting = false) := by
  induction cs with
  | nil =>
    intro s s1 h hidle
    simp only [runCalls, Option.some.injEq] at h
    subst h
    exact ⟨rfl, hidle⟩
  | cons c rest ih =>
    intro s s1 h hidle
    rw [runCalls] at h
    split at h
    · exact absurd h (by simp)
    · rename_i s2 hc
      have hstep : s2.pIoman.CacheSize = s.pIoman.CacheSize ∧
          (∀ k, (s2.pIoman.pBuffers k).isIOMANediting = true →
            (s.pIoman.pBuffers k).isIOMANediting = true) := by
        cases c with
        | acquire Sector Mode =>
          simp only [runCall] at hc
          split at hc
          · exact absurd hc (by simp)
          · rename_i r hr
            simp only [Option.some.injEq] at hc
            subst hc
            exact FF_GetBuffer_idle fuel _ _ _ _ r hr
        | release i =>
          simp only [runCall, Option.some.injEq] at hc
          subst hc
          refine ⟨rfl, ?_⟩
          intro k
          by_cases hki : k = i
          · subst hki; simp [FF_ReleaseBuffer]
          · simp [FF_ReleaseBuffer, hki]
        | store i b =>
          simp only [runCall, Option.some.injEq] at hc
          subst hc
          refine ⟨rfl, ?_⟩
          intro k
          by_cases hki : k = i
          · subst hki; simp [storeBuffer]
          · simp [storeBuffer, hki]
        | flushCache =>
          simp only [runCall] at hc
          split at hc
          · exact absurd hc (by simp)
          · rename_i r hr
            simp only [Option.some.injEq] at hc
            subst hc
            exact FF_FlushCache_idle fuel _ _ r hr
      have hidle2 : ∀ k, k < s2.pIoman.CacheSize →
          (s2.pIoman.pBuffers k).isIOMANediting = false := by
        intro k hk
        rw [hstep.1] at hk
        cases hb : (s2.pIoman.pBuffers k).isIOMANediting
        · rfl
        · have := hstep.2 k hb
          rw [hidle k hk] at this
          exact absurd this (by simp)
      obtain ⟨h1, h2⟩ := ih s2 s1 h hidle2
      exact ⟨h1.trans hstep.1, h2⟩

/-! ## Claims -/

/-- A call of `FF_FlushCache` that returns gives 0 and the state its sweep ends in. -/
theorem FF_FlushCache_some (fuel : Nat) (p : FF_IOMAN D) (w : D) (r : FlushCacheResult D)
    (h : FF_FlushCache fuel p w = some r) :
    r.ret = 0 ∧
    FF_FlushCache_loop fuel (List.range p.CacheSize) p w [] = some (r.pIoman, r.world, r.trace) := by
  unfold FF_FlushCache at h
  split at h
  · exact absurd h (by simp)
  · rename_i q w1 tr hl
    simp only [Option.some.injEq] at h
    subst h
    exact ⟨rfl, hl⟩

/-- C4: after `FF_FlushCache` returns, whatever the write callback did, no
descriptor has mode Write without handles; every descriptor that had mode Write
without handles has mode Read, and every descriptor with handles keeps its
mode. -/
theorem flushCache_downgrades_unpinned_writes (fuel : Nat) (p : FF_IOMAN D) (w : D)
    (r : FlushCacheResult D) (h : FF_FlushCache fuel p w = some r) :
    (∀ k, k < p.CacheSize →
      ¬ ((r.pIoman.pBuffers k).Mode = FF_MODE_WRITE ∧ (r.pIoman.pBuffers k).NumHandles = 0)) ∧
    (∀ k, k < p.CacheSize → (p.pBuffers k).Mode = FF_MODE_WRITE →
      (p.pBuffers k).NumHandles = 0 → (r.pIoman.pBuffers k).Mode = FF_MODE_READ) ∧
    (∀ k, 0 < (p.pBuffers k).NumHandles →
      (r.pIoman.pBuffers k).Mode = (p.pBuffers k).Mode) := by
  obtain ⟨-, hl⟩ := FF_FlushCache_some fuel p w r h
  obtain ⟨-, hk, -⟩ := FF_FlushCache_loop_spec fuel _ _ _ _ _ _ _ hl
  refine ⟨?_, ?_, ?_⟩
  · intro k hlt
    obtain ⟨h1, -, -, h4⟩ := hk k
    rw [h1, h4]
    have hmem : k ∈ List.range p.CacheSize := List.mem_range.mpr hlt
    by_cases hc : (p.pBuffers k).NumHandles = 0 ∧ (p.pBuffers k).Mode = FF_MODE_WRITE
    · simp [hmem, hc, FF_MODE_READ, FF_MODE_WRITE]
    · simp only [hmem, true_and, hc, if_false]
      intro hcon
      exact hc ⟨hcon.2, hcon.1⟩
  · intro k hlt hm hn
    obtain ⟨-, -, -, h4⟩ := hk k
    rw [h4]
    simp [List.mem_range.mpr hlt, hm, hn]
  · intro k hpos
    obtain ⟨-, -, -, h4⟩ := hk k
    rw [h4]
    have : ¬ (p.pBuffers k).NumHandles = 0 := Nat.pos_iff_ne_zero.mp hpos
    simp [this]

/-- Witness of C4 on a dirty pool whose device write fails. -/
theorem flushCache_downgrades_unpinned_writes_witness :
    FF_FlushCache 3 dirtyPool exDisk = some dirtyFlushed ∧
    (dirtyPool.pBuffers 0).Mode = FF_MODE_WRITE ∧
    (dirtyFlushed.pIoman.pBuffers 0).Mode = FF_MODE_READ :=
  ⟨(Option.some_get _).symm, by decide,
   (flushCache_downgrades_unpinned_writes 3 dirtyPool exDisk dirtyFlushed
      (Option.some_get _).symm).2.1 0 (by decide) (by decide) (by decide)⟩

/-- C5: a descriptor with handles is never evicted or repurposed. `FF_GetBuffer`
leaves its sector, mode and bytes as they were and its handle count grows by at
most one (the clean Read hit); `FF_FlushCache` leaves its sector, mode, bytes
and handle count as they were. -/
theorem pinned_slot_is_kept (fuel : Nat) (p : FF_IOMAN D) (w : D) (k : Nat)
    (hk : 0 < (p.pBuffers k).NumHandles) :
    (∀ Sector Mode r, FF_GetBuffer fuel p w Sector Mode = some r →
      (r.pIoman.pBuffers k).Sector = (p.pBuffers k).Sector ∧
      (r.pIoman.pBuffers k).Mode = (p.pBuffers k).Mode ∧
      (r.pIoman.pBuffers k).pBuffer = (p.pBuffers k).pBuffer ∧
      (p.pBuffers k).NumHandles ≤ (r.pIoman.pBuffers k).NumHandles ∧
      (r.pIoman.pBuffers k).NumHandles ≤ (p.pBuffers k).NumHandles + 1 ∧
      (p.pBuffers k).Persistance ≤ (r.pIoman.pBuffers k).Persistance) ∧
    (∀ r, FF_FlushCache fuel p w = some r →
      (r.pIoman.pBuffers k).Sector = (p.pBuffers k).Sector ∧
      (r.pIoman.pBuffers k).Mode = (p.pBuffers k).Mode ∧
      (r.pIoman.pBuffers k).pBuffer = (p.pBuffers k).pBuffer ∧
      (r.pIoman.pBuffers k).NumHandles = (p.pBuffers k).NumHandles) := by
  have hne : ¬ (p.pBuffers k).NumHandles = 0 := Nat.pos_iff_ne_zero.mp hk
  constructor
  · intro Sector Mode r h
    cases FF_GetBuffer_cases fuel p w Sector Mode r h with
    | invalid hv hr => subst hr; simp
    | hit i hi hm hs hmd hc1 hc2 hr =>
      subst hr
      by_cases hki : k = i
      · subst hki; simp [FF_GetBuffer_hit]
      · simp [FF_GetBuffer_hit, hki]
    | refresh i hi hm hs hmd hc hn hr =>
      obtain ⟨rv, buf, -, -, hframe, -⟩ := FF_GetBuffer_refresh_spec fuel p w Sector i r hr
      have hki : k ≠ i := fun e => hne (e ▸ hn)
      simp [hframe k hki]
    | takeOver i hi hv hs he hmd hn hr =>
      obtain ⟨rv, -, -, -, hframe, -⟩ := FF_GetBuffer_takeOver_spec fuel p w Sector Mode i r hr
      have hki : k ≠ i := fun e => hne (e ▸ hn)
      simp [hframe k hki]
    | evict i hi hv hn he hr =>
      obtain ⟨rv, buf, tr0, -, -, -, hframe, -⟩ :=
        FF_GetBuffer_evict_spec fuel p w Sector Mode i r hr
      have hki : k ≠ i := fun e => hne (e ▸ hn)
      simp [hframe k hki]
  · intro r h
    obtain ⟨-, hl⟩ := FF_FlushCache_some fuel p w r h
    obtain ⟨-, hspec, -⟩ := FF_FlushCache_loop_spec fuel _ _ _ _ _ _ _ hl
    obtain ⟨h1, h2, h3, h4⟩ := hspec k
    refine ⟨h2, ?_, h3, h1⟩
    rw [h4]
    simp [hne]

/-- Witness of C5: slot 0 of `pinnedPool` survives a request for another sector
and a sweep of `FF_FlushCache`. -/
theorem pinned_slot_is_kept_witness :
    0 < (pinnedPool.pBuffers 0).NumHandles ∧
    FF_GetBuffer 3 pinnedPool exDisk 7 FF_MODE_READ = some pinnedAcquired ∧
    pinnedAcquired.ret = some 1 ∧
    (pinnedAcquired.pIoman.pBuffers 0).Sector = 5 ∧
    FF_FlushCache 3 pinnedPool exDisk = some pinnedFlushed ∧
    (pinnedFlushed.pIoman.pBuffers 0).Sector = (pinnedPool.pBuffers 0).Sector :=
  ⟨by decide, (Option.some_get _).symm, by decide,
   ((pinned_slot_is_kept 3 pinnedPool exDisk 0 (by decide)).1 7 FF_MODE_READ pinnedAcquired
      (Option.some_get _).symm).1,
   (Option.some_get _).symm,
   ((pinned_slot_is_kept 3 pinnedPool exDisk 0 (by decide)).2 pinnedFlushed
      (Option.some_get _).symm).1⟩

/-- C6: the descriptor `FF_GetBuffer` returns matches the request: it holds the
requested sector in the requested mode, has at least one handle and is not in
service; a Write request gets a descriptor in mode Write with exactly one
handle, never a Read descriptor. -/
theorem getBuffer_returns_matching_slot (fuel : Nat) (p : FF_IOMAN D) (w : D)
    (Sector Mode : Nat) (r : GetBufferResult D) (i : Nat)
    (h : FF_GetBuffer fuel p w Sector Mode = some r) (hret : r.ret = some i) :
    (Mode = FF_MODE_READ ∨ Mode = FF_MODE_WRITE) ∧
    (r.pIoman.pBuffers i).Sector = Sector ∧
    (r.pIoman.pBuffers i).Mode = Mode ∧
    1 ≤ (r.pIoman.pBuffers i).NumHandles ∧
    (r.pIoman.pBuffers i).isIOMANediting = false ∧
    (Mode = FF_MODE_WRITE →
      (r.pIoman.pBuffers i).Mode ≠ FF_MODE_READ ∧ (r.pIoman.pBuffers i).NumHandles = 1) := by
  have hvalid : ∀ M, FF_IOMAN_ModeValid M = true → (M = FF_MODE_READ ∨ M = FF_MODE_WRITE) := by
    intro M hM
    unfold FF_IOMAN_ModeValid at hM
    split_ifs at hM with hh
    exact hh
  have hrw : FF_MODE_READ ≠ FF_MODE_WRITE := by decide
  cases FF_GetBuffer_cases fuel p w Sector Mode r h with
  | invalid hv hr => subst hr; simp at hret
  | hit j hj hm hs hmd hc1 hc2 hr =>
    subst hr
    have hij : j = i := by simpa [FF_GetBuffer_hit] using hret
    subst hij
    subst hm
    refine ⟨Or.inl rfl, ?_, ?_, ?_, ?_, ?_⟩
    · simpa [FF_GetBuffer_hit] using hs
    · simpa [FF_GetBuffer_hit] using hmd
    · simp [FF_GetBuffer_hit]
    · simpa [FF_GetBuffer_hit] using hc2
    · intro hcon; exact absurd hcon hrw
  | refresh j hj hm hs hmd hc hn hr =>
    obtain ⟨rv, buf, -, -, -, hcase⟩ := FF_GetBuffer_refresh_spec fuel p w Sector j r hr
    subst hm
    rcases hcase with ⟨-, hnone, -⟩ | ⟨-, hsome, hslot⟩
    · rw [hnone] at hret; simp at hret
    · rw [hsome] at hret
      simp only [Option.some.injEq] at hret
      subst hret
      rw [hslot]
      refine ⟨Or.inl rfl, hs, hmd, by simp, rfl, ?_⟩
      intro hcon; exact absurd hcon hrw
  | takeOver j hj hv hs he hmd hn hr =>
    obtain ⟨rv, -, hsome, -, -, hslot⟩ := FF_GetBuffer_takeOver_spec fuel p w Sector Mode j r hr
    rw [hsome] at hret
    simp only [Option.some.injEq] at hret
    subst hret
    rw [hslot]
    refine ⟨hvalid Mode hv, hs, rfl, by simp, rfl, ?_⟩
    intro hcon
    exact ⟨by simp [hcon, FF_MODE_READ, FF_MODE_WRITE], rfl⟩
  | evict j hj hv hn he hr =>
    obtain ⟨rv, buf, tr0, -, -, -, -, hcase⟩ :=
      FF_GetBuffer_evict_spec fuel p w Sector Mode j r hr
    rcases hcase with ⟨-, hnone, -⟩ | ⟨-, hsome, hslot⟩
    · rw [hnone] at hret; simp at hret
    · rw [hsome] at hret
      simp only [Option.some.injEq] at hret
      subst hret
      rw [hslot]
      refine ⟨hvalid Mode hv, rfl, rfl, by simp, rfl, ?_⟩
      intro hcon
      exact ⟨by simp [hcon, FF_MODE_READ, FF_MODE_WRITE], rfl⟩

/-- Witness of C6: a Write request for sector 5 on a fresh pool. -/
theorem getBuffer_returns_matching_slot_witness :
    FF_GetBuffer 3 (freshPool 2 ramRead ramWrite) exDisk 5 FF_MODE_WRITE = some freshAcquired ∧
    freshAcquired.ret = some 0 ∧
    (freshAcquired.pIoman.pBuffers 0).Sector = 5 ∧
    (freshAcquired.pIoman.pBuffers 0).Mode = FF_MODE_WRITE :=
  ⟨(Option.some_get _).symm, by decide,
   (getBuffer_returns_matching_slot 3 (freshPool 2 ramRead ramWrite) exDisk 5 FF_MODE_WRITE
      freshAcquired 0 (Option.some_get _).symm (by decide)).2.1,
   (getBuffer_returns_matching_slot 3 (freshPool 2 ramRead ramWrite) exDisk 5 FF_MODE_WRITE
      freshAcquired 0 (Option.some_get _).symm (by decide)).2.2.1⟩

/-- C7: when the device read of `FF_GetBuffer` fails (`FF_IOMAN_FillBuffer` gives
a value other than 0: callback missing, negative answer, or a block count other
than 1) and no descriptor was in service before the call, the call returns
NULL, no descriptor is in service afterwards and every handle count is as
before. -/
theorem getBuffer_read_failure (fuel : Nat) (p : FF_IOMAN D) (w : D)
    (Sector Mode : Nat) (r : GetBufferResult D)
    (h : FF_GetBuffer fuel p w Sector Mode = some r)
    (hfail : ∃ j s rv, IOEvent.fill j s rv ∈ r.trace ∧ rv ≠ 0)
    (hidle : ∀ k, k < p.CacheSize → (p.pBuffers k).isIOMANediting = false) :
    r.ret = none ∧
    (∀ k, k < p.CacheSize → (r.pIoman.pBuffers k).isIOMANediting = false) ∧
    (∀ k, (r.pIoman.pBuffers k).NumHandles = (p.pBuffers k).NumHandles) := by
  obtain ⟨j, s, rv, hmem, hrv⟩ := hfail
  cases FF_GetBuffer_cases fuel p w Sector Mode r h with
  | invalid hv hr => subst hr; simp at hmem
  | hit i hi hm hs hmd hc1 hc2 hr => subst hr; simp [FF_GetBuffer_hit] at hmem
  | refresh i hi hm hs hmd hc hn hr =>
    obtain ⟨rv1, buf, htr, -, hframe, hcase⟩ := FF_GetBuffer_refresh_spec fuel p w Sector i r hr
    rw [htr] at hmem
    simp only [List.mem_singleton, IOEvent.fill.injEq] at hmem
    obtain ⟨-, -, hrv1⟩ := hmem
    subst hrv1
    rcases hcase with ⟨-, hnone, hslot⟩ | ⟨h0, -, -⟩
    · refine ⟨hnone, ?_, ?_⟩
      · intro k hk
        by_cases hki : k = i
        · subst hki; rw [hslot]
        · rw [hframe k hki]; exact hidle k hk
      · intro k
        by_cases hki : k = i
        · subst hki; rw [hslot]
        · rw [hframe k hki]
    · exact absurd h0 hrv
  | takeOver i hi hv hs he hmd hn hr =>
    obtain ⟨rv1, htr, -, -, -, -⟩ := FF_GetBuffer_takeOver_spec fuel p w Sector Mode i r hr
    rw [htr] at hmem
    simp at hmem
  | evict i hi hv hn he hr =>
    obtain ⟨rv1, buf, tr0, htr, htr0, -, hframe, hcase⟩ :=
      FF_GetBuffer_evict_spec fuel p w Sector Mode i r hr
    rw [htr] at hmem
    have hrv1 : rv = rv1 := by
      rcases List.mem_append.mp hmem with h1 | h1
      · obtain ⟨rv0, he0, -⟩ := htr0 _ h1
        exact absurd he0 (by simp)
      · simp only [List.mem_singleton, IOEvent.fill.injEq] at h1
        exact h1.2.2
    subst hrv1
    rcases hcase with ⟨-, hnone, hslot⟩ | ⟨h0, -, -⟩
    · refine ⟨hnone, ?_, ?_⟩
      · intro k hk
        by_cases hki : k = i
        · subst hki; rw [hslot]
        · rw [hframe k hki]; exact hidle k hk
      · intro k
        by_cases hki : k = i
        · subst hki; rw [hslot]
        · rw [hframe k hki]
    · exact absurd h0 hrv

/-- Witness of C7: a request for sector 9 on a device that cannot read it. -/
theorem getBuffer_read_failure_witness :
    FF_GetBuffer 3 (freshPool 1 failRead9 ramWrite) exDisk 9 FF_MODE_READ = some failedAcquire ∧
    IOEvent.fill 0 9 (-1) ∈ failedAcquire.trace ∧
    failedAcquire.ret = none ∧
    (failedAcquire.pIoman.pBuffers 0).NumHandles = 0 :=
  ⟨(Option.some_get _).symm, by decide,
   (getBuffer_read_failure 3 (freshPool 1 failRead9 ramWrite) exDisk 9 FF_MODE_READ failedAcquire
      (Option.some_get _).symm ⟨0, 9, -1, by decide, by decide⟩ (by decide)).1,
   (getBuffer_read_failure 3 (freshPool 1 failRead9 ramWrite) exDisk 9 FF_MODE_READ failedAcquire
      (Option.some_get _).symm ⟨0, 9, -1, by decide, by decide⟩ (by decide)).2.2 0⟩

/-- C9, as stated, fails: on a fresh pool of one descriptor whose device write
fails, sector 5 is acquired for Write, changed and released. `FF_FlushCache`
then issues one failing write and leaves the descriptor in mode Read, and so
does a Read request for sector 5; the disk still holds the old bytes. -/
theorem write_failure_keeps_write_mode_counterexample :
    ((runCalls 3 [Call.acquire 5 FF_MODE_WRITE, Call.store 0 [42], Call.release 0,
        Call.flushCache] (freshState 1 ramRead failWrite)).map
      (fun s : RunState Disk => (s.lastTrace, (s.pIoman.pBuffers 0).Mode, s.world 5)))
      = some ([IOEvent.flush 0 5 (-1)], FF_MODE_READ, [5]) ∧
    ((runCalls 3 [Call.acquire 5 FF_MODE_WRITE, Call.store 0 [42], Call.release 0,
        Call.acquire 5 FF_MODE_READ] (freshState 1 ramRead failWrite)).map
      (fun s : RunState Disk => (s.lastTrace, (s.pIoman.pBuffers 0).Mode, s.world 5)))
      = some ([IOEvent.flush 0 5 (-1)], FF_MODE_READ, [5]) ∧
    FF_MODE_READ ≠ FF_MODE_WRITE := by
  decide

/-- C9, amended: the value of the device write is not looked at. Whatever it is,
a descriptor written by `FF_FlushCache` has mode Read afterwards, and a Write
descriptor taken over by a Read request (the call whose only transfer is that
write) is returned in mode Read. -/
theorem write_result_is_ignored (fuel : Nat) (p : FF_IOMAN D) (w : D) :
    (∀ r i s rv, FF_FlushCache fuel p w = some r → IOEvent.flush i s rv ∈ r.trace →
      (r.pIoman.pBuffers i).Mode = FF_MODE_READ) ∧
    (∀ Sector r i rv, FF_GetBuffer fuel p w Sector FF_MODE_READ = some r →
      r.trace = [IOEvent.flush i Sector rv] →
      r.ret = some i ∧ (r.pIoman.pBuffers i).Mode = FF_MODE_READ) := by
  constructor
  · intro r i s rv h hmem
    obtain ⟨-, hl⟩ := FF_FlushCache_some fuel p w r h
    obtain ⟨-, hspec, htr⟩ := FF_FlushCache_loop_spec fuel _ _ _ _ _ _ _ hl
    rcases htr _ hmem with h1 | ⟨j, hj, rv2, he, hn, hm⟩
    · simp at h1
    · simp only [IOEvent.flush.injEq] at he
      obtain ⟨hij, -, -⟩ := he
      subst hij
      rw [(hspec i).2.2.2]
      simp [hj, hn, hm]
  · intro Sector r i rv h htr
    cases FF_GetBuffer_cases fuel p w Sector FF_MODE_READ r h with
    | invalid hv hr => subst hr; simp at htr
    | hit j hj hm hs hmd hc1 hc2 hr => subst hr; simp [FF_GetBuffer_hit] at htr
    | refresh j hj hm hs hmd hc hn hr =>
      obtain ⟨rv1, buf, htr1, -⟩ := FF_GetBuffer_refresh_spec fuel p w Sector j r hr
      rw [htr1] at htr
      simp at htr
    | takeOver j hj hv hs he hmd hn hr =>
      obtain ⟨rv1, htr1, hsome, -, -, hslot⟩ :=
        FF_GetBuffer_takeOver_spec fuel p w Sector FF_MODE_READ j r hr
      rw [htr1] at htr
      simp only [List.cons.injEq, IOEvent.flush.injEq, and_true] at htr
      obtain ⟨hji, -, -⟩ := htr
      subst hji
      exact ⟨hsome, by rw [hslot]⟩
    | evict j hj hv hn he hr =>
      obtain ⟨rv1, buf, tr0, htr1, -⟩ := FF_GetBuffer_evict_spec fuel p w Sector FF_MODE_READ j r hr
      have hmem : IOEvent.fill j Sector rv1 ∈ r.trace := by rw [htr1]; simp
      rw [htr] at hmem
      simp at hmem

/-- Witness of the amended C9 on `dirtyPool`, whose device write fails. -/
theorem write_result_is_ignored_witness :
    FF_FlushCache 3 dirtyPool exDisk = some dirtyFlushed ∧
    IOEvent.flush 0 5 (-1) ∈ dirtyFlushed.trace ∧
    (dirtyFlushed.pIoman.pBuffers 0).Mode = FF_MODE_READ ∧
    FF_GetBuffer 3 dirtyPool exDisk 5 FF_MODE_READ = some dirtyTaken ∧
    dirtyTaken.trace = [IOEvent.flush 0 5 (-1)] ∧
    (dirtyTaken.pIoman.pBuffers 0).Mode = FF_MODE_READ :=
  ⟨(Option.some_get _).symm, by decide,
   (write_result_is_ignored 3 dirtyPool exDisk).1 dirtyFlushed 0 5 (-1)
      (Option.some_get _).symm (by decide),
   (Option.some_get _).symm, by decide,
   ((write_result_is_ignored 3 dirtyPool exDisk).2 5 dirtyTaken 0 (-1)
      (Option.some_get _).symm (by decide)).2⟩

/-- C10, as stated, fails: on `dirtyPool` the device write of the only Write
descriptor reports a fatal error, yet `FF_FlushCache` returns 0 and a Read
request that flushes the descriptor returns it. -/
theorem device_failure_is_masked_counterexample :
    (dirtyPool.pBuffers 0).Mode = FF_MODE_WRITE ∧ (dirtyPool.pBuffers 0).NumHandles = 0 ∧
    FF_FlushCache 3 dirtyPool exDisk = some dirtyFlushed ∧
    dirtyFlushed.trace = [IOEvent.flush 0 5 (-1)] ∧ dirtyFlushed.ret = 0 ∧
    FF_GetBuffer 3 dirtyPool exDisk 5 FF_MODE_READ = some dirtyTaken ∧
    dirtyTaken.trace = [IOEvent.flush 0 5 (-1)] ∧ dirtyTaken.ret = some 0 :=
  ⟨by decide, by decide, (Option.some_get _).symm, by decide, by decide,
   (Option.some_get _).symm, by decide, by decide⟩

/-- C10, amended: `FF_FlushCache` returns 0 whatever the write callback reports,
and a valid `FF_GetBuffer` request none of whose device reads failed returns a
descriptor, whether or not a device write it issued failed. -/
theorem write_failure_not_reported (fuel : Nat) (p : FF_IOMAN D) (w : D) :
    (∀ r, FF_FlushCache fuel p w = some r → r.ret = 0) ∧
    (∀ Sector Mode r, FF_GetBuffer fuel p w Sector Mode = some r →
      FF_IOMAN_ModeValid Mode = true →
      (∀ j s rv, IOEvent.fill j s rv ∈ r.trace → rv = 0) → r.ret ≠ none) := by
  constructor
  · intro r h
    exact (FF_FlushCache_some fuel p w r h).1
  · intro Sector Mode r h hvalid hreads
    cases FF_GetBuffer_cases fuel p w Sector Mode r h with
    | invalid hv hr => rw [hv] at hvalid; exact absurd hvalid (by simp)
    | hit j hj hm hs hmd hc1 hc2 hr => subst hr; simp [FF_GetBuffer_hit]
    | refresh j hj hm hs hmd hc hn hr =>
      obtain ⟨rv1, buf, htr1, -, -, hcase⟩ := FF_GetBuffer_refresh_spec fuel p w Sector j r hr
      rcases hcase with ⟨hne, -, -⟩ | ⟨-, hsome, -⟩
      · exact absurd (hreads j Sector rv1 (by rw [htr1]; simp)) hne
      · rw [hsome]; simp
    | takeOver j hj hv hs he hmd hn hr =>
      obtain ⟨rv1, -, hsome, -⟩ := FF_GetBuffer_takeOver_spec fuel p w Sector Mode j r hr
      rw [hsome]; simp
    | evict j hj hv hn he hr =>
      obtain ⟨rv1, buf, tr0, htr1, -, -, -, hcase⟩ :=
        FF_GetBuffer_evict_spec fuel p w Sector Mode j r hr
      rcases hcase with ⟨hne, -, -⟩ | ⟨-, hsome, -⟩
      · exact absurd (hreads j Sector rv1 (by rw [htr1]; simp)) hne
      · rw [hsome]; simp

/-- Witness of the amended C10 on `dirtyPool`, whose device write fails. -/
theorem write_failure_not_reported_witness :
    FF_FlushCache 3 dirtyPool exDisk = some dirtyFlushed ∧ dirtyFlushed.ret = 0 ∧
    FF_GetBuffer 3 dirtyPool exDisk 5 FF_MODE_READ = some dirtyTaken ∧
    IOEvent.flush 0 5 (-1) ∈ dirtyTaken.trace ∧ dirtyTaken.ret ≠ none :=
  ⟨(Option.some_get _).symm,
   (write_failure_not_reported 3 dirtyPool exDisk).1 dirtyFlushed (Option.some_get _).symm,
   (Option.some_get _).symm, by decide,
   (write_failure_not_reported 3 dirtyPool exDisk).2 5 FF_MODE_READ dirtyTaken
      (Option.some_get _).symm (by decide) (by
        intro j s rv hmem
        have htr : dirtyTaken.trace = [IOEvent.flush 0 5 (-1)] := by decide
        rw [htr] at hmem
        simp at hmem)⟩

/-- C1 at its failing input: on a fresh pool of two descriptors, a Write request
for sector 5 returns slot 0; a second Write request for sector 5, issued while
that handle is held, returns slot 1. Both descriptors then hold sector 5 in
mode Write with one handle. -/
theorem second_write_acquire_gets_second_slot :
    ((runCalls 3 [Call.acquire 5 FF_MODE_WRITE] (freshState 2 ramRead ramWrite)).map
      (fun s : RunState Disk => (s.lastRet, view s 0)))
      = some (some 0, ⟨5, FF_MODE_WRITE, 1, false, false, [5]⟩) ∧
    ((runCalls 3 [Call.acquire 5 FF_MODE_WRITE, Call.acquire 5 FF_MODE_WRITE]
        (freshState 2 ramRead ramWrite)).map
      (fun s : RunState Disk => (s.lastRet, view s 0, view s 1)))
      = some (some 1, ⟨5, FF_MODE_WRITE, 1, false, false, [5]⟩,
                      ⟨5, FF_MODE_WRITE, 1, false, false, [5]⟩) := by
  decide

/-- C2 at its failing input: on a fresh pool of two descriptors, sectors 7 and 5
are read and released, so slot 1 caches sector 5 with the bytes `[5]`. Sector 5
is then acquired for Write (slot 0), the bytes `[42]` are stored and the handle
is released. The next Read request for sector 5 is a hit on slot 1: it performs
no device transfer and returns the old bytes `[5]`. -/
theorem read_after_write_returns_stale_bytes :
    ((runCalls 3 [Call.acquire 7 FF_MODE_READ, Call.acquire 5 FF_MODE_READ, Call.release 0,
        Call.release 1, Call.acquire 5 FF_MODE_WRITE] (freshState 2 ramRead ramWrite)).map
      (fun s : RunState Disk => (s.lastRet, view s 0, view s 1)))
      = some (some 0, ⟨5, FF_MODE_WRITE, 1, false, false, [5]⟩,
                      ⟨5, FF_MODE_READ, 0, false, false, [5]⟩) ∧
    ((runCalls 3 [Call.acquire 7 FF_MODE_READ, Call.acquire 5 FF_MODE_READ, Call.release 0,
        Call.release 1, Call.acquire 5 FF_MODE_WRITE, Call.store 0 [42], Call.release 0,
        Call.acquire 5 FF_MODE_READ] (freshState 2 ramRead ramWrite)).map
      (fun s : RunState Disk => (s.lastRet, s.lastTrace, view s 0, view s 1)))
      = some (some 1, [], ⟨5, FF_MODE_WRITE, 0, false, false, [42]⟩,
                          ⟨5, FF_MODE_READ, 1, false, false, [5]⟩) := by
  decide

/-- C3 at its failing input: slot 0 holds sector 5 in mode Write without handles
and slot 1 holds sector 5 in mode Read. A Read request for sector 9 evicts slot
0: it writes sector 5 to the device, and when it returns slot 1 still has
`Modified = false`. -/
theorem eviction_flush_marks_nothing :
    ((runCalls 3 [Call.acquire 7 FF_MODE_READ, Call.acquire 5 FF_MODE_READ, Call.release 0,
        Call.release 1, Call.acquire 5 FF_MODE_WRITE, Call.store 0 [42], Call.release 0]
        (freshState 2 ramRead ramWrite)).map
      (fun s : RunState Disk => (view s 0, view s 1)))
      = some (⟨5, FF_MODE_WRITE, 0, false, false, [42]⟩,
              ⟨5, FF_MODE_READ, 0, false, false, [5]⟩) ∧
    ((runCalls 3 [Call.acquire 7 FF_MODE_READ, Call.acquire 5 FF_MODE_READ, Call.release 0,
        Call.release 1, Call.acquire 5 FF_MODE_WRITE, Call.store 0 [42], Call.release 0,
        Call.acquire 9 FF_MODE_READ] (freshState 2 ramRead ramWrite)).map
      (fun s : RunState Disk => (s.lastRet, s.lastTrace, view s 1, s.world 5)))
      = some (some 0, [IOEvent.flush 0 5 0, IOEvent.fill 0 9 0],
              ⟨5, FF_MODE_READ, 0, false, false, [5]⟩, [42]) := by
  decide

/-- C8 at its failing input: on a pool of one descriptor, sector 5 is read and
released. A request for sector 9 evicts the slot and its device read fails,
leaving other bytes in the buffer while the descriptor still names sector 5,
mode Read, not modified. The next Read request for sector 5 is a hit: it
returns slot 0 without any device transfer, with the bytes of the failed
read. -/
theorem failed_eviction_slot_is_served_as_hit :
    ((runCalls 3 [Call.acquire 5 FF_MODE_READ, Call.release 0, Call.acquire 9 FF_MODE_READ]
        (freshState 1 failRead9 ramWrite)).map
      (fun s : RunState Disk => (s.lastRet, s.lastTrace, view s 0)))
      = some (none, [IOEvent.fill 0 9 (-1)], ⟨5, FF_MODE_READ, 0, false, false, [0xEE]⟩) ∧
    ((runCalls 3 [Call.acquire 5 FF_MODE_READ, Call.release 0, Call.acquire 9 FF_MODE_READ,
        Call.acquire 5 FF_MODE_READ] (freshState 1 failRead9 ramWrite)).map
      (fun s : RunState Disk => (s.lastRet, s.lastTrace, view s 0, s.world 5)))
      = some (some 0, [], ⟨5, FF_MODE_READ, 1, false, false, [0xEE]⟩, [5]) := by
  decide

/-! ## Release, registration and creation -/

/-- C11: on a descriptor with handles `FF_ReleaseBuffer` lowers the handle count
by exactly one and changes nothing else: the other fields of the descriptor,
every other descriptor, the pool size, the device and the partition are as
before; as a call it performs no device transfer and leaves the world as it
was, so a released Write descriptor stays in mode Write. -/
theorem releaseBuffer_only_decrements (fuel : Nat) (s : RunState D) (i : Nat)
    (h : 0 < (s.pIoman.pBuffers i).NumHandles) :
    ((FF_ReleaseBuffer s.pIoman i).pBuffers i).NumHandles + 1 =
      (s.pIoman.pBuffers i).NumHandles ∧
    (FF_ReleaseBuffer s.pIoman i).pBuffers i =
      { s.pIoman.pBuffers i with NumHandles := (s.pIoman.pBuffers i).NumHandles - 1 } ∧
    (∀ k, k ≠ i → (FF_ReleaseBuffer s.pIoman i).pBuffers k = s.pIoman.pBuffers k) ∧
    (FF_ReleaseBuffer s.pIoman i).CacheSize = s.pIoman.CacheSize ∧
    (FF_ReleaseBuffer s.pIoman i).BlkSize = s.pIoman.BlkSize ∧
    (FF_ReleaseBuffer s.pIoman i).pBlkDevice = s.pIoman.pBlkDevice ∧
    (FF_ReleaseBuffer s.pIoman i).pPartition = s.pIoman.pPartition ∧
    ∃ s1, runCall fuel s (Call.release i) = some s1 ∧
      s1.pIoman = FF_ReleaseBuffer s.pIoman i ∧ s1.world = s.world ∧ s1.lastTrace = [] := by
  refine ⟨?_, ?_, ?_, rfl, rfl, rfl, rfl, ?_⟩
  · simp only [FF_ReleaseBuffer, setBuf_pBuffers, if_true]
    omega
  · simp [FF_ReleaseBuffer]
  · intro k hk
    simp [FF_ReleaseBuffer, hk]
  · exact ⟨_, rfl, rfl, rfl, rfl⟩

/-- Witness of C11: the handle of slot 0 of `pinnedPool` is released. -/
theorem releaseBuffer_only_decrements_witness :
    0 < (pinnedPool.pBuffers 0).NumHandles ∧
    ((FF_ReleaseBuffer pinnedPool 0).pBuffers 0).NumHandles + 1 =
      (pinnedPool.pBuffers 0).NumHandles :=
  ⟨by decide,
   (releaseBuffer_only_decrements 3
      { pIoman := pinnedPool, world := exDisk, lastRet := none, lastTrace := [] } 0
      (by decide)).1⟩

/-- C12, as stated, fails: after a first registration that succeeded, a further
call with block size 0 returns `FF_ERR_IOMAN_DEV_INVALID_BLKSIZE`, not
`FF_ERR_IOMAN_DEV_ALREADY_REGD`; and after a first registration that succeeded
with NULL callbacks and a NULL context, a further call succeeds again and
installs its callbacks. -/
theorem second_registration_counterexample :
    FF_RegisterBlkDevice unregistered 512 (some ramWrite) (some ramRead) 1
      = Except.ok (FF_ERROR.FF_ERR_NONE, registered) ∧
    returned (FF_RegisterBlkDevice registered 0 (some ramWrite) (some ramRead) 1)
      = some FF_ERROR.FF_ERR_IOMAN_DEV_INVALID_BLKSIZE ∧
    FF_ERROR.FF_ERR_IOMAN_DEV_INVALID_BLKSIZE ≠ FF_ERROR.FF_ERR_IOMAN_DEV_ALREADY_REGD ∧
    FF_RegisterBlkDevice unregistered 1024 none none 0
      = Except.ok (FF_ERROR.FF_ERR_NONE,
          { unregistered with
            pBlkDevice :=
              { devBlkSize := 1024, fnReadBlocks := none, fnWriteBlocks := none,
                pParam := 0 } }) ∧
    FF_RegisterBlkDevice
        { unregistered with
          pBlkDevice :=
            { devBlkSize := 1024, fnReadBlocks := none, fnWriteBlocks := none, pParam := 0 } }
        512 (some ramWrite) (some ramRead) 1
      = Except.ok (FF_ERROR.FF_ERR_NONE, registered) :=
  ⟨rfl, rfl, by decide, rfl, rfl⟩

/-- C12, amended: after a registration that succeeded with a read callback, a
write callback or a context that is not NULL, every further call returns and
leaves the manager, hence the registered block size, callbacks and context, as
it is; it returns `FF_ERR_IOMAN_DEV_ALREADY_REGD` when its block size is a
positive multiple of 512 and of the block size of the manager, and
`FF_ERR_IOMAN_DEV_INVALID_BLKSIZE` otherwise. -/
theorem registered_device_is_kept (p p1 : FF_IOMAN D) (BlkSize : Nat)
    (wr : Option (FF_WRITE_BLOCKS D)) (rd : Option (FF_READ_BLOCKS D)) (pParam : Nat)
    (h : FF_RegisterBlkDevice p BlkSize wr rd pParam = Except.ok (FF_ERROR.FF_ERR_NONE, p1))
    (hset : rd.isSome = true ∨ wr.isSome = true ∨ pParam ≠ 0) :
    ∀ (BlkSize2 : Nat) (wr2 : Option (FF_WRITE_BLOCKS D)) (rd2 : Option (FF_READ_BLOCKS D))
      (pParam2 : Nat),
      ∃ e, FF_RegisterBlkDevice p1 BlkSize2 wr2 rd2 pParam2 = Except.ok (e, p1) ∧
        ((BlkSize2 % 512 = 0 ∧ BlkSize2 % p1.BlkSize = 0 ∧ 0 < BlkSize2) →
          e = FF_ERROR.FF_ERR_IOMAN_DEV_ALREADY_REGD) ∧
        (¬ (BlkSize2 % 512 = 0 ∧ BlkSize2 % p1.BlkSize = 0 ∧ 0 < BlkSize2) →
          e = FF_ERROR.FF_ERR_IOMAN_DEV_INVALID_BLKSIZE) := by
  unfold FF_RegisterBlkDevice at h
  split_ifs at h with h1 h2 h3 h4 h5 h6 <;>
    simp only [Except.ok.injEq, Prod.mk.injEq, true_and, reduceCtorEq, false_and] at h
  subst h
  intro B2 wr2 rd2 pp2
  unfold FF_RegisterBlkDevice
  simp only
  by_cases c1 : B2 % 512 ≠ 0 ∨ B2 = 0
  · refine ⟨FF_ERROR.FF_ERR_IOMAN_DEV_INVALID_BLKSIZE, by simp [c1], ?_, fun _ => rfl⟩
    intro hv
    rcases c1 with c | c
    · exact absurd hv.1 c
    · omega
  · rw [if_neg c1, if_neg h2]
    by_cases c2 : B2 % p.BlkSize ≠ 0 ∨ B2 = 0
    · refine ⟨FF_ERROR.FF_ERR_IOMAN_DEV_INVALID_BLKSIZE, by simp [c2], ?_, fun _ => rfl⟩
      intro hv
      rcases c2 with c | c
      · exact absurd hv.2.1 c
      · omega
    · rw [if_neg c2]
      refine ⟨FF_ERROR.FF_ERR_IOMAN_DEV_ALREADY_REGD, ?_, fun _ => rfl, ?_⟩
      · rcases hset with hs | hs | hs
        · simp [hs]
        · by_cases hr : rd.isSome = true
          · simp [hr]
          · simp [hr, hs]
        · by_cases hr : rd.isSome = true
          · simp [hr]
          · by_cases hw : wr.isSome = true
            · simp [hr, hw]
            · simp [hr, hw, hs]
      · intro hn
        exfalso
        apply hn
        simp only [not_or, not_not] at c1 c2
        exact ⟨c1.1, c2.1, Nat.pos_of_ne_zero c1.2⟩

/-- Witness of the amended C12: a second registration on `registered`. -/
theorem registered_device_is_kept_witness :
    FF_RegisterBlkDevice unregistered 512 (some ramWrite) (some ramRead) 1
      = Except.ok (FF_ERROR.FF_ERR_NONE, registered) ∧
    ∃ e, FF_RegisterBlkDevice registered 1024 (some failWrite) (some failRead9) 2
        = Except.ok (e, registered) ∧
      ((1024 % 512 = 0 ∧ 1024 % registered.BlkSize = 0 ∧ 0 < 1024) →
        e = FF_ERROR.FF_ERR_IOMAN_DEV_ALREADY_REGD) ∧
      (¬ (1024 % 512 = 0 ∧ 1024 % registered.BlkSize = 0 ∧ 0 < 1024) →
        e = FF_ERROR.FF_ERR_IOMAN_DEV_INVALID_BLKSIZE) :=
  ⟨rfl,
   registered_device_is_kept unregistered registered 512 (some ramWrite) (some ramRead) 1 rfl
     (Or.inl rfl) 1024 (some failWrite) (some failRead9) 2⟩

/-- The count of descriptors `FF_CreateIOMAN` stores is the quotient reduced to
eight bits. -/
theorem FF_CreateIOMAN_CacheSize (raw : FF_IOMAN D) (m : Mallocs) (c : Bool) (Size BlkSize : Nat)
    (p : FF_IOMAN D) (h : FF_CreateIOMAN raw m c Size BlkSize = Except.ok (some p)) :
    p.CacheSize = (Size / BlkSize) % 256 ∧ p.BlkSize = BlkSize ∧
    BlkSize % 512 = 0 ∧ 0 < BlkSize ∧ Size % BlkSize = 0 ∧ 0 < Size := by
  unfold FF_CreateIOMAN at h
  split_ifs at h with h1 h2 h3 h4 h5 h6 h7 h8 <;>
    simp only [Except.ok.injEq, Option.some.injEq, reduceCtorEq] at h
  subst h
  simp only [not_or, not_not] at h1 h3
  refine ⟨?_, ?_, h1.1, Nat.pos_of_ne_zero h2, h3.1, Nat.pos_of_ne_zero h1.2⟩
  · rw [(FF_IOMAN_InitBufferDescriptors_spec _).1]
  · unfold FF_IOMAN_InitBufferDescriptors
    generalize List.range _ = l
    induction l using List.reverseRecOn with
    | nil => rfl
    | append_singleton rest x ih => simpa [List.foldl_append, setBuf] using ih

/-- A manager without descriptors never hands one out: every search is empty
and the `while(1)` of `FF_GetBuffer` goes on. -/
theorem FF_GetBuffer_no_descriptors (fuel : Nat) (p : FF_IOMAN D) (w : D) (Sector Mode : Nat)
    (hcs : p.CacheSize = 0) (hv : FF_IOMAN_ModeValid Mode = true) :
    FF_GetBuffer fuel p w Sector Mode = none := by
  have hpass : FF_GetBuffer_pass fuel p w Sector Mode = some none := by
    unfold FF_GetBuffer_pass
    simp only [hcs, List.range_zero, FF_GetBuffer_readSearch, FF_GetBuffer_writeSearch,
      FF_GetBuffer_freeSearch, ite_self]
  have hloop : ∀ n, FF_GetBuffer_loop fuel p w Sector Mode n = none := by
    intro n
    induction n with
    | zero => rfl
    | succ k ih =>
      unfold FF_GetBuffer_loop
      rw [hpass]
      exact ih
  unfold FF_GetBuffer
  rw [if_neg (by rw [hv]; decide)]
  exact hloop fuel

/-- The function `FF_CreateIOMAN` returns NULL for a cache size of 0 and for a cache size
that is not a multiple of a block size other than 0. -/
theorem FF_CreateIOMAN_rejects (raw : FF_IOMAN D) (m : Mallocs) (c : Bool) (Size BlkSize : Nat)
    (h : Size = 0 ∨ (BlkSize ≠ 0 ∧ Size % BlkSize ≠ 0)) :
    FF_CreateIOMAN raw m c Size BlkSize = Except.ok none := by
  unfold FF_CreateIOMAN
  rcases h with h | ⟨h1, h2⟩
  · simp [h]
  · by_cases c1 : BlkSize % 512 ≠ 0 ∨ Size = 0
    · rw [if_pos c1]
    · rw [if_neg c1, if_neg h1, if_pos (Or.inl h2)]

/-- C13 at its failing input: a cache of 131072 bytes in blocks of 512 bytes is
accepted by `FF_CreateIOMAN` and has N = 256 blocks, but the manager created
stores the count 0; no acquisition on it ever returns. -/
theorem createIOMAN_truncates_cache_size :
    (131072 : Nat) % 512 = 0 ∧ (131072 : Nat) / 512 = 256 ∧
    createdCacheSize (FF_CreateIOMAN rawManager allMallocs false 131072 512) = some 0 ∧
    ∃ m, FF_CreateIOMAN rawManager allMallocs false 131072 512 = Except.ok (some m) ∧
      m.CacheSize = 0 ∧
      ∀ (fuel : Nat) (w : Disk) (Sector : Nat),
        FF_GetBuffer fuel m w Sector FF_MODE_READ = none ∧
        FF_GetBuffer fuel m w Sector FF_MODE_WRITE = none :=
  ⟨by decide, by decide, by decide, _, rfl, rfl, fun fuel w Sector =>
    ⟨FF_GetBuffer_no_descriptors fuel _ w Sector FF_MODE_READ rfl rfl,
     FF_GetBuffer_no_descriptors fuel _ w Sector FF_MODE_WRITE rfl rfl⟩⟩

/-- C14 at its failing input: with a block size of 0 and a cache size that is
not 0 (512, or any `Size + 1`), the first check of `FF_CreateIOMAN` passes and
the second check takes the remainder of the cache size by 0. -/
theorem createIOMAN_zero_block_size_divides (raw : FF_IOMAN D) (m : Mallocs) (c : Bool)
    (Size : Nat) :
    FF_CreateIOMAN raw m c 512 0 = Except.error Fault.divisionByZero ∧
    FF_CreateIOMAN raw m c (Size + 1) 0 = Except.error Fault.divisionByZero := by
  unfold FF_CreateIOMAN
  simp

/-! ## Acquisitions on a cache that agrees with the image -/

/-- An assignment to a descriptor leaves the block size of the manager. -/
@[simp]
theorem setBuf_BlkSize (p : FF_IOMAN D) (i : Nat) (b : FF_BUFFER) :
    (setBuf p i b).BlkSize = p.BlkSize := rfl

/-- An assignment to a descriptor leaves the partition descriptor. -/
@[simp]
theorem setBuf_pPartition (p : FF_IOMAN D) (i : Nat) (b : FF_BUFFER) :
    (setBuf p i b).pPartition = p.pPartition := rfl

/-- The marking loop of `FF_GetBuffer` changes descriptors only. -/
theorem FF_GetBuffer_mark_frame (i : Nat) (l : List Nat) (p : FF_IOMAN D) :
    (FF_GetBuffer_mark i l p).BlkSize = p.BlkSize ∧
    (FF_GetBuffer_mark i l p).pPartition = p.pPartition ∧
    (FF_GetBuffer_mark i l p).pBlkDevice = p.pBlkDevice := by
  induction l generalizing p with
  | nil => exact ⟨rfl, rfl, rfl⟩
  | cons x rest ih =>
    unfold FF_GetBuffer_mark
    split_ifs
    · simpa using ih (setBuf p x { p.pBuffers x with Modified := true })
    · exact ih p

/-- The function `FF_GetBuffer` changes descriptors only: the block size, the partition
descriptor, the device and the count of descriptors stay. -/
theorem FF_GetBuffer_frame (fuel : Nat) (p : FF_IOMAN D) (w : D) (Sector Mode : Nat)
    (r : GetBufferResult D) (h : FF_GetBuffer fuel p w Sector Mode = some r) :
    r.pIoman.BlkSize = p.BlkSize ∧ r.pIoman.pPartition = p.pPartition ∧
    r.pIoman.pBlkDevice = p.pBlkDevice ∧ r.pIoman.CacheSize = p.CacheSize := by
  cases FF_GetBuffer_cases fuel p w Sector Mode r h with
  | invalid hv hr => subst hr; exact ⟨rfl, rfl, rfl, rfl⟩
  | hit i hi hm hs hmd hc1 hc2 hr => subst hr; exact ⟨rfl, rfl, rfl, rfl⟩
  | refresh i hi hm hs hmd hc hn hr =>
    unfold FF_GetBuffer_refresh at hr
    dsimp only at hr
    split at hr
    · exact absurd hr (by simp)
    · split_ifs at hr <;>
        (simp only [Option.some.injEq] at hr; subst hr; exact ⟨rfl, rfl, rfl, rfl⟩)
  | takeOver i hi hv hs he hmd hn hr =>
    unfold FF_GetBuffer_takeOver at hr
    dsimp only at hr
    split at hr
    · exact absurd hr (by simp)
    · simp only [Option.some.injEq] at hr
      subst hr
      obtain ⟨h1, h2, h3⟩ := FF_GetBuffer_mark_frame i
        (List.range (setBuf (setBuf p i { p.pBuffers i with isIOMANediting := true }) i
          { (setBuf p i { p.pBuffers i with isIOMANediting := true }).pBuffers i with
            isIOMANediting := false }).CacheSize)
        (setBuf (setBuf p i { p.pBuffers i with isIOMANediting := true }) i
          { (setBuf p i { p.pBuffers i with isIOMANediting := true }).pBuffers i with
            isIOMANediting := false })
      refine ⟨?_, ?_, ?_, ?_⟩
      · simpa using h1
      · simpa using h2
      · simpa using h3
      · simp [FF_GetBuffer_mark_CacheSize]
  | evict i hi hv hn he hr =>
    unfold FF_GetBuffer_evict at hr
    dsimp only at hr
    split at hr
    · exact absurd hr (by simp)
    · split at hr
      · exact absurd hr (by simp)
      · split_ifs at hr <;>
          (simp only [Option.some.injEq] at hr; subst hr
           exact ⟨by simp, by simp, by simp, by simp⟩)

/-- On a device that serves the image a read, when it ends, gives 0, the bytes
of the sector and the device as it was. -/
theorem FF_IOMAN_FillBuffer_serves (fuel : Nat) (p : FF_IOMAN D) (w : D) (img : Nat → Block)
    (hs : Serves p w img) (Sector : Nat) (buf : Block) (x : Int × Block × D)
    (h : FF_IOMAN_FillBuffer fuel p Sector buf w = some x) : x = (0, img Sector, w) := by
  obtain ⟨rd, hrd, hserve⟩ := hs
  unfold FF_IOMAN_FillBuffer at h
  rw [hrd] at h
  cases fuel with
  | zero => simp [FF_IOMAN_FillBuffer_busy] at h
  | succ n =>
    simp [FF_IOMAN_FillBuffer_busy, hserve, FF_ERR_DRIVER_BUSY] at h
    exact h.symm

/-- On a device that serves the image a read with fuel does end. -/
theorem FF_IOMAN_FillBuffer_serves_some (fuel : Nat) (p : FF_IOMAN D) (w : D)
    (img : Nat → Block) (hs : Serves p w img) (Sector : Nat) (buf : Block) (hfuel : 0 < fuel) :
    FF_IOMAN_FillBuffer fuel p Sector buf w = some (0, img Sector, w) := by
  obtain ⟨rd, hrd, hserve⟩ := hs
  unfold FF_IOMAN_FillBuffer
  rw [hrd]
  cases fuel with
  | zero => exact absurd hfuel (by decide)
  | succ n => simp [FF_IOMAN_FillBuffer_busy, hserve, FF_ERR_DRIVER_BUSY]

/-- A release keeps the agreement of the cache with the image. -/
theorem Coherent_release (img : Nat → Block) (p : FF_IOMAN D) (w : D) (i : Nat)
    (hc : Coherent img p w) : Coherent img (FF_ReleaseBuffer p i) w := by
  obtain ⟨hs, hslots⟩ := hc
  refine ⟨hs, ?_⟩
  intro k hk
  have hk2 := hslots k hk
  unfold FF_ReleaseBuffer
  by_cases hki : k = i
  · subst hki; simpa using hk2
  · simpa [hki] using hk2

/-- A Read acquisition on a cache that agrees with the image, when it ends,
hands out a descriptor with the bytes the image has at the sector; it reads
that sector only, writes nothing, and the cache agrees with the image
afterwards. -/
theorem FF_GetBuffer_coherent (fuel : Nat) (p : FF_IOMAN D) (w : D) (img : Nat → Block)
    (hc : Coherent img p w) (Sector : Nat) (r : GetBufferResult D)
    (h : FF_GetBuffer fuel p w Sector FF_MODE_READ = some r) :
    r.world = w ∧ Coherent img r.pIoman w ∧
    (∀ e ∈ r.trace, ∃ k, e = IOEvent.fill k Sector 0) ∧
    ∃ i, r.ret = some i ∧ i < p.CacheSize ∧ (r.pIoman.pBuffers i).pBuffer = img Sector := by
  obtain ⟨hs, hslots⟩ := hc
  cases FF_GetBuffer_cases fuel p w Sector FF_MODE_READ r h with
  | invalid hv hr => exact absurd hv (by decide)
  | hit i hi hm hsec hmd hc1 hc2 hr =>
    subst hr
    refine ⟨rfl, ⟨hs, ?_⟩, ?_, i, rfl, hi, ?_⟩
    · intro k hk
      have hk2 := hslots k hk
      by_cases hki : k = i
      · subst hki; simpa [FF_GetBuffer_hit] using hk2
      · simpa [FF_GetBuffer_hit, hki] using hk2
    · intro e he; simp [FF_GetBuffer_hit] at he
    · have hb := (hslots i hi).2 hmd hc1 hc2
      simp [FF_GetBuffer_hit, hb, hsec]
  | refresh i hi hm hsec hmd hc hn hr =>
    unfold FF_GetBuffer_refresh at hr
    dsimp only at hr
    split at hr
    · exact absurd hr (by simp)
    · rename_i rv buf w1 hf
      have hx := FF_IOMAN_FillBuffer_serves fuel _ w img hs Sector _ _ hf
      simp only [Prod.mk.injEq] at hx
      obtain ⟨rfl, rfl, rfl⟩ := hx
      simp only [ne_eq, not_true_eq_false, if_false] at hr
      simp only [Option.some.injEq] at hr
      subst hr
      refine ⟨rfl, ⟨hs, ?_⟩, ?_, i, rfl, hi, ?_⟩
      · intro k hk
        have hk2 := hslots k hk
        by_cases hki : k = i
        · subst hki
          refine ⟨by simpa using hk2.1, ?_⟩
          intro _ _ _
          simp [hsec]
        · simpa [hki] using hk2
      · intro e he
        simp at he
        exact ⟨i, he⟩
      · simp
  | takeOver i hi hv hsec he hmd hn hr => exact absurd hmd (hslots i hi).1
  | evict i hi hv hn he hr =>
    unfold FF_GetBuffer_evict at hr
    dsimp only at hr
    have hnw : ¬ (p.pBuffers i).Mode = FF_MODE_WRITE := (hslots i hi).1
    simp only [setBuf_pBuffers, if_true, hnw, if_false] at hr
    split at hr
    · exact absurd hr (by simp)
    · rename_i rv buf w1 hf
      have hx := FF_IOMAN_FillBuffer_serves fuel _ w img hs Sector _ _ hf
      simp only [Prod.mk.injEq] at hx
      obtain ⟨rfl, rfl, rfl⟩ := hx
      simp only [ne_eq, not_true_eq_false, if_false] at hr
      simp only [Option.some.injEq] at hr
      subst hr
      refine ⟨rfl, ⟨hs, ?_⟩, ?_, i, rfl, hi, ?_⟩
      · intro k hk
        have hk2 := hslots k hk
        by_cases hki : k = i
        · subst hki
          refine ⟨by simp [FF_MODE_READ, FF_MODE_WRITE], ?_⟩
          intro _ _ _
          simp
        · simpa [hki] using hk2
      · intro e he
        simp at he
        exact ⟨i, he⟩
      · simp

/-- On a device that serves the image a refresh with fuel ends. -/
theorem FF_GetBuffer_refresh_returns (fuel : Nat) (p : FF_IOMAN D) (w : D) (img : Nat → Block)
    (hs : Serves p w img) (hfuel : 0 < fuel) (Sector i : Nat) :
    ∃ r, FF_GetBuffer_refresh fuel p w Sector i = some r := by
  have key : ∀ (q : FF_IOMAN D) (buf : Block), q.pBlkDevice = p.pBlkDevice →
      FF_IOMAN_FillBuffer fuel q Sector buf w = some (0, img Sector, w) := by
    intro q buf hq
    exact FF_IOMAN_FillBuffer_serves_some fuel q w img (by unfold Serves; rw [hq]; exact hs)
      Sector buf hfuel
  unfold FF_GetBuffer_refresh
  dsimp only
  rw [key (setBuf p i _) _ rfl]
  simp

/-- On a device that serves the image the eviction of a descriptor that is not
in mode Write ends when there is fuel. -/
theorem FF_GetBuffer_evict_returns (fuel : Nat) (p : FF_IOMAN D) (w : D) (img : Nat → Block)
    (hs : Serves p w img) (hfuel : 0 < fuel) (Sector Mode i : Nat)
    (hnw : (p.pBuffers i).Mode ≠ FF_MODE_WRITE) :
    ∃ r, FF_GetBuffer_evict fuel p w Sector Mode i = some r := by
  have key : ∀ (q : FF_IOMAN D) (buf : Block), q.pBlkDevice = p.pBlkDevice →
      FF_IOMAN_FillBuffer fuel q Sector buf w = some (0, img Sector, w) := by
    intro q buf hq
    exact FF_IOMAN_FillBuffer_serves_some fuel q w img (by unfold Serves; rw [hq]; exact hs)
      Sector buf hfuel
  unfold FF_GetBuffer_evict
  dsimp only
  simp only [setBuf_pBuffers, if_true, hnw, if_false]
  rw [key (setBuf p i _) _ rfl]
  simp

/-- On a device that serves the image the first search ends. -/
theorem FF_GetBuffer_readSearch_returns (fuel : Nat) (p : FF_IOMAN D) (w : D)
    (img : Nat → Block) (hs : Serves p w img) (hfuel : 0 < fuel) (Sector : Nat) (l : List Nat) :
    ∃ x, FF_GetBuffer_readSearch fuel p w Sector l = some x := by
  induction l with
  | nil => exact ⟨none, rfl⟩
  | cons i rest ih =>
    unfold FF_GetBuffer_readSearch
    split_ifs
    · exact ⟨_, rfl⟩
    · obtain ⟨r, hr⟩ := FF_GetBuffer_refresh_returns fuel p w img hs hfuel Sector i
      exact ⟨some r, by rw [hr]; rfl⟩
    · exact ih
    · exact ih

/-- Without a descriptor in mode Write the second search finds nothing. -/
theorem FF_GetBuffer_writeSearch_none (fuel : Nat) (p : FF_IOMAN D) (w : D)
    (Sector Mode : Nat) (l : List Nat) (hnw : ∀ k ∈ l, (p.pBuffers k).Mode ≠ FF_MODE_WRITE) :
    FF_GetBuffer_writeSearch fuel p w Sector Mode l = some none := by
  induction l with
  | nil => rfl
  | cons i rest ih =>
    unfold FF_GetBuffer_writeSearch
    have hi : (p.pBuffers i).Mode ≠ FF_MODE_WRITE := hnw i (List.mem_cons_self i rest)
    have hrest := ih (fun k hk => hnw k (List.mem_cons_of_mem i hk))
    split_ifs with h1 h2
    · exact absurd h2.1 hi
    · exact hrest
    · exact hrest

/-- With a free descriptor, none in mode Write, and a device that serves the
image, the third search hands out a descriptor. -/
theorem FF_GetBuffer_freeSearch_returns (fuel : Nat) (p : FF_IOMAN D) (w : D)
    (img : Nat → Block) (hs : Serves p w img) (hfuel : 0 < fuel) (Sector Mode : Nat)
    (l : List Nat) (hnw : ∀ k ∈ l, (p.pBuffers k).Mode ≠ FF_MODE_WRITE)
    (hfree : ∃ k ∈ l, (p.pBuffers k).NumHandles = 0 ∧ (p.pBuffers k).isIOMANediting = false) :
    ∃ r, FF_GetBuffer_freeSearch fuel p w Sector Mode l = some (some r) := by
  induction l with
  | nil =>
    obtain ⟨k, hk, -⟩ := hfree
    simp at hk
  | cons i rest ih =>
    unfold FF_GetBuffer_freeSearch
    split_ifs with h1
    · obtain ⟨r, hr⟩ := FF_GetBuffer_evict_returns fuel p w img hs hfuel Sector Mode i
        (hnw i (List.mem_cons_self i rest))
      exact ⟨r, by rw [hr]; rfl⟩
    · apply ih (fun k hk => hnw k (List.mem_cons_of_mem i hk))
      obtain ⟨k, hk, hk2⟩ := hfree
      rcases List.mem_cons.mp hk with rfl | hk3
      · exact absurd hk2 h1
      · exact ⟨k, hk3, hk2⟩

/-- A Read acquisition on a cache that agrees with the image ends when there is
fuel and a descriptor that is neither held nor in service. -/
theorem FF_GetBuffer_coherent_returns (fuel : Nat) (p : FF_IOMAN D) (w : D)
    (img : Nat → Block) (hc : Coherent img p w) (hfuel : 0 < fuel)
    (hfree : ∃ k, k < p.CacheSize ∧ (p.pBuffers k).NumHandles = 0 ∧
      (p.pBuffers k).isIOMANediting = false) (Sector : Nat) :
    ∃ r, FF_GetBuffer fuel p w Sector FF_MODE_READ = some r := by
  obtain ⟨hs, hslots⟩ := hc
  have hnw : ∀ k ∈ List.range p.CacheSize, (p.pBuffers k).Mode ≠ FF_MODE_WRITE :=
    fun k hk => (hslots k (List.mem_range.mp hk)).1
  have hfree2 : ∃ k ∈ List.range p.CacheSize,
      (p.pBuffers k).NumHandles = 0 ∧ (p.pBuffers k).isIOMANediting = false := by
    obtain ⟨k, hk, hk2⟩ := hfree
    exact ⟨k, List.mem_range.mpr hk, hk2⟩
  have hpass : ∃ r, FF_GetBuffer_pass fuel p w Sector FF_MODE_READ = some (some r) := by
    unfold FF_GetBuffer_pass
    dsimp only
    rw [if_pos rfl]
    obtain ⟨x, hx⟩ := FF_GetBuffer_readSearch_returns fuel p w img hs hfuel Sector
      (List.range p.CacheSize)
    rw [hx]
    cases x with
    | some r => exact ⟨r, rfl⟩
    | none =>
      dsimp only
      rw [FF_GetBuffer_writeSearch_none fuel p w Sector FF_MODE_READ _ hnw]
      exact FF_GetBuffer_freeSearch_returns fuel p w img hs hfuel Sector FF_MODE_READ _ hnw hfree2
  obtain ⟨r, hr⟩ := hpass
  refine ⟨r, ?_⟩
  unfold FF_GetBuffer
  rw [if_neg (by decide)]
  cases fuel with
  | zero => exact absurd hfuel (by decide)
  | succ n =>
    unfold FF_GetBuffer_loop
    rw [hr]

/-! ## Fields of the boot sector -/

/-- A byte is below 256. -/
theorem FF_getChar_lt (b : Block) (o : Nat) : FF_getChar b o < 256 := by
  unfold FF_getChar
  exact UInt8.toNat_lt _

/-- A short is below 65536. -/
theorem FF_getShort_lt (b : Block) (o : Nat) : FF_getShort b o < 65536 := by
  unfold FF_getShort
  have h1 := FF_getChar_lt b o
  have h2 := FF_getChar_lt b (o + 1)
  omega

/-- A long is below 2 ^ 32. -/
theorem FF_getLong_lt (b : Block) (o : Nat) : FF_getLong b o < 2 ^ 32 := by
  unfold FF_getLong
  have h1 := FF_getChar_lt b o
  have h2 := FF_getChar_lt b (o + 1)
  have h3 := FF_getChar_lt b (o + 2)
  have h4 := FF_getChar_lt b (o + 3)
  omega

/-- The low byte of a short is the byte at its offset. -/
theorem FF_getShort_mod (b : Block) (o : Nat) : FF_getShort b o % 256 = FF_getChar b o := by
  unfold FF_getShort
  have h1 := FF_getChar_lt b o
  omega

/-- The byte accessor reads the little-endian value of one byte. -/
theorem littleEndian_one (b : Block) (o : Nat) : littleEndian b o 1 = FF_getChar b o := by
  simp [littleEndian, FF_getChar]

/-- The short accessor reads the little-endian value of two bytes. -/
theorem littleEndian_two (b : Block) (o : Nat) : littleEndian b o 2 = FF_getShort b o := by
  simp [littleEndian, FF_getShort, FF_getChar]

/-- The long accessor reads the little-endian value of four bytes. -/
theorem littleEndian_four (b : Block) (o : Nat) : littleEndian b o 4 = FF_getLong b o := by
  simp only [littleEndian, FF_getLong, FF_getChar, Nat.add_assoc, Nat.reduceAdd]
  omega

/-- Rounding up by adding the divisor less one. -/
theorem divCeil_eq (a b : Nat) (hb : 0 < b) : (a + b - 1) / b = divCeil a b := by
  unfold divCeil
  have hdm := Nat.div_add_mod a b
  have hlt := Nat.mod_lt a hb
  split_ifs with h
  · apply Nat.div_eq_of_lt_le
    · rw [h] at hdm
      rw [Nat.mul_comm]
      omega
    · rw [h] at hdm
      rw [Nat.add_mul, Nat.mul_comm (a / b) b]
      omega
  · apply Nat.div_eq_of_lt_le
    · rw [Nat.add_mul, Nat.mul_comm (a / b) b]
      omega
    · rw [Nat.add_mul, Nat.add_mul, Nat.mul_comm (a / b) b]
      omega

/-- A call that returned is `Except.ok` of its value. -/
theorem okValue_get {α : Type} (x : Except Fault α) (h : (okValue x).isSome = true) :
    x = Except.ok ((okValue x).get h) := by
  cases x with
  | ok a => rfl
  | error e => simp [okValue] at h

/-! ## The stages of `FF_MountPartition` -/

/-- Lines 688-713 in closed form: when they end, the block size of the manager
is not 0 and the descriptor holds these fields of the boot sector. -/
theorem FF_MountPartition_fields_ok (b : Nat) (buf : Block) (q q1 : FF_PARTITION)
    (h : FF_MountPartition_fields b buf q = Except.ok q1) :
    b ≠ 0 ∧ q1 =
      { q with
        ReservedSectors := FF_getShort buf 0x0E
        FatBeginLBA := (q.BeginLBA + FF_getShort buf 0x0E) % 2 ^ 32
        NumFATS := FF_getChar buf 0x10
        SectorsPerFAT :=
          if FF_getShort buf 0x16 = 0 then FF_getLong buf 0x24 else FF_getShort buf 0x16
        SectorsPerCluster := FF_getChar buf 0x0D
        BlkFactor := (q.BlkSize / b) % 256
        RootDirCluster := if FF_getShort buf 0x16 = 0 then FF_getLong buf 0x2C else 1
        ClusterBeginLBA :=
          (q.BeginLBA + FF_getShort buf 0x0E
            + FF_getChar buf 0x10
              * (if FF_getShort buf 0x16 = 0 then FF_getLong buf 0x24
                 else FF_getShort buf 0x16)) % 2 ^ 32
        TotalSectors :=
          if FF_getShort buf 0x13 = 0 then FF_getLong buf 0x20 else FF_getShort buf 0x13 } := by
  unfold FF_MountPartition_fields at h
  simp only [FF_FAT_RESERVED_SECTORS, FF_FAT_NUMBER_OF_FATS, FF_FAT_16_SECTORS_PER_FAT,
    FF_FAT_SECTORS_PER_CLUS, FF_FAT_32_SECTORS_PER_FAT, FF_FAT_ROOT_DIR_CLUSTER,
    FF_FAT_16_TOTAL_SECTORS, FF_FAT_32_TOTAL_SECTORS, FF_getShort_mod] at h
  split_ifs at h with hb hs ht ht <;>
    simp only [Except.ok.injEq, reduceCtorEq] at h <;>
    subst h <;>
    refine ⟨hb, ?_⟩ <;>
    simp [hs, ht]

/-- Lines 716-719 in closed form: when they end, neither the block size nor the
sectors per cluster of the descriptor is 0 and the descriptor holds these
sizes. -/
theorem FF_MountPartition_geometry_ok (buf : Block) (q q1 : FF_PARTITION)
    (h : FF_MountPartition_geometry buf q = Except.ok q1) :
    q.BlkSize ≠ 0 ∧ q.SectorsPerCluster ≠ 0 ∧ q1 =
      { q with
        RootDirSectors := (FF_getShort buf 0x11 * 32 + q.BlkSize - 1) / q.BlkSize
        FirstDataSector :=
          (q.ClusterBeginLBA + (FF_getShort buf 0x11 * 32 + q.BlkSize - 1) / q.BlkSize) % 2 ^ 32
        DataSectors :=
          (q.TotalSectors + 2 ^ 32
            - (q.ReservedSectors + q.NumFATS * q.SectorsPerFAT
                + (FF_getShort buf 0x11 * 32 + q.BlkSize - 1) / q.BlkSize) % 2 ^ 32) % 2 ^ 32
        NumClusters :=
          ((q.TotalSectors + 2 ^ 32
            - (q.ReservedSectors + q.NumFATS * q.SectorsPerFAT
                + (FF_getShort buf 0x11 * 32 + q.BlkSize - 1) / q.BlkSize) % 2 ^ 32) % 2 ^ 32)
            / q.SectorsPerCluster } := by
  unfold FF_MountPartition_geometry at h
  simp only [FF_FAT_ROOT_ENTRY_COUNT] at h
  split_ifs at h with hb hs
  simp only [Except.ok.injEq] at h
  subst h
  exact ⟨hb, hs, rfl⟩

/-- The check of the first FAT entry changes descriptors only and gives 0 or -2. -/
theorem FF_DetermineFatType_check_spec (fuel : Nat) (p : FF_IOMAN D) (w : D) (long : Bool)
    (bad : Nat → Bool) (d : FatTypeResult D)
    (h : FF_DetermineFatType_check fuel p w long bad = some d) :
    d.pIoman.pPartition = p.pPartition ∧ d.pIoman.BlkSize = p.BlkSize ∧
    (d.ret = 0 ∨ d.ret = -2) := by
  unfold FF_DetermineFatType_check at h
  split at h
  · exact absurd h (by simp)
  · rename_i r hr
    obtain ⟨h1, h2, -, -⟩ := FF_GetBuffer_frame fuel p w _ _ r hr
    split at h
    · simp only [Option.some.injEq] at h
      subst h
      exact ⟨h2, h1, Or.inr rfl⟩
    · dsimp only at h
      split_ifs at h <;>
        (simp only [Option.some.injEq] at h; subst h) <;>
        first
          | exact ⟨h2, h1, Or.inr rfl⟩
          | exact ⟨h2, h1, Or.inl rfl⟩

/-- The function `FF_DetermineFatType` sets the type from the count of clusters, changes
nothing else in the partition descriptor, and gives 0 or -2. -/
theorem FF_DetermineFatType_spec (fatCheck : Bool) (fuel : Nat) (p : FF_IOMAN D) (w : D)
    (d : FatTypeResult D) (h : FF_DetermineFatType fatCheck fuel p w = some d) :
    d.pIoman.pPartition =
      { p.pPartition with
        FatType :=
          if p.pPartition.NumClusters < 4085 then FF_T_FAT12
          else if p.pPartition.NumClusters < 65525 then FF_T_FAT16 else FF_T_FAT32 } ∧
    d.pIoman.BlkSize = p.BlkSize ∧ (d.ret = 0 ∨ d.ret = -2) := by
  unfold FF_DetermineFatType at h
  dsimp only at h
  split_ifs at h with h1 hc h2 hc hc
  · obtain ⟨a, b, c⟩ := FF_DetermineFatType_check_spec fuel _ w _ _ d h
    exact ⟨by rw [a]; simp [h1], b, c⟩
  · simp only [Option.some.injEq] at h
    subst h
    exact ⟨by simp [h1], rfl, Or.inl rfl⟩
  · obtain ⟨a, b, c⟩ := FF_DetermineFatType_check_spec fuel _ w _ _ d h
    exact ⟨by rw [a]; simp [h1, h2], b, c⟩
  · simp only [Option.some.injEq] at h
    subst h
    exact ⟨by simp [h1, h2], rfl, Or.inl rfl⟩
  · obtain ⟨a, b, c⟩ := FF_DetermineFatType_check_spec fuel _ w _ _ d h
    exact ⟨by rw [a]; simp [h1, h2], b, c⟩
  · simp only [Option.some.injEq] at h
    subst h
    exact ⟨by simp [h1, h2], rfl, Or.inl rfl⟩

/-- Lines 688-725 of `FF_MountPartition`, when they end: the descriptor is what
lines 688-713 and 716-719 compute from the bytes of descriptor `i`, with the
type set from the count of clusters. -/
theorem FF_MountPartition_finish_spec (fatCheck : Bool) (fuel : Nat) (p : FF_IOMAN D) (w : D)
    (i : Nat) (tr : List IOEvent) (r : MountResult D)
    (h : FF_MountPartition_finish fatCheck fuel p w i tr = Except.ok r) :
    ∃ q q1,
      FF_MountPartition_fields p.BlkSize (p.pBuffers i).pBuffer p.pPartition = Except.ok q ∧
      FF_MountPartition_geometry (p.pBuffers i).pBuffer q = Except.ok q1 ∧
      r.pIoman.pPartition =
        { q1 with
          FatType :=
            if q1.NumClusters < 4085 then FF_T_FAT12
            else if q1.NumClusters < 65525 then FF_T_FAT16 else FF_T_FAT32 } ∧
      r.pIoman.BlkSize = p.BlkSize ∧
      (r.ret = FF_ERROR.FF_ERR_NONE ∨ r.ret = FF_ERROR.FF_ERR_IOMAN_NOT_FAT_FORMATTED) := by
  unfold FF_MountPartition_finish at h
  split at h
  · exact absurd h (by simp)
  · rename_i q hq
    dsimp only at h
    split at h
    · exact absurd h (by simp)
    · rename_i q1 hq1
      split at h
      · exact absurd h (by simp)
      · rename_i d hd
        obtain ⟨a, b, c⟩ := FF_DetermineFatType_spec fatCheck fuel _ w d hd
        have hbuf : ((FF_ReleaseBuffer { p with pPartition := q } i).pBuffers i).pBuffer
            = (p.pBuffers i).pBuffer := by
          simp [FF_ReleaseBuffer]
        rw [hbuf] at hq1
        refine ⟨q, q1, hq, hq1, ?_⟩
        split_ifs at h <;>
          (simp only [Except.ok.injEq] at h; subst h)
        · exact ⟨a, b, Or.inr rfl⟩
        · exact ⟨a, b, Or.inl rfl⟩

/-- When lines 655-686 end with a `return`, the value is an error; when they end
with the boot sector, the block size of the manager is as before and the block
size of the descriptor is a positive multiple of 512 below 65536. -/
theorem FF_MountPartition_locate_frame (fuel : Nat) (p : FF_IOMAN D) (w : D) (pn : Nat)
    (x : Located D) (h : FF_MountPartition_locate fuel p w pn = Except.ok x) :
    match x with
    | Located.failed r =>
      r.ret ≠ FF_ERROR.FF_ERR_NONE ∧ r.ret ≠ FF_ERROR.FF_ERR_IOMAN_NOT_FAT_FORMATTED
    | Located.found p1 _ _ _ =>
      p1.BlkSize = p.BlkSize ∧ validSectorSize p1.pPartition.BlkSize ∧
      p1.pPartition.BlkSize < 65536 := by
  unfold FF_MountPartition_locate at h
  cases hr0 : FF_GetBuffer fuel p w 0 FF_MODE_READ with
  | none => rw [hr0] at h; exact absurd h (by simp)
  | some r0 =>
    obtain ⟨f1, -, -, -⟩ := FF_GetBuffer_frame fuel p w _ _ r0 hr0
    rw [hr0] at h
    dsimp only at h
    cases hi0 : r0.ret with
    | none =>
      rw [hi0] at h
      simp only [Except.ok.injEq] at h
      subst h
      exact ⟨by simp, by simp⟩
    | some i0 =>
      rw [hi0] at h
      dsimp only at h
      split_ifs at h with hv hz
      · simp only [Except.ok.injEq] at h
        subst h
        exact ⟨f1, hv, FF_getShort_lt _ _⟩
      · simp only [Except.ok.injEq] at h
        subst h
        exact ⟨by simp, by simp⟩
      · revert h
        cases hr1 : FF_GetBuffer fuel _ r0.world _ FF_MODE_READ with
        | none => intro h; exact absurd h (by simp)
        | some r1 =>
          obtain ⟨g1, -, -, -⟩ := FF_GetBuffer_frame fuel _ r0.world _ _ r1 hr1
          dsimp only
          cases hi1 : r1.ret with
          | none =>
            intro h
            simp only [Except.ok.injEq] at h
            subst h
            exact ⟨by simp, by simp⟩
          | some i1 =>
            dsimp only
            intro h
            split_ifs at h with hv1
            · simp only [Except.ok.injEq] at h
              subst h
              exact ⟨by simp, by simp⟩
            · simp only [Except.ok.injEq] at h
              subst h
              refine ⟨?_, ?_, FF_getShort_lt _ _⟩
              · rw [g1]; exact f1
              · simp only [not_or, not_not] at hv1
                exact ⟨hv1.1, Nat.pos_of_ne_zero hv1.2⟩

/-- A mount that gives 0 or `FF_ERR_IOMAN_NOT_FAT_FORMATTED` went through lines
655-686 to the boot sector and through lines 688-725. -/
theorem FF_MountPartition_ok (fatCheck : Bool) (fuel : Nat) (p : FF_IOMAN D) (w : D)
    (pn : Nat) (r : MountResult D)
    (h : FF_MountPartition fatCheck fuel p w pn = Except.ok r)
    (hret : r.ret = FF_ERROR.FF_ERR_NONE ∨
      r.ret = FF_ERROR.FF_ERR_IOMAN_NOT_FAT_FORMATTED) :
    pn ≤ 3 ∧ ∃ p1 w1 i tr,
      FF_MountPartition_locate fuel p w pn = Except.ok (Located.found p1 w1 i tr) ∧
      FF_MountPartition_finish fatCheck fuel p1 w1 i tr = Except.ok r := by
  unfold FF_MountPartition at h
  split_ifs at h with hp
  · simp only [Except.ok.injEq] at h
    subst h
    simp at hret
  · refine ⟨by omega, ?_⟩
    split at h
    · exact absurd h (by simp)
    · rename_i r1 hl
      simp only [Except.ok.injEq] at h
      subst h
      have hne := FF_MountPartition_locate_frame fuel p w pn _ hl
      rcases hret with hr | hr
      · exact absurd hr hne.1
      · exact absurd hr hne.2
    · rename_i p1 w1 i tr hl
      exact ⟨p1, w1, i, tr, hl, h⟩

/-- A release leaves the partition descriptor. -/
@[simp]
theorem FF_ReleaseBuffer_pPartition (p : FF_IOMAN D) (i : Nat) :
    (FF_ReleaseBuffer p i).pPartition = p.pPartition := rfl

/-- A release leaves the block size of the manager. -/
@[simp]
theorem FF_ReleaseBuffer_BlkSize (p : FF_IOMAN D) (i : Nat) :
    (FF_ReleaseBuffer p i).BlkSize = p.BlkSize := rfl

/-- A release leaves the bytes of every descriptor. -/
@[simp]
theorem FF_ReleaseBuffer_pBuffer (p : FF_IOMAN D) (i k : Nat) :
    ((FF_ReleaseBuffer p i).pBuffers k).pBuffer = (p.pBuffers k).pBuffer := by
  unfold FF_ReleaseBuffer
  by_cases h : k = i
  · subst h; simp
  · simp [h]

/-- Lines 655-686 on a cache that agrees with the image: they fail only with no
mountable partition (the table gives 0; sector 0 alone was read) or with an
invalid format (the sector the table points to has no valid bytes-per-sector
value), and otherwise end with the bytes of the sector where the volume starts. -/
theorem FF_MountPartition_locate_coherent (fuel : Nat) (p : FF_IOMAN D) (w : D)
    (img : Nat → Block) (pn : Nat) (hc : Coherent img p w) (x : Located D)
    (h : FF_MountPartition_locate fuel p w pn = Except.ok x) :
    match x with
    | Located.failed r =>
      r.world = w ∧ ¬ validSectorSize (FF_getShort (img 0) FF_FAT_BYTES_PER_SECTOR) ∧
      r.pIoman.pPartition.BeginLBA = FF_MountPartition_tableLBA (img 0) pn ∧
      ((FF_MountPartition_tableLBA (img 0) pn = 0 ∧
          r.ret = FF_ERROR.FF_ERR_IOMAN_NO_MOUNTABLE_PARTITION ∧
          ∀ e ∈ r.trace, ∃ k, e = IOEvent.fill k 0 0) ∨
       (FF_MountPartition_tableLBA (img 0) pn ≠ 0 ∧
          ¬ validSectorSize
            (FF_getShort (img (FF_MountPartition_tableLBA (img 0) pn)) FF_FAT_BYTES_PER_SECTOR) ∧
          r.ret = FF_ERROR.FF_ERR_IOMAN_INVALID_FORMAT))
    | Located.found p1 w1 i _ =>
      w1 = w ∧ Coherent img p1 w ∧
      ((validSectorSize (FF_getShort (img 0) FF_FAT_BYTES_PER_SECTOR) ∧
          p1.pPartition.BeginLBA = 0) ∨
       (¬ validSectorSize (FF_getShort (img 0) FF_FAT_BYTES_PER_SECTOR) ∧
          p1.pPartition.BeginLBA = FF_MountPartition_tableLBA (img 0) pn ∧
          p1.pPartition.BeginLBA ≠ 0)) ∧
      (p1.pBuffers i).pBuffer = img p1.pPartition.BeginLBA ∧
      p1.pPartition =
        { p.pPartition with
          BlkSize := FF_getShort (img p1.pPartition.BeginLBA) FF_FAT_BYTES_PER_SECTOR
          BeginLBA := p1.pPartition.BeginLBA } := by
  unfold FF_MountPartition_locate at h
  cases hr0 : FF_GetBuffer fuel p w 0 FF_MODE_READ with
  | none => rw [hr0] at h; exact absurd h (by simp)
  | some r0 =>
    obtain ⟨-, f2, -, -⟩ := FF_GetBuffer_frame fuel p w _ _ r0 hr0
    obtain ⟨hw0, hc0, htr0, i0, hi0, -, hb0⟩ := FF_GetBuffer_coherent fuel p w img hc 0 r0 hr0
    rw [hr0] at h
    dsimp only at h
    rw [hi0] at h
    dsimp only at h
    rw [hb0, hw0] at h
    simp only [FF_ReleaseBuffer_pPartition] at h
    split_ifs at h with hv hz
    · simp only [Except.ok.injEq] at h
      subst h
      refine ⟨rfl, hc0, Or.inl ⟨hv, rfl⟩, hb0, ?_⟩
      simp only [f2]
    · simp only [Except.ok.injEq] at h
      subst h
      exact ⟨rfl, hv, rfl, Or.inl ⟨hz, rfl, htr0⟩⟩
    · revert h
      have hc3 : Coherent img
          (FF_ReleaseBuffer
            { r0.pIoman with
              pPartition :=
                { r0.pIoman.pPartition with
                  BlkSize := FF_getShort (img 0) FF_FAT_BYTES_PER_SECTOR
                  BeginLBA := FF_MountPartition_tableLBA (img 0) pn } } i0) w :=
        Coherent_release img _ w i0 hc0
      cases hr1 : FF_GetBuffer fuel _ w _ FF_MODE_READ with
      | none => intro h; exact absurd h (by simp)
      | some r1 =>
        obtain ⟨-, g2, -, -⟩ := FF_GetBuffer_frame fuel _ w _ _ r1 hr1
        obtain ⟨hw1, hc1, -, i1, hi1, -, hb1⟩ :=
          FF_GetBuffer_coherent fuel _ w img hc3 _ r1 hr1
        dsimp only
        rw [hi1]
        dsimp only
        rw [hb1, hw1]
        intro h
        split_ifs at h with hv1
        · simp only [Except.ok.injEq] at h
          subst h
          refine ⟨rfl, hv, ?_, Or.inr ⟨hz, ?_, rfl⟩⟩
          · simp only [FF_ReleaseBuffer_pPartition, g2]
          · intro hvv
            rcases hv1 with h1 | h1
            · exact h1 hvv.1
            · exact absurd hvv.2 (by rw [h1]; decide)
        · simp only [Except.ok.injEq] at h
          subst h
          refine ⟨rfl, hc1, Or.inr ⟨hv, ?_, ?_⟩, ?_, ?_⟩
          · simp only [g2, FF_ReleaseBuffer_pPartition]
          · simp only [g2, FF_ReleaseBuffer_pPartition]
            exact hz
          · simp only [g2, FF_ReleaseBuffer_pPartition]
            exact hb1
          · simp only [g2, FF_ReleaseBuffer_pPartition, f2]

/-- A mount that gives 0 or `FF_ERR_IOMAN_NOT_FAT_FORMATTED` on a cache that
agrees with the image: the volume
starts at sector 0 when sector 0 has a valid bytes-per-sector value and else
where the partition table says, the sector at the start has a valid
bytes-per-sector value, and the descriptor is what lines 688-713 and 716-719
compute from the bytes the image has there, with the type set from the count
of clusters. -/
theorem FF_MountPartition_coherent_ok (fatCheck : Bool) (fuel : Nat) (p : FF_IOMAN D) (w : D)
    (img : Nat → Block) (pn : Nat) (r : MountResult D) (hc : Coherent img p w)
    (h : FF_MountPartition fatCheck fuel p w pn = Except.ok r)
    (hret : r.ret = FF_ERROR.FF_ERR_NONE ∨
      r.ret = FF_ERROR.FF_ERR_IOMAN_NOT_FAT_FORMATTED) :
    ∃ lba q1 q2,
      ((validSectorSize (FF_getShort (img 0) FF_FAT_BYTES_PER_SECTOR) ∧ lba = 0) ∨
       (¬ validSectorSize (FF_getShort (img 0) FF_FAT_BYTES_PER_SECTOR) ∧
          lba = FF_MountPartition_tableLBA (img 0) pn ∧ lba ≠ 0)) ∧
      validSectorSize (FF_getShort (img lba) FF_FAT_BYTES_PER_SECTOR) ∧
      FF_MountPartition_fields p.BlkSize (img lba)
        { p.pPartition with
          BlkSize := FF_getShort (img lba) FF_FAT_BYTES_PER_SECTOR
          BeginLBA := lba } = Except.ok q1 ∧
      FF_MountPartition_geometry (img lba) q1 = Except.ok q2 ∧
      r.pIoman.pPartition =
        { q2 with
          FatType :=
            if q2.NumClusters < 4085 then FF_T_FAT12
            else if q2.NumClusters < 65525 then FF_T_FAT16 else FF_T_FAT32 } ∧
      r.pIoman.BlkSize = p.BlkSize := by
  obtain ⟨-, p1, w1, i, tr, hl, hf⟩ :=
    FF_MountPartition_ok fatCheck fuel p w pn r h hret
  have hfr := FF_MountPartition_locate_frame fuel p w pn _ hl
  have hco := FF_MountPartition_locate_coherent fuel p w img pn hc _ hl
  dsimp only at hfr hco
  obtain ⟨hbs, hvalid, -⟩ := hfr
  obtain ⟨-, -, hcase, hbytes, hpart⟩ := hco
  obtain ⟨q1, q2, hq1, hq2, hfinal, hblk, -⟩ :=
    FF_MountPartition_finish_spec fatCheck fuel p1 w1 i tr r hf
  rw [hbytes, hbs] at hq1
  rw [hbytes] at hq2
  rw [hpart] at hq1
  refine ⟨p1.pPartition.BeginLBA, q1, q2, hcase, ?_, hq1, hq2, hfinal, hblk.trans hbs⟩
  rw [hpart] at hvalid
  exact hvalid

/-- On a cache that agrees with the image, after a mount that gave 0 or
`FF_ERR_IOMAN_NOT_FAT_FORMATTED` the fields of the partition descriptor equal
the reference parse of the boot sector; and when sector 0 is the boot sector of
scenario 1 with `spf` sectors per FAT, a 16-bit value that is not 0, the volume
starts at sector 0, the FAT at sector 32, `cluster_begin_lba` is `32 + spf`,
`root_dir_sectors` is 32, and the count of clusters makes the type FAT16. -/
theorem FF_MountPartition_reference_parse (fatCheck : Bool) (fuel : Nat) (p : FF_IOMAN D)
    (w : D) (img : Nat → Block) (pn : Nat) (r : MountResult D) (hc : Coherent img p w)
    (h : FF_MountPartition fatCheck fuel p w pn = Except.ok r)
    (hret : r.ret = FF_ERROR.FF_ERR_NONE ∨
      r.ret = FF_ERROR.FF_ERR_IOMAN_NOT_FAT_FORMATTED) :
    descriptorParse r.pIoman.pPartition
      = referenceParse (img r.pIoman.pPartition.BeginLBA) r.pIoman.pPartition.BeginLBA ∧
    r.pIoman.pPartition.BlkSize = littleEndian (img r.pIoman.pPartition.BeginLBA) 0x0B 2 ∧
    ∀ spf, 0 < spf → spf < 65536 → scenario1 (img 0) spf →
      r.pIoman.pPartition.BeginLBA = 0 ∧
      r.pIoman.pPartition.ClusterBeginLBA = 32 + spf ∧
      r.pIoman.pPartition.RootDirSectors = 32 ∧
      r.pIoman.pPartition.FatType = FF_T_FAT16 ∧
      r.pIoman.pPartition.FatBeginLBA = 32 ∧
      4085 ≤ r.pIoman.pPartition.NumClusters ∧ r.pIoman.pPartition.NumClusters < 65525 := by
  obtain ⟨lba, q1, q2, hcase, hvalid, hq1, hq2, hfinal, -⟩ :=
    FF_MountPartition_coherent_ok fatCheck fuel p w img pn r hc h hret
  obtain ⟨-, e1⟩ := FF_MountPartition_fields_ok _ _ _ _ hq1
  obtain ⟨hb, -, e2⟩ := FF_MountPartition_geometry_ok _ _ _ hq2
  have hbs : q1.BlkSize = FF_getShort (img lba) 0x0B := by rw [e1]; rfl
  have hpos : 0 < FF_getShort (img lba) 0x0B := hvalid.2
  have hceil : (FF_getShort (img lba) 0x11 * 32 + FF_getShort (img lba) 0x0B - 1)
      / FF_getShort (img lba) 0x0B
      = divCeil (FF_getShort (img lba) 0x11 * 32) (FF_getShort (img lba) 0x0B) :=
    divCeil_eq _ _ hpos
  have hlba : r.pIoman.pPartition.BeginLBA = lba := by rw [hfinal, e2, e1]
  refine ⟨?_, ?_, ?_⟩
  · rw [hlba, hfinal, e2, hbs, e1]
    simp only [descriptorParse, referenceParse, littleEndian_one, littleEndian_two,
      littleEndian_four, hceil]
  · rw [hlba, hfinal, e2, e1, littleEndian_two]
    rfl
  · intro spf hspf0 hspf1 hsc
    obtain ⟨s1, s2, s3, s4, s5, s6, s7, s8⟩ := hsc
    simp only [littleEndian_one, littleEndian_two, littleEndian_four] at s1 s2 s3 s4 s5 s6 s7 s8
    have hv0 : validSectorSize (FF_getShort (img 0) FF_FAT_BYTES_PER_SECTOR) := by
      unfold FF_FAT_BYTES_PER_SECTOR
      rw [s1]
      decide
    have hl0 : lba = 0 := by
      rcases hcase with ⟨-, hl⟩ | ⟨hn, -⟩
      · exact hl
      · exact absurd hv0 hn
    subst hl0
    have hspf : ¬ spf = 0 := by omega
    rw [hfinal, e2, hbs, e1]
    simp only [s1, s2, s3, s4, s5, s6, s7, s8, hspf, if_false, if_true]
    refine ⟨trivial, ?_, ?_, ?_, ?_, ?_, ?_⟩
    · omega
    · decide
    · rw [if_neg (by omega), if_pos (by omega)]
    · decide
    · omega
    · omega

/-- The reset of the descriptors changes descriptors only. -/
theorem FF_IOMAN_InitBufferDescriptors_frame (p : FF_IOMAN D) :
    (FF_IOMAN_InitBufferDescriptors p).BlkSize = p.BlkSize ∧
    (FF_IOMAN_InitBufferDescriptors p).pBlkDevice = p.pBlkDevice ∧
    (FF_IOMAN_InitBufferDescriptors p).pPartition = p.pPartition := by
  unfold FF_IOMAN_InitBufferDescriptors
  generalize List.range p.CacheSize = l
  induction l using List.reverseRecOn with
  | nil => exact ⟨rfl, rfl, rfl⟩
  | append_singleton rest x ih => simpa [List.foldl_append, setBuf] using ih

/-- A pool whose descriptors were just reset agrees with every image its device
serves. -/
theorem Coherent_init (img : Nat → Block) (p : FF_IOMAN D) (w : D) (hs : Serves p w img) :
    Coherent img (FF_IOMAN_InitBufferDescriptors p) w := by
  obtain ⟨-, hdev, -⟩ := FF_IOMAN_InitBufferDescriptors_frame p
  obtain ⟨hcs, hslots⟩ := FF_IOMAN_InitBufferDescriptors_spec p
  refine ⟨?_, ?_⟩
  · unfold Serves
    rw [hdev]
    exact hs
  · intro i hi
    rw [hcs] at hi
    rw [hslots i hi]
    exact ⟨by simp [FF_MODE_WRITE], fun hm => absurd hm (by simp [FF_MODE_READ])⟩

/-- The disk in memory serves its content. -/
theorem Serves_ramRead (p : FF_IOMAN Disk) (img : Disk)
    (h : p.pBlkDevice.fnReadBlocks = some ramRead) : Serves p img img :=
  ⟨ramRead, h, fun _ _ _ => rfl⟩

/-- A fresh pool on the disk in memory agrees with the disk. -/
theorem Coherent_freshPool (n : Nat) (wr : FF_WRITE_BLOCKS Disk) (img : Disk) :
    Coherent img (freshPool n ramRead wr) img :=
  Coherent_init img _ img (Serves_ramRead _ img rfl)

/-- The start of the volume in the words of the specification is what lines
661-670 compute. -/
theorem reference_begin_lba_eq (s : Block) (pn : Nat) :
    reference_begin_lba s pn =
      if validSectorSize (FF_getShort s FF_FAT_BYTES_PER_SECTOR) then 0
      else FF_MountPartition_tableLBA s pn := by
  unfold reference_begin_lba FF_MountPartition_tableLBA FF_FAT_BYTES_PER_SECTOR FF_FAT_PTBL
    FF_FAT_PTBL_LBA
  simp only [littleEndian_two, littleEndian_four]
  have e1 : 446 + 16 * pn + 8 = 0x1BE + 0x08 + 16 * pn := by omega
  have e2 : 446 + 8 = 0x1BE + 0x08 + 16 * 0 := by omega
  rw [e1, e2]
  split_ifs with h1 h2
  · rfl
  · rfl
  · rw [Nat.add_zero]
    exact Nat.mod_eq_of_lt (FF_getLong_lt _ _)

/-- C16: after a mount that succeeded, the count of clusters is the count of
data sectors divided by the sectors per cluster (which are not 0), and the type
is FAT12 exactly when the count is below 4085, FAT16 exactly when it is at
least 4085 and below 65525, and FAT32 exactly when it is at least 65525. -/
theorem mount_type_by_cluster_count (fatCheck : Bool) (fuel : Nat) (p : FF_IOMAN D) (w : D)
    (pn : Nat) (r : MountResult D)
    (h : FF_MountPartition fatCheck fuel p w pn = Except.ok r)
    (hret : r.ret = FF_ERROR.FF_ERR_NONE) :
    r.pIoman.pPartition.SectorsPerCluster ≠ 0 ∧
    r.pIoman.pPartition.NumClusters
      = r.pIoman.pPartition.DataSectors / r.pIoman.pPartition.SectorsPerCluster ∧
    (r.pIoman.pPartition.FatType = FF_T_FAT12 ↔ r.pIoman.pPartition.NumClusters < 4085) ∧
    (r.pIoman.pPartition.FatType = FF_T_FAT16 ↔
      4085 ≤ r.pIoman.pPartition.NumClusters ∧ r.pIoman.pPartition.NumClusters < 65525) ∧
    (r.pIoman.pPartition.FatType = FF_T_FAT32 ↔ 65525 ≤ r.pIoman.pPartition.NumClusters) := by
  obtain ⟨-, p1, w1, i, tr, -, hf⟩ :=
    FF_MountPartition_ok fatCheck fuel p w pn r h (Or.inl hret)
  obtain ⟨q1, q2, -, hq2, hfinal, -, -⟩ :=
    FF_MountPartition_finish_spec fatCheck fuel p1 w1 i tr r hf
  obtain ⟨-, hspc, e2⟩ := FF_MountPartition_geometry_ok _ _ _ hq2
  have hn : r.pIoman.pPartition.NumClusters = q2.NumClusters := by rw [hfinal]
  have hd : r.pIoman.pPartition.DataSectors = q2.DataSectors := by rw [hfinal]
  have hs : r.pIoman.pPartition.SectorsPerCluster = q1.SectorsPerCluster := by
    rw [hfinal, e2]
  have ht : r.pIoman.pPartition.FatType =
      if q2.NumClusters < 4085 then FF_T_FAT12
      else if q2.NumClusters < 65525 then FF_T_FAT16 else FF_T_FAT32 := by rw [hfinal]
  rw [hn, hd, hs, ht]
  refine ⟨hspc, by rw [e2], ?_, ?_, ?_⟩
  · split_ifs with a b <;> simp [FF_T_FAT12, FF_T_FAT16, FF_T_FAT32] <;> omega
  · split_ifs with a b <;> simp [FF_T_FAT12, FF_T_FAT16, FF_T_FAT32] <;> omega
  · split_ifs with a b <;> simp [FF_T_FAT12, FF_T_FAT16, FF_T_FAT32] <;> omega

/-- Witness of C16: the mount of scenario 1 with 32 sectors per FAT. -/
theorem mount_type_by_cluster_count_witness :
    FF_MountPartition true 1 (freshPool 2 ramRead ramWrite) (scenario1Image 32) 0
      = Except.ok scenario1Mounted ∧
    scenario1Mounted.ret = FF_ERROR.FF_ERR_NONE ∧
    scenario1Mounted.pIoman.pPartition.NumClusters = 8186 ∧
    (scenario1Mounted.pIoman.pPartition.SectorsPerCluster ≠ 0 ∧
     scenario1Mounted.pIoman.pPartition.NumClusters
      = scenario1Mounted.pIoman.pPartition.DataSectors
          / scenario1Mounted.pIoman.pPartition.SectorsPerCluster ∧
     (scenario1Mounted.pIoman.pPartition.FatType = FF_T_FAT12 ↔
        scenario1Mounted.pIoman.pPartition.NumClusters < 4085) ∧
     (scenario1Mounted.pIoman.pPartition.FatType = FF_T_FAT16 ↔
        4085 ≤ scenario1Mounted.pIoman.pPartition.NumClusters ∧
        scenario1Mounted.pIoman.pPartition.NumClusters < 65525) ∧
     (scenario1Mounted.pIoman.pPartition.FatType = FF_T_FAT32 ↔
        65525 ≤ scenario1Mounted.pIoman.pPartition.NumClusters)) :=
  ⟨okValue_get _ _, by decide, by decide,
   mount_type_by_cluster_count true 1 (freshPool 2 ramRead ramWrite) (scenario1Image 32) 0
     scenario1Mounted (okValue_get _ _) (by decide)⟩

/-- C17, as stated, fails: the image `manyClustersImage` mounts with type FAT32
and root cluster 1 although its field at offset 0x2C is 2, and the image
`fewClustersImage` mounts with type FAT16 and root cluster 2 and not 1. -/
theorem root_cluster_by_type_counterexample :
    mountView (FF_MountPartition true 1 (freshPool 2 ramRead ramWrite) manyClustersImage 0)
      = some ⟨FF_ERROR.FF_ERR_NONE, 0, 512, 1, 199368, FF_T_FAT32, 1⟩ ∧
    mountView (FF_MountPartition false 1 (freshPool 2 ramRead ramWrite) manyClustersImage 0)
      = some ⟨FF_ERROR.FF_ERR_NONE, 0, 512, 1, 199368, FF_T_FAT32, 1⟩ ∧
    littleEndian (manyClustersImage 0) 0x2C 4 = 2 ∧
    mountView (FF_MountPartition true 1 (freshPool 2 ramRead ramWrite) fewClustersImage 0)
      = some ⟨FF_ERROR.FF_ERR_NONE, 0, 512, 1, 8186, FF_T_FAT16, 2⟩ ∧
    mountView (FF_MountPartition false 1 (freshPool 2 ramRead ramWrite) fewClustersImage 0)
      = some ⟨FF_ERROR.FF_ERR_NONE, 0, 512, 1, 8186, FF_T_FAT16, 2⟩ := by
  refine ⟨by decide, by decide, by decide, by decide, by decide⟩

/-- C17, amended: on a cache that agrees with the image, after a mount that
succeeded the root cluster follows the 16-bit sectors-per-FAT field of the boot
sector, not the type: when the field at offset 0x16 is 0 the root cluster is the
32-bit field at offset 0x2C, and otherwise it is 1. -/
theorem root_cluster_by_sectors_per_fat_field (fatCheck : Bool) (fuel : Nat) (p : FF_IOMAN D)
    (w : D) (img : Nat → Block) (pn : Nat) (r : MountResult D) (hc : Coherent img p w)
    (h : FF_MountPartition fatCheck fuel p w pn = Except.ok r)
    (hret : r.ret = FF_ERROR.FF_ERR_NONE) :
    (littleEndian (img r.pIoman.pPartition.BeginLBA) 0x16 2 = 0 →
      r.pIoman.pPartition.RootDirCluster
        = littleEndian (img r.pIoman.pPartition.BeginLBA) 0x2C 4) ∧
    (littleEndian (img r.pIoman.pPartition.BeginLBA) 0x16 2 ≠ 0 →
      r.pIoman.pPartition.RootDirCluster = 1) := by
  obtain ⟨lba, q1, q2, -, -, hq1, hq2, hfinal, -⟩ :=
    FF_MountPartition_coherent_ok fatCheck fuel p w img pn r hc h (Or.inl hret)
  obtain ⟨-, e1⟩ := FF_MountPartition_fields_ok _ _ _ _ hq1
  obtain ⟨-, -, e2⟩ := FF_MountPartition_geometry_ok _ _ _ hq2
  have hlba : r.pIoman.pPartition.BeginLBA = lba := by rw [hfinal, e2, e1]
  have hrc : r.pIoman.pPartition.RootDirCluster =
      if FF_getShort (img lba) 0x16 = 0 then FF_getLong (img lba) 0x2C else 1 := by
    rw [hfinal, e2, e1]
  rw [hlba, hrc, littleEndian_two, littleEndian_four]
  constructor
  · intro hz; rw [if_pos hz]
  · intro hz; rw [if_neg hz]

/-- Witness of the amended C17: the mount of scenario 2, whose 16-bit
sectors-per-FAT field is 0 and whose root cluster is 2. -/
theorem root_cluster_by_sectors_per_fat_field_witness :
    Coherent scenario2Image (freshPool 2 ramRead ramWrite) scenario2Image ∧
    FF_MountPartition true 1 (freshPool 2 ramRead ramWrite) scenario2Image 0
      = Except.ok scenario2Mounted ∧
    scenario2Mounted.ret = FF_ERROR.FF_ERR_NONE ∧
    scenario2Mounted.pIoman.pPartition.RootDirCluster = 2 ∧
    ((littleEndian (scenario2Image scenario2Mounted.pIoman.pPartition.BeginLBA) 0x16 2 = 0 →
      scenario2Mounted.pIoman.pPartition.RootDirCluster
        = littleEndian (scenario2Image scenario2Mounted.pIoman.pPartition.BeginLBA) 0x2C 4) ∧
     (littleEndian (scenario2Image scenario2Mounted.pIoman.pPartition.BeginLBA) 0x16 2 ≠ 0 →
      scenario2Mounted.pIoman.pPartition.RootDirCluster = 1)) :=
  ⟨Coherent_freshPool 2 ramWrite scenario2Image, okValue_get _ _, by decide, by decide,
   root_cluster_by_sectors_per_fat_field true 1 (freshPool 2 ramRead ramWrite) scenario2Image
     scenario2Image 0 scenario2Mounted (Coherent_freshPool 2 ramWrite scenario2Image)
     (okValue_get _ _) (by decide)⟩

/-- C18: on a cache that agrees with the image and for a partition number up to
3, every mount that returns leaves in the descriptor the start of the volume
that the specification gives from the bytes of sector 0: 0 when its
bytes-per-sector field is a positive multiple of 512, otherwise the 32-bit
value at offset `446 + 16 * p + 8` plus, when `p > 0`, the value at offset
`446 + 8`, modulo `2 ^ 32`; when sector 0 is not a boot sector and that start
is 0 the mount returns `FF_ERR_IOMAN_NO_MOUNTABLE_PARTITION` after transfers
that are reads of sector 0 only; and in that case the mount does return when
there is fuel and a descriptor that is neither held nor in service. -/
theorem mount_begin_lba (fatCheck : Bool) (fuel : Nat) (p : FF_IOMAN D) (w : D)
    (img : Nat → Block) (pn : Nat) (hc : Coherent img p w) (hpn : pn ≤ 3) :
    (∀ r, FF_MountPartition fatCheck fuel p w pn = Except.ok r →
      r.pIoman.pPartition.BeginLBA = reference_begin_lba (img 0) pn ∧
      (¬ validSectorSize (littleEndian (img 0) 0x0B 2) → reference_begin_lba (img 0) pn = 0 →
        r.ret = FF_ERROR.FF_ERR_IOMAN_NO_MOUNTABLE_PARTITION ∧
        ∀ e ∈ r.trace, ∃ k, e = IOEvent.fill k 0 0)) ∧
    (¬ validSectorSize (littleEndian (img 0) 0x0B 2) → reference_begin_lba (img 0) pn = 0 →
      0 < fuel →
      (∃ k, k < p.CacheSize ∧ (p.pBuffers k).NumHandles = 0 ∧
        (p.pBuffers k).isIOMANediting = false) →
      ∃ r, FF_MountPartition fatCheck fuel p w pn = Except.ok r) := by
  have href := reference_begin_lba_eq (img 0) pn
  rw [littleEndian_two]
  have hbps : FF_FAT_BYTES_PER_SECTOR = 0x0B := rfl
  rw [hbps] at href
  constructor
  · intro r h
    unfold FF_MountPartition at h
    rw [if_neg (by omega)] at h
    split at h
    · exact absurd h (by simp)
    · rename_i r1 hl
      simp only [Except.ok.injEq] at h
      subst h
      have hco := FF_MountPartition_locate_coherent fuel p w img pn hc _ hl
      dsimp only at hco
      rw [hbps] at hco
      obtain ⟨-, hnv, hlba, hcase⟩ := hco
      rw [if_neg hnv] at href
      refine ⟨by rw [href, hlba], ?_⟩
      intro _ hz
      rw [href] at hz
      rcases hcase with ⟨-, hret, htr⟩ | ⟨hnz, -, -⟩
      · exact ⟨hret, htr⟩
      · exact absurd hz hnz
    · rename_i p1 w1 i tr hl
      have hco := FF_MountPartition_locate_coherent fuel p w img pn hc _ hl
      dsimp only at hco
      rw [hbps] at hco
      obtain ⟨-, -, hcase, -, -⟩ := hco
      obtain ⟨q1, q2, hq1, hq2, hfinal, -, -⟩ :=
        FF_MountPartition_finish_spec fatCheck fuel p1 w1 i tr r h
      obtain ⟨-, e1⟩ := FF_MountPartition_fields_ok _ _ _ _ hq1
      obtain ⟨-, -, e2⟩ := FF_MountPartition_geometry_ok _ _ _ hq2
      have hlba : r.pIoman.pPartition.BeginLBA = p1.pPartition.BeginLBA := by
        rw [hfinal, e2, e1]
      rw [hlba]
      rcases hcase with ⟨hv, hl0⟩ | ⟨hnv, hl1, hnz⟩
      · rw [if_pos hv] at href
        refine ⟨by rw [href, hl0], ?_⟩
        intro hnv _
        exact absurd hv hnv
      · rw [if_neg hnv] at href
        refine ⟨by rw [href, hl1], ?_⟩
        intro _ hz
        rw [href, ← hl1] at hz
        exact absurd hz hnz
  · intro hnv hz hfuel hfree
    rw [if_neg hnv] at href
    rw [href] at hz
    obtain ⟨r0, hr0⟩ := FF_GetBuffer_coherent_returns fuel p w img hc hfuel hfree 0
    obtain ⟨hw0, -, -, i0, hi0, -, hb0⟩ := FF_GetBuffer_coherent fuel p w img hc 0 r0 hr0
    unfold FF_MountPartition
    rw [if_neg (by omega)]
    unfold FF_MountPartition_locate
    rw [hr0]
    dsimp only
    rw [hi0]
    dsimp only
    rw [hb0, hbps]
    simp only [FF_ReleaseBuffer_pPartition]
    have hnv2 : ¬ (FF_getShort (img 0) 0x0B % 512 = 0 ∧ FF_getShort (img 0) 0x0B > 0) := hnv
    rw [if_neg hnv2, if_pos hz]
    exact ⟨_, rfl⟩

/-- Witness of C18: the master boot record of scenario 2, whose partition 0
starts at sector 2048, mounted with partition number 0. -/
theorem mount_begin_lba_witness :
    Coherent scenario2Image (freshPool 2 ramRead ramWrite) scenario2Image ∧
    FF_MountPartition true 1 (freshPool 2 ramRead ramWrite) scenario2Image 0
      = Except.ok scenario2Mounted ∧
    reference_begin_lba (scenario2Image 0) 0 = 2048 ∧
    scenario2Mounted.pIoman.pPartition.BeginLBA = 2048 ∧
    ((∀ r, FF_MountPartition true 1 (freshPool 2 ramRead ramWrite) scenario2Image 0
        = Except.ok r →
      r.pIoman.pPartition.BeginLBA = reference_begin_lba (scenario2Image 0) 0 ∧
      (¬ validSectorSize (littleEndian (scenario2Image 0) 0x0B 2) →
        reference_begin_lba (scenario2Image 0) 0 = 0 →
        r.ret = FF_ERROR.FF_ERR_IOMAN_NO_MOUNTABLE_PARTITION ∧
        ∀ e ∈ r.trace, ∃ k, e = IOEvent.fill k 0 0)) ∧
     (¬ validSectorSize (littleEndian (scenario2Image 0) 0x0B 2) →
      reference_begin_lba (scenario2Image 0) 0 = 0 → 0 < 1 →
      (∃ k, k < (freshPool 2 ramRead ramWrite).CacheSize ∧
        ((freshPool 2 ramRead ramWrite).pBuffers k).NumHandles = 0 ∧
        ((freshPool 2 ramRead ramWrite).pBuffers k).isIOMANediting = false) →
      ∃ r, FF_MountPartition true 1 (freshPool 2 ramRead ramWrite) scenario2Image 0
        = Except.ok r)) :=
  ⟨Coherent_freshPool 2 ramWrite scenario2Image, okValue_get _ _, by decide, by decide,
   mount_begin_lba true 1 (freshPool 2 ramRead ramWrite) scenario2Image scenario2Image 0
     (Coherent_freshPool 2 ramWrite scenario2Image) (by decide)⟩

/-- C19, as stated, fails for a boot sector in sector 0: the image of scenario
3, whose boot sector in sector 0 has 513 bytes per sector, is taken for a
partitioned disk without partition 0, and the mount returns
`FF_ERR_IOMAN_NO_MOUNTABLE_PARTITION`. -/
theorem invalid_sector_size_in_sector0_counterexample :
    littleEndian (scenario3Image 0) 0x0B 2 = 513 ∧
    mountView (FF_MountPartition true 1 (freshPool 2 ramRead ramWrite) scenario3Image 0)
      = some ⟨FF_ERROR.FF_ERR_IOMAN_NO_MOUNTABLE_PARTITION, 0, 513, 0, 0, 0, 0⟩ ∧
    mountView (FF_MountPartition false 1 (freshPool 2 ramRead ramWrite) scenario3Image 0)
      = some ⟨FF_ERROR.FF_ERR_IOMAN_NO_MOUNTABLE_PARTITION, 0, 513, 0, 0, 0, 0⟩ ∧
    FF_ERROR.FF_ERR_IOMAN_NO_MOUNTABLE_PARTITION ≠ FF_ERROR.FF_ERR_IOMAN_INVALID_FORMAT := by
  refine ⟨by decide, by decide, by decide, by decide⟩

/-- C20, as stated, fails: a manager created by `FF_CreateIOMAN` with blocks of
1024 bytes mounts the image of scenario 1, whose sectors have 512 bytes, with
block factor 0. -/
theorem block_factor_counterexample :
    createRegisterMount 2048 1024 (scenario1Image 32)
      = some ⟨FF_ERROR.FF_ERR_NONE, 0, 512, 0, 8186, FF_T_FAT16, 1⟩ := by
  decide

/-- C20, amended: after a mount that succeeded on a manager whose block size is
a multiple of 512, the block factor is the block size of the partition divided
by the block size of the manager, rounded down; it is at least 1 with
`blk_factor * ioman.block_size = blk_size` exactly when the block size of the
manager divides the block size of the partition. -/
theorem block_factor_is_quotient (fatCheck : Bool) (fuel : Nat) (p : FF_IOMAN D) (w : D)
    (pn : Nat) (r : MountResult D) (hblk : p.BlkSize % 512 = 0)
    (h : FF_MountPartition fatCheck fuel p w pn = Except.ok r)
    (hret : r.ret = FF_ERROR.FF_ERR_NONE) :
    p.BlkSize ≠ 0 ∧ r.pIoman.BlkSize = p.BlkSize ∧
    validSectorSize r.pIoman.pPartition.BlkSize ∧
    r.pIoman.pPartition.BlkFactor = r.pIoman.pPartition.BlkSize / r.pIoman.BlkSize ∧
    ((1 ≤ r.pIoman.pPartition.BlkFactor ∧
        r.pIoman.pPartition.BlkFactor * r.pIoman.BlkSize = r.pIoman.pPartition.BlkSize) ↔
      r.pIoman.pPartition.BlkSize % r.pIoman.BlkSize = 0) := by
  obtain ⟨-, p1, w1, i, tr, hl, hf⟩ :=
    FF_MountPartition_ok fatCheck fuel p w pn r h (Or.inl hret)
  have hfr := FF_MountPartition_locate_frame fuel p w pn _ hl
  dsimp only at hfr
  obtain ⟨hbs, hvalid, hlt⟩ := hfr
  obtain ⟨q1, q2, hq1, hq2, hfinal, hb, -⟩ :=
    FF_MountPartition_finish_spec fatCheck fuel p1 w1 i tr r hf
  obtain ⟨hnz, e1⟩ := FF_MountPartition_fields_ok _ _ _ _ hq1
  obtain ⟨-, -, e2⟩ := FF_MountPartition_geometry_ok _ _ _ hq2
  rw [hbs] at hnz
  have hsize : r.pIoman.pPartition.BlkSize = p1.pPartition.BlkSize := by
    rw [hfinal, e2, e1]
  have hfac : r.pIoman.pPartition.BlkFactor = (p1.pPartition.BlkSize / p1.BlkSize) % 256 := by
    rw [hfinal, e2, e1]
  rw [hb.trans hbs, hsize, hfac, hbs]
  have hge : 512 ≤ p.BlkSize := by omega
  have hq : p1.pPartition.BlkSize / p.BlkSize < 256 := by
    apply Nat.div_lt_of_lt_mul
    calc p1.pPartition.BlkSize < 65536 := hlt
      _ = 128 * 512 := by norm_num
      _ ≤ p.BlkSize * 256 := by omega
  rw [Nat.mod_eq_of_lt hq]
  refine ⟨hnz, rfl, hvalid, rfl, ?_⟩
  constructor
  · intro hx
    rw [← hx.2]
    exact Nat.mul_mod_left _ _
  · intro hx
    have hd : p.BlkSize ∣ p1.pPartition.BlkSize := Nat.dvd_of_mod_eq_zero hx
    refine ⟨?_, Nat.div_mul_cancel hd⟩
    exact Nat.div_pos (Nat.le_of_dvd hvalid.2 hd) (by omega)

/-- Witness of the amended C20: the mount of scenario 1 on a fresh pool with
blocks of 512 bytes has block factor 1. -/
theorem block_factor_is_quotient_witness :
    (freshPool 2 ramRead ramWrite).BlkSize % 512 = 0 ∧
    FF_MountPartition true 1 (freshPool 2 ramRead ramWrite) (scenario1Image 32) 0
      = Except.ok scenario1Mounted ∧
    scenario1Mounted.ret = FF_ERROR.FF_ERR_NONE ∧
    scenario1Mounted.pIoman.pPartition.BlkFactor = 1 ∧
    ((freshPool 2 ramRead ramWrite).BlkSize ≠ 0 ∧
     scenario1Mounted.pIoman.BlkSize = (freshPool 2 ramRead ramWrite).BlkSize ∧
     validSectorSize scenario1Mounted.pIoman.pPartition.BlkSize ∧
     scenario1Mounted.pIoman.pPartition.BlkFactor
      = scenario1Mounted.pIoman.pPartition.BlkSize / scenario1Mounted.pIoman.BlkSize ∧
     ((1 ≤ scenario1Mounted.pIoman.pPartition.BlkFactor ∧
        scenario1Mounted.pIoman.pPartition.BlkFactor * scenario1Mounted.pIoman.BlkSize
          = scenario1Mounted.pIoman.pPartition.BlkSize) ↔
      scenario1Mounted.pIoman.pPartition.BlkSize % scenario1Mounted.pIoman.BlkSize = 0)) :=
  ⟨by decide, okValue_get _ _, by decide, by decide,
   block_factor_is_quotient true 1 (freshPool 2 ramRead ramWrite) (scenario1Image 32) 0
     scenario1Mounted (by decide) (okValue_get _ _) (by decide)⟩

/-! ## A mount on a cache that agrees with the image returns -/

/-- A descriptor that was neither held nor in service before an acquisition is
so again once the descriptor handed out is released. -/
theorem FF_GetBuffer_release_free (fuel : Nat) (p : FF_IOMAN D) (w : D) (Sector Mode : Nat)
    (r : GetBufferResult D) (i : Nat) (h : FF_GetBuffer fuel p w Sector Mode = some r)
    (hi : r.ret = some i) (k : Nat)
    (hk : (p.pBuffers k).NumHandles = 0 ∧ (p.pBuffers k).isIOMANediting = false) :
    ((FF_ReleaseBuffer r.pIoman i).pBuffers k).NumHandles = 0 ∧
    ((FF_ReleaseBuffer r.pIoman i).pBuffers k).isIOMANediting = false := by
  unfold FF_ReleaseBuffer
  cases FF_GetBuffer_cases fuel p w Sector Mode r h with
  | invalid hv hr => subst hr; simp at hi
  | hit j hj hm hs hmd hc1 hc2 hr =>
    subst hr
    simp only [FF_GetBuffer_hit, Option.some.injEq] at hi
    subst hi
    by_cases hkj : k = j
    · subst hkj
      simp [FF_GetBuffer_hit, hk.1, hk.2]
    · simp [FF_GetBuffer_hit, hkj, hk.1, hk.2]
  | refresh j hj hm hs hmd hc hn hr =>
    obtain ⟨rv, buf, -, -, hframe, hcase⟩ := FF_GetBuffer_refresh_spec fuel p w Sector j r hr
    rcases hcase with ⟨-, hnone, -⟩ | ⟨-, hsome, hslot⟩
    · rw [hnone] at hi; simp at hi
    · rw [hsome] at hi
      simp only [Option.some.injEq] at hi
      subst hi
      by_cases hkj : k = j
      · subst hkj
        simp [hslot, hn]
      · simp [hkj, hframe k hkj, hk.1, hk.2]
  | takeOver j hj hv hs he hmd hn hr =>
    obtain ⟨rv, -, hsome, -, hframe, hslot⟩ :=
      FF_GetBuffer_takeOver_spec fuel p w Sector Mode j r hr
    rw [hsome] at hi
    simp only [Option.some.injEq] at hi
    subst hi
    by_cases hkj : k = j
    · subst hkj
      simp [hslot]
    · simp [hkj, hframe k hkj, hk.1, hk.2]
  | evict j hj hv hn he hr =>
    obtain ⟨rv, buf, tr0, -, -, -, hframe, hcase⟩ :=
      FF_GetBuffer_evict_spec fuel p w Sector Mode j r hr
    rcases hcase with ⟨-, hnone, -⟩ | ⟨-, hsome, hslot⟩
    · rw [hnone] at hi; simp at hi
    · rw [hsome] at hi
      simp only [Option.some.injEq] at hi
      subst hi
      by_cases hkj : k = j
      · subst hkj
        simp [hslot]
      · simp [hkj, hframe k hkj, hk.1, hk.2]

/-- The check of the first FAT entry on a cache that agrees with the image
tests the entry the image has in the first sector of the FAT. -/
theorem FF_DetermineFatType_check_coherent (fuel : Nat) (p : FF_IOMAN D) (w : D)
    (img : Nat → Block) (long : Bool) (bad : Nat → Bool) (d : FatTypeResult D)
    (hc : Coherent img p w) (h : FF_DetermineFatType_check fuel p w long bad = some d) :
    d.world = w ∧
    (d.ret = 0 ↔
      bad (if long = true then FF_getLong (img p.pPartition.FatBeginLBA) 0
           else FF_getShort (img p.pPartition.FatBeginLBA) 0) = false) := by
  unfold FF_DetermineFatType_check at h
  cases hr : FF_GetBuffer fuel p w p.pPartition.FatBeginLBA FF_MODE_READ with
  | none => rw [hr] at h; exact absurd h (by simp)
  | some r =>
    obtain ⟨hw, -, -, i, hi, -, hb⟩ := FF_GetBuffer_coherent fuel p w img hc _ r hr
    rw [hr] at h
    dsimp only at h
    rw [hi] at h
    dsimp only at h
    rw [hb] at h
    cases long <;>
      (simp only [Bool.false_eq_true, if_false, if_true] at h ⊢
       split_ifs at h with hbad <;>
         (simp only [Option.some.injEq] at h
          subst h
          refine ⟨hw, ?_⟩
          simp [hbad]))

/-- The check of the first FAT entry on a cache that agrees with the image
returns when there is fuel and a descriptor that is neither held nor in
service. -/
theorem FF_DetermineFatType_check_returns (fuel : Nat) (p : FF_IOMAN D) (w : D)
    (img : Nat → Block) (long : Bool) (bad : Nat → Bool) (hc : Coherent img p w)
    (hfuel : 0 < fuel)
    (hfree : ∃ k, k < p.CacheSize ∧ (p.pBuffers k).NumHandles = 0 ∧
      (p.pBuffers k).isIOMANediting = false) :
    ∃ d, FF_DetermineFatType_check fuel p w long bad = some d := by
  obtain ⟨r, hr⟩ := FF_GetBuffer_coherent_returns fuel p w img hc hfuel hfree
    p.pPartition.FatBeginLBA
  unfold FF_DetermineFatType_check
  rw [hr]
  dsimp only
  cases r.ret with
  | none => exact ⟨_, rfl⟩
  | some i =>
    dsimp only
    split_ifs <;> exact ⟨_, rfl⟩

/-- On a cache that agrees with the image `FF_DetermineFatType` gives 0 exactly
when the check is compiled out or the first FAT entry of the image passes the
test for the count of clusters. -/
theorem FF_DetermineFatType_coherent (fatCheck : Bool) (fuel : Nat) (p : FF_IOMAN D) (w : D)
    (img : Nat → Block) (d : FatTypeResult D) (hc : Coherent img p w)
    (h : FF_DetermineFatType fatCheck fuel p w = some d) :
    d.world = w ∧
    (d.ret = 0 ↔
      (fatCheck = false ∨
        fatEntryValid p.pPartition.NumClusters (img p.pPartition.FatBeginLBA))) := by
  unfold FF_DetermineFatType at h
  dsimp only at h
  unfold fatEntryValid
  simp only [littleEndian_two, littleEndian_four]
  split_ifs at h with h1 hfc h2 hfc hfc
  · obtain ⟨a, b⟩ := FF_DetermineFatType_check_coherent fuel _ w img _ _ d (by exact hc) h
    refine ⟨a, ?_⟩
    rw [b]
    simp [hfc, h1]
  · simp only [Option.some.injEq] at h
    subst h
    simp only [Bool.not_eq_true] at hfc
    simp [hfc]
  · obtain ⟨a, b⟩ := FF_DetermineFatType_check_coherent fuel _ w img _ _ d (by exact hc) h
    refine ⟨a, ?_⟩
    rw [b]
    simp [hfc, h1, h2]
  · simp only [Option.some.injEq] at h
    subst h
    simp only [Bool.not_eq_true] at hfc
    simp [hfc]
  · obtain ⟨a, b⟩ := FF_DetermineFatType_check_coherent fuel _ w img _ _ d (by exact hc) h
    refine ⟨a, ?_⟩
    rw [b]
    simp [hfc, h1, h2]
  · simp only [Option.some.injEq] at h
    subst h
    simp only [Bool.not_eq_true] at hfc
    simp [hfc]

/-- On a cache that agrees with the image `FF_DetermineFatType` returns when
there is fuel and a descriptor that is neither held nor in service. -/
theorem FF_DetermineFatType_returns (fatCheck : Bool) (fuel : Nat) (p : FF_IOMAN D) (w : D)
    (img : Nat → Block) (hc : Coherent img p w) (hfuel : 0 < fuel)
    (hfree : ∃ k, k < p.CacheSize ∧ (p.pBuffers k).NumHandles = 0 ∧
      (p.pBuffers k).isIOMANediting = false) :
    ∃ d, FF_DetermineFatType fatCheck fuel p w = some d := by
  unfold FF_DetermineFatType
  dsimp only
  split_ifs
  · exact FF_DetermineFatType_check_returns fuel _ w img _ _ (by exact hc) hfuel (by exact hfree)
  · exact ⟨_, rfl⟩
  · exact FF_DetermineFatType_check_returns fuel _ w img _ _ (by exact hc) hfuel (by exact hfree)
  · exact ⟨_, rfl⟩
  · exact FF_DetermineFatType_check_returns fuel _ w img _ _ (by exact hc) hfuel (by exact hfree)
  · exact ⟨_, rfl⟩

/-- Lines 688-713 end when the block size of the manager is not 0. -/
theorem FF_MountPartition_fields_returns (b : Nat) (buf : Block) (q : FF_PARTITION)
    (hb : b ≠ 0) : ∃ q1, FF_MountPartition_fields b buf q = Except.ok q1 := by
  unfold FF_MountPartition_fields
  dsimp only
  rw [if_neg hb]
  split_ifs <;> exact ⟨_, rfl⟩

/-- Lines 716-719 end when neither the block size nor the sectors per cluster
of the descriptor is 0. -/
theorem FF_MountPartition_geometry_returns (buf : Block) (q : FF_PARTITION)
    (hb : q.BlkSize ≠ 0) (hs : q.SectorsPerCluster ≠ 0) :
    ∃ q1, FF_MountPartition_geometry buf q = Except.ok q1 := by
  unfold FF_MountPartition_geometry
  dsimp only
  rw [if_neg hb, if_neg hs]
  exact ⟨_, rfl⟩

/-- Lines 688-725 on a cache that agrees with the image give 0 exactly when the
check of the first FAT entry is compiled out or the entry the image has in the
first sector of the FAT passes the test for the count of clusters. -/
theorem FF_MountPartition_finish_coherent (fatCheck : Bool) (fuel : Nat) (p : FF_IOMAN D)
    (w : D) (img : Nat → Block) (i : Nat) (tr : List IOEvent) (r : MountResult D)
    (hc : Coherent img p w)
    (h : FF_MountPartition_finish fatCheck fuel p w i tr = Except.ok r) :
    r.world = w ∧
    (r.ret = FF_ERROR.FF_ERR_NONE ↔
      (fatCheck = false ∨
        fatEntryValid r.pIoman.pPartition.NumClusters
          (img r.pIoman.pPartition.FatBeginLBA))) := by
  unfold FF_MountPartition_finish at h
  split at h
  · exact absurd h (by simp)
  · rename_i q hq
    dsimp only at h
    split at h
    · exact absurd h (by simp)
    · rename_i q1 hq1
      split at h
      · exact absurd h (by simp)
      · rename_i d hd
        have hc1 : Coherent img (FF_ReleaseBuffer { p with pPartition := q } i) w :=
          Coherent_release img _ w i hc
        obtain ⟨hw, hiff⟩ := FF_DetermineFatType_coherent fatCheck fuel _ w img d
          (by exact hc1) hd
        obtain ⟨hpart, -, -⟩ := FF_DetermineFatType_spec fatCheck fuel _ w d hd
        have hn : d.pIoman.pPartition.NumClusters = q1.NumClusters := by rw [hpart]
        have hf : d.pIoman.pPartition.FatBeginLBA = q1.FatBeginLBA := by rw [hpart]
        dsimp only at hiff
        split_ifs at h with hret <;>
          (simp only [Except.ok.injEq] at h; subst h; refine ⟨hw, ?_⟩)
        · simp only [hn, hf, reduceCtorEq, false_iff]
          rw [← hiff]
          exact hret
        · simp only [hn, hf, true_iff]
          rw [← hiff]
          exact not_not.mp hret

/-- Lines 688-725 on a cache that agrees with the image return when there is
fuel, a descriptor that is neither held nor in service once descriptor `i` is
released, and neither block size nor the sectors-per-cluster byte is 0. -/
theorem FF_MountPartition_finish_returns (fatCheck : Bool) (fuel : Nat) (p : FF_IOMAN D)
    (w : D) (img : Nat → Block) (i : Nat) (tr : List IOEvent) (hc : Coherent img p w)
    (hfuel : 0 < fuel)
    (hfree : ∃ k, k < p.CacheSize ∧ ((FF_ReleaseBuffer p i).pBuffers k).NumHandles = 0 ∧
      ((FF_ReleaseBuffer p i).pBuffers k).isIOMANediting = false)
    (hb : p.BlkSize ≠ 0) (hq : p.pPartition.BlkSize ≠ 0)
    (hspc : FF_getChar (p.pBuffers i).pBuffer 0x0D ≠ 0) :
    ∃ r, FF_MountPartition_finish fatCheck fuel p w i tr = Except.ok r := by
  obtain ⟨q, hq1⟩ := FF_MountPartition_fields_returns p.BlkSize (p.pBuffers i).pBuffer
    p.pPartition hb
  obtain ⟨-, e1⟩ := FF_MountPartition_fields_ok _ _ _ _ hq1
  have hqb : q.BlkSize ≠ 0 := by rw [e1]; exact hq
  have hqs : q.SectorsPerCluster ≠ 0 := by rw [e1]; exact hspc
  obtain ⟨q2, hq2⟩ := FF_MountPartition_geometry_returns (p.pBuffers i).pBuffer q hqb hqs
  have hc1 : Coherent img (FF_ReleaseBuffer { p with pPartition := q } i) w :=
    Coherent_release img _ w i hc
  obtain ⟨d, hd⟩ := FF_DetermineFatType_returns fatCheck fuel
    { FF_ReleaseBuffer { p with pPartition := q } i with pPartition := q2 } w img
    (by exact hc1) hfuel (by exact hfree)
  unfold FF_MountPartition_finish
  rw [hq1]
  simp only [FF_ReleaseBuffer_pBuffer, FF_ReleaseBuffer_pPartition, hq2]
  dsimp only at hd
  rw [hd]
  dsimp only
  split_ifs <;> exact ⟨_, rfl⟩

/-- Lines 655-686 on a cache that agrees with the image return when there is
fuel and a descriptor that is neither held nor in service; when they end with
the boot sector in descriptor `i`, there is such a descriptor once `i` is
released. -/
theorem FF_MountPartition_locate_returns (fuel : Nat) (p : FF_IOMAN D) (w : D)
    (img : Nat → Block) (pn : Nat) (hc : Coherent img p w) (hfuel : 0 < fuel)
    (hfree : ∃ k, k < p.CacheSize ∧ (p.pBuffers k).NumHandles = 0 ∧
      (p.pBuffers k).isIOMANediting = false) :
    ∃ x, FF_MountPartition_locate fuel p w pn = Except.ok x ∧
      match x with
      | Located.failed _ => True
      | Located.found p1 _ i _ =>
        ∃ k, k < p1.CacheSize ∧ ((FF_ReleaseBuffer p1 i).pBuffers k).NumHandles = 0 ∧
          ((FF_ReleaseBuffer p1 i).pBuffers k).isIOMANediting = false := by
  obtain ⟨k, hk, hkfree⟩ := hfree
  obtain ⟨r0, hr0⟩ := FF_GetBuffer_coherent_returns fuel p w img hc hfuel ⟨k, hk, hkfree⟩ 0
  obtain ⟨-, -, -, hcs0⟩ := FF_GetBuffer_frame fuel p w _ _ r0 hr0
  obtain ⟨hw0, hc0, -, i0, hi0, -, hb0⟩ := FF_GetBuffer_coherent fuel p w img hc 0 r0 hr0
  have hfree0 := FF_GetBuffer_release_free fuel p w 0 FF_MODE_READ r0 i0 hr0 hi0 k hkfree
  unfold FF_MountPartition_locate
  rw [hr0]
  dsimp only
  rw [hi0]
  dsimp only
  rw [hb0, hw0]
  simp only [FF_ReleaseBuffer_pPartition]
  split_ifs with hv hz
  · exact ⟨_, rfl, k, by rw [← hcs0] at hk; exact hk, hfree0⟩
  · exact ⟨_, rfl, trivial⟩
  · have hc3 : Coherent img
        (FF_ReleaseBuffer
          { r0.pIoman with
            pPartition :=
              { r0.pIoman.pPartition with
                BlkSize := FF_getShort (img 0) FF_FAT_BYTES_PER_SECTOR
                BeginLBA := FF_MountPartition_tableLBA (img 0) pn } } i0) w :=
      Coherent_release img _ w i0 hc0
    cases hr1 : FF_GetBuffer fuel _ w _ FF_MODE_READ with
    | none =>
      exfalso
      obtain ⟨r1, hr1b⟩ := FF_GetBuffer_coherent_returns fuel _ w img hc3 hfuel
        ⟨k, by rw [← hcs0] at hk; exact hk, hfree0⟩ (FF_MountPartition_tableLBA (img 0) pn)
      rw [hr1b] at hr1
      exact absurd hr1 (by simp)
    | some r1 =>
      obtain ⟨-, -, -, hcs1⟩ := FF_GetBuffer_frame fuel _ w _ _ r1 hr1
      obtain ⟨-, -, -, i1, hi1, -, -⟩ := FF_GetBuffer_coherent fuel _ w img hc3 _ r1 hr1
      have hfree1 := FF_GetBuffer_release_free fuel _ w _ FF_MODE_READ r1 i1 hr1 hi1 k hfree0
      dsimp only
      rw [hi1]
      dsimp only
      split_ifs
      · exact ⟨_, rfl, trivial⟩
      · refine ⟨_, rfl, k, ?_, hfree1⟩
        show k < r1.pIoman.CacheSize
        rw [hcs1]
        show k < r0.pIoman.CacheSize
        rw [hcs0]
        exact hk

/-- A mount on a cache that agrees with the image returns when there is fuel,
a descriptor that is neither held nor in service, a manager block size other
than 0 and, in the sector where the volume starts, a sectors-per-cluster byte
other than 0. -/
theorem FF_MountPartition_returns (fatCheck : Bool) (fuel : Nat) (p : FF_IOMAN D) (w : D)
    (img : Nat → Block) (pn : Nat) (hc : Coherent img p w) (hfuel : 0 < fuel)
    (hfree : ∃ k, k < p.CacheSize ∧ (p.pBuffers k).NumHandles = 0 ∧
      (p.pBuffers k).isIOMANediting = false)
    (hb : p.BlkSize ≠ 0)
    (hspc : FF_getChar (img (reference_begin_lba (img 0) pn)) 0x0D ≠ 0) :
    ∃ r, FF_MountPartition fatCheck fuel p w pn = Except.ok r := by
  unfold FF_MountPartition
  split_ifs with hpn
  · exact ⟨_, rfl⟩
  · obtain ⟨x, hx, hxfree⟩ := FF_MountPartition_locate_returns fuel p w img pn hc hfuel hfree
    have hfr := FF_MountPartition_locate_frame fuel p w pn x hx
    have hco := FF_MountPartition_locate_coherent fuel p w img pn hc x hx
    rw [hx]
    cases x with
    | failed r => exact ⟨r, rfl⟩
    | found p1 w1 i tr =>
      dsimp only at hfr hco hxfree ⊢
      obtain ⟨hbs, hvalid, -⟩ := hfr
      obtain ⟨hw1, hc1, hcase, hbytes, -⟩ := hco
      have href := reference_begin_lba_eq (img 0) pn
      have hlba : p1.pPartition.BeginLBA = reference_begin_lba (img 0) pn := by
        rcases hcase with ⟨hv, hl⟩ | ⟨hnv, hl, -⟩
        · rw [href, if_pos hv, hl]
        · rw [href, if_neg hnv, hl]
      subst hw1
      apply FF_MountPartition_finish_returns fatCheck fuel p1 w1 img i tr hc1 hfuel hxfree
      · rw [hbs]; exact hb
      · exact Nat.pos_iff_ne_zero.mp hvalid.2
      · rw [hbytes, hlba]
        exact hspc

/-- The byte at an offset below 512 of a sector given by a function. -/
theorem sectorOf_getD (f : Nat → Nat) (k : Nat) (hk : k < 512) :
    ((sectorOf f).getD k 0).toNat = f k % 256 := by
  unfold sectorOf
  rw [List.getD_eq_getElem?_getD, List.getElem?_map, List.getElem?_range hk]
  rfl

/-- The image of scenario 1 has the boot sector of scenario 1 in sector 0. -/
theorem scenario1Image_fields (spf : Nat) (hspf : spf < 65536) :
    scenario1 (scenario1Image spf 0) spf := by
  unfold scenario1 scenario1Image bpbSector
  simp only [if_true, littleEndian, sectorOf_getD, Nat.reduceAdd, Nat.reduceLT]
  simp only [fieldByte]
  norm_num
  omega

/-- On a cache that agrees with the image and for a partition number up to 3, a
mount that returns gives 0 exactly when a boot sector with a valid
bytes-per-sector value was found (in sector 0, or at a start from the partition
table that is not 0) and the check of the first FAT entry is compiled out or
passes. -/
theorem FF_MountPartition_success_iff (fatCheck : Bool) (fuel : Nat) (p : FF_IOMAN D) (w : D)
    (img : Nat → Block) (pn : Nat) (r : MountResult D) (hc : Coherent img p w) (hpn : pn ≤ 3)
    (h : FF_MountPartition fatCheck fuel p w pn = Except.ok r) :
    (r.ret = FF_ERROR.FF_ERR_NONE ↔
      ((validSectorSize (FF_getShort (img 0) 0x0B) ∨
          (reference_begin_lba (img 0) pn ≠ 0 ∧
            validSectorSize (FF_getShort (img (reference_begin_lba (img 0) pn)) 0x0B))) ∧
        (fatCheck = false ∨
          fatEntryValid r.pIoman.pPartition.NumClusters
            (img r.pIoman.pPartition.FatBeginLBA)))) ∧
    ((validSectorSize (FF_getShort (img 0) 0x0B) ∨
        (reference_begin_lba (img 0) pn ≠ 0 ∧
          validSectorSize (FF_getShort (img (reference_begin_lba (img 0) pn)) 0x0B))) →
      r.ret = FF_ERROR.FF_ERR_NONE ∨ r.ret = FF_ERROR.FF_ERR_IOMAN_NOT_FAT_FORMATTED) := by
  have href := reference_begin_lba_eq (img 0) pn
  have hbps : FF_FAT_BYTES_PER_SECTOR = 0x0B := rfl
  rw [hbps] at href
  unfold FF_MountPartition at h
  rw [if_neg (by omega)] at h
  split at h
  · exact absurd h (by simp)
  · rename_i r1 hl
    simp only [Except.ok.injEq] at h
    subst h
    have hco := FF_MountPartition_locate_coherent fuel p w img pn hc _ hl
    dsimp only at hco
    rw [hbps] at hco
    obtain ⟨-, hnv, -, hcase⟩ := hco
    rw [if_neg hnv] at href
    rw [href]
    have hnot : ¬ (validSectorSize (FF_getShort (img 0) 0x0B) ∨
        (FF_MountPartition_tableLBA (img 0) pn ≠ 0 ∧
          validSectorSize
            (FF_getShort (img (FF_MountPartition_tableLBA (img 0) pn)) 0x0B))) := by
      intro hfound
      rcases hfound with hv | ⟨hnz, hv⟩
      · exact absurd hv hnv
      · rcases hcase with ⟨hz, -, -⟩ | ⟨-, hbad, -⟩
        · exact absurd hz hnz
        · exact absurd hv hbad
    refine ⟨⟨?_, fun hx => absurd hx.1 hnot⟩, fun hx => absurd hx hnot⟩
    intro hret
    rcases hcase with ⟨-, hr, -⟩ | ⟨-, -, hr⟩ <;>
      (rw [hr] at hret; exact absurd hret (by decide))
  · rename_i p1 w1 i tr hl
    have hco := FF_MountPartition_locate_coherent fuel p w img pn hc _ hl
    have hfr := FF_MountPartition_locate_frame fuel p w pn _ hl
    dsimp only at hco hfr
    rw [hbps] at hco
    obtain ⟨hw1, hc1, hcase, -, hpart⟩ := hco
    obtain ⟨-, hvalid, -⟩ := hfr
    rw [hpart] at hvalid
    have hvalid2 : validSectorSize (FF_getShort (img p1.pPartition.BeginLBA) 0x0B) := hvalid
    subst hw1
    obtain ⟨-, hiff⟩ := FF_MountPartition_finish_coherent fatCheck fuel p1 w1 img i tr r hc1 h
    obtain ⟨-, -, -, -, -, -, hret⟩ :=
      FF_MountPartition_finish_spec fatCheck fuel p1 w1 i tr r h
    have hfound : validSectorSize (FF_getShort (img 0) 0x0B) ∨
        (reference_begin_lba (img 0) pn ≠ 0 ∧
          validSectorSize (FF_getShort (img (reference_begin_lba (img 0) pn)) 0x0B)) := by
      rcases hcase with ⟨hv, -⟩ | ⟨hnv, hl1, hnz⟩
      · exact Or.inl hv
      · rw [if_neg hnv] at href
        rw [href, ← hl1]
        exact Or.inr ⟨hnz, hvalid2⟩
    exact ⟨⟨fun hx => ⟨hfound, hiff.mp hx⟩, fun hx => hiff.mpr hx.2⟩, fun _ => hret⟩

/-- A fresh pool with a descriptor has one that is neither held nor in
service, and blocks of 512 bytes. -/
theorem freshPool_free (n : Nat) (rd : FF_READ_BLOCKS Disk) (wr : FF_WRITE_BLOCKS Disk)
    (hn : 0 < n) :
    (∃ k, k < (freshPool n rd wr).CacheSize ∧ ((freshPool n rd wr).pBuffers k).NumHandles = 0 ∧
      ((freshPool n rd wr).pBuffers k).isIOMANediting = false) ∧
    (freshPool n rd wr).BlkSize = 512 := by
  unfold freshPool
  obtain ⟨hcs, hslots⟩ := FF_IOMAN_InitBufferDescriptors_spec
    ({ BlkSize := 512, CacheSize := n, pBuffers := fun _ => zeroBuffer,
       pBlkDevice := { devBlkSize := 512, fnReadBlocks := some rd, fnWriteBlocks := some wr,
                       pParam := 1 },
       pPartition := zeroPartition } : FF_IOMAN Disk)
  obtain ⟨hbs, -, -⟩ := FF_IOMAN_InitBufferDescriptors_frame
    ({ BlkSize := 512, CacheSize := n, pBuffers := fun _ => zeroBuffer,
       pBlkDevice := { devBlkSize := 512, fnReadBlocks := some rd, fnWriteBlocks := some wr,
                       pParam := 1 },
       pPartition := zeroPartition } : FF_IOMAN Disk)
  refine ⟨⟨0, ?_, ?_, ?_⟩, hbs⟩
  · rw [hcs]; exact hn
  · rw [hslots 0 hn]
  · rw [hslots 0 hn]

/-- C15: on a cache that agrees with the image, after a mount that succeeded
the fields of the partition descriptor equal the reference parse of the boot
sector (the sector of the image at the start of the volume, whose
bytes-per-sector field is the block size of the descriptor), and when sector 0
is the boot sector of scenario 1 with `spf` sectors per FAT, `spf` a 16-bit
value that is not 0, the volume starts at sector 0, `cluster_begin_lba` is
`32 + spf`, `root_dir_sectors` is 32 and the type is FAT16; and the image of
scenario 1, for every such `spf`, is mounted with success on every fresh pool
with a descriptor, with these values. -/
theorem mount_descriptor_is_reference_parse :
    (∀ (fatCheck : Bool) (fuel : Nat) (p : FF_IOMAN D) (w : D) (img : Nat → Block) (pn : Nat)
        (r : MountResult D),
      Coherent img p w → FF_MountPartition fatCheck fuel p w pn = Except.ok r →
      r.ret = FF_ERROR.FF_ERR_NONE →
      descriptorParse r.pIoman.pPartition
        = referenceParse (img r.pIoman.pPartition.BeginLBA) r.pIoman.pPartition.BeginLBA ∧
      r.pIoman.pPartition.BlkSize = littleEndian (img r.pIoman.pPartition.BeginLBA) 0x0B 2 ∧
      ∀ spf, 0 < spf → spf < 65536 → scenario1 (img 0) spf →
        r.pIoman.pPartition.BeginLBA = 0 ∧
        r.pIoman.pPartition.ClusterBeginLBA = 32 + spf ∧
        r.pIoman.pPartition.RootDirSectors = 32 ∧
        r.pIoman.pPartition.FatType = FF_T_FAT16) ∧
    (∀ (fatCheck : Bool) (fuel n spf : Nat) (wr : FF_WRITE_BLOCKS Disk),
      0 < fuel → 0 < n → 0 < spf → spf < 65536 →
      ∃ r, FF_MountPartition fatCheck fuel (freshPool n ramRead wr) (scenario1Image spf) 0
          = Except.ok r ∧
        r.ret = FF_ERROR.FF_ERR_NONE ∧
        r.pIoman.pPartition.BeginLBA = 0 ∧
        r.pIoman.pPartition.ClusterBeginLBA = 32 + spf ∧
        r.pIoman.pPartition.RootDirSectors = 32 ∧
        r.pIoman.pPartition.FatType = FF_T_FAT16) := by
  constructor
  · intro fatCheck fuel p w img pn r hc h hret
    obtain ⟨a, b, c⟩ :=
      FF_MountPartition_reference_parse fatCheck fuel p w img pn r hc h (Or.inl hret)
    refine ⟨a, b, ?_⟩
    intro spf h0 h1 hsc
    obtain ⟨c1, c2, c3, c4, -⟩ := c spf h0 h1 hsc
    exact ⟨c1, c2, c3, c4⟩
  · intro fatCheck fuel n spf wr hfuel hn hspf0 hspf1
    have hc := Coherent_freshPool n wr (scenario1Image spf)
    obtain ⟨hfree, hbs⟩ := freshPool_free n ramRead wr hn
    have hsc := scenario1Image_fields spf hspf1
    have hsc2 := hsc
    obtain ⟨s1, s2, -⟩ := hsc2
    simp only [littleEndian_one, littleEndian_two] at s1 s2
    have hv0 : validSectorSize (FF_getShort (scenario1Image spf 0) 0x0B) := by
      rw [s1]; decide
    have href : reference_begin_lba (scenario1Image spf 0) 0 = 0 := by
      rw [reference_begin_lba_eq]
      exact if_pos hv0
    obtain ⟨r, hr⟩ := FF_MountPartition_returns fatCheck fuel (freshPool n ramRead wr)
      (scenario1Image spf) (scenario1Image spf) 0 hc hfuel hfree (by rw [hbs]; decide)
      (by rw [href, s2]; decide)
    obtain ⟨hiff, hfin⟩ := FF_MountPartition_success_iff fatCheck fuel _ _ (scenario1Image spf)
      0 r hc (by decide) hr
    obtain ⟨-, -, c⟩ := FF_MountPartition_reference_parse fatCheck fuel _ _
      (scenario1Image spf) 0 r hc hr (hfin (Or.inl hv0))
    obtain ⟨c1, c2, c3, c4, c5, c6, c7⟩ := c spf hspf0 hspf1 hsc
    refine ⟨r, hr, ?_, c1, c2, c3, c4⟩
    rw [hiff]
    refine ⟨Or.inl hv0, Or.inr ?_⟩
    rw [c5]
    unfold fatEntryValid
    rw [if_neg (by omega), if_pos c7]
    show littleEndian (fatSector 0xFFF8) 0 2 = 0xFFF8
    decide

/-- Witness of C15: scenario 1 with 32 sectors per FAT, mounted on a fresh pool
of two descriptors. -/
theorem mount_descriptor_is_reference_parse_witness :
    Coherent (scenario1Image 32) (freshPool 2 ramRead ramWrite) (scenario1Image 32) ∧
    FF_MountPartition true 1 (freshPool 2 ramRead ramWrite) (scenario1Image 32) 0
      = Except.ok scenario1Mounted ∧
    scenario1Mounted.ret = FF_ERROR.FF_ERR_NONE ∧
    (descriptorParse scenario1Mounted.pIoman.pPartition
      = referenceParse (scenario1Image 32 scenario1Mounted.pIoman.pPartition.BeginLBA)
          scenario1Mounted.pIoman.pPartition.BeginLBA ∧
     scenario1Mounted.pIoman.pPartition.BlkSize
      = littleEndian (scenario1Image 32 scenario1Mounted.pIoman.pPartition.BeginLBA) 0x0B 2 ∧
     ∀ spf, 0 < spf → spf < 65536 → scenario1 (scenario1Image 32 0) spf →
      scenario1Mounted.pIoman.pPartition.BeginLBA = 0 ∧
      scenario1Mounted.pIoman.pPartition.ClusterBeginLBA = 32 + spf ∧
      scenario1Mounted.pIoman.pPartition.RootDirSectors = 32 ∧
      scenario1Mounted.pIoman.pPartition.FatType = FF_T_FAT16) ∧
    (∃ r, FF_MountPartition true 1 (freshPool 2 ramRead ramWrite) (scenario1Image 32) 0
        = Except.ok r ∧
      r.ret = FF_ERROR.FF_ERR_NONE ∧
      r.pIoman.pPartition.BeginLBA = 0 ∧
      r.pIoman.pPartition.ClusterBeginLBA = 32 + 32 ∧
      r.pIoman.pPartition.RootDirSectors = 32 ∧
      r.pIoman.pPartition.FatType = FF_T_FAT16) :=
  ⟨Coherent_freshPool 2 ramWrite (scenario1Image 32), okValue_get _ _, by decide,
   (@mount_descriptor_is_reference_parse Disk).1 true 1 (freshPool 2 ramRead ramWrite)
     (scenario1Image 32) (scenario1Image 32) 0 scenario1Mounted
     (Coherent_freshPool 2 ramWrite (scenario1Image 32)) (okValue_get _ _) (by decide),
   (@mount_descriptor_is_reference_parse Disk).2 true 1 2 32 ramWrite (by decide) (by decide)
     (by decide) (by decide)⟩

/-- C19, amended: on a cache that agrees with the image and for a partition
number up to 3, a mount that returns gives `FF_ERR_IOMAN_INVALID_FORMAT` exactly
when the bytes-per-sector field of sector 0 is not a positive multiple of 512
(sector 0 is then read as a master boot record), the start of the partition
from the table is not 0, and the bytes-per-sector field of the sector at that
start is not a positive multiple of 512; when the start from the table is 0
the mount gives `FF_ERR_IOMAN_NO_MOUNTABLE_PARTITION`; and in the first case the
mount does return when there is fuel and a descriptor that is neither held nor
in service. -/
theorem invalid_format_only_through_table (fatCheck : Bool) (fuel : Nat) (p : FF_IOMAN D)
    (w : D) (img : Nat → Block) (pn : Nat) (hc : Coherent img p w) (hpn : pn ≤ 3) :
    (∀ r, FF_MountPartition fatCheck fuel p w pn = Except.ok r →
      (r.ret = FF_ERROR.FF_ERR_IOMAN_INVALID_FORMAT ↔
        ¬ validSectorSize (littleEndian (img 0) 0x0B 2) ∧
        reference_begin_lba (img 0) pn ≠ 0 ∧
        ¬ validSectorSize (littleEndian (img (reference_begin_lba (img 0) pn)) 0x0B 2)) ∧
      (¬ validSectorSize (littleEndian (img 0) 0x0B 2) → reference_begin_lba (img 0) pn = 0 →
        r.ret = FF_ERROR.FF_ERR_IOMAN_NO_MOUNTABLE_PARTITION)) ∧
    (¬ validSectorSize (littleEndian (img 0) 0x0B 2) →
      reference_begin_lba (img 0) pn ≠ 0 →
      ¬ validSectorSize (littleEndian (img (reference_begin_lba (img 0) pn)) 0x0B 2) →
      0 < fuel →
      (∃ k, k < p.CacheSize ∧ (p.pBuffers k).NumHandles = 0 ∧
        (p.pBuffers k).isIOMANediting = false) →
      ∃ r, FF_MountPartition fatCheck fuel p w pn = Except.ok r ∧
        r.ret = FF_ERROR.FF_ERR_IOMAN_INVALID_FORMAT) := by
  have href := reference_begin_lba_eq (img 0) pn
  simp only [littleEndian_two]
  have hbps : FF_FAT_BYTES_PER_SECTOR = 0x0B := rfl
  rw [hbps] at href
  have main : ∀ r, FF_MountPartition fatCheck fuel p w pn = Except.ok r →
      (r.ret = FF_ERROR.FF_ERR_IOMAN_INVALID_FORMAT ↔
        ¬ validSectorSize (FF_getShort (img 0) 0x0B) ∧
        reference_begin_lba (img 0) pn ≠ 0 ∧
        ¬ validSectorSize (FF_getShort (img (reference_begin_lba (img 0) pn)) 0x0B)) ∧
      (¬ validSectorSize (FF_getShort (img 0) 0x0B) → reference_begin_lba (img 0) pn = 0 →
        r.ret = FF_ERROR.FF_ERR_IOMAN_NO_MOUNTABLE_PARTITION) := by
    intro r h
    unfold FF_MountPartition at h
    rw [if_neg (by omega)] at h
    split at h
    · exact absurd h (by simp)
    · rename_i r1 hl
      simp only [Except.ok.injEq] at h
      subst h
      have hco := FF_MountPartition_locate_coherent fuel p w img pn hc _ hl
      dsimp only at hco
      rw [hbps] at hco
      obtain ⟨-, hnv, -, hcase⟩ := hco
      rw [if_neg hnv] at href
      rw [href]
      rcases hcase with ⟨hz, hret, -⟩ | ⟨hnz, hbad, hret⟩
      · refine ⟨⟨?_, ?_⟩, fun _ _ => hret⟩
        · intro hi
          rw [hret] at hi
          exact absurd hi (by decide)
        · intro hx
          exact absurd hz hx.2.1
      · refine ⟨⟨fun _ => ⟨hnv, hnz, hbad⟩, fun _ => hret⟩, ?_⟩
        intro _ hz
        exact absurd hz hnz
    · rename_i p1 w1 i tr hl
      have hco := FF_MountPartition_locate_coherent fuel p w img pn hc _ hl
      have hfr := FF_MountPartition_locate_frame fuel p w pn _ hl
      dsimp only at hco hfr
      rw [hbps] at hco
      obtain ⟨-, -, hcase, -, hpart⟩ := hco
      obtain ⟨-, hvalid, -⟩ := hfr
      rw [hpart] at hvalid
      have hvalid2 : validSectorSize (FF_getShort (img p1.pPartition.BeginLBA) 0x0B) := hvalid
      obtain ⟨-, -, -, -, -, -, hret⟩ :=
        FF_MountPartition_finish_spec fatCheck fuel p1 w1 i tr r h
      have hne : r.ret ≠ FF_ERROR.FF_ERR_IOMAN_INVALID_FORMAT := by
        rcases hret with hr | hr <;> rw [hr] <;> decide
      rcases hcase with ⟨hv, -⟩ | ⟨hnv, hl1, hnz⟩
      · refine ⟨⟨fun hi => absurd hi hne, fun hx => absurd hv hx.1⟩, ?_⟩
        intro hnv _
        exact absurd hv hnv
      · rw [if_neg hnv] at href
        rw [href, ← hl1]
        refine ⟨⟨fun hi => absurd hi hne, fun hx => absurd hvalid2 hx.2.2⟩, ?_⟩
        intro _ hz
        exact absurd hz hnz
  refine ⟨main, ?_⟩
  intro hnv hnz hbad hfuel hfree
  obtain ⟨x, hx, -⟩ := FF_MountPartition_locate_returns fuel p w img pn hc hfuel hfree
  have hret : ∃ r, FF_MountPartition fatCheck fuel p w pn = Except.ok r := by
    unfold FF_MountPartition
    rw [if_neg (by omega), hx]
    cases x with
    | failed r1 => exact ⟨r1, rfl⟩
    | found p1 w1 i tr =>
      exfalso
      have hco := FF_MountPartition_locate_coherent fuel p w img pn hc _ hx
      have hfr := FF_MountPartition_locate_frame fuel p w pn _ hx
      dsimp only at hco hfr
      rw [hbps] at hco
      obtain ⟨-, -, hcase, -, hpart⟩ := hco
      obtain ⟨-, hvalid, -⟩ := hfr
      rw [hpart] at hvalid
      have hvalid2 : validSectorSize (FF_getShort (img p1.pPartition.BeginLBA) 0x0B) := hvalid
      rcases hcase with ⟨hv, -⟩ | ⟨-, hl1, -⟩
      · exact hnv hv
      · rw [if_neg hnv] at href
        rw [href, ← hl1] at hbad
        exact hbad hvalid2
  obtain ⟨r, hr⟩ := hret
  exact ⟨r, hr, ((main r hr).1).mpr ⟨hnv, hnz, hbad⟩⟩

/-- Witness of the amended C19: a master boot record that points to a boot
sector with 513 bytes per sector. -/
theorem invalid_format_only_through_table_witness :
    Coherent badPartitionImage (freshPool 2 ramRead ramWrite) badPartitionImage ∧
    FF_MountPartition true 1 (freshPool 2 ramRead ramWrite) badPartitionImage 0
      = Except.ok badPartitionMounted ∧
    badPartitionMounted.ret = FF_ERROR.FF_ERR_IOMAN_INVALID_FORMAT ∧
    ((∀ r, FF_MountPartition true 1 (freshPool 2 ramRead ramWrite) badPartitionImage 0
        = Except.ok r →
      (r.ret = FF_ERROR.FF_ERR_IOMAN_INVALID_FORMAT ↔
        ¬ validSectorSize (littleEndian (badPartitionImage 0) 0x0B 2) ∧
        reference_begin_lba (badPartitionImage 0) 0 ≠ 0 ∧
        ¬ validSectorSize
          (littleEndian (badPartitionImage (reference_begin_lba (badPartitionImage 0) 0))
            0x0B 2)) ∧
      (¬ validSectorSize (littleEndian (badPartitionImage 0) 0x0B 2) →
        reference_begin_lba (badPartitionImage 0) 0 = 0 →
        r.ret = FF_ERROR.FF_ERR_IOMAN_NO_MOUNTABLE_PARTITION)) ∧
     (¬ validSectorSize (littleEndian (badPartitionImage 0) 0x0B 2) →
      reference_begin_lba (badPartitionImage 0) 0 ≠ 0 →
      ¬ validSectorSize
        (littleEndian (badPartitionImage (reference_begin_lba (badPartitionImage 0) 0))
          0x0B 2) →
      0 < 1 →
      (∃ k, k < (freshPool 2 ramRead ramWrite).CacheSize ∧
        ((freshPool 2 ramRead ramWrite).pBuffers k).NumHandles = 0 ∧
        ((freshPool 2 ramRead ramWrite).pBuffers k).isIOMANediting = false) →
      ∃ r, FF_MountPartition true 1 (freshPool 2 ramRead ramWrite) badPartitionImage 0
          = Except.ok r ∧
        r.ret = FF_ERROR.FF_ERR_IOMAN_INVALID_FORMAT)) :=
  ⟨Coherent_freshPool 2 ramWrite badPartitionImage, okValue_get _ _, by decide,
   invalid_format_only_through_table true 1 (freshPool 2 ramRead ramWrite) badPartitionImage
     badPartitionImage 0 (Coherent_freshPool 2 ramWrite badPartitionImage) (by decide)⟩

/-! ## Size of the volume, format errors and the FAT check -/

/-- C24: for a partition descriptor with a 32-bit count of data sectors, an
8-bit count of sectors per cluster that is not 0, a 16-bit block size and
`NumClusters = DataSectors / SectorsPerCluster`, the 64-bit `FF_GetVolumeSize`
returns `NumClusters * SectorsPerCluster * BlkSize` as a natural number, which
is below `2 ^ 56`: no product wraps. -/
theorem getVolumeSize_exact (p : FF_IOMAN D)
    (hspc : 0 < p.pPartition.SectorsPerCluster)
    (hd : p.pPartition.DataSectors < 2 ^ 32)
    (hs : p.pPartition.SectorsPerCluster < 2 ^ 8)
    (hb : p.pPartition.BlkSize < 2 ^ 16)
    (hn : p.pPartition.NumClusters
      = p.pPartition.DataSectors / p.pPartition.SectorsPerCluster) :
    FF_GetVolumeSize (some p)
      = Except.ok
          (p.pPartition.NumClusters * p.pPartition.SectorsPerCluster * p.pPartition.BlkSize) ∧
    p.pPartition.NumClusters * p.pPartition.SectorsPerCluster * p.pPartition.BlkSize
      < 2 ^ 56 := by
  have hn32 : p.pPartition.NumClusters < 2 ^ 32 := by
    rw [hn]
    exact lt_of_le_of_lt (Nat.div_le_self _ _) hd
  have hsb : p.pPartition.SectorsPerCluster * p.pPartition.BlkSize < 2 ^ 24 := by
    calc p.pPartition.SectorsPerCluster * p.pPartition.BlkSize
        < 2 ^ 8 * 2 ^ 16 := Nat.mul_lt_mul'' hs hb
      _ = 2 ^ 24 := by norm_num
  have hprod : p.pPartition.NumClusters
      * (p.pPartition.SectorsPerCluster * p.pPartition.BlkSize) < 2 ^ 56 := by
    calc p.pPartition.NumClusters * (p.pPartition.SectorsPerCluster * p.pPartition.BlkSize)
        < 2 ^ 32 * 2 ^ 24 := Nat.mul_lt_mul'' hn32 hsb
      _ = 2 ^ 56 := by norm_num
  constructor
  · unfold FF_GetVolumeSize
    simp only
    rw [if_neg (by omega), ← hn]
    rw [Nat.mod_eq_of_lt hn32, Nat.mod_eq_of_lt (lt_trans hn32 (by norm_num)),
      Nat.mod_eq_of_lt (lt_trans hs (by norm_num)),
      Nat.mod_eq_of_lt (lt_trans hb (by norm_num)),
      Nat.mod_eq_of_lt (lt_trans hsb (by norm_num)),
      Nat.mod_eq_of_lt (lt_trans hprod (by norm_num)), Nat.mul_assoc]
  · rw [Nat.mul_assoc]
    exact hprod

/-- Witness of C24: a volume of 4 TiB (2 ^ 30 data sectors of 4096 bytes in
clusters of 128 sectors) and a volume of 4 GiB are reported exactly, while the
32-bit variant reports 0 for both. -/
theorem getVolumeSize_exact_witness :
    FF_GetVolumeSize (some (volumeOf (2 ^ 30) 128 4096)) = Except.ok (2 ^ 42) ∧
    FF_GetVolumeSize (some (volumeOf (2 ^ 23) 8 512)) = Except.ok (2 ^ 32) ∧
    FF_GetVolumeSize_32 (volumeOf (2 ^ 30) 128 4096) = Except.ok 0 ∧
    FF_GetVolumeSize_32 (volumeOf (2 ^ 23) 8 512) = Except.ok 0 ∧
    (FF_GetVolumeSize (some (volumeOf (2 ^ 30) 128 4096))
      = Except.ok
          ((volumeOf (2 ^ 30) 128 4096).pPartition.NumClusters
            * (volumeOf (2 ^ 30) 128 4096).pPartition.SectorsPerCluster
            * (volumeOf (2 ^ 30) 128 4096).pPartition.BlkSize) ∧
     (volumeOf (2 ^ 30) 128 4096).pPartition.NumClusters
        * (volumeOf (2 ^ 30) 128 4096).pPartition.SectorsPerCluster
        * (volumeOf (2 ^ 30) 128 4096).pPartition.BlkSize < 2 ^ 56) :=
  ⟨rfl, rfl, rfl, rfl,
   getVolumeSize_exact (volumeOf (2 ^ 30) 128 4096) (by decide) (by decide) (by decide)
     (by decide) (by decide)⟩

/-- The boot sector is found, said with the accessor of the source. -/
theorem bootSectorFound_iff (img : Nat → Block) (pn : Nat) :
    bootSectorFound img pn ↔
      (validSectorSize (FF_getShort (img 0) 0x0B) ∨
        (reference_begin_lba (img 0) pn ≠ 0 ∧
          validSectorSize (FF_getShort (img (reference_begin_lba (img 0) pn)) 0x0B))) := by
  unfold bootSectorFound
  simp only [littleEndian_two]

/-- Lines 655-686 on a cache that agrees with an image in which a boot sector
is found end with that sector: its bytes are in the descriptor handed on, and
the partition descriptor has its bytes-per-sector value and its start. -/
theorem FF_MountPartition_locate_found (fuel : Nat) (p : FF_IOMAN D) (w : D)
    (img : Nat → Block) (pn : Nat) (hc : Coherent img p w) (x : Located D)
    (h : FF_MountPartition_locate fuel p w pn = Except.ok x)
    (hfound : bootSectorFound img pn) :
    ∃ p1 i tr, x = Located.found p1 w i tr ∧ Coherent img p1 w ∧ p1.BlkSize = p.BlkSize ∧
      (p1.pBuffers i).pBuffer = img (reference_begin_lba (img 0) pn) ∧
      validSectorSize (FF_getShort (img (reference_begin_lba (img 0) pn)) 0x0B) ∧
      p1.pPartition =
        { p.pPartition with
          BlkSize := FF_getShort (img (reference_begin_lba (img 0) pn)) 0x0B
          BeginLBA := reference_begin_lba (img 0) pn } := by
  rw [bootSectorFound_iff] at hfound
  have href := reference_begin_lba_eq (img 0) pn
  have hbps : FF_FAT_BYTES_PER_SECTOR = 0x0B := rfl
  rw [hbps] at href
  have hco := FF_MountPartition_locate_coherent fuel p w img pn hc x h
  have hfr := FF_MountPartition_locate_frame fuel p w pn x h
  cases x with
  | failed r =>
    exfalso
    dsimp only at hco
    rw [hbps] at hco
    obtain ⟨-, hnv, -, hcase⟩ := hco
    rw [if_neg hnv] at href
    rw [href] at hfound
    rcases hfound with hv | ⟨hnz, hv⟩
    · exact hnv hv
    · rcases hcase with ⟨hz, -, -⟩ | ⟨-, hbad, -⟩
      · exact hnz hz
      · exact hbad hv
  | found p1 w1 i tr =>
    dsimp only at hco hfr
    rw [hbps] at hco
    obtain ⟨hw1, hc1, hcase, hbytes, hpart⟩ := hco
    obtain ⟨hbs, hvalid, -⟩ := hfr
    rw [hpart] at hvalid
    have hvalid2 : validSectorSize (FF_getShort (img p1.pPartition.BeginLBA) 0x0B) := hvalid
    have hlba : p1.pPartition.BeginLBA = reference_begin_lba (img 0) pn := by
      rcases hcase with ⟨hv, hl⟩ | ⟨hnv, hl, -⟩
      · rw [href, if_pos hv, hl]
      · rw [href, if_neg hnv, hl]
    subst hw1
    rw [hlba] at hbytes hvalid2 hpart
    exact ⟨p1, i, tr, rfl, hc1, hbs, hbytes, hvalid2, hpart⟩

/-- Lines 716-719 divide by the sectors per cluster of the descriptor. -/
theorem FF_MountPartition_geometry_zero (buf : Block) (q : FF_PARTITION)
    (hb : q.BlkSize ≠ 0) (hs : q.SectorsPerCluster = 0) :
    FF_MountPartition_geometry buf q = Except.error Fault.divisionByZero := by
  unfold FF_MountPartition_geometry
  dsimp only
  rw [if_neg hb, if_pos hs]

/-- On a cache that agrees with the image, a boot sector that is found and has
0 in its sectors-per-cluster byte makes `FF_MountPartition` divide by zero at
line 719, whatever the rest of the image is. -/
theorem FF_MountPartition_zero_cluster_size (fatCheck : Bool) (fuel : Nat) (p : FF_IOMAN D)
    (w : D) (img : Nat → Block) (pn : Nat) (hc : Coherent img p w) (hfuel : 0 < fuel)
    (hfree : ∃ k, k < p.CacheSize ∧ (p.pBuffers k).NumHandles = 0 ∧
      (p.pBuffers k).isIOMANediting = false)
    (hpn : pn ≤ 3) (hb : p.BlkSize ≠ 0) (hfound : bootSectorFound img pn)
    (hspc : littleEndian (img (reference_begin_lba (img 0) pn)) 0x0D 1 = 0) :
    FF_MountPartition fatCheck fuel p w pn = Except.error Fault.divisionByZero := by
  rw [littleEndian_one] at hspc
  obtain ⟨x, hx, -⟩ := FF_MountPartition_locate_returns fuel p w img pn hc hfuel hfree
  obtain ⟨p1, i, tr, rfl, hc1, hbs, hbytes, hvalid, hpart⟩ :=
    FF_MountPartition_locate_found fuel p w img pn hc x hx hfound
  unfold FF_MountPartition
  rw [if_neg (by omega), hx]
  dsimp only
  obtain ⟨q, hq⟩ := FF_MountPartition_fields_returns p1.BlkSize (p1.pBuffers i).pBuffer
    p1.pPartition (by rw [hbs]; exact hb)
  obtain ⟨-, e1⟩ := FF_MountPartition_fields_ok _ _ _ _ hq
  have hqb : q.BlkSize ≠ 0 := by
    rw [e1, hpart]
    exact Nat.pos_iff_ne_zero.mp hvalid.2
  have hqs : q.SectorsPerCluster = 0 := by
    rw [e1, hbytes]
    exact hspc
  unfold FF_MountPartition_finish
  rw [hq]
  simp only [FF_ReleaseBuffer_pBuffer, FF_ReleaseBuffer_pPartition,
    FF_MountPartition_geometry_zero _ q hqb hqs]

/-- C26 at its failing input: the image of scenario 1 with 0 in the
sectors-per-cluster field of its boot sector, whose bytes-per-sector field is
512, mounted on a fresh pool with blocks of 512 bytes: `FF_MountPartition` does
not return a format error, it divides the count of data sectors by 0 at line
719, with and without the check of the first FAT entry; lines 716-719 divide by
0 on a descriptor with 0 sectors per cluster and do not with 1. -/
theorem mount_divides_by_zero_cluster_size :
    littleEndian (zeroClusterSizeImage 0) 0x0B 2 = 512 ∧
    littleEndian (zeroClusterSizeImage 0) 0x0D 1 = 0 ∧
    (freshPool 2 ramRead ramWrite).BlkSize = 512 ∧
    faultOf (FF_MountPartition_geometry (zeroClusterSizeImage 0)
      { zeroPartition with BlkSize := 512 }) = some Fault.divisionByZero ∧
    faultOf (FF_MountPartition_geometry (zeroClusterSizeImage 0)
      { zeroPartition with BlkSize := 512, SectorsPerCluster := 1 }) = none ∧
    faultOf (FF_MountPartition true 1 (freshPool 2 ramRead ramWrite) zeroClusterSizeImage 0)
      = some Fault.divisionByZero ∧
    faultOf (FF_MountPartition false 1 (freshPool 2 ramRead ramWrite) zeroClusterSizeImage 0)
      = some Fault.divisionByZero := by
  refine ⟨by decide, by decide, rfl, by decide, by decide, by decide, by decide⟩

/-- A mount that gives 0 or `FF_ERR_IOMAN_NOT_FAT_FORMATTED` on a cache that
agrees with the image leaves the descriptor that lines 688-713 and 716-719
compute from the sector at the start the specification gives, with the type
set from the count of clusters. -/
theorem FF_MountPartition_coherent_descriptor (fatCheck : Bool) (fuel : Nat) (p : FF_IOMAN D)
    (w : D) (img : Nat → Block) (pn : Nat) (r : MountResult D) (hc : Coherent img p w)
    (h : FF_MountPartition fatCheck fuel p w pn = Except.ok r)
    (hret : r.ret = FF_ERROR.FF_ERR_NONE ∨
      r.ret = FF_ERROR.FF_ERR_IOMAN_NOT_FAT_FORMATTED) :
    ∃ q1 q2,
      validSectorSize (FF_getShort (img (reference_begin_lba (img 0) pn)) 0x0B) ∧
      FF_MountPartition_fields p.BlkSize (img (reference_begin_lba (img 0) pn))
        { p.pPartition with
          BlkSize := FF_getShort (img (reference_begin_lba (img 0) pn)) 0x0B
          BeginLBA := reference_begin_lba (img 0) pn } = Except.ok q1 ∧
      FF_MountPartition_geometry (img (reference_begin_lba (img 0) pn)) q1 = Except.ok q2 ∧
      r.pIoman.pPartition =
        { q2 with
          FatType :=
            if q2.NumClusters < 4085 then FF_T_FAT12
            else if q2.NumClusters < 65525 then FF_T_FAT16 else FF_T_FAT32 } := by
  obtain ⟨lba, q1, q2, hcase, hvalid, hq1, hq2, hfinal, -⟩ :=
    FF_MountPartition_coherent_ok fatCheck fuel p w img pn r hc h hret
  have href := reference_begin_lba_eq (img 0) pn
  have hlba : lba = reference_begin_lba (img 0) pn := by
    rcases hcase with ⟨hv, hl⟩ | ⟨hnv, hl, -⟩
    · rw [href, if_pos hv, hl]
    · rw [href, if_neg hnv, hl]
  subst hlba
  exact ⟨q1, q2, hvalid, hq1, hq2, hfinal⟩

/-- C28, as stated, fails in its last part. The boot sector of `hugeFatImage`
declares 100 sectors in total and `2 ^ 32 + 30` sectors outside the data area,
with clusters of 1 sector; without the check of the first FAT entry the mount
succeeds with 70 data sectors, the wrap-around value, and the volume is
classified FAT12, not FAT32. The boot sector of `nearFullFatImage` declares 10
sectors in total and `2 ^ 32 - 1` sectors outside the data area; the mount
succeeds with 11 data sectors and the volume is classified FAT12. -/
theorem wrapped_volume_is_not_always_fat32 :
    (referenceParse (hugeFatImage 0) 0).total_sectors = 100 ∧
    overheadSectors (hugeFatImage 0) = 2 ^ 32 + 30 ∧
    littleEndian (hugeFatImage 0) 0x0D 1 = 1 ∧
    mountView (FF_MountPartition false 1 (freshPool 2 ramRead ramWrite) hugeFatImage 0)
      = some ⟨FF_ERROR.FF_ERR_NONE, 0, 512, 1, 70, FF_T_FAT12, 2⟩ ∧
    ((100 : Int) - (2 ^ 32 + 30 : Int)) % 2 ^ 32 = 70 ∧
    (referenceParse (nearFullFatImage 0) 0).total_sectors = 10 ∧
    overheadSectors (nearFullFatImage 0) = 2 ^ 32 - 1 ∧
    littleEndian (nearFullFatImage 0) 0x0D 1 = 1 ∧
    mountView (FF_MountPartition false 1 (freshPool 2 ramRead ramWrite) nearFullFatImage 0)
      = some ⟨FF_ERROR.FF_ERR_NONE, 0, 512, 1, 11, FF_T_FAT12, 2⟩ ∧
    ((10 : Int) - (2 ^ 32 - 1 : Int)) % 2 ^ 32 = 11 := by
  refine ⟨by decide, by decide, by decide, by decide, by decide, by decide, by decide,
    by decide, by decide, by decide⟩

/-- C28, amended: on a cache that agrees with the image, with the check of the
first FAT entry compiled out, a boot sector that is found and whose
sectors-per-cluster byte is not 0 is mounted with success whatever its sector
counts are; `data_sectors` is the total sectors less the sectors outside the
data area modulo `2 ^ 32`, the count of clusters is `data_sectors` divided by
the sectors per cluster and the type is set from that count. With clusters of 1
sector the volume is classified FAT32 exactly when `data_sectors` is at least
65525; when the total is smaller than the sectors outside the data area by less
than `2 ^ 32`, `data_sectors` is the total plus `2 ^ 32` less those sectors and
the volume is classified FAT32 exactly when the difference is at most
`2 ^ 32 - 65525`. -/
theorem data_sectors_wrap (fuel : Nat) (p : FF_IOMAN D) (w : D) (img : Nat → Block)
    (pn : Nat) (hc : Coherent img p w) (hpn : pn ≤ 3) (hfuel : 0 < fuel)
    (hfree : ∃ k, k < p.CacheSize ∧ (p.pBuffers k).NumHandles = 0 ∧
      (p.pBuffers k).isIOMANediting = false)
    (hb : p.BlkSize ≠ 0) (hfound : bootSectorFound img pn)
    (hspc : littleEndian (img (reference_begin_lba (img 0) pn)) 0x0D 1 ≠ 0) :
    ∃ r, FF_MountPartition false fuel p w pn = Except.ok r ∧
      r.ret = FF_ERROR.FF_ERR_NONE ∧
      (r.pIoman.pPartition.DataSectors : Int)
        = (((referenceParse (img (reference_begin_lba (img 0) pn)) 0).total_sectors : Int)
            - (overheadSectors (img (reference_begin_lba (img 0) pn)) : Int)) % 2 ^ 32 ∧
      r.pIoman.pPartition.SectorsPerCluster
        = littleEndian (img (reference_begin_lba (img 0) pn)) 0x0D 1 ∧
      r.pIoman.pPartition.NumClusters
        = r.pIoman.pPartition.DataSectors / r.pIoman.pPartition.SectorsPerCluster ∧
      r.pIoman.pPartition.FatType
        = (if r.pIoman.pPartition.NumClusters < 4085 then FF_T_FAT12
           else if r.pIoman.pPartition.NumClusters < 65525 then FF_T_FAT16 else FF_T_FAT32) ∧
      (littleEndian (img (reference_begin_lba (img 0) pn)) 0x0D 1 = 1 →
        (r.pIoman.pPartition.FatType = FF_T_FAT32 ↔
          65525 ≤ r.pIoman.pPartition.DataSectors)) ∧
      (littleEndian (img (reference_begin_lba (img 0) pn)) 0x0D 1 = 1 →
        (referenceParse (img (reference_begin_lba (img 0) pn)) 0).total_sectors
          < overheadSectors (img (reference_begin_lba (img 0) pn)) →
        overheadSectors (img (reference_begin_lba (img 0) pn))
          - (referenceParse (img (reference_begin_lba (img 0) pn)) 0).total_sectors
          < 2 ^ 32 →
        r.pIoman.pPartition.DataSectors
          = (referenceParse (img (reference_begin_lba (img 0) pn)) 0).total_sectors + 2 ^ 32
            - overheadSectors (img (reference_begin_lba (img 0) pn)) ∧
        (r.pIoman.pPartition.FatType = FF_T_FAT32 ↔
          overheadSectors (img (reference_begin_lba (img 0) pn))
            - (referenceParse (img (reference_begin_lba (img 0) pn)) 0).total_sectors
            ≤ 2 ^ 32 - 65525)) := by
  have hspc2 : FF_getChar (img (reference_begin_lba (img 0) pn)) 0x0D ≠ 0 := by
    rw [← littleEndian_one]; exact hspc
  obtain ⟨r, hr⟩ := FF_MountPartition_returns false fuel p w img pn hc hfuel hfree hb hspc2
  obtain ⟨hiff, -⟩ := FF_MountPartition_success_iff false fuel p w img pn r hc hpn hr
  have hret : r.ret = FF_ERROR.FF_ERR_NONE :=
    hiff.mpr ⟨(bootSectorFound_iff img pn).mp hfound, Or.inl rfl⟩
  obtain ⟨q1, q2, hvalid, hq1, hq2, hfinal⟩ :=
    FF_MountPartition_coherent_descriptor false fuel p w img pn r hc hr (Or.inl hret)
  obtain ⟨-, e1⟩ := FF_MountPartition_fields_ok _ _ _ _ hq1
  obtain ⟨-, -, e2⟩ := FF_MountPartition_geometry_ok _ _ _ hq2
  have hbs : q1.BlkSize = FF_getShort (img (reference_begin_lba (img 0) pn)) 0x0B := by
    rw [e1]
  have hceil := divCeil_eq
    (FF_getShort (img (reference_begin_lba (img 0) pn)) 0x11 * 32)
    (FF_getShort (img (reference_begin_lba (img 0) pn)) 0x0B) hvalid.2
  generalize hbpb : img (reference_begin_lba (img 0) pn) = bpb at *
  have hT : (referenceParse bpb 0).total_sectors
      = if FF_getShort bpb 0x13 = 0 then FF_getLong bpb 0x20 else FF_getShort bpb 0x13 := by
    simp only [referenceParse, littleEndian_two, littleEndian_four]
  have hX : overheadSectors bpb
      = FF_getShort bpb 0x0E
        + FF_getChar bpb 0x10
          * (if FF_getShort bpb 0x16 = 0 then FF_getLong bpb 0x24 else FF_getShort bpb 0x16)
        + (FF_getShort bpb 0x11 * 32 + FF_getShort bpb 0x0B - 1) / FF_getShort bpb 0x0B := by
    simp only [overheadSectors, referenceParse, littleEndian_one, littleEndian_two,
      littleEndian_four, hceil]
  have hTlt : (referenceParse bpb 0).total_sectors < 2 ^ 32 := by
    rw [hT]
    split_ifs
    · exact FF_getLong_lt _ _
    · exact lt_trans (FF_getShort_lt _ _) (by norm_num)
  have hD : r.pIoman.pPartition.DataSectors
      = ((referenceParse bpb 0).total_sectors + 2 ^ 32 - overheadSectors bpb % 2 ^ 32)
          % 2 ^ 32 := by
    rw [hfinal, e2, hbs, e1, hT, hX]
  have hS : r.pIoman.pPartition.SectorsPerCluster = FF_getChar bpb 0x0D := by
    rw [hfinal, e2, e1]
  have hN : r.pIoman.pPartition.NumClusters
      = r.pIoman.pPartition.DataSectors / r.pIoman.pPartition.SectorsPerCluster := by
    rw [hfinal, e2]
  have hF : r.pIoman.pPartition.FatType
      = (if r.pIoman.pPartition.NumClusters < 4085 then FF_T_FAT12
         else if r.pIoman.pPartition.NumClusters < 65525 then FF_T_FAT16 else FF_T_FAT32) := by
    rw [hfinal]
  have h32 : ∀ n : Nat,
      ((if n < 4085 then FF_T_FAT12 else if n < 65525 then FF_T_FAT16 else FF_T_FAT32)
        = FF_T_FAT32 ↔ 65525 ≤ n) := by
    intro n
    by_cases h1 : n < 4085
    · rw [if_pos h1]
      simp only [FF_T_FAT12, FF_T_FAT32]
      omega
    · rw [if_neg h1]
      by_cases h2 : n < 65525
      · rw [if_pos h2]
        simp only [FF_T_FAT16, FF_T_FAT32]
        omega
      · rw [if_neg h2]
        simp only [true_iff]
        omega
  have hcls : littleEndian bpb 0x0D 1 = 1 →
      (r.pIoman.pPartition.FatType = FF_T_FAT32 ↔
        65525 ≤ r.pIoman.pPartition.DataSectors) := by
    intro h1
    rw [littleEndian_one] at h1
    rw [hF, hN, hS, h1, Nat.div_one]
    exact h32 _
  refine ⟨r, hr, hret, ?_, ?_, hN, hF, hcls, ?_⟩
  · rw [hD]
    generalize (referenceParse bpb 0).total_sectors = T at hTlt ⊢
    generalize overheadSectors bpb = X
    norm_num at hTlt ⊢
    omega
  · rw [hS, littleEndian_one]
  · intro h1 hlt hle
    have hds : r.pIoman.pPartition.DataSectors
        = (referenceParse bpb 0).total_sectors + 2 ^ 32 - overheadSectors bpb := by
      rw [hD]
      generalize (referenceParse bpb 0).total_sectors = T at hTlt hlt hle ⊢
      generalize overheadSectors bpb = X at hlt hle ⊢
      norm_num at hTlt hle ⊢
      omega
    refine ⟨hds, ?_⟩
    rw [hcls h1, hds]
    generalize (referenceParse bpb 0).total_sectors = T at hTlt hlt hle ⊢
    generalize overheadSectors bpb = X at hlt hle ⊢
    norm_num at hTlt hle ⊢
    omega

/-- Witness of the amended C28: the boot sector of `shortTotalImage` declares
100 sectors in total and 264 sectors outside the data area; it is mounted with
`2 ^ 32 - 164` data sectors and classified FAT32. -/
theorem data_sectors_wrap_witness :
    Coherent shortTotalImage (freshPool 2 ramRead ramWrite) shortTotalImage ∧
    bootSectorFound shortTotalImage 0 ∧
    (referenceParse (shortTotalImage 0) 0).total_sectors = 100 ∧
    overheadSectors (shortTotalImage 0) = 264 ∧
    mountView (FF_MountPartition false 1 (freshPool 2 ramRead ramWrite) shortTotalImage 0)
      = some ⟨FF_ERROR.FF_ERR_NONE, 0, 512, 1, 2 ^ 32 - 164, FF_T_FAT32, 1⟩ ∧
    ∃ r, FF_MountPartition false 1 (freshPool 2 ramRead ramWrite) shortTotalImage 0
        = Except.ok r ∧
      r.ret = FF_ERROR.FF_ERR_NONE ∧
      (r.pIoman.pPartition.DataSectors : Int)
        = (((referenceParse (shortTotalImage (reference_begin_lba (shortTotalImage 0) 0))
              0).total_sectors : Int)
            - (overheadSectors
                (shortTotalImage (reference_begin_lba (shortTotalImage 0) 0)) : Int))
          % 2 ^ 32 ∧
      r.pIoman.pPartition.SectorsPerCluster
        = littleEndian (shortTotalImage (reference_begin_lba (shortTotalImage 0) 0)) 0x0D 1 ∧
      r.pIoman.pPartition.NumClusters
        = r.pIoman.pPartition.DataSectors / r.pIoman.pPartition.SectorsPerCluster ∧
      r.pIoman.pPartition.FatType
        = (if r.pIoman.pPartition.NumClusters < 4085 then FF_T_FAT12
           else if r.pIoman.pPartition.NumClusters < 65525 then FF_T_FAT16 else FF_T_FAT32) ∧
      (littleEndian (shortTotalImage (reference_begin_lba (shortTotalImage 0) 0)) 0x0D 1 = 1 →
        (r.pIoman.pPartition.FatType = FF_T_FAT32 ↔
          65525 ≤ r.pIoman.pPartition.DataSectors)) ∧
      (littleEndian (shortTotalImage (reference_begin_lba (shortTotalImage 0) 0)) 0x0D 1 = 1 →
        (referenceParse (shortTotalImage (reference_begin_lba (shortTotalImage 0) 0))
            0).total_sectors
          < overheadSectors (shortTotalImage (reference_begin_lba (shortTotalImage 0) 0)) →
        overheadSectors (shortTotalImage (reference_begin_lba (shortTotalImage 0) 0))
          - (referenceParse (shortTotalImage (reference_begin_lba (shortTotalImage 0) 0))
              0).total_sectors
          < 2 ^ 32 →
        r.pIoman.pPartition.DataSectors
          = (referenceParse (shortTotalImage (reference_begin_lba (shortTotalImage 0) 0))
              0).total_sectors + 2 ^ 32
            - overheadSectors (shortTotalImage (reference_begin_lba (shortTotalImage 0) 0)) ∧
        (r.pIoman.pPartition.FatType = FF_T_FAT32 ↔
          overheadSectors (shortTotalImage (reference_begin_lba (shortTotalImage 0) 0))
            - (referenceParse (shortTotalImage (reference_begin_lba (shortTotalImage 0) 0))
                0).total_sectors
            ≤ 2 ^ 32 - 65525)) :=
  ⟨Coherent_freshPool 2 ramWrite shortTotalImage, by decide, by decide, by decide, by decide,
   data_sectors_wrap 1 (freshPool 2 ramRead ramWrite) shortTotalImage shortTotalImage 0
     (Coherent_freshPool 2 ramWrite shortTotalImage) (by decide) (by decide)
     (freshPool_free 2 ramRead ramWrite (by decide)).1
     (by rw [(freshPool_free 2 ramRead ramWrite (by decide)).2]; decide) (by decide)
     (by decide)⟩

/-- The test of the first FAT entry by type tag is the test by count of
clusters when the tag is the one the count of clusters gives. -/
theorem fatEntryPasses_iff (n t : Nat) (fat : Block)
    (ht : t = if n < 4085 then FF_T_FAT12 else if n < 65525 then FF_T_FAT16 else FF_T_FAT32) :
    fatEntryPasses t fat ↔ fatEntryValid n fat := by
  unfold fatEntryPasses fatEntryValid
  by_cases h1 : n < 4085
  · rw [if_pos h1] at ht ⊢
    subst ht
    simp [FF_T_FAT12, FF_T_FAT16, FF_T_FAT32]
  · rw [if_neg h1] at ht ⊢
    by_cases h2 : n < 65525
    · rw [if_pos h2] at ht ⊢
      subst ht
      simp [FF_T_FAT12, FF_T_FAT16, FF_T_FAT32]
    · rw [if_neg h2] at ht ⊢
      subst ht
      simp [FF_T_FAT12, FF_T_FAT16, FF_T_FAT32]

/-- C23: on a cache that agrees with the image, for a partition index of at
most 3 and an image in which a boot sector is found, a mount compiled with the
check of the first FAT entry that returns gives
`FF_ERR_IOMAN_NOT_FAT_FORMATTED` exactly when the first entry of the sector at
`fat_begin_lba` fails the test for the type the volume was classified with, and
0 exactly when it passes; a mount compiled without the check that returns
gives 0; and both return when there is fuel, a free slot, a block size of the
manager other than 0 and a sectors-per-cluster byte other than 0. -/
theorem fat_check_decides (fuel : Nat) (p : FF_IOMAN D) (w : D) (img : Nat → Block)
    (pn : Nat) (hc : Coherent img p w) (hpn : pn ≤ 3) (hfound : bootSectorFound img pn) :
    (∀ r, FF_MountPartition true fuel p w pn = Except.ok r →
      (r.ret = FF_ERROR.FF_ERR_IOMAN_NOT_FAT_FORMATTED ↔
        ¬ fatEntryPasses r.pIoman.pPartition.FatType (img r.pIoman.pPartition.FatBeginLBA)) ∧
      (r.ret = FF_ERROR.FF_ERR_NONE ↔
        fatEntryPasses r.pIoman.pPartition.FatType (img r.pIoman.pPartition.FatBeginLBA))) ∧
    (∀ r, FF_MountPartition false fuel p w pn = Except.ok r →
      r.ret = FF_ERROR.FF_ERR_NONE) ∧
    (0 < fuel →
      (∃ k, k < p.CacheSize ∧ (p.pBuffers k).NumHandles = 0 ∧
        (p.pBuffers k).isIOMANediting = false) →
      p.BlkSize ≠ 0 →
      littleEndian (img (reference_begin_lba (img 0) pn)) 0x0D 1 ≠ 0 →
      (∃ r, FF_MountPartition true fuel p w pn = Except.ok r) ∧
      (∃ r, FF_MountPartition false fuel p w pn = Except.ok r)) := by
  have hf := (bootSectorFound_iff img pn).mp hfound
  refine ⟨?_, ?_, ?_⟩
  · intro r hr
    obtain ⟨hiff, hor⟩ := FF_MountPartition_success_iff true fuel p w img pn r hc hpn hr
    have hret := hor hf
    obtain ⟨q1, q2, -, -, -, hfinal⟩ :=
      FF_MountPartition_coherent_descriptor true fuel p w img pn r hc hr hret
    have hty : r.pIoman.pPartition.FatType
        = (if r.pIoman.pPartition.NumClusters < 4085 then FF_T_FAT12
           else if r.pIoman.pPartition.NumClusters < 65525 then FF_T_FAT16
           else FF_T_FAT32) := by
      rw [hfinal]
    have hp := fatEntryPasses_iff r.pIoman.pPartition.NumClusters
      r.pIoman.pPartition.FatType (img r.pIoman.pPartition.FatBeginLBA) hty
    have hnone : r.ret = FF_ERROR.FF_ERR_NONE ↔
        fatEntryPasses r.pIoman.pPartition.FatType
          (img r.pIoman.pPartition.FatBeginLBA) := by
      constructor
      · intro h0
        rcases (hiff.mp h0).2 with hfc | hv
        · exact absurd hfc (by decide)
        · exact hp.mpr hv
      · intro hv
        exact hiff.mpr ⟨hf, Or.inr (hp.mp hv)⟩
    refine ⟨?_, hnone⟩
    constructor
    · intro hnot hv
      have h0 := hnone.mpr hv
      rw [hnot] at h0
      exact absurd h0 (by decide)
    · intro hnv
      rcases hret with h0 | hnot
      · exact absurd (hnone.mp h0) hnv
      · exact hnot
  · intro r hr
    obtain ⟨hiff, -⟩ := FF_MountPartition_success_iff false fuel p w img pn r hc hpn hr
    exact hiff.mpr ⟨hf, Or.inl rfl⟩
  · intro hfuel hfree hb hspc
    have hspc2 : FF_getChar (img (reference_begin_lba (img 0) pn)) 0x0D ≠ 0 := by
      rw [← littleEndian_one]; exact hspc
    exact ⟨FF_MountPartition_returns true fuel p w img pn hc hfuel hfree hb hspc2,
      FF_MountPartition_returns false fuel p w img pn hc hfuel hfree hb hspc2⟩

/-- Witness of C23, scenario 4 of the specification: the FAT12 image whose
first FAT entry is `0x0000` is rejected with `FF_ERR_IOMAN_NOT_FAT_FORMATTED`
when the check is compiled in and mounted as FAT12 when it is compiled out. -/
theorem fat_check_decides_witness :
    littleEndian (scenario4Image 1) 0 2 = 0x0000 ∧
    mountView (FF_MountPartition true 1 (freshPool 2 ramRead ramWrite) scenario4Image 0)
      = some ⟨FF_ERROR.FF_ERR_IOMAN_NOT_FAT_FORMATTED, 0, 512, 1, 2847, FF_T_FAT12, 1⟩ ∧
    mountView (FF_MountPartition false 1 (freshPool 2 ramRead ramWrite) scenario4Image 0)
      = some ⟨FF_ERROR.FF_ERR_NONE, 0, 512, 1, 2847, FF_T_FAT12, 1⟩ ∧
    ¬ fatEntryPasses FF_T_FAT12 (scenario4Image 1) ∧
    ((∀ r, FF_MountPartition true 1 (freshPool 2 ramRead ramWrite) scenario4Image 0
        = Except.ok r →
      (r.ret = FF_ERROR.FF_ERR_IOMAN_NOT_FAT_FORMATTED ↔
        ¬ fatEntryPasses r.pIoman.pPartition.FatType
          (scenario4Image r.pIoman.pPartition.FatBeginLBA)) ∧
      (r.ret = FF_ERROR.FF_ERR_NONE ↔
        fatEntryPasses r.pIoman.pPartition.FatType
          (scenario4Image r.pIoman.pPartition.FatBeginLBA))) ∧
    (∀ r, FF_MountPartition false 1 (freshPool 2 ramRead ramWrite) scenario4Image 0
        = Except.ok r →
      r.ret = FF_ERROR.FF_ERR_NONE) ∧
    (0 < 1 →
      (∃ k, k < (freshPool 2 ramRead ramWrite).CacheSize ∧
        ((freshPool 2 ramRead ramWrite).pBuffers k).NumHandles = 0 ∧
        ((freshPool 2 ramRead ramWrite).pBuffers k).isIOMANediting = false) →
      (freshPool 2 ramRead ramWrite).BlkSize ≠ 0 →
      littleEndian (scenario4Image (reference_begin_lba (scenario4Image 0) 0)) 0x0D 1 ≠ 0 →
      (∃ r, FF_MountPartition true 1 (freshPool 2 ramRead ramWrite) scenario4Image 0
        = Except.ok r) ∧
      (∃ r, FF_MountPartition false 1 (freshPool 2 ramRead ramWrite) scenario4Image 0
        = Except.ok r))) :=
  ⟨by decide, by decide, by decide, by decide,
   fat_check_decides 1 (freshPool 2 ramRead ramWrite) scenario4Image scenario4Image 0
     (Coherent_freshPool 2 ramWrite scenario4Image) (by decide) (by decide)⟩

/-- Lines 655-686 of `FF_MountPartition` write two fields of the partition
descriptor, the block size and the start; when they end with a `return` the
value is `FF_ERR_DEVICE_DRIVER_FAILED`, `FF_ERR_IOMAN_NO_MOUNTABLE_PARTITION`
(with 0 as the start) or `FF_ERR_IOMAN_INVALID_FORMAT`. -/
theorem FF_MountPartition_locate_partition (fuel : Nat) (p : FF_IOMAN D) (w : D) (pn : Nat)
    (x : Located D) (h : FF_MountPartition_locate fuel p w pn = Except.ok x) :
    match x with
    | Located.failed r =>
      (r.ret = FF_ERROR.FF_ERR_DEVICE_DRIVER_FAILED ∨
        r.ret = FF_ERROR.FF_ERR_IOMAN_NO_MOUNTABLE_PARTITION ∨
        r.ret = FF_ERROR.FF_ERR_IOMAN_INVALID_FORMAT) ∧
      r.pIoman.pPartition =
        { p.pPartition with
          BlkSize := r.pIoman.pPartition.BlkSize
          BeginLBA := r.pIoman.pPartition.BeginLBA } ∧
      (r.ret = FF_ERROR.FF_ERR_IOMAN_NO_MOUNTABLE_PARTITION →
        r.pIoman.pPartition.BeginLBA = 0)
    | Located.found p1 _ _ _ =>
      p1.pPartition =
        { p.pPartition with
          BlkSize := p1.pPartition.BlkSize
          BeginLBA := p1.pPartition.BeginLBA } := by
  unfold FF_MountPartition_locate at h
  cases hr0 : FF_GetBuffer fuel p w 0 FF_MODE_READ with
  | none => rw [hr0] at h; exact absurd h (by simp)
  | some r0 =>
    obtain ⟨-, f2, -, -⟩ := FF_GetBuffer_frame fuel p w _ _ r0 hr0
    rw [hr0] at h
    dsimp only at h
    cases hi0 : r0.ret with
    | none =>
      rw [hi0] at h
      simp only [Except.ok.injEq] at h
      subst h
      exact ⟨Or.inl rfl, by rw [f2], by simp⟩
    | some i0 =>
      rw [hi0] at h
      dsimp only at h
      split_ifs at h with hv hz
      · simp only [Except.ok.injEq] at h
        subst h
        dsimp only
        rw [f2]
      · simp only [Except.ok.injEq] at h
        subst h
        refine ⟨Or.inr (Or.inl rfl), ?_, fun _ => hz⟩
        simp only [FF_ReleaseBuffer_pPartition]
        rw [f2]
      · revert h
        cases hr1 : FF_GetBuffer fuel _ r0.world _ FF_MODE_READ with
        | none => intro h; exact absurd h (by simp)
        | some r1 =>
          obtain ⟨-, g2, -, -⟩ := FF_GetBuffer_frame fuel _ r0.world _ _ r1 hr1
          dsimp only
          cases hi1 : r1.ret with
          | none =>
            intro h
            simp only [Except.ok.injEq] at h
            subst h
            refine ⟨Or.inl rfl, ?_, by simp⟩
            dsimp only
            rw [g2]
            simp only [FF_ReleaseBuffer_pPartition]
            rw [f2]
          | some i1 =>
            dsimp only
            intro h
            split_ifs at h with hv1
            · simp only [Except.ok.injEq] at h
              subst h
              refine ⟨Or.inr (Or.inr rfl), ?_, by simp⟩
              simp only [FF_ReleaseBuffer_pPartition]
              rw [g2]
              simp only [FF_ReleaseBuffer_pPartition]
              rw [f2]
            · simp only [Except.ok.injEq] at h
              subst h
              dsimp only
              rw [g2]
              simp only [FF_ReleaseBuffer_pPartition]
              rw [f2]

/-- C21, as stated, fails: the mount of scenario 3 on a fresh pool, whose
partition descriptor has 0 as its block size, gives
`FF_ERR_IOMAN_NO_MOUNTABLE_PARTITION` and leaves 513 as the block size of the
descriptor; the mount of scenario 4 gives `FF_ERR_IOMAN_NOT_FAT_FORMATTED` and
leaves the descriptor of a FAT12 volume of 2847 clusters. -/
theorem mount_error_changes_descriptor :
    (freshPool 2 ramRead ramWrite).pPartition = zeroPartition ∧
    zeroPartition.BlkSize = 0 ∧ zeroPartition.NumClusters = 0 ∧
    mountView (FF_MountPartition true 1 (freshPool 2 ramRead ramWrite) scenario3Image 0)
      = some ⟨FF_ERROR.FF_ERR_IOMAN_NO_MOUNTABLE_PARTITION, 0, 513, 0, 0, 0, 0⟩ ∧
    mountView (FF_MountPartition true 1 (freshPool 2 ramRead ramWrite) scenario4Image 0)
      = some ⟨FF_ERROR.FF_ERR_IOMAN_NOT_FAT_FORMATTED, 0, 512, 1, 2847, FF_T_FAT12, 1⟩ := by
  refine ⟨rfl, rfl, rfl, by decide, by decide⟩

/-- Lines 655-686 of `FF_MountPartition`, path by path: which acquisitions are
made, which value is returned or which descriptor holds the boot sector, and
what the partition descriptor holds then. -/
theorem FF_MountPartition_locate_exact (fuel : Nat) (p : FF_IOMAN D) (w : D) (pn : Nat)
    (x : Located D) (h : FF_MountPartition_locate fuel p w pn = Except.ok x) :
    ∃ r0, FF_GetBuffer fuel p w 0 FF_MODE_READ = some r0 ∧
      ((r0.ret = none ∧ ∃ r, x = Located.failed r ∧
          r.ret = FF_ERROR.FF_ERR_DEVICE_DRIVER_FAILED ∧ r.pIoman.pPartition = p.pPartition) ∨
       ∃ i0, r0.ret = some i0 ∧
        ((validSectorSize (FF_getShort (r0.pIoman.pBuffers i0).pBuffer 0x0B) ∧
            ∃ p1 tr, x = Located.found p1 r0.world i0 tr ∧ p1.BlkSize = p.BlkSize ∧
              (p1.pBuffers i0).pBuffer = (r0.pIoman.pBuffers i0).pBuffer ∧
              p1.pPartition =
                { p.pPartition with
                  BlkSize := FF_getShort (r0.pIoman.pBuffers i0).pBuffer 0x0B
                  BeginLBA := 0 }) ∨
         (¬ validSectorSize (FF_getShort (r0.pIoman.pBuffers i0).pBuffer 0x0B) ∧
            FF_MountPartition_tableLBA (r0.pIoman.pBuffers i0).pBuffer pn = 0 ∧
            ∃ r, x = Located.failed r ∧
              r.ret = FF_ERROR.FF_ERR_IOMAN_NO_MOUNTABLE_PARTITION ∧
              r.pIoman.pPartition =
                { p.pPartition with
                  BlkSize := FF_getShort (r0.pIoman.pBuffers i0).pBuffer 0x0B
                  BeginLBA := 0 }) ∨
         (¬ validSectorSize (FF_getShort (r0.pIoman.pBuffers i0).pBuffer 0x0B) ∧
            FF_MountPartition_tableLBA (r0.pIoman.pBuffers i0).pBuffer pn ≠ 0 ∧
            ∃ r1, FF_GetBuffer fuel (FF_MountPartition_tablePool r0.pIoman i0 pn) r0.world
                (FF_MountPartition_tableLBA (r0.pIoman.pBuffers i0).pBuffer pn) FF_MODE_READ
                = some r1 ∧
              ((r1.ret = none ∧ ∃ r, x = Located.failed r ∧
                  r.ret = FF_ERROR.FF_ERR_DEVICE_DRIVER_FAILED ∧
                  r.pIoman.pPartition =
                    { p.pPartition with
                      BlkSize := FF_getShort (r0.pIoman.pBuffers i0).pBuffer 0x0B
                      BeginLBA :=
                        FF_MountPartition_tableLBA (r0.pIoman.pBuffers i0).pBuffer pn }) ∨
               ∃ i1, r1.ret = some i1 ∧
                ((¬ validSectorSize (FF_getShort (r1.pIoman.pBuffers i1).pBuffer 0x0B) ∧
                    ∃ r, x = Located.failed r ∧
                      r.ret = FF_ERROR.FF_ERR_IOMAN_INVALID_FORMAT ∧
                      r.pIoman.pPartition =
                        { p.pPartition with
                          BlkSize := FF_getShort (r1.pIoman.pBuffers i1).pBuffer 0x0B
                          BeginLBA :=
                            FF_MountPartition_tableLBA (r0.pIoman.pBuffers i0).pBuffer pn }) ∨
                 (validSectorSize (FF_getShort (r1.pIoman.pBuffers i1).pBuffer 0x0B) ∧
                    ∃ p1 tr, x = Located.found p1 r1.world i1 tr ∧ p1.BlkSize = p.BlkSize ∧
                      (p1.pBuffers i1).pBuffer = (r1.pIoman.pBuffers i1).pBuffer ∧
                      p1.pPartition =
                        { p.pPartition with
                          BlkSize := FF_getShort (r1.pIoman.pBuffers i1).pBuffer 0x0B
                          BeginLBA :=
                            FF_MountPartition_tableLBA
                              (r0.pIoman.pBuffers i0).pBuffer pn })))))) := by
  have hbps : FF_FAT_BYTES_PER_SECTOR = 0x0B := rfl
  unfold FF_MountPartition_locate at h
  cases hr0 : FF_GetBuffer fuel p w 0 FF_MODE_READ with
  | none => rw [hr0] at h; exact absurd h (by simp)
  | some r0 =>
    obtain ⟨f1, f2, -, -⟩ := FF_GetBuffer_frame fuel p w _ _ r0 hr0
    refine ⟨r0, rfl, ?_⟩
    rw [hr0] at h
    dsimp only at h
    cases hi0 : r0.ret with
    | none =>
      rw [hi0] at h
      simp only [Except.ok.injEq] at h
      subst h
      exact Or.inl ⟨rfl, _, rfl, rfl, f2⟩
    | some i0 =>
      right
      refine ⟨i0, rfl, ?_⟩
      rw [hi0] at h
      dsimp only at h
      rw [hbps] at h
      split_ifs at h with hv hz
      · simp only [Except.ok.injEq] at h
        subst h
        refine Or.inl ⟨hv, _, _, rfl, f1, rfl, ?_⟩
        dsimp only
        rw [f2]
      · simp only [Except.ok.injEq] at h
        subst h
        refine Or.inr (Or.inl ⟨hv, hz, _, rfl, rfl, ?_⟩)
        simp only [FF_ReleaseBuffer_pPartition]
        rw [f2]
        simp only [FF_ReleaseBuffer_pPartition] at hz
        rw [hz]
      · refine Or.inr (Or.inr ⟨hv, hz, ?_⟩)
        revert h
        cases hr1 : FF_GetBuffer fuel _ r0.world _ FF_MODE_READ with
        | none => intro h; exact absurd h (by simp)
        | some r1 =>
          obtain ⟨g1, g2, -, -⟩ := FF_GetBuffer_frame fuel _ r0.world _ _ r1 hr1
          refine fun h => ⟨r1, hr1, ?_⟩
          revert h
          dsimp only
          cases hi1 : r1.ret with
          | none =>
            intro h
            simp only [Except.ok.injEq] at h
            subst h
            refine Or.inl ⟨rfl, _, rfl, rfl, ?_⟩
            dsimp only
            rw [g2]
            simp only [FF_ReleaseBuffer_pPartition]
            rw [f2]
          | some i1 =>
            dsimp only
            intro h
            right
            refine ⟨i1, rfl, ?_⟩
            split_ifs at h with hv1
            · simp only [Except.ok.injEq] at h
              subst h
              refine Or.inl ⟨?_, _, rfl, rfl, ?_⟩
              · intro hval
                rcases hv1 with a | b
                · exact a hval.1
                · exact absurd hval.2 (by rw [b]; decide)
              · simp only [FF_ReleaseBuffer_pPartition]
                rw [g2]
                simp only [FF_ReleaseBuffer_pPartition]
                rw [f2]
            · simp only [Except.ok.injEq] at h
              subst h
              simp only [not_or, not_not] at hv1
              refine Or.inr ⟨⟨hv1.1, Nat.pos_of_ne_zero hv1.2⟩, _, _, rfl, ?_, rfl, ?_⟩
              · show r1.pIoman.BlkSize = p.BlkSize
                rw [g1]; exact f1
              · dsimp only
                rw [g2]
                simp only [FF_ReleaseBuffer_pPartition]
                rw [f2]

/-- C21, amended: what the partition descriptor holds when `FF_MountPartition`
returns, path by path, for every manager and device. A partition number above 3
gives `FF_ERR_IOMAN_INVALID_PARTITION_NUM` and leaves every field. When the
acquisition of sector 0 hands out nothing the value is
`FF_ERR_DEVICE_DRIVER_FAILED` and every field is left. Otherwise every field
other than the block size and the start is left on the error paths of lines
655-686: with `FF_ERR_IOMAN_NO_MOUNTABLE_PARTITION` the block size is the
bytes-per-sector field of the block acquired for sector 0 and the start is 0;
with `FF_ERR_DEVICE_DRIVER_FAILED` from the second acquisition the block size
is that field and the start is the start from the partition table; with
`FF_ERR_IOMAN_INVALID_FORMAT` the block size is the bytes-per-sector field of
the block acquired for the sector at the start from the table, and the start is
that start. With 0 or `FF_ERR_IOMAN_NOT_FAT_FORMATTED` the descriptor is what
lines 688-719 compute from the block of the boot sector, with the type set from
the count of clusters. On a cache that agrees with an image these blocks are
sector 0 of the image and the sector at the start the specification gives, and
`FF_ERR_DEVICE_DRIVER_FAILED` is not returned. -/
theorem mount_error_descriptor (fatCheck : Bool) (fuel : Nat) (p : FF_IOMAN D) (w : D)
    (pn : Nat) (r : MountResult D)
    (h : FF_MountPartition fatCheck fuel p w pn = Except.ok r) :
    ((3 < pn ∧ r.ret = FF_ERROR.FF_ERR_IOMAN_INVALID_PARTITION_NUM ∧
        r.pIoman.pPartition = p.pPartition) ∨
     (pn ≤ 3 ∧ ∃ r0, FF_GetBuffer fuel p w 0 FF_MODE_READ = some r0 ∧
      ((r0.ret = none ∧ r.ret = FF_ERROR.FF_ERR_DEVICE_DRIVER_FAILED ∧
          r.pIoman.pPartition = p.pPartition) ∨
       ∃ i0, r0.ret = some i0 ∧
        ((validSectorSize (FF_getShort (r0.pIoman.pBuffers i0).pBuffer 0x0B) ∧
            (r.ret = FF_ERROR.FF_ERR_NONE ∨
              r.ret = FF_ERROR.FF_ERR_IOMAN_NOT_FAT_FORMATTED) ∧
            ∃ q1 q2,
              FF_MountPartition_fields p.BlkSize (r0.pIoman.pBuffers i0).pBuffer
                { p.pPartition with
                  BlkSize := FF_getShort (r0.pIoman.pBuffers i0).pBuffer 0x0B
                  BeginLBA := 0 } = Except.ok q1 ∧
              FF_MountPartition_geometry (r0.pIoman.pBuffers i0).pBuffer q1 = Except.ok q2 ∧
              r.pIoman.pPartition =
                { q2 with
                  FatType :=
                    if q2.NumClusters < 4085 then FF_T_FAT12
                    else if q2.NumClusters < 65525 then FF_T_FAT16 else FF_T_FAT32 }) ∨
         (¬ validSectorSize (FF_getShort (r0.pIoman.pBuffers i0).pBuffer 0x0B) ∧
            FF_MountPartition_tableLBA (r0.pIoman.pBuffers i0).pBuffer pn = 0 ∧
            r.ret = FF_ERROR.FF_ERR_IOMAN_NO_MOUNTABLE_PARTITION ∧
            r.pIoman.pPartition =
              { p.pPartition with
                BlkSize := FF_getShort (r0.pIoman.pBuffers i0).pBuffer 0x0B
                BeginLBA := 0 }) ∨
         (¬ validSectorSize (FF_getShort (r0.pIoman.pBuffers i0).pBuffer 0x0B) ∧
            FF_MountPartition_tableLBA (r0.pIoman.pBuffers i0).pBuffer pn ≠ 0 ∧
            ∃ r1, FF_GetBuffer fuel (FF_MountPartition_tablePool r0.pIoman i0 pn) r0.world
                (FF_MountPartition_tableLBA (r0.pIoman.pBuffers i0).pBuffer pn) FF_MODE_READ
                = some r1 ∧
              ((r1.ret = none ∧ r.ret = FF_ERROR.FF_ERR_DEVICE_DRIVER_FAILED ∧
                  r.pIoman.pPartition =
                    { p.pPartition with
                      BlkSize := FF_getShort (r0.pIoman.pBuffers i0).pBuffer 0x0B
                      BeginLBA :=
                        FF_MountPartition_tableLBA (r0.pIoman.pBuffers i0).pBuffer pn }) ∨
               ∃ i1, r1.ret = some i1 ∧
                ((¬ validSectorSize (FF_getShort (r1.pIoman.pBuffers i1).pBuffer 0x0B) ∧
                    r.ret = FF_ERROR.FF_ERR_IOMAN_INVALID_FORMAT ∧
                    r.pIoman.pPartition =
                      { p.pPartition with
                        BlkSize := FF_getShort (r1.pIoman.pBuffers i1).pBuffer 0x0B
                        BeginLBA :=
                          FF_MountPartition_tableLBA (r0.pIoman.pBuffers i0).pBuffer pn }) ∨
                 (validSectorSize (FF_getShort (r1.pIoman.pBuffers i1).pBuffer 0x0B) ∧
                    (r.ret = FF_ERROR.FF_ERR_NONE ∨
                      r.ret = FF_ERROR.FF_ERR_IOMAN_NOT_FAT_FORMATTED) ∧
                    ∃ q1 q2,
                      FF_MountPartition_fields p.BlkSize (r1.pIoman.pBuffers i1).pBuffer
                        { p.pPartition with
                          BlkSize := FF_getShort (r1.pIoman.pBuffers i1).pBuffer 0x0B
                          BeginLBA :=
                            FF_MountPartition_tableLBA (r0.pIoman.pBuffers i0).pBuffer pn }
                        = Except.ok q1 ∧
                      FF_MountPartition_geometry (r1.pIoman.pBuffers i1).pBuffer q1
                        = Except.ok q2 ∧
                      r.pIoman.pPartition =
                        { q2 with
                          FatType :=
                            if q2.NumClusters < 4085 then FF_T_FAT12
                            else if q2.NumClusters < 65525 then FF_T_FAT16
                            else FF_T_FAT32 })))))))) ∧
    (∀ img : Nat → Block, Coherent img p w →
      r.ret ≠ FF_ERROR.FF_ERR_DEVICE_DRIVER_FAILED ∧
      (r.ret = FF_ERROR.FF_ERR_IOMAN_NO_MOUNTABLE_PARTITION →
        reference_begin_lba (img 0) pn = 0 ∧
        r.pIoman.pPartition =
          { p.pPartition with BlkSize := FF_getShort (img 0) 0x0B, BeginLBA := 0 }) ∧
      (r.ret = FF_ERROR.FF_ERR_IOMAN_INVALID_FORMAT →
        reference_begin_lba (img 0) pn ≠ 0 ∧
        r.pIoman.pPartition =
          { p.pPartition with
            BlkSize := FF_getShort (img (reference_begin_lba (img 0) pn)) 0x0B
            BeginLBA := reference_begin_lba (img 0) pn }) ∧
      (r.ret = FF_ERROR.FF_ERR_IOMAN_NOT_FAT_FORMATTED →
        ∃ q1 q2,
          FF_MountPartition_fields p.BlkSize (img (reference_begin_lba (img 0) pn))
            { p.pPartition with
              BlkSize := FF_getShort (img (reference_begin_lba (img 0) pn)) 0x0B
              BeginLBA := reference_begin_lba (img 0) pn } = Except.ok q1 ∧
          FF_MountPartition_geometry (img (reference_begin_lba (img 0) pn)) q1
            = Except.ok q2 ∧
          r.pIoman.pPartition =
            { q2 with
              FatType :=
                if q2.NumClusters < 4085 then FF_T_FAT12
                else if q2.NumClusters < 65525 then FF_T_FAT16 else FF_T_FAT32 })) := by
  have tree : (3 < pn ∧ r.ret = FF_ERROR.FF_ERR_IOMAN_INVALID_PARTITION_NUM ∧
        r.pIoman.pPartition = p.pPartition) ∨
     (pn ≤ 3 ∧ ∃ r0, FF_GetBuffer fuel p w 0 FF_MODE_READ = some r0 ∧
      ((r0.ret = none ∧ r.ret = FF_ERROR.FF_ERR_DEVICE_DRIVER_FAILED ∧
          r.pIoman.pPartition = p.pPartition) ∨
       ∃ i0, r0.ret = some i0 ∧
        ((validSectorSize (FF_getShort (r0.pIoman.pBuffers i0).pBuffer 0x0B) ∧
            (r.ret = FF_ERROR.FF_ERR_NONE ∨
              r.ret = FF_ERROR.FF_ERR_IOMAN_NOT_FAT_FORMATTED) ∧
            ∃ q1 q2,
              FF_MountPartition_fields p.BlkSize (r0.pIoman.pBuffers i0).pBuffer
                { p.pPartition with
                  BlkSize := FF_getShort (r0.pIoman.pBuffers i0).pBuffer 0x0B
                  BeginLBA := 0 } = Except.ok q1 ∧
              FF_MountPartition_geometry (r0.pIoman.pBuffers i0).pBuffer q1 = Except.ok q2 ∧
              r.pIoman.pPartition =
                { q2 with
                  FatType :=
                    if q2.NumClusters < 4085 then FF_T_FAT12
                    else if q2.NumClusters < 65525 then FF_T_FAT16 else FF_T_FAT32 }) ∨
         (¬ validSectorSize (FF_getShort (r0.pIoman.pBuffers i0).pBuffer 0x0B) ∧
            FF_MountPartition_tableLBA (r0.pIoman.pBuffers i0).pBuffer pn = 0 ∧
            r.ret = FF_ERROR.FF_ERR_IOMAN_NO_MOUNTABLE_PARTITION ∧
            r.pIoman.pPartition =
              { p.pPartition with
                BlkSize := FF_getShort (r0.pIoman.pBuffers i0).pBuffer 0x0B
                BeginLBA := 0 }) ∨
         (¬ validSectorSize (FF_getShort (r0.pIoman.pBuffers i0).pBuffer 0x0B) ∧
            FF_MountPartition_tableLBA (r0.pIoman.pBuffers i0).pBuffer pn ≠ 0 ∧
            ∃ r1, FF_GetBuffer fuel (FF_MountPartition_tablePool r0.pIoman i0 pn) r0.world
                (FF_MountPartition_tableLBA (r0.pIoman.pBuffers i0).pBuffer pn) FF_MODE_READ
                = some r1 ∧
              ((r1.ret = none ∧ r.ret = FF_ERROR.FF_ERR_DEVICE_DRIVER_FAILED ∧
                  r.pIoman.pPartition =
                    { p.pPartition with
                      BlkSize := FF_getShort (r0.pIoman.pBuffers i0).pBuffer 0x0B
                      BeginLBA :=
                        FF_MountPartition_tableLBA (r0.pIoman.pBuffers i0).pBuffer pn }) ∨
               ∃ i1, r1.ret = some i1 ∧
                ((¬ validSectorSize (FF_getShort (r1.pIoman.pBuffers i1).pBuffer 0x0B) ∧
                    r.ret = FF_ERROR.FF_ERR_IOMAN_INVALID_FORMAT ∧
                    r.pIoman.pPartition =
                      { p.pPartition with
                        BlkSize := FF_getShort (r1.pIoman.pBuffers i1).pBuffer 0x0B
                        BeginLBA :=
                          FF_MountPartition_tableLBA (r0.pIoman.pBuffers i0).pBuffer pn }) ∨
                 (validSectorSize (FF_getShort (r1.pIoman.pBuffers i1).pBuffer 0x0B) ∧
                    (r.ret = FF_ERROR.FF_ERR_NONE ∨
                      r.ret = FF_ERROR.FF_ERR_IOMAN_NOT_FAT_FORMATTED) ∧
                    ∃ q1 q2,
                      FF_MountPartition_fields p.BlkSize (r1.pIoman.pBuffers i1).pBuffer
                        { p.pPartition with
                          BlkSize := FF_getShort (r1.pIoman.pBuffers i1).pBuffer 0x0B
                          BeginLBA :=
                            FF_MountPartition_tableLBA (r0.pIoman.pBuffers i0).pBuffer pn }
                        = Except.ok q1 ∧
                      FF_MountPartition_geometry (r1.pIoman.pBuffers i1).pBuffer q1
                        = Except.ok q2 ∧
                      r.pIoman.pPartition =
                        { q2 with
                          FatType :=
                            if q2.NumClusters < 4085 then FF_T_FAT12
                            else if q2.NumClusters < 65525 then FF_T_FAT16
                            else FF_T_FAT32 }))))))) := by
    unfold FF_MountPartition at h
    split_ifs at h with hp
    · simp only [Except.ok.injEq] at h
      subst h
      exact Or.inl ⟨hp, rfl, rfl⟩
    · right
      refine ⟨by omega, ?_⟩
      split at h
      · exact absurd h (by simp)
      · rename_i r1 hl
        simp only [Except.ok.injEq] at h
        subst h
        obtain ⟨r0, hr0, hcase⟩ := FF_MountPartition_locate_exact fuel p w pn _ hl
        refine ⟨r0, hr0, ?_⟩
        rcases hcase with ⟨hn, r, hx, hret, hpp⟩ | ⟨i0, hi0, hcase⟩
        · simp only [Located.failed.injEq] at hx
          subst hx
          exact Or.inl ⟨hn, hret, hpp⟩
        · refine Or.inr ⟨i0, hi0, ?_⟩
          rcases hcase with ⟨-, p1, tr, hx, -⟩ | ⟨hnv, hz, r, hx, hret, hpp⟩ |
            ⟨hnv, hnz, r1, hr1, hcase⟩
          · exact absurd hx (by simp)
          · simp only [Located.failed.injEq] at hx
            subst hx
            exact Or.inr (Or.inl ⟨hnv, hz, hret, hpp⟩)
          · refine Or.inr (Or.inr ⟨hnv, hnz, r1, hr1, ?_⟩)
            rcases hcase with ⟨hn, r, hx, hret, hpp⟩ | ⟨i1, hi1, hcase⟩
            · simp only [Located.failed.injEq] at hx
              subst hx
              exact Or.inl ⟨hn, hret, hpp⟩
            · refine Or.inr ⟨i1, hi1, ?_⟩
              rcases hcase with ⟨hnv1, r, hx, hret, hpp⟩ | ⟨-, p1, tr, hx, -⟩
              · simp only [Located.failed.injEq] at hx
                subst hx
                exact Or.inl ⟨hnv1, hret, hpp⟩
              · exact absurd hx (by simp)
      · rename_i p1 w1 i tr hl
        obtain ⟨q, q1, hq, hq1, hfinal, -, hret⟩ :=
          FF_MountPartition_finish_spec fatCheck fuel p1 w1 i tr r h
        obtain ⟨r0, hr0, hcase⟩ := FF_MountPartition_locate_exact fuel p w pn _ hl
        refine ⟨r0, hr0, ?_⟩
        rcases hcase with ⟨hn, r, hx, -⟩ | ⟨i0, hi0, hcase⟩
        · exact absurd hx (by simp)
        · refine Or.inr ⟨i0, hi0, ?_⟩
          rcases hcase with ⟨hv, p2, tr2, hx, hbs, hbuf, hpp⟩ | ⟨-, -, r, hx, -⟩ |
            ⟨hnv, hnz, r1, hr1, hcase⟩
          · simp only [Located.found.injEq] at hx
            obtain ⟨e1, e2, e3, e4⟩ := hx
            subst e1 e2 e3 e4
            rw [hbs, hbuf, hpp] at hq
            rw [hbuf] at hq1
            exact Or.inl ⟨hv, hret, q, q1, hq, hq1, hfinal⟩
          · exact absurd hx (by simp)
          · refine Or.inr (Or.inr ⟨hnv, hnz, r1, hr1, ?_⟩)
            rcases hcase with ⟨hn, r, hx, -⟩ | ⟨i1, hi1, hcase⟩
            · exact absurd hx (by simp)
            · refine Or.inr ⟨i1, hi1, ?_⟩
              rcases hcase with ⟨-, r, hx, -⟩ | ⟨hv1, p2, tr2, hx, hbs, hbuf, hpp⟩
              · exact absurd hx (by simp)
              · simp only [Located.found.injEq] at hx
                obtain ⟨e1, e2, e3, e4⟩ := hx
                subst e1 e2 e3 e4
                rw [hbs, hbuf, hpp] at hq
                rw [hbuf] at hq1
                exact Or.inr ⟨hv1, hret, q, q1, hq, hq1, hfinal⟩
  refine ⟨tree, ?_⟩
  intro img hc
  have href := reference_begin_lba_eq (img 0) pn
  have hbps : FF_FAT_BYTES_PER_SECTOR = 0x0B := rfl
  rw [hbps] at href
  have hnotfat : r.ret = FF_ERROR.FF_ERR_IOMAN_NOT_FAT_FORMATTED →
      ∃ q1 q2,
        FF_MountPartition_fields p.BlkSize (img (reference_begin_lba (img 0) pn))
          { p.pPartition with
            BlkSize := FF_getShort (img (reference_begin_lba (img 0) pn)) 0x0B
            BeginLBA := reference_begin_lba (img 0) pn } = Except.ok q1 ∧
        FF_MountPartition_geometry (img (reference_begin_lba (img 0) pn)) q1
          = Except.ok q2 ∧
        r.pIoman.pPartition =
          { q2 with
            FatType :=
              if q2.NumClusters < 4085 then FF_T_FAT12
              else if q2.NumClusters < 65525 then FF_T_FAT16 else FF_T_FAT32 } := by
    intro hret
    obtain ⟨q1, q2, -, hq1, hq2, hfinal⟩ :=
      FF_MountPartition_coherent_descriptor fatCheck fuel p w img pn r hc h (Or.inr hret)
    exact ⟨q1, q2, hq1, hq2, hfinal⟩
  rcases tree with ⟨-, hret, -⟩ | ⟨-, r0, hr0, hcase⟩
  · refine ⟨by rw [hret]; decide, ?_, ?_, hnotfat⟩ <;>
      (intro hx; rw [hret] at hx; exact absurd hx (by decide))
  · obtain ⟨hw0, hc0, -, j0, hj0, -, hb0⟩ := FF_GetBuffer_coherent fuel p w img hc 0 r0 hr0
    rcases hcase with ⟨hn, -⟩ | ⟨i0, hi0, hcase⟩
    · rw [hj0] at hn; exact absurd hn (by simp)
    · rw [hj0] at hi0
      simp only [Option.some.injEq] at hi0
      subst hi0
      rw [hb0] at hcase
      rcases hcase with ⟨-, hret, -⟩ | ⟨hnv, hz, hret, hpp⟩ | ⟨hnv, hnz, r1, hr1, hcase⟩
      · refine ⟨?_, ?_, ?_, hnotfat⟩
        · rcases hret with hx | hx <;> (rw [hx]; decide)
        · intro hy; rcases hret with hx | hx <;> (rw [hx] at hy; exact absurd hy (by decide))
        · intro hy; rcases hret with hx | hx <;> (rw [hx] at hy; exact absurd hy (by decide))
      · refine ⟨by rw [hret]; decide, ?_, ?_, hnotfat⟩
        · intro _
          refine ⟨by rw [href, if_neg hnv]; exact hz, hpp⟩
        · intro hy; rw [hret] at hy; exact absurd hy (by decide)
      · have hL : reference_begin_lba (img 0) pn = FF_MountPartition_tableLBA (img 0) pn := by
          rw [href, if_neg hnv]
        have hc1 : Coherent img (FF_MountPartition_tablePool r0.pIoman j0 pn) w :=
          Coherent_release img _ w j0 (by exact hc0)
        rw [hw0] at hr1
        obtain ⟨-, -, -, j1, hj1, -, hb1⟩ :=
          FF_GetBuffer_coherent fuel _ w img hc1 _ r1 hr1
        rcases hcase with ⟨hn, -⟩ | ⟨i1, hi1, hcase⟩
        · rw [hj1] at hn; exact absurd hn (by simp)
        · rw [hj1] at hi1
          simp only [Option.some.injEq] at hi1
          subst hi1
          rw [hb1] at hcase
          rcases hcase with ⟨hnv1, hret, hpp⟩ | ⟨-, hret, -⟩
          · refine ⟨by rw [hret]; decide, ?_, ?_, hnotfat⟩
            · intro hy; rw [hret] at hy; exact absurd hy (by decide)
            · intro _
              rw [hL]
              exact ⟨hnz, hpp⟩
          · refine ⟨?_, ?_, ?_, hnotfat⟩
            · rcases hret with hx | hx <;> (rw [hx]; decide)
            · intro hy
              rcases hret with hx | hx <;> (rw [hx] at hy; exact absurd hy (by decide))
            · intro hy
              rcases hret with hx | hx <;> (rw [hx] at hy; exact absurd hy (by decide))

/-- Witness of the amended C21: the mount of scenario 3 on a fresh pool gives
`FF_ERR_IOMAN_NO_MOUNTABLE_PARTITION` and leaves the bytes-per-sector field of
sector 0, 513, as the block size and 0 as the start; the mount of
`badPartitionImage` gives `FF_ERR_IOMAN_INVALID_FORMAT` and leaves the
bytes-per-sector field of sector 2048, 513, as the block size and 2048 as the
start. -/
theorem mount_error_descriptor_witness :
    scenario3Mounted.ret = FF_ERROR.FF_ERR_IOMAN_NO_MOUNTABLE_PARTITION ∧
    FF_getShort (scenario3Image 0) 0x0B = 513 ∧
    (reference_begin_lba (scenario3Image 0) 0 = 0 ∧
      scenario3Mounted.pIoman.pPartition =
        { (freshPool 2 ramRead ramWrite).pPartition with
          BlkSize := FF_getShort (scenario3Image 0) 0x0B, BeginLBA := 0 }) ∧
    badPartitionMounted.ret = FF_ERROR.FF_ERR_IOMAN_INVALID_FORMAT ∧
    reference_begin_lba (badPartitionImage 0) 0 = 2048 ∧
    FF_getShort (badPartitionImage 2048) 0x0B = 513 ∧
    (reference_begin_lba (badPartitionImage 0) 0 ≠ 0 ∧
      badPartitionMounted.pIoman.pPartition =
        { (freshPool 2 ramRead ramWrite).pPartition with
          BlkSize :=
            FF_getShort (badPartitionImage (reference_begin_lba (badPartitionImage 0) 0)) 0x0B
          BeginLBA := reference_begin_lba (badPartitionImage 0) 0 }) :=
  ⟨by decide, by decide,
   ((mount_error_descriptor true 1 (freshPool 2 ramRead ramWrite) scenario3Image 0
      scenario3Mounted (okValue_get _ _)).2 scenario3Image
      (Coherent_freshPool 2 ramWrite scenario3Image)).2.1 (by decide),
   by decide, by decide, by decide,
   ((mount_error_descriptor true 1 (freshPool 2 ramRead ramWrite) badPartitionImage 0
      badPartitionMounted (okValue_get _ _)).2 badPartitionImage
      (Coherent_freshPool 2 ramWrite badPartitionImage)).2.2.1 (by decide)⟩

/-! ## The descriptors after a mount -/

/-- A descriptor that was neither held nor in service before an acquisition
that hands out nothing is so afterwards. -/
theorem FF_GetBuffer_fail_free (fuel : Nat) (p : FF_IOMAN D) (w : D) (Sector Mode : Nat)
    (r : GetBufferResult D) (h : FF_GetBuffer fuel p w Sector Mode = some r)
    (hi : r.ret = none) (k : Nat)
    (hk : (p.pBuffers k).NumHandles = 0 ∧ (p.pBuffers k).isIOMANediting = false) :
    (r.pIoman.pBuffers k).NumHandles = 0 ∧ (r.pIoman.pBuffers k).isIOMANediting = false := by
  cases FF_GetBuffer_cases fuel p w Sector Mode r h with
  | invalid hv hr => subst hr; exact hk
  | hit j hj hm hs hmd hc1 hc2 hr =>
    subst hr
    simp [FF_GetBuffer_hit] at hi
  | refresh j hj hm hs hmd hc hn hr =>
    obtain ⟨rv, buf, -, -, hframe, hcase⟩ := FF_GetBuffer_refresh_spec fuel p w Sector j r hr
    rcases hcase with ⟨-, -, hslot⟩ | ⟨-, hsome, -⟩
    · by_cases hkj : k = j
      · subst hkj
        simp [hslot, hn]
      · rw [hframe k hkj]; exact hk
    · rw [hsome] at hi; simp at hi
  | takeOver j hj hv hs he hmd hn hr =>
    obtain ⟨rv, -, hsome, -, -, -⟩ :=
      FF_GetBuffer_takeOver_spec fuel p w Sector Mode j r hr
    rw [hsome] at hi; simp at hi
  | evict j hj hv hn he hr =>
    obtain ⟨rv, buf, tr0, -, -, -, hframe, hcase⟩ :=
      FF_GetBuffer_evict_spec fuel p w Sector Mode j r hr
    rcases hcase with ⟨-, -, hslot⟩ | ⟨-, hsome, -⟩
    · by_cases hkj : k = j
      · subst hkj
        simp [hslot, hn]
      · rw [hframe k hkj]; exact hk
    · rw [hsome] at hi; simp at hi

/-- Lines 655-686 of `FF_MountPartition` keep the count of descriptors, and a
descriptor that was neither held nor in service before them is so when they end
with a `return`, and is so once the descriptor of the boot sector is released
when they end with the boot sector. -/
theorem FF_MountPartition_locate_free (fuel : Nat) (p : FF_IOMAN D) (w : D) (pn : Nat)
    (x : Located D) (h : FF_MountPartition_locate fuel p w pn = Except.ok x) (k : Nat) :
    match x with
    | Located.failed r =>
      r.pIoman.CacheSize = p.CacheSize ∧
      ((p.pBuffers k).NumHandles = 0 ∧ (p.pBuffers k).isIOMANediting = false →
        (r.pIoman.pBuffers k).NumHandles = 0 ∧ (r.pIoman.pBuffers k).isIOMANediting = false)
    | Located.found p1 _ i _ =>
      p1.CacheSize = p.CacheSize ∧
      ((p.pBuffers k).NumHandles = 0 ∧ (p.pBuffers k).isIOMANediting = false →
        ((FF_ReleaseBuffer p1 i).pBuffers k).NumHandles = 0 ∧
        ((FF_ReleaseBuffer p1 i).pBuffers k).isIOMANediting = false) := by
  unfold FF_MountPartition_locate at h
  cases hr0 : FF_GetBuffer fuel p w 0 FF_MODE_READ with
  | none => rw [hr0] at h; exact absurd h (by simp)
  | some r0 =>
    obtain ⟨-, -, -, f4⟩ := FF_GetBuffer_frame fuel p w _ _ r0 hr0
    rw [hr0] at h
    dsimp only at h
    cases hi0 : r0.ret with
    | none =>
      rw [hi0] at h
      simp only [Except.ok.injEq] at h
      subst h
      exact ⟨f4, FF_GetBuffer_fail_free fuel p w _ _ r0 hr0 hi0 k⟩
    | some i0 =>
      have hrel := FF_GetBuffer_release_free fuel p w _ _ r0 i0 hr0 hi0 k
      rw [hi0] at h
      dsimp only at h
      split_ifs at h with hv hz
      · simp only [Except.ok.injEq] at h
        subst h
        exact ⟨f4, hrel⟩
      · simp only [Except.ok.injEq] at h
        subst h
        exact ⟨f4, hrel⟩
      · revert h
        cases hr1 : FF_GetBuffer fuel _ r0.world _ FF_MODE_READ with
        | none => intro h; exact absurd h (by simp)
        | some r1 =>
          obtain ⟨-, -, -, g4⟩ := FF_GetBuffer_frame fuel _ r0.world _ _ r1 hr1
          have g5 : r1.pIoman.CacheSize = p.CacheSize := by rw [g4]; exact f4
          dsimp only
          cases hi1 : r1.ret with
          | none =>
            intro h
            simp only [Except.ok.injEq] at h
            subst h
            exact ⟨g5, fun hk =>
              FF_GetBuffer_fail_free fuel _ r0.world _ _ r1 hr1 hi1 k (hrel hk)⟩
          | some i1 =>
            have hrel1 := fun hk =>
              FF_GetBuffer_release_free fuel _ r0.world _ _ r1 i1 hr1 hi1 k (hrel hk)
            dsimp only
            intro h
            split_ifs at h with hv1
            · simp only [Except.ok.injEq] at h
              subst h
              exact ⟨g5, hrel1⟩
            · simp only [Except.ok.injEq] at h
              subst h
              exact ⟨g5, hrel1⟩

/-- The check of the first FAT entry keeps the count of descriptors, and a
descriptor that was neither held nor in service before it is so afterwards. -/
theorem FF_DetermineFatType_check_free (fuel : Nat) (p : FF_IOMAN D) (w : D) (long : Bool)
    (bad : Nat → Bool) (d : FatTypeResult D)
    (h : FF_DetermineFatType_check fuel p w long bad = some d) (k : Nat) :
    d.pIoman.CacheSize = p.CacheSize ∧
    ((p.pBuffers k).NumHandles = 0 ∧ (p.pBuffers k).isIOMANediting = false →
      (d.pIoman.pBuffers k).NumHandles = 0 ∧ (d.pIoman.pBuffers k).isIOMANediting = false) := by
  unfold FF_DetermineFatType_check at h
  cases hr : FF_GetBuffer fuel p w p.pPartition.FatBeginLBA FF_MODE_READ with
  | none => rw [hr] at h; exact absurd h (by simp)
  | some r =>
    obtain ⟨-, -, -, f4⟩ := FF_GetBuffer_frame fuel p w _ _ r hr
    rw [hr] at h
    dsimp only at h
    cases hi : r.ret with
    | none =>
      rw [hi] at h
      simp only [Option.some.injEq] at h
      subst h
      exact ⟨f4, FF_GetBuffer_fail_free fuel p w _ _ r hr hi k⟩
    | some i =>
      have hrel := FF_GetBuffer_release_free fuel p w _ _ r i hr hi k
      rw [hi] at h
      dsimp only at h
      split_ifs at h <;>
        (simp only [Option.some.injEq] at h
         subst h
         exact ⟨f4, hrel⟩)

/-- The function `FF_DetermineFatType` keeps the count of descriptors, and a
descriptor that was neither held nor in service before it is so afterwards. -/
theorem FF_DetermineFatType_free (fatCheck : Bool) (fuel : Nat) (p : FF_IOMAN D) (w : D)
    (d : FatTypeResult D) (h : FF_DetermineFatType fatCheck fuel p w = some d) (k : Nat) :
    d.pIoman.CacheSize = p.CacheSize ∧
    ((p.pBuffers k).NumHandles = 0 ∧ (p.pBuffers k).isIOMANediting = false →
      (d.pIoman.pBuffers k).NumHandles = 0 ∧ (d.pIoman.pBuffers k).isIOMANediting = false) := by
  unfold FF_DetermineFatType at h
  split_ifs at h with h1 hf h2 hf hf
  · exact FF_DetermineFatType_check_free fuel _ w _ _ d h k
  · simp only [Option.some.injEq] at h
    subst h
    exact ⟨rfl, id⟩
  · exact FF_DetermineFatType_check_free fuel _ w _ _ d h k
  · simp only [Option.some.injEq] at h
    subst h
    exact ⟨rfl, id⟩
  · exact FF_DetermineFatType_check_free fuel _ w _ _ d h k
  · simp only [Option.some.injEq] at h
    subst h
    exact ⟨rfl, id⟩

/-- Lines 688-725 of `FF_MountPartition` keep the count of descriptors, and a
descriptor that is neither held nor in service once the descriptor of the boot
sector is released is so when they end. -/
theorem FF_MountPartition_finish_free (fatCheck : Bool) (fuel : Nat) (p : FF_IOMAN D) (w : D)
    (i : Nat) (tr : List IOEvent) (r : MountResult D)
    (h : FF_MountPartition_finish fatCheck fuel p w i tr = Except.ok r) (k : Nat) :
    r.pIoman.CacheSize = p.CacheSize ∧
    (((FF_ReleaseBuffer p i).pBuffers k).NumHandles = 0 ∧
        ((FF_ReleaseBuffer p i).pBuffers k).isIOMANediting = false →
      (r.pIoman.pBuffers k).NumHandles = 0 ∧ (r.pIoman.pBuffers k).isIOMANediting = false) := by
  unfold FF_MountPartition_finish at h
  split at h
  · exact absurd h (by simp)
  · rename_i q hq
    dsimp only at h
    split at h
    · exact absurd h (by simp)
    · rename_i q1 hq1
      split at h
      · exact absurd h (by simp)
      · rename_i d hd
        have hfree := FF_DetermineFatType_free fatCheck fuel _ w d hd k
        split_ifs at h <;>
          (simp only [Except.ok.injEq] at h
           subst h
           exact hfree)

/-- C22: when no descriptor of the pool is held or in service, a call of
`FF_MountPartition` that returns, with 0 or with any error, whatever the device
does, whatever the partition number is and whether or not the check of the
first FAT entry is compiled in, leaves a pool of as many descriptors of which
none is held or in service. -/
theorem mount_releases_buffers (fatCheck : Bool) (fuel : Nat) (p : FF_IOMAN D) (w : D)
    (pn : Nat) (r : MountResult D)
    (h : FF_MountPartition fatCheck fuel p w pn = Except.ok r)
    (hidle : ∀ k, k < p.CacheSize →
      (p.pBuffers k).NumHandles = 0 ∧ (p.pBuffers k).isIOMANediting = false) :
    r.pIoman.CacheSize = p.CacheSize ∧
    ∀ k, k < r.pIoman.CacheSize →
      (r.pIoman.pBuffers k).NumHandles = 0 ∧ (r.pIoman.pBuffers k).isIOMANediting = false := by
  unfold FF_MountPartition at h
  split_ifs at h with hp
  · simp only [Except.ok.injEq] at h
    subst h
    exact ⟨rfl, hidle⟩
  · split at h
    · exact absurd h (by simp)
    · rename_i r1 hl
      simp only [Except.ok.injEq] at h
      subst h
      have hcs := (FF_MountPartition_locate_free fuel p w pn _ hl 0).1
      refine ⟨hcs, ?_⟩
      intro k hk
      exact (FF_MountPartition_locate_free fuel p w pn _ hl k).2 (hidle k (hcs ▸ hk))
    · rename_i p1 w1 i tr hl
      have hcs1 := (FF_MountPartition_locate_free fuel p w pn _ hl 0).1
      have hcs2 := (FF_MountPartition_finish_free fatCheck fuel p1 w1 i tr r h 0).1
      have hcs : r.pIoman.CacheSize = p.CacheSize := by rw [hcs2]; exact hcs1
      refine ⟨hcs, ?_⟩
      intro k hk
      exact (FF_MountPartition_finish_free fatCheck fuel p1 w1 i tr r h k).2
        ((FF_MountPartition_locate_free fuel p w pn _ hl k).2 (hidle k (hcs ▸ hk)))

/-- Witness of C22: the mount of scenario 2, which acquires sector 0, the boot
sector at sector 2048 and the first sector of the FAT, on a fresh pool of two
descriptors. -/
theorem mount_releases_buffers_witness :
    scenario2Mounted.ret = FF_ERROR.FF_ERR_NONE ∧
    scenario2Mounted.trace.length = 3 ∧
    scenario2Mounted.pIoman.CacheSize = (freshPool 2 ramRead ramWrite).CacheSize ∧
    ∀ k, k < scenario2Mounted.pIoman.CacheSize →
      (scenario2Mounted.pIoman.pBuffers k).NumHandles = 0 ∧
      (scenario2Mounted.pIoman.pBuffers k).isIOMANediting = false :=
  ⟨by decide, by decide,
   mount_releases_buffers true 1 (freshPool 2 ramRead ramWrite) scenario2Image 0
     scenario2Mounted (okValue_get _ _) (by
       intro k hk
       have h2 : (freshPool 2 ramRead ramWrite).CacheSize = 2 := rfl
       rw [h2] at hk
       interval_cases k <;> decide)⟩

/-! ## Acquisition ends when a descriptor is free -/

/-- More rounds do not change what the loop of `FF_IOMAN_FillBuffer` gives. -/
theorem FF_IOMAN_FillBuffer_busy_mono (fn : FF_READ_BLOCKS D) (Sector pParam : Nat) :
    ∀ (n : Nat) (buf : Block) (w : D) (x : Int × Block × D),
      FF_IOMAN_FillBuffer_busy fn Sector pParam n buf w = some x →
      ∀ m, n ≤ m → FF_IOMAN_FillBuffer_busy fn Sector pParam m buf w = some x := by
  intro n
  induction n with
  | zero => intro buf w x h; simp [FF_IOMAN_FillBuffer_busy] at h
  | succ n ih =>
    intro buf w x h m hm
    obtain ⟨m1, rfl⟩ : ∃ m1, m = m1 + 1 := ⟨m - 1, by omega⟩
    simp only [FF_IOMAN_FillBuffer_busy] at h ⊢
    split_ifs at h ⊢ with hb
    · exact ih _ _ _ h m1 (by omega)
    · exact h

/-- More rounds do not change what the loop of `FF_IOMAN_FlushBuffer` gives. -/
theorem FF_IOMAN_FlushBuffer_busy_mono (fn : FF_WRITE_BLOCKS D) (Sector pParam : Nat)
    (buf : Block) :
    ∀ (n : Nat) (w : D) (x : Int × D),
      FF_IOMAN_FlushBuffer_busy fn Sector pParam buf n w = some x →
      ∀ m, n ≤ m → FF_IOMAN_FlushBuffer_busy fn Sector pParam buf m w = some x := by
  intro n
  induction n with
  | zero => intro w x h; simp [FF_IOMAN_FlushBuffer_busy] at h
  | succ n ih =>
    intro w x h m hm
    obtain ⟨m1, rfl⟩ : ∃ m1, m = m1 + 1 := ⟨m - 1, by omega⟩
    simp only [FF_IOMAN_FlushBuffer_busy] at h ⊢
    split_ifs at h ⊢ with hb
    · exact ih _ _ h m1 (by omega)
    · exact h

/-- On a device whose read callback answers, `FF_IOMAN_FillBuffer` returns, the
same with every fuel from some fuel on. -/
theorem FF_IOMAN_FillBuffer_answers (p : FF_IOMAN D) (ha : ReadAnswers p.pBlkDevice)
    (Sector : Nat) (buf : Block) (w : D) :
    ∃ N x, ∀ fuel, N ≤ fuel → FF_IOMAN_FillBuffer fuel p Sector buf w = some x := by
  unfold FF_IOMAN_FillBuffer
  cases hfn : p.pBlkDevice.fnReadBlocks with
  | none => exact ⟨0, _, fun _ _ => rfl⟩
  | some fn =>
    obtain ⟨n, hn⟩ := ha fn hfn Sector buf w
    cases hx : FF_IOMAN_FillBuffer_busy fn Sector p.pBlkDevice.pParam n buf w with
    | none => exact absurd hx hn
    | some x =>
      obtain ⟨rv, b, w1⟩ := x
      refine ⟨n, if rv < 0 then (-1, b, w1) else if rv = 1 then (0, b, w1) else (-1, b, w1),
        ?_⟩
      intro fuel hf
      dsimp only
      rw [FF_IOMAN_FillBuffer_busy_mono fn Sector _ n buf w _ hx fuel hf]
      dsimp only
      split_ifs <;> rfl

/-- On a device whose write callback answers, `FF_IOMAN_FlushBuffer` returns,
the same with every fuel from some fuel on. -/
theorem FF_IOMAN_FlushBuffer_answers (p : FF_IOMAN D) (ha : WriteAnswers p.pBlkDevice)
    (Sector : Nat) (buf : Block) (w : D) :
    ∃ N x, ∀ fuel, N ≤ fuel → FF_IOMAN_FlushBuffer fuel p Sector buf w = some x := by
  unfold FF_IOMAN_FlushBuffer
  cases hfn : p.pBlkDevice.fnWriteBlocks with
  | none => exact ⟨0, _, fun _ _ => rfl⟩
  | some fn =>
    obtain ⟨n, hn⟩ := ha fn hfn Sector buf w
    cases hx : FF_IOMAN_FlushBuffer_busy fn Sector p.pBlkDevice.pParam buf n w with
    | none => exact absurd hx hn
    | some x =>
      obtain ⟨rv, w1⟩ := x
      refine ⟨n, if rv < 0 then (-1, w1) else if rv = 1 then (0, w1) else (-1, w1), ?_⟩
      intro fuel hf
      dsimp only
      rw [FF_IOMAN_FlushBuffer_busy_mono fn Sector _ buf n w _ hx fuel hf]
      dsimp only
      split_ifs <;> rfl

/-- Lines 384-401 of `FF_GetBuffer` return on a device whose read callback
answers. -/
theorem FF_GetBuffer_refresh_answers (p : FF_IOMAN D) (w : D) (Sector i : Nat)
    (ha : ReadAnswers p.pBlkDevice) :
    ∃ N r, ∀ fuel, N ≤ fuel → FF_GetBuffer_refresh fuel p w Sector i = some r := by
  obtain ⟨N, x, hx⟩ := FF_IOMAN_FillBuffer_answers
    (setBuf p i { p.pBuffers i with isIOMANediting := true }) ha Sector
    ((setBuf p i { p.pBuffers i with isIOMANediting := true }).pBuffers i).pBuffer w
  obtain ⟨rv, b, w1⟩ := x
  by_cases hrv : rv ≠ 0
  · refine ⟨N, ?_⟩
    apply Exists.intro
    intro fuel hf
    unfold FF_GetBuffer_refresh
    dsimp only
    rw [hx fuel hf]
    dsimp only
    rw [if_pos hrv]
  · refine ⟨N, ?_⟩
    apply Exists.intro
    intro fuel hf
    unfold FF_GetBuffer_refresh
    dsimp only
    rw [hx fuel hf]
    dsimp only
    rw [if_neg hrv]

/-- Lines 429-445 of `FF_GetBuffer` return on a device whose write callback
answers. -/
theorem FF_GetBuffer_takeOver_answers (p : FF_IOMAN D) (w : D) (Sector Mode i : Nat)
    (ha : WriteAnswers p.pBlkDevice) :
    ∃ N r, ∀ fuel, N ≤ fuel → FF_GetBuffer_takeOver fuel p w Sector Mode i = some r := by
  obtain ⟨N, x, hx⟩ := FF_IOMAN_FlushBuffer_answers
    (setBuf p i { p.pBuffers i with isIOMANediting := true }) ha Sector
    ((setBuf p i { p.pBuffers i with isIOMANediting := true }).pBuffers i).pBuffer w
  obtain ⟨rv, w1⟩ := x
  refine ⟨N, ?_⟩
  apply Exists.intro
  intro fuel hf
  unfold FF_GetBuffer_takeOver
  dsimp only
  rw [hx fuel hf]

/-- Lines 455-477 of `FF_GetBuffer` return on a device whose callbacks
answer. -/
theorem FF_GetBuffer_evict_answers (p : FF_IOMAN D) (w : D) (Sector Mode i : Nat)
    (hr : ReadAnswers p.pBlkDevice) (hw : WriteAnswers p.pBlkDevice) :
    ∃ N r, ∀ fuel, N ≤ fuel → FF_GetBuffer_evict fuel p w Sector Mode i = some r := by
  have keyW : ∀ (q : FF_IOMAN D) (S : Nat) (buf : Block) (w1 : D),
      q.pBlkDevice = p.pBlkDevice →
      ∃ N x, ∀ fuel, N ≤ fuel → FF_IOMAN_FlushBuffer fuel q S buf w1 = some x :=
    fun q S buf w1 hq => FF_IOMAN_FlushBuffer_answers q (hq ▸ hw) S buf w1
  have keyR : ∀ (q : FF_IOMAN D) (S : Nat) (buf : Block) (w1 : D),
      q.pBlkDevice = p.pBlkDevice →
      ∃ N x, ∀ fuel, N ≤ fuel → FF_IOMAN_FillBuffer fuel q S buf w1 = some x :=
    fun q S buf w1 hq => FF_IOMAN_FillBuffer_answers q (hq ▸ hr) S buf w1
  unfold FF_GetBuffer_evict
  dsimp only
  simp only [setBuf_pBuffers, if_true]
  by_cases hm : (p.pBuffers i).Mode = FF_MODE_WRITE
  · simp only [if_pos hm]
    obtain ⟨N1, x, hx⟩ := keyW (setBuf p i { p.pBuffers i with isIOMANediting := true })
      (p.pBuffers i).Sector (p.pBuffers i).pBuffer w rfl
    obtain ⟨rv, w1⟩ := x
    obtain ⟨N2, y, hy⟩ := keyR (setBuf p i { p.pBuffers i with isIOMANediting := true })
      Sector (p.pBuffers i).pBuffer w1 rfl
    obtain ⟨rv2, b, w2⟩ := y
    by_cases hrv : rv2 ≠ 0
    · refine ⟨max N1 N2, ?_⟩
      apply Exists.intro
      intro fuel hf
      rw [hx fuel (le_trans (le_max_left _ _) hf)]
      dsimp only
      rw [hy fuel (le_trans (le_max_right _ _) hf)]
      dsimp only
      rw [if_pos hrv]
    · refine ⟨max N1 N2, ?_⟩
      apply Exists.intro
      intro fuel hf
      rw [hx fuel (le_trans (le_max_left _ _) hf)]
      dsimp only
      rw [hy fuel (le_trans (le_max_right _ _) hf)]
      dsimp only
      rw [if_neg hrv]
  · simp only [if_neg hm]
    obtain ⟨N2, y, hy⟩ := keyR (setBuf p i { p.pBuffers i with isIOMANediting := true })
      Sector (p.pBuffers i).pBuffer w rfl
    obtain ⟨rv2, b, w2⟩ := y
    by_cases hrv : rv2 ≠ 0
    · refine ⟨N2, ?_⟩
      apply Exists.intro
      intro fuel hf
      rw [hy fuel hf]
      dsimp only
      rw [if_pos hrv]
    · refine ⟨N2, ?_⟩
      apply Exists.intro
      intro fuel hf
      rw [hy fuel hf]
      dsimp only
      rw [if_neg hrv]

/-- The first search of `FF_GetBuffer` ends on a device whose read callback
answers, the same with every fuel from some fuel on. -/
theorem FF_GetBuffer_readSearch_answers (p : FF_IOMAN D) (w : D) (Sector : Nat)
    (ha : ReadAnswers p.pBlkDevice) (l : List Nat) :
    ∃ N x, ∀ fuel, N ≤ fuel → FF_GetBuffer_readSearch fuel p w Sector l = some x := by
  induction l with
  | nil => exact ⟨0, none, fun _ _ => rfl⟩
  | cons i rest ih =>
    obtain ⟨N, x, hx⟩ := ih
    by_cases h1 : (p.pBuffers i).Sector = Sector ∧ (p.pBuffers i).Mode = FF_MODE_READ
    · by_cases h2 : (p.pBuffers i).Modified = false ∧ (p.pBuffers i).isIOMANediting = false
      · refine ⟨0, some (FF_GetBuffer_hit p w i), fun fuel _ => ?_⟩
        unfold FF_GetBuffer_readSearch
        rw [if_pos h1, if_pos h2]
      · by_cases h3 : (p.pBuffers i).NumHandles = 0
        · obtain ⟨N1, r, hr⟩ := FF_GetBuffer_refresh_answers p w Sector i ha
          refine ⟨N1, some r, fun fuel hf => ?_⟩
          unfold FF_GetBuffer_readSearch
          rw [if_pos h1, if_neg h2, if_pos h3, hr fuel hf]
          rfl
        · refine ⟨N, x, fun fuel hf => ?_⟩
          unfold FF_GetBuffer_readSearch
          rw [if_pos h1, if_neg h2, if_neg h3]
          exact hx fuel hf
    · refine ⟨N, x, fun fuel hf => ?_⟩
      unfold FF_GetBuffer_readSearch
      rw [if_neg h1]
      exact hx fuel hf

/-- The second search of `FF_GetBuffer` ends on a device whose write callback
answers, the same with every fuel from some fuel on. -/
theorem FF_GetBuffer_writeSearch_answers (p : FF_IOMAN D) (w : D) (Sector Mode : Nat)
    (ha : WriteAnswers p.pBlkDevice) (l : List Nat) :
    ∃ N x, ∀ fuel, N ≤ fuel → FF_GetBuffer_writeSearch fuel p w Sector Mode l = some x := by
  induction l with
  | nil => exact ⟨0, none, fun _ _ => rfl⟩
  | cons i rest ih =>
    obtain ⟨N, x, hx⟩ := ih
    by_cases h1 : (p.pBuffers i).Sector = Sector ∧ (p.pBuffers i).isIOMANediting = false
    · by_cases h2 : (p.pBuffers i).Mode = FF_MODE_WRITE ∧ (p.pBuffers i).NumHandles = 0
      · obtain ⟨N1, r, hr⟩ := FF_GetBuffer_takeOver_answers p w Sector Mode i ha
        refine ⟨N1, some r, fun fuel hf => ?_⟩
        unfold FF_GetBuffer_writeSearch
        rw [if_pos h1, if_pos h2, hr fuel hf]
        rfl
      · refine ⟨N, x, fun fuel hf => ?_⟩
        unfold FF_GetBuffer_writeSearch
        rw [if_pos h1, if_neg h2]
        exact hx fuel hf
    · refine ⟨N, x, fun fuel hf => ?_⟩
      unfold FF_GetBuffer_writeSearch
      rw [if_neg h1]
      exact hx fuel hf

/-- The third search of `FF_GetBuffer` over indices of which one is of a
descriptor neither held nor in service returns on a device whose callbacks
answer, the same with every fuel from some fuel on. -/
theorem FF_GetBuffer_freeSearch_answers (p : FF_IOMAN D) (w : D) (Sector Mode : Nat)
    (hr : ReadAnswers p.pBlkDevice) (hw : WriteAnswers p.pBlkDevice) (l : List Nat)
    (hfree : ∃ k, k ∈ l ∧ (p.pBuffers k).NumHandles = 0 ∧
      (p.pBuffers k).isIOMANediting = false) :
    ∃ N r, ∀ fuel, N ≤ fuel →
      FF_GetBuffer_freeSearch fuel p w Sector Mode l = some (some r) := by
  induction l with
  | nil =>
    obtain ⟨k, hk, -⟩ := hfree
    exact absurd hk (List.not_mem_nil k)
  | cons i rest ih =>
    by_cases h1 : (p.pBuffers i).NumHandles = 0 ∧ (p.pBuffers i).isIOMANediting = false
    · obtain ⟨N1, r, hr1⟩ := FF_GetBuffer_evict_answers p w Sector Mode i hr hw
      refine ⟨N1, r, fun fuel hf => ?_⟩
      unfold FF_GetBuffer_freeSearch
      rw [if_pos h1, hr1 fuel hf]
      rfl
    · obtain ⟨k, hk, hkf⟩ := hfree
      have hk2 : k ∈ rest := by
        rcases List.mem_cons.mp hk with hki | hkr
        · subst hki; exact absurd hkf h1
        · exact hkr
      obtain ⟨N, r, hx⟩ := ih ⟨k, hk2, hkf⟩
      refine ⟨N, r, fun fuel hf => ?_⟩
      unfold FF_GetBuffer_freeSearch
      rw [if_neg h1]
      exact hx fuel hf

/-- One round of the `while(1)` of `FF_GetBuffer` returns when a descriptor is
neither held nor in service and the callbacks of the device answer, the same
with every fuel from some fuel on. -/
theorem FF_GetBuffer_pass_answers (p : FF_IOMAN D) (w : D) (Sector Mode : Nat)
    (hr : ReadAnswers p.pBlkDevice) (hw : WriteAnswers p.pBlkDevice)
    (hfree : ∃ k, k < p.CacheSize ∧ (p.pBuffers k).NumHandles = 0 ∧
      (p.pBuffers k).isIOMANediting = false) :
    ∃ N r, ∀ fuel, N ≤ fuel → FF_GetBuffer_pass fuel p w Sector Mode = some (some r) := by
  obtain ⟨k, hk, hkf⟩ := hfree
  obtain ⟨N3, r3, h3⟩ := FF_GetBuffer_freeSearch_answers p w Sector Mode hr hw
    (List.range p.CacheSize) ⟨k, List.mem_range.mpr hk, hkf⟩
  obtain ⟨N2, x2, h2⟩ := FF_GetBuffer_writeSearch_answers p w Sector Mode hw
    (List.range p.CacheSize)
  obtain ⟨N1, x1, h1⟩ := FF_GetBuffer_readSearch_answers p w Sector hr
    (List.range p.CacheSize)
  have tail : ∃ r, ∀ fuel, max N1 (max N2 N3) ≤ fuel →
      (match FF_GetBuffer_writeSearch fuel p w Sector Mode (List.range p.CacheSize) with
        | none => none
        | some (some r) => some (some r)
        | some none =>
          FF_GetBuffer_freeSearch fuel p w Sector Mode (List.range p.CacheSize))
        = some (some r) := by
    cases x2 with
    | some r2 =>
      refine ⟨r2, fun fuel hf => ?_⟩
      rw [h2 fuel (by omega)]
    | none =>
      refine ⟨r3, fun fuel hf => ?_⟩
      rw [h2 fuel (by omega)]
      exact h3 fuel (by omega)
  obtain ⟨rt, ht⟩ := tail
  by_cases hm : Mode = FF_MODE_READ
  · cases x1 with
    | some r1 =>
      refine ⟨max N1 (max N2 N3), r1, fun fuel hf => ?_⟩
      unfold FF_GetBuffer_pass
      dsimp only
      rw [if_pos hm, h1 fuel (by omega)]
    | none =>
      refine ⟨max N1 (max N2 N3), rt, fun fuel hf => ?_⟩
      unfold FF_GetBuffer_pass
      dsimp only
      rw [if_pos hm, h1 fuel (by omega)]
      exact ht fuel hf
  · refine ⟨max N1 (max N2 N3), rt, fun fuel hf => ?_⟩
    unfold FF_GetBuffer_pass
    dsimp only
    rw [if_neg hm]
    exact ht fuel hf

/-- A first search that ends without a `return` found no clean Read descriptor
of the sector that is not in service. -/
theorem FF_GetBuffer_readSearch_nothing (fuel : Nat) (p : FF_IOMAN D) (w : D) (Sector : Nat)
    (l : List Nat) (h : FF_GetBuffer_readSearch fuel p w Sector l = some none) :
    ∀ k, k ∈ l →
      ¬ ((p.pBuffers k).Sector = Sector ∧ (p.pBuffers k).Mode = FF_MODE_READ ∧
        (p.pBuffers k).Modified = false ∧ (p.pBuffers k).isIOMANediting = false) := by
  induction l with
  | nil => intro k hk; exact absurd hk (List.not_mem_nil k)
  | cons i rest ih =>
    unfold FF_GetBuffer_readSearch at h
    intro k hk
    split_ifs at h with h1 h2 h3
    · exact absurd h (by simp)
    · cases hx : FF_GetBuffer_refresh fuel p w Sector i with
      | none => rw [hx] at h; exact absurd h (by simp)
      | some r => rw [hx] at h; exact absurd h (by simp)
    · rcases List.mem_cons.mp hk with hki | hkr
      · subst hki
        exact fun hc => h2 ⟨hc.2.2.1, hc.2.2.2⟩
      · exact ih h k hkr
    · rcases List.mem_cons.mp hk with hki | hkr
      · subst hki
        exact fun hc => h1 ⟨hc.1, hc.2.1⟩
      · exact ih h k hkr

/-- A third search that ends without a `return` found every descriptor held or
in service. -/
theorem FF_GetBuffer_freeSearch_nothing (fuel : Nat) (p : FF_IOMAN D) (w : D)
    (Sector Mode : Nat) (l : List Nat)
    (h : FF_GetBuffer_freeSearch fuel p w Sector Mode l = some none) :
    ∀ k, k ∈ l →
      (p.pBuffers k).NumHandles ≠ 0 ∨ (p.pBuffers k).isIOMANediting = true := by
  induction l with
  | nil => intro k hk; exact absurd hk (List.not_mem_nil k)
  | cons i rest ih =>
    unfold FF_GetBuffer_freeSearch at h
    intro k hk
    split_ifs at h with h1
    · cases hx : FF_GetBuffer_evict fuel p w Sector Mode i with
      | none => rw [hx] at h; exact absurd h (by simp)
      | some r => rw [hx] at h; exact absurd h (by simp)
    · rcases List.mem_cons.mp hk with hki | hkr
      · subst hki
        by_cases hn : (p.pBuffers k).NumHandles = 0
        · right
          cases he : (p.pBuffers k).isIOMANediting with
          | true => rfl
          | false => exact absurd ⟨hn, he⟩ h1
        · exact Or.inl hn
      · exact ih h k hkr

/-- A round of the `while(1)` of `FF_GetBuffer` that ends without a `return`
found every descriptor held or in service and, for a Read request, no clean
Read descriptor of the sector that is not in service. -/
theorem FF_GetBuffer_pass_nothing (fuel : Nat) (p : FF_IOMAN D) (w : D) (Sector Mode : Nat)
    (h : FF_GetBuffer_pass fuel p w Sector Mode = some none) :
    (∀ k, k < p.CacheSize →
      (p.pBuffers k).NumHandles ≠ 0 ∨ (p.pBuffers k).isIOMANediting = true) ∧
    (Mode = FF_MODE_READ → ∀ k, k < p.CacheSize →
      ¬ ((p.pBuffers k).Sector = Sector ∧ (p.pBuffers k).Mode = FF_MODE_READ ∧
        (p.pBuffers k).Modified = false ∧ (p.pBuffers k).isIOMANediting = false)) := by
  unfold FF_GetBuffer_pass at h
  dsimp only at h
  have tail : ∀ x : Option (Option (GetBufferResult D)),
      (match x with
        | none => none
        | some (some r) => some (some r)
        | some none =>
          match FF_GetBuffer_writeSearch fuel p w Sector Mode (List.range p.CacheSize) with
          | none => none
          | some (some r) => some (some r)
          | some none =>
            FF_GetBuffer_freeSearch fuel p w Sector Mode (List.range p.CacheSize))
        = some none →
      x = some none ∧
      FF_GetBuffer_freeSearch fuel p w Sector Mode (List.range p.CacheSize) = some none := by
    intro x hx
    cases x with
    | none => exact absurd hx (by simp)
    | some y =>
      cases y with
      | some r => exact absurd hx (by simp)
      | none =>
        dsimp only at hx
        cases h2 : FF_GetBuffer_writeSearch fuel p w Sector Mode (List.range p.CacheSize) with
        | none => rw [h2] at hx; exact absurd hx (by simp)
        | some y2 =>
          rw [h2] at hx
          cases y2 with
          | some r => exact absurd hx (by simp)
          | none => exact ⟨rfl, hx⟩
  obtain ⟨hfirst, hfreeS⟩ := tail _ h
  refine ⟨?_, ?_⟩
  · intro k hk
    exact FF_GetBuffer_freeSearch_nothing fuel p w Sector Mode _ hfreeS k
      (List.mem_range.mpr hk)
  · intro hm k hk
    rw [if_pos hm] at hfirst
    exact FF_GetBuffer_readSearch_nothing fuel p w Sector _ hfirst k (List.mem_range.mpr hk)

/-- The read callback `countdownRead` answers: one round more than the count
of busy answers left ends the loop of `FF_IOMAN_FillBuffer`. -/
theorem countdownRead_answers (Sector pParam : Nat) :
    ∀ (w : Nat) (buf : Block),
      FF_IOMAN_FillBuffer_busy countdownRead Sector pParam (w + 1) buf w ≠ none := by
  intro w
  induction w with
  | zero =>
    intro buf
    simp [FF_IOMAN_FillBuffer_busy, countdownRead, FF_ERR_DRIVER_BUSY]
  | succ n ih =>
    intro buf
    have := ih buf
    simp only [FF_IOMAN_FillBuffer_busy, countdownRead, FF_ERR_DRIVER_BUSY] at this ⊢
    simpa using this

/-- C27: for a pool with a descriptor that is neither held nor in service,
every sector, every valid mode and a device whose callbacks answer every call
with a value other than `FF_ERR_DRIVER_BUSY` after finitely many answers
`FF_ERR_DRIVER_BUSY`, the first round of the `while(1)` of `FF_GetBuffer`
returns and `FF_GetBuffer` returns what that round gives, with every fuel from
some fuel on; and a round that ends without a `return`, after which the search
is started again, found every descriptor held or in service and, for a Read
request, no clean Read descriptor of the sector that is not in service. -/
theorem getBuffer_returns_in_first_round (p : FF_IOMAN D) (w : D) (Sector Mode : Nat)
    (hmode : FF_IOMAN_ModeValid Mode = true)
    (hfree : ∃ k, k < p.CacheSize ∧ (p.pBuffers k).NumHandles = 0 ∧
      (p.pBuffers k).isIOMANediting = false)
    (hr : ReadAnswers p.pBlkDevice) (hw : WriteAnswers p.pBlkDevice) :
    (∃ N r, ∀ fuel, N ≤ fuel →
      FF_GetBuffer_pass fuel p w Sector Mode = some (some r) ∧
      FF_GetBuffer fuel p w Sector Mode = some r) ∧
    (∀ (fuel : Nat) (q : FF_IOMAN D) (w1 : D),
      FF_GetBuffer_pass fuel q w1 Sector Mode = some none →
      (∀ k, k < q.CacheSize →
        (q.pBuffers k).NumHandles ≠ 0 ∨ (q.pBuffers k).isIOMANediting = true) ∧
      (Mode = FF_MODE_READ → ∀ k, k < q.CacheSize →
        ¬ ((q.pBuffers k).Sector = Sector ∧ (q.pBuffers k).Mode = FF_MODE_READ ∧
          (q.pBuffers k).Modified = false ∧ (q.pBuffers k).isIOMANediting = false))) := by
  refine ⟨?_, fun fuel q w1 h => FF_GetBuffer_pass_nothing fuel q w1 Sector Mode h⟩
  obtain ⟨N, r, hN⟩ := FF_GetBuffer_pass_answers p w Sector Mode hr hw hfree
  refine ⟨N + 1, r, fun fuel hf => ?_⟩
  have hp := hN fuel (by omega)
  refine ⟨hp, ?_⟩
  obtain ⟨m, rfl⟩ : ∃ m, fuel = m + 1 := ⟨fuel - 1, by omega⟩
  unfold FF_GetBuffer
  rw [if_neg (by rw [hmode]; simp)]
  unfold FF_GetBuffer_loop
  rw [hp]

/-- Witness of C27: a fresh pool of two descriptors on a device that answers
`FF_ERR_DRIVER_BUSY` three times before it reads; with fuel for four rounds of
the loop of `FF_IOMAN_FillBuffer` the acquisition of sector 7 returns
descriptor 0 after one transfer. -/
theorem getBuffer_returns_in_first_round_witness :
    (FF_GetBuffer 4 busyPool 3 7 FF_MODE_READ).map (fun r => (r.ret, r.trace, r.world))
      = some (some 0, [IOEvent.fill 0 7 0], 0) ∧
    (FF_GetBuffer 3 busyPool 3 7 FF_MODE_READ).isNone = true ∧
    ((∃ N r, ∀ fuel, N ≤ fuel →
      FF_GetBuffer_pass fuel busyPool 3 7 FF_MODE_READ = some (some r) ∧
      FF_GetBuffer fuel busyPool 3 7 FF_MODE_READ = some r) ∧
    (∀ (fuel : Nat) (q : FF_IOMAN Nat) (w1 : Nat),
      FF_GetBuffer_pass fuel q w1 7 FF_MODE_READ = some none →
      (∀ k, k < q.CacheSize →
        (q.pBuffers k).NumHandles ≠ 0 ∨ (q.pBuffers k).isIOMANediting = true) ∧
      (FF_MODE_READ = FF_MODE_READ → ∀ k, k < q.CacheSize →
        ¬ ((q.pBuffers k).Sector = 7 ∧ (q.pBuffers k).Mode = FF_MODE_READ ∧
          (q.pBuffers k).Modified = false ∧ (q.pBuffers k).isIOMANediting = false)))) :=
  ⟨by decide, by decide,
   getBuffer_returns_in_first_round busyPool 3 7 FF_MODE_READ (by decide)
     ⟨0, by decide, by decide, by decide⟩
     (fun fn hfn Sector buf w => by
       have hrd : busyPool.pBlkDevice.fnReadBlocks = some countdownRead := rfl
       rw [hrd] at hfn
       simp only [Option.some.injEq] at hfn
       subst hfn
       exact ⟨w + 1, countdownRead_answers Sector _ w buf⟩)
     (fun fn hfn => by
       have hwr : busyPool.pBlkDevice.fnWriteBlocks = none := rfl
       rw [hwr] at hfn
       exact absurd hfn (by simp))⟩

/-! ## Descriptors in service and the searches -/

/-- The first search of `FF_GetBuffer` does what its tests end with. -/
theorem FF_GetBuffer_readSearch_select (fuel : Nat) (p : FF_IOMAN D) (w : D) (Sector : Nat)
    (l : List Nat) :
    FF_GetBuffer_readSearch fuel p w Sector l =
      match FF_GetBuffer_selectRead p Sector l with
      | some (Selected.hit i) => some (some (FF_GetBuffer_hit p w i))
      | some (Selected.refresh i) => (FF_GetBuffer_refresh fuel p w Sector i).map some
      | _ => some none := by
  induction l with
  | nil => rfl
  | cons i rest ih =>
    unfold FF_GetBuffer_readSearch FF_GetBuffer_selectRead
    split_ifs
    · rfl
    · rfl
    · exact ih
    · exact ih

/-- The first search ends with a descriptor that is shared or read again, or
with nothing. -/
theorem FF_GetBuffer_selectRead_cases (p : FF_IOMAN D) (Sector : Nat) (l : List Nat) :
    FF_GetBuffer_selectRead p Sector l = none ∨
    (∃ i, i ∈ l ∧ FF_GetBuffer_selectRead p Sector l = some (Selected.hit i) ∧
      (p.pBuffers i).isIOMANediting = false) ∨
    (∃ i, i ∈ l ∧ FF_GetBuffer_selectRead p Sector l = some (Selected.refresh i) ∧
      (p.pBuffers i).Sector = Sector ∧ (p.pBuffers i).Mode = FF_MODE_READ ∧
      (p.pBuffers i).NumHandles = 0 ∧
      ¬ ((p.pBuffers i).Modified = false ∧ (p.pBuffers i).isIOMANediting = false)) := by
  induction l with
  | nil => exact Or.inl rfl
  | cons i rest ih =>
    unfold FF_GetBuffer_selectRead
    have lift : FF_GetBuffer_selectRead p Sector rest = none ∨
        (∃ j, j ∈ i :: rest ∧ FF_GetBuffer_selectRead p Sector rest = some (Selected.hit j) ∧
          (p.pBuffers j).isIOMANediting = false) ∨
        (∃ j, j ∈ i :: rest ∧
          FF_GetBuffer_selectRead p Sector rest = some (Selected.refresh j) ∧
          (p.pBuffers j).Sector = Sector ∧ (p.pBuffers j).Mode = FF_MODE_READ ∧
          (p.pBuffers j).NumHandles = 0 ∧
          ¬ ((p.pBuffers j).Modified = false ∧ (p.pBuffers j).isIOMANediting = false)) := by
      rcases ih with h | ⟨j, hj, h⟩ | ⟨j, hj, h⟩
      · exact Or.inl h
      · exact Or.inr (Or.inl ⟨j, List.mem_cons_of_mem i hj, h⟩)
      · exact Or.inr (Or.inr ⟨j, List.mem_cons_of_mem i hj, h⟩)
    split_ifs with h1 h2 h3
    · exact Or.inr (Or.inl ⟨i, List.mem_cons_self i rest, rfl, h2.2⟩)
    · exact Or.inr (Or.inr ⟨i, List.mem_cons_self i rest, rfl, h1.1, h1.2, h3, h2⟩)
    · exact lift
    · exact lift

/-- The second search of `FF_GetBuffer` does what its tests end with. -/
theorem FF_GetBuffer_writeSearch_select (fuel : Nat) (p : FF_IOMAN D) (w : D)
    (Sector Mode : Nat) (l : List Nat) :
    FF_GetBuffer_writeSearch fuel p w Sector Mode l =
      match FF_GetBuffer_selectWrite p Sector l with
      | some (Selected.takeOver i) => (FF_GetBuffer_takeOver fuel p w Sector Mode i).map some
      | _ => some none := by
  induction l with
  | nil => rfl
  | cons i rest ih =>
    unfold FF_GetBuffer_writeSearch FF_GetBuffer_selectWrite
    split_ifs
    · rfl
    · exact ih
    · exact ih

/-- The second search ends with a descriptor that is taken over and is not in
service, or with nothing. -/
theorem FF_GetBuffer_selectWrite_cases (p : FF_IOMAN D) (Sector : Nat) (l : List Nat) :
    FF_GetBuffer_selectWrite p Sector l = none ∨
    ∃ i, i ∈ l ∧ FF_GetBuffer_selectWrite p Sector l = some (Selected.takeOver i) ∧
      (p.pBuffers i).isIOMANediting = false := by
  induction l with
  | nil => exact Or.inl rfl
  | cons i rest ih =>
    unfold FF_GetBuffer_selectWrite
    have lift : FF_GetBuffer_selectWrite p Sector rest = none ∨
        ∃ j, j ∈ i :: rest ∧
          FF_GetBuffer_selectWrite p Sector rest = some (Selected.takeOver j) ∧
          (p.pBuffers j).isIOMANediting = false := by
      rcases ih with h | ⟨j, hj, h⟩
      · exact Or.inl h
      · exact Or.inr ⟨j, List.mem_cons_of_mem i hj, h⟩
    split_ifs with h1 h2
    · exact Or.inr ⟨i, List.mem_cons_self i rest, rfl, h1.2⟩
    · exact lift
    · exact lift

/-- The third search of `FF_GetBuffer` does what its test ends with. -/
theorem FF_GetBuffer_freeSearch_select (fuel : Nat) (p : FF_IOMAN D) (w : D)
    (Sector Mode : Nat) (l : List Nat) :
    FF_GetBuffer_freeSearch fuel p w Sector Mode l =
      match FF_GetBuffer_selectFree p l with
      | some (Selected.evict i) => (FF_GetBuffer_evict fuel p w Sector Mode i).map some
      | _ => some none := by
  induction l with
  | nil => rfl
  | cons i rest ih =>
    unfold FF_GetBuffer_freeSearch FF_GetBuffer_selectFree
    split_ifs
    · rfl
    · exact ih

/-- The third search ends with a descriptor that is evicted and is not in
service, or with nothing. -/
theorem FF_GetBuffer_selectFree_cases (p : FF_IOMAN D) (l : List Nat) :
    FF_GetBuffer_selectFree p l = none ∨
    ∃ i, i ∈ l ∧ FF_GetBuffer_selectFree p l = some (Selected.evict i) ∧
      (p.pBuffers i).isIOMANediting = false := by
  induction l with
  | nil => exact Or.inl rfl
  | cons i rest ih =>
    unfold FF_GetBuffer_selectFree
    split_ifs with h1
    · exact Or.inr ⟨i, List.mem_cons_self i rest, rfl, h1.2⟩
    · rcases ih with h | ⟨j, hj, h⟩
      · exact Or.inl h
      · exact Or.inr ⟨j, List.mem_cons_of_mem i hj, h⟩

/-- One round of the `while(1)` of `FF_GetBuffer` does what its searches end
with. -/
theorem FF_GetBuffer_pass_select (fuel : Nat) (p : FF_IOMAN D) (w : D) (Sector Mode : Nat) :
    FF_GetBuffer_pass fuel p w Sector Mode =
      match FF_GetBuffer_select p Sector Mode with
      | Selected.hit i => some (some (FF_GetBuffer_hit p w i))
      | Selected.refresh i => (FF_GetBuffer_refresh fuel p w Sector i).map some
      | Selected.takeOver i => (FF_GetBuffer_takeOver fuel p w Sector Mode i).map some
      | Selected.evict i => (FF_GetBuffer_evict fuel p w Sector Mode i).map some
      | Selected.retry => some none := by
  have tail :
      (match FF_GetBuffer_writeSearch fuel p w Sector Mode (List.range p.CacheSize) with
        | none => none
        | some (some r) => some (some r)
        | some none =>
          FF_GetBuffer_freeSearch fuel p w Sector Mode (List.range p.CacheSize)) =
      (match (match FF_GetBuffer_selectWrite p Sector (List.range p.CacheSize) with
          | some s => s
          | none =>
            match FF_GetBuffer_selectFree p (List.range p.CacheSize) with
            | some s => s
            | none => Selected.retry) with
        | Selected.hit i => some (some (FF_GetBuffer_hit p w i))
        | Selected.refresh i => (FF_GetBuffer_refresh fuel p w Sector i).map some
        | Selected.takeOver i => (FF_GetBuffer_takeOver fuel p w Sector Mode i).map some
        | Selected.evict i => (FF_GetBuffer_evict fuel p w Sector Mode i).map some
        | Selected.retry => some none) := by
    rw [FF_GetBuffer_writeSearch_select, FF_GetBuffer_freeSearch_select]
    rcases FF_GetBuffer_selectWrite_cases p Sector (List.range p.CacheSize) with
      h | ⟨i, -, h, -⟩
    · rw [h]
      dsimp only
      rcases FF_GetBuffer_selectFree_cases p (List.range p.CacheSize) with h2 | ⟨j, -, h2, -⟩
      · rw [h2]
      · rw [h2]
    · rw [h]
      dsimp only
      cases FF_GetBuffer_takeOver fuel p w Sector Mode i <;> rfl
  unfold FF_GetBuffer_pass FF_GetBuffer_select
  dsimp only
  by_cases hm : Mode = FF_MODE_READ
  · rw [if_pos hm, if_pos hm, FF_GetBuffer_readSearch_select]
    rcases FF_GetBuffer_selectRead_cases p Sector (List.range p.CacheSize) with
      h | ⟨i, -, h, -⟩ | ⟨i, -, h, -⟩
    · rw [h]
      exact tail
    · rw [h]
    · rw [h]
      dsimp only
      cases FF_GetBuffer_refresh fuel p w Sector i <;> rfl
  · rw [if_neg hm, if_neg hm]
    exact tail

/-- A search of `FF_GetBuffer` that ends with a descriptor in service ends with
one that is read again: the descriptors that are shared, taken over or evicted
are not in service, and one that is read again is a Read descriptor of the
sector without handles that is modified or in service. -/
theorem FF_GetBuffer_select_in_service (p : FF_IOMAN D) (Sector Mode i : Nat)
    (hs : selectedSlot (FF_GetBuffer_select p Sector Mode) = some i)
    (he : (p.pBuffers i).isIOMANediting = true) :
    FF_GetBuffer_select p Sector Mode = Selected.refresh i ∧ Mode = FF_MODE_READ ∧
    (p.pBuffers i).Sector = Sector ∧ (p.pBuffers i).Mode = FF_MODE_READ ∧
    (p.pBuffers i).NumHandles = 0 := by
  have tail : selectedSlot
      (match FF_GetBuffer_selectWrite p Sector (List.range p.CacheSize) with
        | some s => s
        | none =>
          match FF_GetBuffer_selectFree p (List.range p.CacheSize) with
          | some s => s
          | none => Selected.retry) = some i → False := by
    intro h
    rcases FF_GetBuffer_selectWrite_cases p Sector (List.range p.CacheSize) with
      h1 | ⟨j, -, h1, hj⟩
    · rw [h1] at h
      dsimp only at h
      rcases FF_GetBuffer_selectFree_cases p (List.range p.CacheSize) with h2 | ⟨j, -, h2, hj⟩
      · rw [h2] at h
        simp [selectedSlot] at h
      · rw [h2] at h
        simp only [selectedSlot, Option.some.injEq] at h
        subst h
        rw [hj] at he
        exact absurd he (by simp)
    · rw [h1] at h
      simp only [selectedSlot, Option.some.injEq] at h
      subst h
      rw [hj] at he
      exact absurd he (by simp)
  unfold FF_GetBuffer_select at hs ⊢
  dsimp only at hs ⊢
  by_cases hm : Mode = FF_MODE_READ
  · rw [if_pos hm] at hs ⊢
    rcases FF_GetBuffer_selectRead_cases p Sector (List.range p.CacheSize) with
      h | ⟨j, -, h, hj⟩ | ⟨j, -, h, h1, h2, h3, -⟩
    · rw [h] at hs
      exact absurd hs (fun hx => tail hx)
    · rw [h] at hs
      simp only [selectedSlot, Option.some.injEq] at hs
      subst hs
      rw [hj] at he
      exact absurd he (by simp)
    · rw [h] at hs ⊢
      simp only [selectedSlot, Option.some.injEq] at hs
      subst hs
      exact ⟨rfl, hm, h1, h2, h3⟩
  · rw [if_neg hm] at hs
    exact absurd hs (fun hx => tail hx)

/-- The sweep of `FF_FlushCache` over indices of which its test takes none
changes nothing. -/
theorem FF_FlushCache_loop_select_none (fuel : Nat) (p : FF_IOMAN D) (w : D)
    (tr : List IOEvent) (l : List Nat) (h : FF_FlushCache_select p l = none) :
    FF_FlushCache_loop fuel l p w tr = some (p, w, tr) := by
  induction l with
  | nil => rfl
  | cons i rest ih =>
    unfold FF_FlushCache_select at h
    unfold FF_FlushCache_loop
    split_ifs at h ⊢ with h1
    exact ih h

/-- The sweep of `FF_FlushCache` passes the indices before the first one its
test takes, a descriptor in mode Write without handles, and goes on from it. -/
theorem FF_FlushCache_loop_select (fuel : Nat) (p : FF_IOMAN D) (w : D)
    (tr : List IOEvent) (l : List Nat) (i : Nat) (h : FF_FlushCache_select p l = some i) :
    (p.pBuffers i).NumHandles = 0 ∧ (p.pBuffers i).Mode = FF_MODE_WRITE ∧
    ∃ pre rest, l = pre ++ i :: rest ∧
      FF_FlushCache_loop fuel l p w tr = FF_FlushCache_loop fuel (i :: rest) p w tr := by
  induction l with
  | nil => simp [FF_FlushCache_select] at h
  | cons j rest ih =>
    unfold FF_FlushCache_select at h
    split_ifs at h with h1
    · simp only [Option.some.injEq] at h
      subst h
      exact ⟨h1.1, h1.2, [], rest, rfl, rfl⟩
    · obtain ⟨a, b, pre, rest1, hl, hloop⟩ := ih h
      refine ⟨a, b, j :: pre, rest1, by rw [hl]; rfl, ?_⟩
      rw [← hloop]
      conv_lhs => unfold FF_FlushCache_loop
      rw [if_neg h1]

/-- C25 fails in the code for the two searches it names. A Read request for
sector 9 on `cleanReadPool` takes descriptor 0, which holds sector 5, for
eviction and gives the semaphore back with the descriptor in service; the
first search of a Read request for sector 5 by another caller then ends with
descriptor 0, and that request reads sector 5 into it and returns it. A Read
request for sector 5 on `writePool` takes over the Write descriptor 0 and gives
the semaphore back with the descriptor in service; the sweep of `FF_FlushCache`
by another caller then takes descriptor 0 and writes it. -/
theorem in_service_descriptor_selected :
    ((cleanReadPool.pBuffers 0).Sector = 5 ∧ (cleanReadPool.pBuffers 0).Mode = FF_MODE_READ ∧
      (cleanReadPool.pBuffers 0).NumHandles = 0 ∧
      (cleanReadPool.pBuffers 0).Modified = false ∧
      (cleanReadPool.pBuffers 0).isIOMANediting = false) ∧
    ((writePool.pBuffers 0).Sector = 5 ∧ (writePool.pBuffers 0).Mode = FF_MODE_WRITE ∧
      (writePool.pBuffers 0).NumHandles = 0 ∧
      (writePool.pBuffers 0).isIOMANediting = false) ∧
    (FF_GetBuffer_begin cleanReadPool 9 FF_MODE_READ).1 = Selected.evict 0 ∧
    (((FF_GetBuffer_begin cleanReadPool 9 FF_MODE_READ).2.pBuffers 0).isIOMANediting = true ∧
      ((FF_GetBuffer_begin cleanReadPool 9 FF_MODE_READ).2.pBuffers 0).Modified = false) ∧
    FF_GetBuffer_select (FF_GetBuffer_begin cleanReadPool 9 FF_MODE_READ).2 5 FF_MODE_READ
      = Selected.refresh 0 ∧
    (FF_GetBuffer 1 (FF_GetBuffer_begin cleanReadPool 9 FF_MODE_READ).2 exDisk 5
        FF_MODE_READ).map (fun r => (r.ret, r.trace))
      = some (some 0, [IOEvent.fill 0 5 0]) ∧
    (FF_GetBuffer_begin writePool 5 FF_MODE_READ).1 = Selected.takeOver 0 ∧
    ((FF_GetBuffer_begin writePool 5 FF_MODE_READ).2.pBuffers 0).isIOMANediting = true ∧
    FF_FlushCache_select (FF_GetBuffer_begin writePool 5 FF_MODE_READ).2
      (List.range (FF_GetBuffer_begin writePool 5 FF_MODE_READ).2.CacheSize) = some 0 ∧
    (FF_FlushCache 1 (FF_GetBuffer_begin writePool 5 FF_MODE_READ).2 exDisk).map
        (fun r => r.trace)
      = some [IOEvent.flush 0 5 0] := by
  refine ⟨by decide, by decide, by decide, by decide, by decide, by decide, by decide,
    by decide, by decide, by decide⟩

end FullFAT
